import Mathlib

/-!
# Global-shortcut daemon: the control core of `daemon/core.cpp`

A shallow embedding of the registry part of `Core` (shortcut registry, action
registry, service tracker), of the worker-side keyboard queries, of the
interactive grab of a shortcut (control side and worker side) and of the
configuration file that `saveConfig` writes and the constructor reads,
followed by theorems about it.

Conventions of the embedding

* `QString` is `String`; `QStringList` is `List String`.
* A `QMap` is an association list (`QMap κ ν`), a `QSet` is a duplicate-free
  list; see the definitions below.
* A C++ `throw false`, and a path on which the C++ code dereferences an end
  iterator or a null pointer, is the value `none`.
* An entry of `mShortcutAndActionById` whose action pointer is null (created by
  `operator[]` for an absent id) is kept in the separate field
  `mNullActionById`; see the structure `Core`.
* Pipe I/O between the control thread and the X11 worker is taken to succeed
  (a failure ends the daemon through `qApp->quit()`); the remote calls are
  therefore the worker-side computation applied directly.
* Everything the code does to the outside world (X11 grab requests, signals of
  the adaptor, notifications of an action, `saveConfig`) is appended to the
  field `effects` of the state.
-/

namespace GlobalKeys

/-! ## Containers -/

/-- Association-list model of a `QMap`: the first entry for a key is the one in force. -/
abbrev QMap (κ ν : Type) := List (κ × ν)

/-- Lookup, as `QMap::find` followed by `value()`; `none` stands for `end()`. -/
def qfind {κ ν : Type} [DecidableEq κ] : QMap κ ν → κ → Option ν
  | [], _ => none
  | (a, b) :: t, k => if a = k then some b else qfind t k

/-- Replacement of the value of an existing key. -/
def qreplace {κ ν : Type} [DecidableEq κ] : QMap κ ν → κ → ν → QMap κ ν
  | [], _, _ => []
  | (a, b) :: t, k, v => if a = k then (a, v) :: t else (a, b) :: qreplace t k v

/-- Assignment `m[k] = v`: replaces the value of an existing key, adds the key otherwise. -/
def qset {κ ν : Type} [DecidableEq κ] (m : QMap κ ν) (k : κ) (v : ν) : QMap κ ν :=
  match qfind m k with
  | some _ => qreplace m k v
  | none => m ++ [(k, v)]

/-- Removal of a key, as `QMap::erase` / `QMap::remove`. -/
def qerase {κ ν : Type} [DecidableEq κ] : QMap κ ν → κ → QMap κ ν
  | [], _ => []
  | (a, b) :: t, k => if a = k then qerase t k else (a, b) :: qerase t k

/-- The keys of a map, in iteration order. -/
def qkeys {κ ν : Type} (m : QMap κ ν) : List κ := m.map Prod.fst

/-- Modelled from the spec: the container typedefs of `core.hpp` (`Ids`, `DBusPaths`, ...) are
not part of the sources; a set is a duplicate-free list kept in insertion order
("iteration order ... must be a deterministic insertion order of the Id set"). -/
abbrev QSet (α : Type) := List α

/-- Insertion into a set, as `QSet::insert`. -/
def sinsert {α : Type} [DecidableEq α] (s : QSet α) (a : α) : QSet α :=
  if a ∈ s then s else s ++ [a]

/-- Removal from a set, as `QSet::remove`. -/
def sremove {α : Type} [DecidableEq α] (s : QSet α) (a : α) : QSet α :=
  s.filter (fun e => decide (e ≠ a))

/-! ## Strings -/

/-- Splitting of a character list at every occurrence of `sep`, keeping empty parts. -/
def splitChars (sep : Char) : List Char → List (List Char)
  | [] => [[]]
  | c :: cs =>
    if c = sep then [] :: splitChars sep cs
    else
      match splitChars sep cs with
      | [] => [[c]]
      | p :: ps => (c :: p) :: ps

/-- Model of `QString::split(sep)` (empty parts are kept, so the result is never empty). -/
def split (s : String) (sep : Char) : List String :=
  (splitChars sep s.data).map String.mk

/-! ## X11 constants (`X.h`, `keysymdef.h`) -/

def ShiftMask : Nat := 0x01
def LockMask : Nat := 0x02
def ControlMask : Nat := 0x04
def Mod1Mask : Nat := 0x08
def Mod2Mask : Nat := 0x10
def Mod3Mask : Nat := 0x20
def Mod4Mask : Nat := 0x40
def Mod5Mask : Nat := 0x80

def XK_a : Nat := 0x61
def XK_z : Nat := 0x7a

/-- Member initialiser `AltMask(Mod1Mask)` of `Core::Core`. -/
def AltMask : Nat := Mod1Mask
/-- Member initialiser `MetaMask(Mod4Mask)` of `Core::Core`. -/
def MetaMask : Nat := Mod4Mask
/-- Member initialiser `Level3Mask(Mod5Mask)` of `Core::Core`. -/
def Level3Mask : Nat := Mod5Mask
/-- Member initialiser `Level5Mask(Mod3Mask)` of `Core::Core`. -/
def Level5Mask : Nat := Mod3Mask

/-- Value `allShifts` computed in `Core::run`. -/
def allShifts : Nat := ShiftMask ||| ControlMask ||| AltMask ||| MetaMask ||| Level3Mask ||| Level5Mask

/-- An X11 binding: the pair (keycode, modifier mask). -/
abbrev X11Shortcut := Nat × Nat

/-! ## The X server as seen by the worker thread -/

/-- The Xlib calls the worker makes for the keyboard queries, and the X11 errors that the
error handler reports for them. `XGetKeyboardMapping k` is the row of keysyms of keycode `k`
(its length is `keysymsPerKeycode`); `XKeysymToString` returns `none` for `NULL`. -/
structure XServer where
  XStringToKeysym : String → Nat
  XKeysymToKeycode : Nat → Nat
  XGetKeyboardMapping : Nat → List Nat
  XKeysymToString : Nat → Option String
  /-- An X11 error is harvested by `waitForX11Error(10)` after a `KeycodeToString` request. -/
  keycodeToStringError : Nat → Bool

/-- Worker side of `X11_OP_StringToKeycode` in `Core::run`; the result is a `KeyCode` (8 bits). -/
def workerStringToKeycode (x : XServer) (str : String) : Nat :=
  let keyCode := 0
  if str.length ≠ 0 then
    let keySym := x.XStringToKeysym str
    x.XKeysymToKeycode keySym % 256
  else keyCode

/-- Worker side of `X11_OP_KeycodeToString` in `Core::run`: the keysym that names the key,
then its name (the empty string when there is none). -/
def workerKeycodeToString (x : XServer) (keyCode : Nat) : String :=
  let keySyms := x.XGetKeyboardMapping keyCode
  let keysymsPerKeycode := keySyms.length
  let keySym :=
    if keysymsPerKeycode ≥ 2 ∧ keySyms.getD 1 0 ≠ 0 ∧ keySyms.getD 0 0 ≥ XK_a ∧ keySyms.getD 0 0 ≤ XK_z then
      keySyms.getD 1 0
    else if keysymsPerKeycode ≥ 1 then keySyms.getD 0 0
    else 0
  let str := if keySym ≠ 0 then x.XKeysymToString keySym else none
  match str with
  | some s => s
  | none => ""

/-- Embedding of `Core::remoteStringToKeycode`. -/
def remoteStringToKeycode (x : XServer) (str : String) : Nat :=
  workerStringToKeycode x str

/-- Embedding of `Core::remoteKeycodeToString`; the parameter is a `KeyCode` (8 bits). -/
def remoteKeycodeToString (x : XServer) (keyCode : Nat) : String :=
  let result := workerKeycodeToString x (keyCode % 256)
  if x.keycodeToStringError (keyCode % 256) then "" else result

/-! ## Shortcut strings and X11 bindings -/

/-- The loop of `Core::ShortcutToX11` over the modifier segments; `none` is `throw false`. -/
def modifiersLoop : List String → Nat → Option Nat
  | [], second => some second
  | part :: rest, second =>
    if part = "Shift" then modifiersLoop rest (second ||| ShiftMask)
    else if part = "Control" then modifiersLoop rest (second ||| ControlMask)
    else if part = "Alt" then modifiersLoop rest (second ||| AltMask)
    else if part = "Meta" then modifiersLoop rest (second ||| MetaMask)
    else if part = "Level3" then modifiersLoop rest (second ||| Level3Mask)
    else if part = "Level5" then modifiersLoop rest (second ||| Level5Mask)
    else none

/-- Embedding of `Core::ShortcutToX11`; `none` is `throw false`. -/
def ShortcutToX11 (x : XServer) (shortcut : String) : Option X11Shortcut :=
  let parts := split shortcut '+'
  let m := parts.length
  match modifiersLoop (parts.take (m - 1)) 0 with
  | none => none
  | some second =>
    if m ≠ 0 then
      let keyCode := remoteStringToKeycode x (parts.getD (m - 1) "")
      if keyCode = 0 then none else some (keyCode, second)
    else some (0, second)

/-- Embedding of `Core::X11ToShortcut`; `none` is `throw false`. -/
def X11ToShortcut (x : XServer) (X11shortcut : X11Shortcut) : Option String :=
  let result := ""
  let result := if X11shortcut.2 &&& Level5Mask ≠ 0 then result ++ "Level5+" else result
  let result := if X11shortcut.2 &&& Level3Mask ≠ 0 then result ++ "Level3+" else result
  let result := if X11shortcut.2 &&& MetaMask ≠ 0 then result ++ "Meta+" else result
  let result := if X11shortcut.2 &&& AltMask ≠ 0 then result ++ "Alt+" else result
  let result := if X11shortcut.2 &&& ControlMask ≠ 0 then result ++ "Control+" else result
  let result := if X11shortcut.2 &&& ShiftMask ≠ 0 then result ++ "Shift+" else result
  let key := remoteKeycodeToString x X11shortcut.1
  if key = "" then none else some (result ++ key)

/-! ## Actions -/

/-- Modelled from the spec: the action classes (`BaseAction`, `MethodAction`, `CommandAction`,
`DBusAction`) are declared in headers that are not part of the sources. An action is one of the
three variants *Method* (service, path, interface, member), *Command* (program, argv tail) and
*Service* (service, path; persistent or transient), each with an `enabled` flag (default true)
and a description. -/
inductive BaseAction where
  | method (service path interface method description : String) (enabled : Bool)
  | command (command : String) (arguments : List String) (description : String) (enabled : Bool)
  | dbus (service path description : String) (persistent : Bool) (enabled : Bool)
  deriving DecidableEq, Repr

/-- The type tag `BaseAction::type()`. -/
def BaseAction.type : BaseAction → String
  | .method .. => "method"
  | .command .. => "command"
  | .dbus .. => "dbus"

/-- The accessor `BaseAction::description()`. -/
def BaseAction.description : BaseAction → String
  | .method _ _ _ _ d _ => d
  | .command _ _ d _ => d
  | .dbus _ _ d _ _ => d

/-- The accessor `BaseAction::isEnabled()`. -/
def BaseAction.isEnabled : BaseAction → Bool
  | .method _ _ _ _ _ e => e
  | .command _ _ _ e => e
  | .dbus _ _ _ _ e => e

/-- The mutator `BaseAction::setDescription`. -/
def BaseAction.setDescription : BaseAction → String → BaseAction
  | .method s p i m _ e, d => .method s p i m d e
  | .command c a _ e, d => .command c a d e
  | .dbus s p _ ps e, d => .dbus s p d ps e

/-- The mutator `BaseAction::setEnabled`. -/
def BaseAction.setEnabled : BaseAction → Bool → BaseAction
  | .method s p i m d _, e => .method s p i m d e
  | .command c a d _, e => .command c a d e
  | .dbus s p d ps _, e => .dbus s p d ps e

/-- The policy `MultipleActionsBehaviour` for several actions on one shortcut. -/
inductive MultipleActionsBehaviour where
  | first
  | last
  | none
  | all
  deriving DecidableEq, Repr

/-- What an operation does to the outside world, in the order in which it happens. -/
inductive Effect where
  /-- Request `X11_OP_XGrabKey` written to the request pipe. -/
  | xGrabKey (X11shortcut : X11Shortcut)
  /-- Request `X11_OP_XUngrabKey` written to the request pipe. -/
  | xUngrabKey (X11shortcut : X11Shortcut)
  /-- A run of `saveConfig()` with saving allowed. -/
  | saveConfig
  /-- Call of `DBusAction::appeared` on the action stored under the id. -/
  | appeared (id : Nat)
  /-- Call of `DBusAction::disappeared` on the action stored under the id. -/
  | disappeared (id : Nat)
  /-- Call of `DBusAction::shortcutChanged(old, new)` on the action stored under the id. -/
  | shortcutChanged (id : Nat) (oldShortcut newShortcut : String)
  | actionAdded (id : Nat)
  | actionModified (id : Nat)
  | actionShortcutChanged (id : Nat)
  | actionRemoved (id : Nat)
  /-- Call of `call()` on the action stored under the id, with the value it returned. -/
  | call (id : Nat) (result : Bool)
  deriving DecidableEq, Repr

/-! ## The state of the core -/

/-- A service client: the pair (service, object path). -/
abbrev DBusClient := String × String

/-- The data members of `Core` that make up the registries, the grabs held by the X server for
this client (one entry per `GRAB_KEY` request that no `UNGRAB_KEY` request has undone) and the
effects so far.

The C++ map `mShortcutAndActionById` is held in two fields: `mShortcutAndActionById` has its
entries with an action, `mNullActionById` has its entries (id, (shortcut, null)) whose action
pointer is null, which `operator[]` creates in `addOrRegisterDBusAction`. The operations that
call a member function of a stored action (`saveConfig` for every entry; `removeAction`, the
three `modify` operations, `changeShortcut` and `getActionById` for the entry they look up)
are undefined in the code when that action is null; their embeddings describe them for the
entries with an action and treat an id of `mNullActionById` as absent. So does the embedding of
`swapActions`, which in the code refuses such an id unless the other entry has the same
shortcut, and then goes on to `saveConfig` (saving is allowed from the end of the constructor
on). -/
structure Core where
  mLastId : Nat
  mMultipleActionsBehaviour : MultipleActionsBehaviour
  mSaveAllowed : Bool
  mShortcutAndActionById : QMap Nat (String × BaseAction)
  mNullActionById : QMap Nat String
  mIdsByShortcut : QMap String (QSet Nat)
  mX11ByShortcut : QMap String X11Shortcut
  mShortcutByX11 : QMap X11Shortcut String
  mIdByDBusClient : QMap DBusClient Nat
  mDBusPathsByDBusService : QMap String (QSet String)
  mServiceNamesByServiceId : QMap String (QSet String)
  mPreferredServiceNameByServiceId : QMap String String
  mServiceIdByServiceName : QMap String String
  xGrabs : QSet X11Shortcut
  effects : List Effect
  deriving DecidableEq, Repr

/-- The core after its constructor has run without any binding in the configuration files. -/
def Core.fresh (multipleActionsBehaviour : MultipleActionsBehaviour) : Core where
  mLastId := 0
  mMultipleActionsBehaviour := multipleActionsBehaviour
  mSaveAllowed := true
  mShortcutAndActionById := []
  mNullActionById := []
  mIdsByShortcut := []
  mX11ByShortcut := []
  mShortcutByX11 := []
  mIdByDBusClient := []
  mDBusPathsByDBusService := []
  mServiceNamesByServiceId := []
  mPreferredServiceNameByServiceId := []
  mServiceIdByServiceName := []
  xGrabs := []
  effects := []

/-- The increment `++mLastId` of the `qulonglong` counter. -/
def nextId (c : Core) : Nat := (c.mLastId + 1) % 2 ^ 64

/-- Embedding of `Core::saveConfig` as far as the core itself is concerned: the file is written
from the current registry when saving is allowed. -/
def saveConfig (c : Core) : Core :=
  if c.mSaveAllowed then { c with effects := c.effects ++ [Effect.saveConfig] } else c

/-! ## Grabbing keys -/

/-- Embedding of `Core::remoteXUngrabKey`: the request `UNGRAB_KEY` removes the grab. Every
caller only logs the returned flag, which is left out. -/
def remoteXUngrabKey (c : Core) (X11shortcut : X11Shortcut) : Core :=
  { c with xGrabs := sremove c.xGrabs X11shortcut,
           effects := c.effects ++ [Effect.xUngrabKey X11shortcut] }

/-- Embedding of `Core::remoteXGrabKey`: the request `GRAB_KEY` installs the grab; `xerror`
tells whether `waitForX11Error(10)` harvests an X11 error afterwards, in which case the grab is
undone and the call fails. -/
def remoteXGrabKey (c : Core) (X11shortcut : X11Shortcut) (xerror : Bool) : Bool × Core :=
  let c1 := { c with xGrabs := sinsert c.xGrabs X11shortcut,
                     effects := c.effects ++ [Effect.xGrabKey X11shortcut] }
  if xerror then (false, remoteXUngrabKey c1 X11shortcut) else (true, c1)

/-- Embedding of `Core::grabOrReuseKey`; the null `QString()` is the empty string. -/
def grabOrReuseKey (c : Core) (X11shortcut : X11Shortcut) (shortcut : String) (xerror : Bool) :
    String × Core :=
  match qfind c.mIdsByShortcut shortcut with
  | some (_ :: _) => (shortcut, c)
  | _ =>
    match remoteXGrabKey c X11shortcut xerror with
    | (false, c1) => ("", c1)
    | (true, c1) => (shortcut, c1)

/-- The last statements of `Core::addActionCommon`: the forward map gets the pair unless it
already has an entry for `usedShortcut`. -/
def rememberX11 (c : Core) (usedShortcut : String) (X11shortcut : X11Shortcut) : Core :=
  match qfind c.mX11ByShortcut usedShortcut with
  | none => { c with mX11ByShortcut := qset c.mX11ByShortcut usedShortcut X11shortcut }
  | some _ => c

/-- Embedding of `Core::addActionCommon`: `none` is the result `false`, otherwise the pair
(`X11shortcut`, `usedShortcut`). -/
def addActionCommon (x : XServer) (c : Core) (shortcut : String) :
    Option (X11Shortcut × String) × Core :=
  match ShortcutToX11 x shortcut with
  | none => (none, c)
  | some X11shortcut =>
    match qfind c.mShortcutByX11 X11shortcut with
    | some usedShortcut =>
      (some (X11shortcut, usedShortcut), rememberX11 c usedShortcut X11shortcut)
    | none =>
      match X11ToShortcut x X11shortcut with
      | none => (none, c)
      | some usedShortcut =>
        (some (X11shortcut, usedShortcut),
          rememberX11 { c with mShortcutByX11 := qset c.mShortcutByX11 X11shortcut usedShortcut }
            usedShortcut X11shortcut)

/-- The expression `mX11ByShortcut[shortcut]`: `operator[]` of a non-const map adds a
default-constructed value for an absent key. -/
def x11ByShortcutAt (c : Core) (shortcut : String) : X11Shortcut × Core :=
  match qfind c.mX11ByShortcut shortcut with
  | some X11shortcut => (X11shortcut, c)
  | none => ((0, 0), { c with mX11ByShortcut := qset c.mX11ByShortcut shortcut (0, 0) })

/-- The expression `mIdsByShortcut[shortcut].insert(id)`. -/
def insertId (c : Core) (shortcut : String) (id : Nat) : Core :=
  match qfind c.mIdsByShortcut shortcut with
  | some ids => { c with mIdsByShortcut := qset c.mIdsByShortcut shortcut (sinsert ids id) }
  | none => { c with mIdsByShortcut := qset c.mIdsByShortcut shortcut (sinsert [] id) }

/-- The block shared by `removeAction`, `removeDBusAction` and `serviceDisappeared`: the id
leaves the set of its shortcut; an emptied set is erased and the key `X11shortcut` (read
beforehand) is ungrabbed. -/
def releaseId (c : Core) (shortcut : String) (id : Nat) (X11shortcut : X11Shortcut) : Core :=
  match qfind c.mIdsByShortcut shortcut with
  | none => c
  | some ids =>
    let ids1 := sremove ids id
    if ids1 = [] then
      remoteXUngrabKey { c with mIdsByShortcut := qerase c.mIdsByShortcut shortcut } X11shortcut
    else { c with mIdsByShortcut := qset c.mIdsByShortcut shortcut ids1 }

/-- The same block in `changeShortcut` and `changeDBusShortcut`, where the key to ungrab is
read as `mX11ByShortcut[oldShortcut]` only once the set has become empty. -/
def releaseOldShortcut (c : Core) (oldShortcut : String) (id : Nat) : Core :=
  match qfind c.mIdsByShortcut oldShortcut with
  | none => c
  | some ids =>
    let ids1 := sremove ids id
    if ids1 = [] then
      let c1 := { c with mIdsByShortcut := qerase c.mIdsByShortcut oldShortcut }
      let found := x11ByShortcutAt c1 oldShortcut
      remoteXUngrabKey found.2 found.1
    else { c with mIdsByShortcut := qset c.mIdsByShortcut oldShortcut ids1 }

/-! ## Registration -/

/-- The tail shared by `addMethodAction` and `addCommandAction` after `addActionCommon` has
succeeded: grab, allocate the id, index and store the action, save. The assignment
`mShortcutAndActionById[id] = ...` replaces whatever entry the id had. -/
def addActionTail (c : Core) (X11shortcut : X11Shortcut) (usedShortcut : String)
    (action : BaseAction) (xerror : Bool) : (String × Nat) × Core :=
  let grabbed := grabOrReuseKey c X11shortcut usedShortcut xerror
  let id := nextId grabbed.2
  let c2 := { grabbed.2 with mLastId := id }
  let c3 := insertId c2 grabbed.1 id
  let c4 := { c3 with mShortcutAndActionById := qset c3.mShortcutAndActionById id (grabbed.1, action),
                      mNullActionById := qerase c3.mNullActionById id }
  ((grabbed.1, id), saveConfig c4)

/-- Embedding of `Core::addMethodAction` (`register_method`). -/
def addMethodAction (x : XServer) (c : Core) (shortcut service path interface method description : String)
    (xerror : Bool) : (String × Nat) × Core :=
  let common := addActionCommon x c shortcut
  match common.1 with
  | none => (("", 0), common.2)
  | some (X11shortcut, usedShortcut) =>
    addActionTail common.2 X11shortcut usedShortcut
      (BaseAction.method service path interface method description true) xerror

/-- Embedding of `Core::addCommandAction` (`register_command`). -/
def addCommandAction (x : XServer) (c : Core) (shortcut command : String) (arguments : List String)
    (description : String) (xerror : Bool) : (String × Nat) × Core :=
  let common := addActionCommon x c shortcut
  match common.1 with
  | none => (("", 0), common.2)
  | some (X11shortcut, usedShortcut) =>
    addActionTail common.2 X11shortcut usedShortcut
      (BaseAction.command command arguments description true) xerror

/-- The statements of `addOrRegisterDBusAction` and `removeDBusAction` that take `path` out of
the set `paths` found for the service, and erase the entry of the service once it is empty. -/
def forgetDBusPath (c : Core) (service path : String) (paths : QSet String) : Core :=
  let paths1 := sremove paths path
  if paths1 = [] then
    { c with mDBusPathsByDBusService := qerase c.mDBusPathsByDBusService service }
  else { c with mDBusPathsByDBusService := qset c.mDBusPathsByDBusService service paths1 }

/-- The statements `if (id) mDaemonAdaptor->signal(id);` of the service operations. -/
def notifyAdaptor (c : Core) (id : Nat) (signal : Effect) : Core :=
  if id ≠ 0 then { c with effects := c.effects ++ [signal] } else c

/-- The test at the start of `Core::addOrRegisterDBusAction`: the service has an entry in
`mDBusPathsByDBusService` and its set holds the path. -/
def dBusPathKnown (c : Core) (service path : String) : Bool :=
  match qfind c.mDBusPathsByDBusService service with
  | some paths => decide (path ∈ paths)
  | none => false

/-- The insertion of the path into the set of the service in `addOrRegisterDBusAction`. -/
def rememberDBusPath (c : Core) (service path : String) : Core :=
  match qfind c.mDBusPathsByDBusService service with
  | some paths =>
    { c with mDBusPathsByDBusService := qset c.mDBusPathsByDBusService service (sinsert paths path) }
  | none =>
    { c with mDBusPathsByDBusService := qset c.mDBusPathsByDBusService service (sinsert [] path) }

/-- The tail of `addOrRegisterDBusAction` after `addActionCommon` has succeeded: grab, allocate
the id, index the id, record the client and store the action, announce the action. A transient
action is marked persistent exactly when it was filed under a name other than the sender. -/
def addDBusActionTail (c : Core) (X11shortcut : X11Shortcut) (usedShortcut : String)
    (service path description sender : String) (xerror : Bool) : (String × Nat) × Core :=
  let grabbed := grabOrReuseKey c X11shortcut usedShortcut xerror
  let id := nextId grabbed.2
  let c3 := { grabbed.2 with mLastId := id }
  let c4 := insertId c3 grabbed.1 id
  let c5 := { c4 with mIdByDBusClient := qset c4.mIdByDBusClient (service, path) id }
  let action :=
    if sender = "" then BaseAction.dbus service path description true true
    else BaseAction.dbus service path description (decide (service ≠ sender)) true
  let c6 := { c5 with mShortcutAndActionById := qset c5.mShortcutAndActionById id (grabbed.1, action),
                      mNullActionById := qerase c5.mNullActionById id }
  ((grabbed.1, id), notifyAdaptor c6 id (Effect.actionAdded id))

/-- Embedding of `Core::addOrRegisterDBusAction`. For a known (service, path) with an id in the
client index the code returns `mShortcutAndActionById[id].first`: when the id is not in the
primary store, `operator[]` creates the entry (id, ("", null)) and the empty shortcut is
returned. -/
def addOrRegisterDBusAction (x : XServer) (c : Core) (shortcut service path description sender : String)
    (xerror : Bool) : Option ((String × Nat) × Core) :=
  if dBusPathKnown c service path then
    match qfind c.mIdByDBusClient (service, path) with
    | some id =>
      match qfind c.mShortcutAndActionById id with
      | some (storedShortcut, _) => some ((storedShortcut, id), c)
      | none =>
        match qfind c.mNullActionById id with
        | some storedShortcut => some ((storedShortcut, id), c)
        | none => some (("", id), { c with mNullActionById := qset c.mNullActionById id "" })
    | none => some (("", 0), c)
  else
    let common := addActionCommon x (rememberDBusPath c service path) shortcut
    match common.1 with
    | none =>
      match qfind common.2.mDBusPathsByDBusService service with
      | none => none
      | some paths => some (("", 0), forgetDBusPath common.2 service path paths)
    | some (X11shortcut, usedShortcut) =>
      some (addDBusActionTail common.2 X11shortcut usedShortcut service path description sender
        xerror)

/-- Embedding of `Core::addDBusAction` (`add_service_action`). -/
def addDBusAction (x : XServer) (c : Core) (shortcut path description sender : String)
    (xerror : Bool) : Option ((String × Nat) × Core) :=
  let service :=
    match qfind c.mPreferredServiceNameByServiceId sender with
    | some preferred => preferred
    | none => sender
  addOrRegisterDBusAction x c shortcut service path description sender xerror

/-- Embedding of `Core::registerDBusAction` (`register_service_action`). -/
def registerDBusAction (x : XServer) (c : Core) (shortcut service path description : String)
    (xerror : Bool) : Option (Nat × Core) :=
  match addOrRegisterDBusAction x c shortcut service path description "" xerror with
  | none => none
  | some ((_, id), c1) => some (id, c1)

/-! ## Modification -/

/-- Embedding of `Core::modifyDBusAction` (`modify_service`). An id of the client index that is
not in the primary store makes `operator[]` create an entry with a null action, which is then
dereferenced: that path is `none`. -/
def modifyDBusAction (c : Core) (path description sender : String) : Option (Nat × Core) :=
  match qfind c.mIdByDBusClient (sender, path) with
  | none => some (0, c)
  | some id =>
    match qfind c.mShortcutAndActionById id with
    | none => none
    | some (shortcut, action) =>
      let c1 := { c with mShortcutAndActionById :=
                         qset c.mShortcutAndActionById id (shortcut, action.setDescription description) }
      some (id, notifyAdaptor c1 id (Effect.actionModified id))

/-- Embedding of `Core::modifyActionDescription` (`modify_description`). -/
def modifyActionDescription (c : Core) (id : Nat) (description : String) : Bool × Core :=
  match qfind c.mShortcutAndActionById id with
  | none => (false, c)
  | some (shortcut, action) =>
    if action.type ≠ "method" ∧ action.type ≠ "command" then (false, c)
    else
      let c1 := { c with mShortcutAndActionById :=
                         qset c.mShortcutAndActionById id (shortcut, action.setDescription description) }
      (true, saveConfig c1)

/-- Embedding of `Core::modifyMethodAction` (`modify_method`). -/
def modifyMethodAction (c : Core) (id : Nat) (service path interface method description : String) :
    Bool × Core :=
  match qfind c.mShortcutAndActionById id with
  | none => (false, c)
  | some (shortcut, action) =>
    if action.type ≠ "method" then (false, c)
    else
      let c1 := { c with mShortcutAndActionById :=
                         qset c.mShortcutAndActionById id
                           (shortcut, BaseAction.method service path interface method description true) }
      (true, saveConfig c1)

/-- Embedding of `Core::modifyCommandAction` (`modify_command`). -/
def modifyCommandAction (c : Core) (id : Nat) (command : String) (arguments : List String)
    (description : String) : Bool × Core :=
  match qfind c.mShortcutAndActionById id with
  | none => (false, c)
  | some (shortcut, action) =>
    if action.type ≠ "command" then (false, c)
    else
      let c1 := { c with mShortcutAndActionById :=
                         qset c.mShortcutAndActionById id
                           (shortcut, BaseAction.command command arguments description true) }
      (true, saveConfig c1)

/-! ## Changing the shortcut of an action -/

/-- The block of `changeShortcut` and `changeDBusShortcut` under `oldShortcut != usedShortcut`,
up to the notification of the action. -/
def moveToShortcut (c : Core) (id : Nat) (oldShortcut newShortcut : String) (action : BaseAction) : Core :=
  let c1 := releaseOldShortcut c oldShortcut id
  let c2 := insertId c1 newShortcut id
  { c2 with mShortcutAndActionById := qset c2.mShortcutAndActionById id (newShortcut, action) }

/-- The last statement of `changeDBusShortcut`: the adaptor announces the change unless the
new shortcut is empty. -/
def announceShortcutChanged (c : Core) (newShortcut : String) (id : Nat) : Core :=
  if newShortcut ≠ "" then { c with effects := c.effects ++ [Effect.actionShortcutChanged id] }
  else c

/-- Embedding of `Core::changeDBusShortcut` (`change_service_shortcut`). An id of the client
index that has no entry in the primary store (the end iterator is dereferenced), and a stored
action that is not a service action or is null when the shortcut changes (the null result of
`dynamic_cast` is dereferenced), are `none`. -/
def changeDBusShortcut (x : XServer) (c : Core) (path shortcut sender : String) (xerror : Bool) :
    Option ((String × Nat) × Core) :=
  match qfind c.mIdByDBusClient (sender, path) with
  | none => some (("", 0), c)
  | some id =>
    let common := addActionCommon x c shortcut
    match common.1 with
    | none => some (("", 0), common.2)
    | some (X11shortcut, usedShortcut) =>
      match qfind common.2.mShortcutAndActionById id with
      | none =>
        match qfind common.2.mNullActionById id with
        | none => none
        | some oldShortcut =>
          let grabbed := grabOrReuseKey common.2 X11shortcut usedShortcut xerror
          if oldShortcut ≠ usedShortcut then none
          else some ((grabbed.1, id), announceShortcutChanged grabbed.2 grabbed.1 id)
      | some (oldShortcut, action) =>
        let grabbed := grabOrReuseKey common.2 X11shortcut usedShortcut xerror
        if oldShortcut ≠ usedShortcut then
          if action.type = "dbus" then
            let c3 := moveToShortcut grabbed.2 id oldShortcut grabbed.1 action
            let c4 :=
              { c3 with effects := c3.effects ++ [Effect.shortcutChanged id oldShortcut grabbed.1] }
            some ((grabbed.1, id), announceShortcutChanged c4 grabbed.1 id)
          else none
        else some ((grabbed.1, id), announceShortcutChanged grabbed.2 grabbed.1 id)

/-- Embedding of `Core::changeShortcut` (`change_shortcut`). -/
def changeShortcut (x : XServer) (c : Core) (id : Nat) (shortcut : String) (xerror : Bool) :
    String × Core :=
  match qfind c.mShortcutAndActionById id with
  | none => ("", c)
  | some (oldShortcut, action) =>
    let common := addActionCommon x c shortcut
    match common.1 with
    | none => ("", common.2)
    | some (X11shortcut, usedShortcut) =>
      let grabbed := grabOrReuseKey common.2 X11shortcut usedShortcut xerror
      let c4 :=
        if oldShortcut ≠ usedShortcut then
          let c3 := moveToShortcut grabbed.2 id oldShortcut grabbed.1 action
          if action.type = "dbus" then
            { c3 with effects := c3.effects ++ [Effect.shortcutChanged id oldShortcut grabbed.1] }
          else c3
        else grabbed.2
      (grabbed.1, saveConfig c4)

/-- Embedding of `Core::swapActions` (`swap`). -/
def swapActions (c : Core) (id1 id2 : Nat) : Bool × Core :=
  match qfind c.mShortcutAndActionById id1 with
  | none => (false, c)
  | some (shortcut1, action1) =>
    match qfind c.mShortcutAndActionById id2 with
    | none => (false, c)
    | some (shortcut2, action2) =>
      if shortcut1 ≠ shortcut2 then (false, c)
      else
        let store1 := qset c.mShortcutAndActionById id1 (shortcut1, action2)
        let store2 := qset store1 id2 (shortcut2, action1)
        (true, saveConfig { c with mShortcutAndActionById := store2 })

/-! ## Removal -/

/-- The statements of `Core::removeDBusAction` after the lookup of the id, for an entry of the
primary store whose action is null: `delete` of a null pointer does nothing, and the entry
goes as any other. -/
def removeNullDBusAction (c : Core) (id : Nat) (shortcut path sender : String) :
    Option (Nat × Core) :=
  let found := x11ByShortcutAt c shortcut
  let c1 := found.2
  let c2 := { c1 with mNullActionById := qerase c1.mNullActionById id,
                      mIdByDBusClient := qerase c1.mIdByDBusClient (sender, path) }
  let c3 := releaseId c2 shortcut id found.1
  match qfind c3.mDBusPathsByDBusService sender with
  | none => none
  | some paths =>
    let c4 := forgetDBusPath c3 sender path paths
    some (id, notifyAdaptor c4 id (Effect.actionRemoved id))

/-- Embedding of `Core::removeDBusAction` (`remove_service`). An id of the client index that
has no entry in the primary store, with or without an action, and a sender without an entry
in `mDBusPathsByDBusService`, make the code dereference an end iterator: those paths are
`none`. -/
def removeDBusAction (c : Core) (path sender : String) : Option (Nat × Core) :=
  match qfind c.mIdByDBusClient (sender, path) with
  | none => some (0, c)
  | some id =>
    match qfind c.mShortcutAndActionById id with
    | none =>
      match qfind c.mNullActionById id with
      | none => none
      | some shortcut => removeNullDBusAction c id shortcut path sender
    | some (shortcut, _) =>
      let found := x11ByShortcutAt c shortcut
      let c1 := found.2
      let c2 := { c1 with mShortcutAndActionById := qerase c1.mShortcutAndActionById id,
                          mIdByDBusClient := qerase c1.mIdByDBusClient (sender, path) }
      let c3 := releaseId c2 shortcut id found.1
      match qfind c3.mDBusPathsByDBusService sender with
      | none => none
      | some paths =>
        let c4 := forgetDBusPath c3 sender path paths
        some (id, notifyAdaptor c4 id (Effect.actionRemoved id))

/-- Embedding of `Core::removeAction` (`remove`). -/
def removeAction (c : Core) (id : Nat) : Bool × Core :=
  match qfind c.mShortcutAndActionById id with
  | none => (false, c)
  | some (shortcut, action) =>
    if action.type = "dbus" then (false, c)
    else
      let found := x11ByShortcutAt c shortcut
      let c2 := { found.2 with mShortcutAndActionById := qerase found.2.mShortcutAndActionById id }
      let c3 := releaseId c2 shortcut id found.1
      (true, saveConfig c3)

/-- Embedding of `Core::setMultipleActionsBehaviour`. -/
def setMultipleActionsBehaviour (c : Core) (behaviour : MultipleActionsBehaviour) : Core :=
  saveConfig { c with mMultipleActionsBehaviour := behaviour }

/-- Embedding of `Core::getMultipleActionsBehaviour`. -/
def getMultipleActionsBehaviour (c : Core) : MultipleActionsBehaviour :=
  c.mMultipleActionsBehaviour

/-! ## Service tracker -/

/-- One round of the loop of `Core::serviceAppeared` over the paths of the owner. A stored
action that is null or not a service action makes the code dereference the null result of
`dynamic_cast`: that path is `none`. -/
def serviceAppearedPath (c : Core) (id path : String) : Option Core :=
  match qfind c.mIdByDBusClient (id, path) with
  | none => some c
  | some actionId =>
    match qfind c.mShortcutAndActionById actionId with
    | none =>
      match qfind c.mNullActionById actionId with
      | none => some c
      | some _ => none
    | some (_, action) =>
      if action.type = "dbus" then
        some { c with effects := c.effects ++ [Effect.appeared actionId] }
      else none

/-- The loop of `Core::serviceAppeared` over the paths of the owner. -/
def serviceAppearedLoop (id : String) : List String → Core → Option Core
  | [], c => some c
  | path :: rest, c =>
    match serviceAppearedPath c id path with
    | none => none
    | some c1 => serviceAppearedLoop id rest c1

/-- Embedding of `Core::serviceAppeared`. -/
def serviceAppeared (c : Core) (service id : String) : Option Core :=
  if service ≠ id then
    let names :=
      match qfind c.mServiceNamesByServiceId id with
      | some ns => sinsert ns service
      | none => sinsert [] service
    let c1 := { c with mServiceNamesByServiceId := qset c.mServiceNamesByServiceId id names }
    let c2 :=
      match qfind c1.mPreferredServiceNameByServiceId id with
      | none =>
        { c1 with mPreferredServiceNameByServiceId := qset c1.mPreferredServiceNameByServiceId id service }
      | some _ => c1
    let c3 := { c2 with mServiceIdByServiceName := qset c2.mServiceIdByServiceName service id }
    match qfind c3.mDBusPathsByDBusService id with
    | some paths => serviceAppearedLoop id paths c3
    | none => some c3
  else some c

/-- One round of the loop of `Core::serviceDisappeared` for an entry of the primary store whose
action is null: the id leaves the dispatch index as for any entry; for the owner the entry is
erased (`delete` of a null pointer does nothing), for another name the null pointer is
dereferenced (`none`). -/
def serviceDisappearedNull (c : Core) (service id path : String) (pathsCount : Nat)
    (actionId : Nat) (shortcut : String) : Option (Core × Nat) :=
  let found := x11ByShortcutAt c shortcut
  let c2 := releaseId found.2 shortcut actionId found.1
  if id ≠ service then none
  else
    some ({ c2 with mNullActionById := qerase c2.mNullActionById actionId,
                    mIdByDBusClient := qerase c2.mIdByDBusClient (id, path) },
          pathsCount - 1)

/-- One round of the loop of `Core::serviceDisappeared` over the paths of the owner, with the
counter `pathsCount`. A stored action that is null or not a service action makes the code
dereference the null result of `dynamic_cast` when the name is not the owner: that path is
`none`. -/
def serviceDisappearedPath (c : Core) (service id path : String) (pathsCount : Nat) :
    Option (Core × Nat) :=
  match qfind c.mIdByDBusClient (id, path) with
  | none => some (c, pathsCount)
  | some actionId =>
    match qfind c.mShortcutAndActionById actionId with
    | none =>
      match qfind c.mNullActionById actionId with
      | none => some (c, pathsCount)
      | some shortcut => serviceDisappearedNull c service id path pathsCount actionId shortcut
    | some (shortcut, action) =>
      let found := x11ByShortcutAt c shortcut
      let c2 := releaseId found.2 shortcut actionId found.1
      if id ≠ service then
        if action.type = "dbus" then
          some ({ c2 with effects := c2.effects ++ [Effect.disappeared actionId] }, pathsCount)
        else none
      else
        some ({ c2 with mShortcutAndActionById := qerase c2.mShortcutAndActionById actionId,
                        mIdByDBusClient := qerase c2.mIdByDBusClient (id, path) },
              pathsCount - 1)

/-- The loop of `Core::serviceDisappeared` over the paths of the owner. -/
def serviceDisappearedLoop (service id : String) : List String → Core × Nat → Option (Core × Nat)
  | [], acc => some acc
  | path :: rest, (c, pathsCount) =>
    match serviceDisappearedPath c service id path pathsCount with
    | none => none
    | some acc => serviceDisappearedLoop service id rest acc

/-- The second half of `Core::serviceDisappeared`: the bookkeeping of names and owners. -/
def forgetServiceName (c : Core) (service id : String) : Core :=
  if id = service then
    { c with mPreferredServiceNameByServiceId := qerase c.mPreferredServiceNameByServiceId id,
             mServiceNamesByServiceId := qerase c.mServiceNamesByServiceId id }
  else
    let c1 :=
      match qfind c.mServiceNamesByServiceId id with
      | some names =>
        let names1 := sremove names service
        if names1 = [] then
          { c with mServiceNamesByServiceId := qerase c.mServiceNamesByServiceId id }
        else { c with mServiceNamesByServiceId := qset c.mServiceNamesByServiceId id names1 }
      | none => c
    let c2 :=
      match qfind c1.mPreferredServiceNameByServiceId id with
      | some preferred =>
        if preferred = service then
          { c1 with mPreferredServiceNameByServiceId := qerase c1.mPreferredServiceNameByServiceId id }
        else c1
      | none => c1
    { c2 with mServiceIdByServiceName := qerase c2.mServiceIdByServiceName service }

/-- Embedding of `Core::serviceDisappeared`. -/
def serviceDisappeared (c : Core) (service id : String) : Option Core :=
  match qfind c.mDBusPathsByDBusService id with
  | some paths =>
    match serviceDisappearedLoop service id paths (c, paths.length) with
    | none => none
    | some (c1, pathsCount) =>
      let c2 :=
        if pathsCount = 0 then
          { c1 with mDBusPathsByDBusService := qerase c1.mDBusPathsByDBusService id }
        else c1
      some (forgetServiceName c2 service id)
  | none => some (forgetServiceName c service id)

/-! ## Key presses in normal mode -/

/-- The loop of `MULTIPLE_ACTIONS_BEHAVIOUR_FIRST`: from `ids.begin()` on, until a call
succeeds. `call id` is what `call()` of the action stored under `id` returns; an id without an
entry in the primary store makes the code call through a null pointer (`none`). -/
def callFirst (store : QMap Nat (String × BaseAction)) (call : Nat → Bool) :
    List Nat → List Effect → Option (List Effect)
  | [], done => some done
  | id :: rest, done =>
    match qfind store id with
    | none => none
    | some _ =>
      if call id then some (done ++ [Effect.call id true])
      else callFirst store call rest (done ++ [Effect.call id false])

/-- The loop of `MULTIPLE_ACTIONS_BEHAVIOUR_LAST`: the iterator starts at `ids.end()`
(position `n`) and is decremented before each call, until `ids.begin()` or a successful call. -/
def callLast (store : QMap Nat (String × BaseAction)) (call : Nat → Bool) (ids : List Nat) :
    Nat → List Effect → Option (List Effect)
  | 0, done => some done
  | n + 1, done =>
    match ids.get? n with
    | none => none
    | some id =>
      match qfind store id with
      | none => none
      | some _ =>
        if call id then some (done ++ [Effect.call id true])
        else callLast store call ids n (done ++ [Effect.call id false])

/-- The loop of `MULTIPLE_ACTIONS_BEHAVIOUR_ALL`: every action is called. -/
def callAll (store : QMap Nat (String × BaseAction)) (call : Nat → Bool) :
    List Nat → List Effect → Option (List Effect)
  | [], done => some done
  | id :: rest, done =>
    match qfind store id with
    | none => none
    | some _ => callAll store call rest (done ++ [Effect.call id (call id)])

/-- The expression `mShortcutByX11[X]` of the handler: `operator[]` of the non-const map adds
the empty string for an absent key. -/
def shortcutByX11At (c : Core) (X11shortcut : X11Shortcut) : String × Core :=
  match qfind c.mShortcutByX11 X11shortcut with
  | some shortcut => (shortcut, c)
  | none => ("", { c with mShortcutByX11 := qset c.mShortcutByX11 X11shortcut "" })

/-- The `switch (mMultipleActionsBehaviour)` of the handler: the calls made for the ids bound
to the shortcut, `none` when a call goes through a null pointer. -/
def callActions (store : QMap Nat (String × BaseAction)) (behaviour : MultipleActionsBehaviour)
    (call : Nat → Bool) (ids : List Nat) : Option (List Effect) :=
  match behaviour with
  | .first => callFirst store call ids []
  | .last => callLast store call ids ids.length []
  | .none =>
    if ids.length = 1 then
      match ids.head? with
      | some id =>
        match qfind store id with
        | some _ => some [Effect.call id (call id)]
        | none => none
      | none => none
    else some []
  | .all => callAll store call ids []

/-- The `KeyPress` branch of `Core::run` while `mGrabbingShortcut` is false, for an event with
the given keycode and modifier state. -/
def keyPressNormal (c : Core) (keycode state : Nat) (call : Nat → Bool) : Option Core :=
  let found := shortcutByX11At c (keycode, state)
  match qfind found.2.mIdsByShortcut found.1 with
  | none => some found.2
  | some ids =>
    match callActions found.2.mShortcutAndActionById found.2.mMultipleActionsBehaviour call ids with
    | none => none
    | some calls => some { found.2 with effects := found.2.effects ++ calls }

/-! ## Queries -/

/-- The record `GeneralActionInfo`. -/
structure GeneralActionInfo where
  shortcut : String
  description : String
  type : String
  info : String
  deriving DecidableEq, Repr

/-- Embedding of `Core::getAllActionIds` (`all_ids`): the keys of the primary store, those of
the entries with a null action included, in ascending order, as the iteration over a `QMap`
gives them. -/
def getAllActionIds (c : Core) : List Nat :=
  (qkeys c.mShortcutAndActionById ++ qkeys c.mNullActionById).insertionSort (· ≤ ·)

/-- Embedding of `Core::actionInfo`. The helper `joinToString` of `string_utils.hpp` is not part
of the sources and is a parameter. -/
def actionInfo (joinToString : List String → String → String → String → String) (c : Core)
    (shortcutAndAction : String × BaseAction) : GeneralActionInfo :=
  let action := shortcutAndAction.2
  let info :=
    match action with
    | .dbus service path _ _ _ =>
      let service1 :=
        match qfind c.mPreferredServiceNameByServiceId service with
        | some preferred => preferred
        | none => service
      service1 ++ " " ++ path
    | .method service path interface method _ _ =>
      service ++ " " ++ path ++ " " ++ interface ++ " " ++ method
    | .command command arguments _ _ =>
      "\"" ++ command ++ joinToString arguments "\" \"" "\" \"" "\""
  { shortcut := shortcutAndAction.1, description := action.description, type := action.type,
    info := info }

/-- Embedding of `Core::getActionById` (`info`); the record of a failed lookup is
default-constructed. -/
def getActionById (joinToString : List String → String → String → String → String) (c : Core)
    (id : Nat) : Bool × GeneralActionInfo :=
  match qfind c.mShortcutAndActionById id with
  | none => (false, { shortcut := "", description := "", type := "", info := "" })
  | some shortcutAndAction => (true, actionInfo joinToString c shortcutAndAction)

/-! ## Runs of the core -/

/-- The requests the core serves: the remote calls of the two adaptors, the signals of the
service tracker, and key presses outside an interactive grab. For a call that may send
`GRAB_KEY`, `xerror` tells whether an X11 error is harvested after that request. -/
inductive Op where
  | addMethodAction (shortcut service path interface method description : String) (xerror : Bool)
  | addCommandAction (shortcut command : String) (arguments : List String) (description : String)
      (xerror : Bool)
  | addDBusAction (shortcut path description sender : String) (xerror : Bool)
  | registerDBusAction (shortcut service path description : String) (xerror : Bool)
  | modifyDBusAction (path description sender : String)
  | modifyActionDescription (id : Nat) (description : String)
  | modifyMethodAction (id : Nat) (service path interface method description : String)
  | modifyCommandAction (id : Nat) (command : String) (arguments : List String) (description : String)
  | changeDBusShortcut (path shortcut sender : String) (xerror : Bool)
  | changeShortcut (id : Nat) (shortcut : String) (xerror : Bool)
  | swapActions (id1 id2 : Nat)
  | removeDBusAction (path sender : String)
  | removeAction (id : Nat)
  | setMultipleActionsBehaviour (behaviour : MultipleActionsBehaviour)
  | serviceAppeared (service id : String)
  | serviceDisappeared (service id : String)
  | keyPress (keycode state : Nat) (call : Nat → Bool)

/-- One request served from state `c`: the state afterwards, `none` when the code leaves defined
behaviour. -/
def step (x : XServer) (c : Core) : Op → Option Core
  | .addMethodAction shortcut service path interface method description xerror =>
    some (addMethodAction x c shortcut service path interface method description xerror).2
  | .addCommandAction shortcut command arguments description xerror =>
    some (addCommandAction x c shortcut command arguments description xerror).2
  | .addDBusAction shortcut path description sender xerror =>
    (addDBusAction x c shortcut path description sender xerror).map Prod.snd
  | .registerDBusAction shortcut service path description xerror =>
    (registerDBusAction x c shortcut service path description xerror).map Prod.snd
  | .modifyDBusAction path description sender =>
    (modifyDBusAction c path description sender).map Prod.snd
  | .modifyActionDescription id description => some (modifyActionDescription c id description).2
  | .modifyMethodAction id service path interface method description =>
    some (modifyMethodAction c id service path interface method description).2
  | .modifyCommandAction id command arguments description =>
    some (modifyCommandAction c id command arguments description).2
  | .changeDBusShortcut path shortcut sender xerror =>
    (changeDBusShortcut x c path shortcut sender xerror).map Prod.snd
  | .changeShortcut id shortcut xerror => some (changeShortcut x c id shortcut xerror).2
  | .swapActions id1 id2 => some (swapActions c id1 id2).2
  | .removeDBusAction path sender => (removeDBusAction c path sender).map Prod.snd
  | .removeAction id => some (removeAction c id).2
  | .setMultipleActionsBehaviour behaviour => some (setMultipleActionsBehaviour c behaviour)
  | .serviceAppeared service id => serviceAppeared c service id
  | .serviceDisappeared service id => serviceDisappeared c service id
  | .keyPress keycode state call => keyPressNormal c keycode state call

/-- The state after a sequence of requests served from state `c`. -/
def run (x : XServer) : Core → List Op → Option Core
  | c, [] => some c
  | c, op :: ops =>
    match step x c op with
    | none => none
    | some c1 => run x c1 ops

/-- The ids handed out by `++mLastId` while a sequence of requests is served from state `c`, in
the order of their allocation. -/
def allocations (x : XServer) : Core → List Op → List Nat
  | _, [] => []
  | c, op :: ops =>
    match step x c op with
    | none => []
    | some c1 =>
      if c1.mLastId ≠ c.mLastId then c1.mLastId :: allocations x c1 ops
      else allocations x c1 ops

/-- A key press is not one of the public operations. -/
def Op.isKeyPress : Op → Bool
  | .keyPress .. => true
  | _ => false

/-- The disappearance of a name other than the unique name of its owner. -/
def Op.isAliasDisappeared : Op → Bool
  | .serviceDisappeared service id => decide (service ≠ id)
  | _ => false

/-- The X11 error flag of a request; `false` for a request that never sends `GRAB_KEY`. -/
def Op.xerror : Op → Bool
  | .addMethodAction _ _ _ _ _ _ xerror => xerror
  | .addCommandAction _ _ _ _ xerror => xerror
  | .addDBusAction _ _ _ _ xerror => xerror
  | .registerDBusAction _ _ _ _ xerror => xerror
  | .changeDBusShortcut _ _ _ xerror => xerror
  | .changeShortcut _ _ xerror => xerror
  | _ => false

/-! ## Keysyms (`keysymdef.h`) -/

def XK_Escape : Nat := 0xff1b
def XK_Shift_L : Nat := 0xffe1
def XK_Shift_R : Nat := 0xffe2
def XK_Control_L : Nat := 0xffe3
def XK_Control_R : Nat := 0xffe4
def XK_Meta_L : Nat := 0xffe7
def XK_Meta_R : Nat := 0xffe8
def XK_Alt_L : Nat := 0xffe9
def XK_Alt_R : Nat := 0xffea
def XK_Super_L : Nat := 0xffeb
def XK_Super_R : Nat := 0xffec
def XK_Hyper_L : Nat := 0xffed
def XK_Hyper_R : Nat := 0xffee
def XK_ISO_Level3_Shift : Nat := 0xfe03
def XK_ISO_Level5_Shift : Nat := 0xfe11
def XK_ISO_Group_Shift : Nat := 0xff7e
def XK_Scroll_Lock : Nat := 0xff14
def XK_Num_Lock : Nat := 0xff7f
def XK_Caps_Lock : Nat := 0xffe5
def XK_ISO_Lock : Nat := 0xfe01
def XK_ISO_Level3_Lock : Nat := 0xfe05
def XK_ISO_Level5_Lock : Nat := 0xfe13
def XK_ISO_Group_Lock : Nat := 0xfe07
def XK_ISO_Next_Group_Lock : Nat := 0xfe09
def XK_ISO_Prev_Group_Lock : Nat := 0xfe0b
def XK_ISO_First_Group_Lock : Nat := 0xfe0d
def XK_ISO_Last_Group_Lock : Nat := 0xfe0f
def XK_Home : Nat := 0xff50
def XK_Left : Nat := 0xff51
def XK_Up : Nat := 0xff52
def XK_Right : Nat := 0xff53
def XK_Down : Nat := 0xff54
def XK_Page_Up : Nat := 0xff55
def XK_Page_Down : Nat := 0xff56
def XK_End : Nat := 0xff57
def XK_Delete : Nat := 0xffff
def XK_Insert : Nat := 0xff63
def XK_BackSpace : Nat := 0xff08
def XK_Tab : Nat := 0xff09
def XK_Return : Nat := 0xff0d
def XK_space : Nat := 0x20
def XK_Pause : Nat := 0xff13
def XK_Print : Nat := 0xff61
def XK_Linefeed : Nat := 0xff0a
def XK_Clear : Nat := 0xff0b
def XK_Multi_key : Nat := 0xff20
def XK_Codeinput : Nat := 0xff37
def XK_SingleCandidate : Nat := 0xff3c
def XK_MultipleCandidate : Nat := 0xff3d
def XK_PreviousCandidate : Nat := 0xff3e
def XK_Begin : Nat := 0xff58
def XK_Select : Nat := 0xff60
def XK_Execute : Nat := 0xff62
def XK_Undo : Nat := 0xff65
def XK_Redo : Nat := 0xff66
def XK_Menu : Nat := 0xff67
def XK_Find : Nat := 0xff68
def XK_Cancel : Nat := 0xff69
def XK_Help : Nat := 0xff6a
def XK_Sys_Req : Nat := 0xff15
def XK_Break : Nat := 0xff6b
def XK_KP_Enter : Nat := 0xff8d
def XK_KP_Home : Nat := 0xff95
def XK_KP_Left : Nat := 0xff96
def XK_KP_Up : Nat := 0xff97
def XK_KP_Right : Nat := 0xff98
def XK_KP_Down : Nat := 0xff99
def XK_KP_Page_Up : Nat := 0xff9a
def XK_KP_Page_Down : Nat := 0xff9b
def XK_KP_End : Nat := 0xff9c
def XK_KP_Begin : Nat := 0xff9d
def XK_KP_Insert : Nat := 0xff9e
def XK_KP_Delete : Nat := 0xff9f
def XK_KP_Multiply : Nat := 0xffaa
def XK_KP_Add : Nat := 0xffab
def XK_KP_Subtract : Nat := 0xffad
def XK_KP_Decimal : Nat := 0xffae
def XK_KP_Divide : Nat := 0xffaf
def XK_KP_0 : Nat := 0xffb0
def XK_KP_1 : Nat := 0xffb1
def XK_KP_2 : Nat := 0xffb2
def XK_KP_3 : Nat := 0xffb3
def XK_KP_4 : Nat := 0xffb4
def XK_KP_5 : Nat := 0xffb5
def XK_KP_6 : Nat := 0xffb6
def XK_KP_7 : Nat := 0xffb7
def XK_KP_8 : Nat := 0xffb8
def XK_KP_9 : Nat := 0xffb9
def XK_KP_Space : Nat := 0xff80
def XK_KP_Tab : Nat := 0xff89
def XK_KP_F1 : Nat := 0xff91
def XK_KP_F2 : Nat := 0xff92
def XK_KP_F3 : Nat := 0xff93
def XK_KP_F4 : Nat := 0xff94
def XK_KP_Equal : Nat := 0xffbd
def XK_KP_Separator : Nat := 0xffac
def XK_grave : Nat := 0x60
def XK_1 : Nat := 0x31
def XK_2 : Nat := 0x32
def XK_3 : Nat := 0x33
def XK_4 : Nat := 0x34
def XK_5 : Nat := 0x35
def XK_6 : Nat := 0x36
def XK_7 : Nat := 0x37
def XK_8 : Nat := 0x38
def XK_9 : Nat := 0x39
def XK_0 : Nat := 0x30
def XK_minus : Nat := 0x2d
def XK_equal : Nat := 0x3d
def XK_Q : Nat := 0x51
def XK_W : Nat := 0x57
def XK_E : Nat := 0x45
def XK_R : Nat := 0x52
def XK_T : Nat := 0x54
def XK_Y : Nat := 0x59
def XK_U : Nat := 0x55
def XK_I : Nat := 0x49
def XK_O : Nat := 0x4f
def XK_P : Nat := 0x50
def XK_bracketleft : Nat := 0x5b
def XK_bracketright : Nat := 0x5d
def XK_backslash : Nat := 0x5c
def XK_A : Nat := 0x41
def XK_S : Nat := 0x53
def XK_D : Nat := 0x44
def XK_F : Nat := 0x46
def XK_G : Nat := 0x47
def XK_H : Nat := 0x48
def XK_J : Nat := 0x4a
def XK_K : Nat := 0x4b
def XK_L : Nat := 0x4c
def XK_semicolon : Nat := 0x3b
def XK_apostrophe : Nat := 0x27
def XK_Z : Nat := 0x5a
def XK_X : Nat := 0x58
def XK_C : Nat := 0x43
def XK_V : Nat := 0x56
def XK_B : Nat := 0x42
def XK_N : Nat := 0x4e
def XK_M : Nat := 0x4d
def XK_comma : Nat := 0x2c
def XK_period : Nat := 0x2e
def XK_slash : Nat := 0x2f

/-! ## Interactive grab of a shortcut -/

/-- What the interactive grab does to the outside world, in the order in which it happens. -/
inductive GrabEffect where
  /-- Request `X11_OP_XGrabKeyboard` written to the request pipe. -/
  | xGrabKeyboard
  /-- Request `X11_OP_XUngrabKeyboard` written to the request pipe. -/
  | xUngrabKeyboard
  /-- Emission of the signal `onShortcutGrabbed` by the worker. -/
  | onShortcutGrabbed
  /-- The delayed reply `request` completed with the four values and sent over the bus. -/
  | reply (request : Option Nat) (shortcut : String) (failed cancelled timedout : Bool)
  deriving DecidableEq, Repr

/-- What the worker writes to the response pipe for a key press that ends a grab: the flag
`cancel` alone when it is set, otherwise the flag, the length and the shortcut. -/
inductive GrabRecord where
  | cancel
  | shortcut (shortcut : String)
  deriving DecidableEq, Repr

/-- The data members of `Core` that make up the interactive grab: the allow flags, the flag of
the worker `mGrabbingShortcut`, the flag `mShortcutGrabRequested`, the single-shot timer
`mShortcutGrabTimeout` (`some interval` while it runs), the delayed reply `mShortcutGrabRequest`
(the number of the message it answers), whether the X server holds the keyboard grab for this
client, the records in the response pipe that have not been read, and the effects so far. -/
structure GrabSession where
  mAllowGrabLocks : Bool
  mAllowGrabBaseSpecial : Bool
  mAllowGrabMiscSpecial : Bool
  mAllowGrabBaseKeypad : Bool
  mAllowGrabMiscKeypad : Bool
  mAllowGrabPrintable : Bool
  mGrabbingShortcut : Bool
  mShortcutGrabRequested : Bool
  mShortcutGrabTimeout : Option Nat
  mShortcutGrabRequest : Option Nat
  keyboardGrabbed : Bool
  x11Response : List GrabRecord
  grabEffects : List GrabEffect
  deriving DecidableEq, Repr

/-- The members of the grab as the constructor of `Core` initialises them. -/
def GrabSession.fresh : GrabSession where
  mAllowGrabLocks := false
  mAllowGrabBaseSpecial := false
  mAllowGrabMiscSpecial := true
  mAllowGrabBaseKeypad := true
  mAllowGrabMiscKeypad := true
  mAllowGrabPrintable := false
  mGrabbingShortcut := false
  mShortcutGrabRequested := false
  mShortcutGrabTimeout := none
  mShortcutGrabRequest := none
  keyboardGrabbed := false
  x11Response := []
  grabEffects := []

/-- Embedding of `Core::isEscape`. -/
def isEscape (keySym modifiers : Nat) : Bool :=
  decide (keySym = XK_Escape) && decide (modifiers = 0)

/-- The case labels of `Core::isModifier`. -/
def modifierKeysyms : List Nat :=
  [XK_Shift_L, XK_Shift_R, XK_Control_L, XK_Control_R, XK_Meta_L, XK_Meta_R, XK_Alt_L, XK_Alt_R,
   XK_Super_L, XK_Super_R, XK_Hyper_L, XK_Hyper_R, XK_ISO_Level3_Shift, XK_ISO_Level5_Shift,
   XK_ISO_Group_Shift]

/-- Embedding of `Core::isModifier`. -/
def isModifier (keySym : Nat) : Bool := decide (keySym ∈ modifierKeysyms)

/-- The case labels of the first group of `Core::isAllowed` (locks). -/
def lockKeysyms : List Nat :=
  [XK_Scroll_Lock, XK_Num_Lock, XK_Caps_Lock, XK_ISO_Lock, XK_ISO_Level3_Lock, XK_ISO_Level5_Lock,
   XK_ISO_Group_Lock, XK_ISO_Next_Group_Lock, XK_ISO_Prev_Group_Lock, XK_ISO_First_Group_Lock,
   XK_ISO_Last_Group_Lock]

/-- The case labels of the second group of `Core::isAllowed` (base special keys). -/
def baseSpecialKeysyms : List Nat :=
  [XK_Home, XK_Left, XK_Up, XK_Right, XK_Down, XK_Page_Up, XK_Page_Down, XK_End, XK_Delete,
   XK_Insert, XK_BackSpace, XK_Tab, XK_Return, XK_space]

/-- The case labels of the third group of `Core::isAllowed` (other special keys). -/
def miscSpecialKeysyms : List Nat :=
  [XK_Pause, XK_Print, XK_Linefeed, XK_Clear, XK_Multi_key, XK_Codeinput, XK_SingleCandidate,
   XK_MultipleCandidate, XK_PreviousCandidate, XK_Begin, XK_Select, XK_Execute, XK_Undo, XK_Redo,
   XK_Menu, XK_Find, XK_Cancel, XK_Help, XK_Sys_Req, XK_Break]

/-- The case labels of the fourth group of `Core::isAllowed` (base keypad keys). -/
def baseKeypadKeysyms : List Nat :=
  [XK_KP_Enter, XK_KP_Home, XK_KP_Left, XK_KP_Up, XK_KP_Right, XK_KP_Down, XK_KP_Page_Up,
   XK_KP_Page_Down, XK_KP_End, XK_KP_Begin, XK_KP_Insert, XK_KP_Delete, XK_KP_Multiply, XK_KP_Add,
   XK_KP_Subtract, XK_KP_Decimal, XK_KP_Divide, XK_KP_0, XK_KP_1, XK_KP_2, XK_KP_3, XK_KP_4,
   XK_KP_5, XK_KP_6, XK_KP_7, XK_KP_8, XK_KP_9]

/-- The case labels of the fifth group of `Core::isAllowed` (other keypad keys). -/
def miscKeypadKeysyms : List Nat :=
  [XK_KP_Space, XK_KP_Tab, XK_KP_F1, XK_KP_F2, XK_KP_F3, XK_KP_F4, XK_KP_Equal, XK_KP_Separator]

/-- The case labels of the sixth group of `Core::isAllowed` (printable keys). -/
def printableKeysyms : List Nat :=
  [XK_grave, XK_1, XK_2, XK_3, XK_4, XK_5, XK_6, XK_7, XK_8, XK_9, XK_0, XK_minus, XK_equal, XK_Q,
   XK_W, XK_E, XK_R, XK_T, XK_Y, XK_U, XK_I, XK_O, XK_P, XK_bracketleft, XK_bracketright,
   XK_backslash, XK_A, XK_S, XK_D, XK_F, XK_G, XK_H, XK_J, XK_K, XK_L, XK_semicolon,
   XK_apostrophe, XK_Z, XK_X, XK_C, XK_V, XK_B, XK_N, XK_M, XK_comma, XK_period, XK_slash]

/-- Embedding of `Core::isAllowed`: a group whose test fails falls through (`break`) to
`return true`. The complement `~` is that of an `unsigned int` (32 bits). -/
def isAllowed (g : GrabSession) (keySym modifiers : Nat) : Bool :=
  if keySym ∈ lockKeysyms then
    if modifiers = 0 then g.mAllowGrabLocks else true
  else if keySym ∈ baseSpecialKeysyms then
    if modifiers = 0 then g.mAllowGrabBaseSpecial else true
  else if keySym ∈ miscSpecialKeysyms then
    if modifiers = 0 then g.mAllowGrabMiscSpecial else true
  else if keySym ∈ baseKeypadKeysyms then
    if modifiers = 0 then g.mAllowGrabBaseKeypad else true
  else if keySym ∈ miscKeypadKeysyms then
    if modifiers = 0 then g.mAllowGrabMiscKeypad else true
  else if keySym ∈ printableKeysyms then
    if modifiers &&& (0xffffffff ^^^ (ShiftMask ||| Level3Mask ||| Level5Mask)) = 0 then
      g.mAllowGrabPrintable
    else true
  else true

/-- The set `allModifiers` that `Core::run` computes at its start: the values `i & ignoreMask`
for `i` below `0x100`, in the order of their first insertion. -/
def allModifiers : QSet Nat :=
  (List.range 0x100).foldl (fun s i => sinsert s (i &&& (0xff ^^^ allShifts))) []

/-- The keysym that the `KeyPress` branch of `Core::run` selects for a keycode in grabbing
mode (0 when the key has none); the argument of `XGetKeyboardMapping` is a `KeyCode`
(8 bits). -/
def grabbedKeySym (x : XServer) (keycode : Nat) : Nat :=
  let keySyms := x.XGetKeyboardMapping (keycode % 256)
  let keysymsPerKeycode := keySyms.length
  if keysymsPerKeycode ≠ 0 then
    if keySyms.getD 0 0 ≠ 0 then
      if keysymsPerKeycode ≥ 2 ∧ keySyms.getD 1 0 ≠ 0 ∧ keySyms.getD 0 0 ≥ XK_a
          ∧ keySyms.getD 0 0 ≤ XK_z then
        keySyms.getD 1 0
      else if keysymsPerKeycode ≥ 1 then keySyms.getD 0 0
      else 0
    else 0
  else 0

/-- The shortcut string that the `KeyPress` branch of `Core::run` composes in grabbing mode
from the event state and the name of the keysym; it stays empty when the keysym has no name. -/
def grabbedShortcut (x : XServer) (keySym state : Nat) : String :=
  match x.XKeysymToString keySym with
  | none => ""
  | some str =>
    if str ≠ "" then
      let shortcut := ""
      let shortcut := if state &&& Level5Mask ≠ 0 then shortcut ++ "Level5+" else shortcut
      let shortcut := if state &&& Level3Mask ≠ 0 then shortcut ++ "Level3+" else shortcut
      let shortcut := if state &&& MetaMask ≠ 0 then shortcut ++ "Meta+" else shortcut
      let shortcut := if state &&& AltMask ≠ 0 then shortcut ++ "Alt+" else shortcut
      let shortcut := if state &&& ControlMask ≠ 0 then shortcut ++ "Control+" else shortcut
      let shortcut := if state &&& ShiftMask ≠ 0 then shortcut ++ "Shift+" else shortcut
      shortcut ++ str
    else ""

/-- The three locals `ignoreKey`, `cancel`, `shortcut` of the `KeyPress` branch of `Core::run`
in grabbing mode, once the event has been examined. -/
def examineKeyPress (x : XServer) (g : GrabSession) (keycode state : Nat) :
    Bool × Bool × String :=
  let keySym := grabbedKeySym x keycode
  if keySym ≠ 0 then
    if isEscape keySym (state &&& allShifts) then (false, true, "")
    else if isModifier keySym || !isAllowed g keySym (state &&& allShifts) then (true, false, "")
    else (false, false, grabbedShortcut x keySym state)
  else (false, false, "")

/-- The `KeyPress` branch of `Core::run` while `mGrabbingShortcut` is true: unless the key is
ignored, the worker leaves grabbing mode, releases the keyboard, writes the result to the
response pipe and emits `onShortcutGrabbed`. -/
def keyPressGrabbing (x : XServer) (g : GrabSession) (keycode state : Nat) : GrabSession :=
  let examined := examineKeyPress x g keycode state
  if examined.1 then g
  else
    { g with
      mGrabbingShortcut := false,
      keyboardGrabbed := false,
      x11Response := g.x11Response ++
        [if examined.2.1 then GrabRecord.cancel else GrabRecord.shortcut examined.2.2],
      grabEffects := g.grabEffects ++ [GrabEffect.onShortcutGrabbed] }

/-- The `KeyPress` case of `Core::run`: the branch is chosen by `mGrabbingShortcut`. -/
def keyPress (x : XServer) (c : Core) (g : GrabSession) (keycode state : Nat)
    (call : Nat → Bool) : Option (Core × GrabSession) :=
  if g.mGrabbingShortcut then some (c, keyPressGrabbing x g keycode state)
  else
    match keyPressNormal c keycode state call with
    | none => none
    | some c1 => some (c1, g)

/-- Worker side of `X11_OP_XGrabKeyboard` in `Core::run`: `x11result` is what `XGrabKeyboard`
returns (0 is `GrabSuccess`); the worker enters grabbing mode whatever the result. -/
def workerXGrabKeyboard (g : GrabSession) (x11result : Nat) : GrabSession :=
  { g with keyboardGrabbed := g.keyboardGrabbed || decide (x11result = 0),
           mGrabbingShortcut := true }

/-- Worker side of `X11_OP_XUngrabKeyboard` in `Core::run`. -/
def workerXUngrabKeyboard (g : GrabSession) : GrabSession :=
  { g with keyboardGrabbed := false, mGrabbingShortcut := false }

/-- Embedding of `Core::grabShortcut` for the request `message`: the result is the triple of
the out-parameters (`failed`, `cancelled`, `timedout`). `x11result` is the value the worker
returns for `XGrabKeyboard`, `xerror` tells whether `waitForX11Error(10)` harvests an X11 error
afterwards. When all three flags are false the reply is delayed. -/
def grabShortcut (g : GrabSession) (timeout message x11result : Nat) (xerror : Bool) :
    (Bool × Bool × Bool) × GrabSession :=
  if g.mGrabbingShortcut then ((true, false, false), g)
  else if timeout > 60000 ∨ timeout < 1000 then ((false, false, true), g)
  else
    let g1 := workerXGrabKeyboard
      { g with grabEffects := g.grabEffects ++ [GrabEffect.xGrabKeyboard] } x11result
    if xerror then ((true, false, false), g1)
    else
      ((false, false, false),
        { g1 with mShortcutGrabRequested := true,
                  mShortcutGrabTimeout := some timeout,
                  mShortcutGrabRequest := some message })

/-- Embedding of the slot `Core::shortcutGrabbed`, which the queued signal `onShortcutGrabbed`
runs. Reading an empty response pipe blocks: that path is `none`. -/
def shortcutGrabbed (g : GrabSession) : Option GrabSession :=
  let g1 := { g with mShortcutGrabTimeout := none }
  if g1.mShortcutGrabRequested then
    match g1.x11Response with
    | [] => none
    | GrabRecord.cancel :: rest =>
      some { g1 with
             x11Response := rest,
             grabEffects := g1.grabEffects ++
               [GrabEffect.reply g1.mShortcutGrabRequest "" false true false],
             mShortcutGrabRequested := false }
    | GrabRecord.shortcut shortcut :: rest =>
      some { g1 with
             x11Response := rest,
             grabEffects := g1.grabEffects ++
               [GrabEffect.reply g1.mShortcutGrabRequest shortcut false false false],
             mShortcutGrabRequested := false }
  else some g1

/-- Embedding of the slot `Core::shortcutGrabTimedout`, which the timer runs when it expires;
`xerror` tells whether `waitForX11Error(10)` harvests an X11 error after the request
`X11_OP_XUngrabKeyboard`. -/
def shortcutGrabTimedout (g : GrabSession) (xerror : Bool) : GrabSession :=
  if g.mShortcutGrabRequested then
    let g1 := workerXUngrabKeyboard
      { g with grabEffects := g.grabEffects ++ [GrabEffect.xUngrabKeyboard] }
    { g1 with
      grabEffects := g1.grabEffects ++
        [GrabEffect.reply g1.mShortcutGrabRequest "" xerror false true],
      mShortcutGrabRequested := false }
  else g

/-- The expiry of the single-shot timer `mShortcutGrabTimeout`: the timer stops and the slot
`shortcutGrabTimedout` runs. A stopped timer does not expire. -/
def timerExpires (g : GrabSession) (xerror : Bool) : GrabSession :=
  match g.mShortcutGrabTimeout with
  | none => g
  | some _ => shortcutGrabTimedout { g with mShortcutGrabTimeout := none } xerror

/-! ## The fan-out of a key grab -/

/-- Worker side of `X11_OP_XGrabKey` in `Core::run`: the calls of `XGrabKey`, one for each
element of `allModifiers`, as pairs (keycode, modifiers). -/
def workerXGrabKey (X11shortcut : X11Shortcut) : List X11Shortcut :=
  allModifiers.map (fun modifiers => (X11shortcut.1, X11shortcut.2 ||| modifiers))

/-- Worker side of `X11_OP_XUngrabKey` in `Core::run`: the calls of `XUngrabKey`. -/
def workerXUngrabKey (X11shortcut : X11Shortcut) : List X11Shortcut :=
  allModifiers.map (fun modifiers => (X11shortcut.1, X11shortcut.2 ||| modifiers))

/-! ## The configuration file -/

/-- The values that the core stores in the configuration file (`QVariant`). -/
inductive Variant where
  | string (value : String)
  | bool (value : Bool)
  | stringList (value : List String)
  deriving DecidableEq, Repr

/-- The configuration file as `QSettings` presents it: groups, each with its keys. A key, once
written, stays in the file until `remove` or `clear` is called on the settings object. -/
abbrev Settings := QMap String (QMap String Variant)

/-- The call `settings.setValue("group/key", value)`. -/
def Settings.setValue (settings : Settings) (group key : String) (value : Variant) : Settings :=
  qset settings group (qset ((qfind settings group).getD []) key value)

/-- The call `settings.value("group/key")`; `none` is the invalid variant. -/
def Settings.value (settings : Settings) (group key : String) : Option Variant :=
  match qfind settings group with
  | none => none
  | some keys => qfind keys key

/-- The call `settings.contains("group/key")`. -/
def Settings.contains (settings : Settings) (group key : String) : Bool :=
  (settings.value group key).isSome

/-- The call `settings.value("group/key").toString()`. -/
def Settings.valueString (settings : Settings) (group key : String) : String :=
  match settings.value group key with
  | some (Variant.string s) => s
  | some (Variant.bool b) => if b then "true" else "false"
  | some (Variant.stringList [s]) => s
  | _ => ""

/-- The call `settings.value("group/key", defaultValue).toBool()`: a text is true unless it is
empty, "0" or "false". -/
def Settings.valueBool (settings : Settings) (group key : String) (defaultValue : Bool) : Bool :=
  match settings.value group key with
  | none => defaultValue
  | some (Variant.bool b) => b
  | some (Variant.string s) => decide (s ≠ "" ∧ s ≠ "0" ∧ s ≠ "false")
  | some (Variant.stringList _) => false

/-- The call `settings.value("group/key").toStringList()`. -/
def Settings.valueStringList (settings : Settings) (group key : String) : List String :=
  match settings.value group key with
  | some (Variant.stringList l) => l
  | some (Variant.string s) => [s]
  | _ => []

/-- The call `settings.childGroups()`; the groups come in the order of the list. -/
def Settings.childGroups (settings : Settings) : List String := qkeys settings

/-- The text that `Core::saveConfig` writes for the policy. -/
def MultipleActionsBehaviour.name : MultipleActionsBehaviour → String
  | .first => "first"
  | .last => "last"
  | .all => "all"
  | .none => "none"

/-- One round of the loop of `Core::saveConfig` over the primary store: the group
`<shortcut>.<id>` gets the keys of the action. -/
def saveAction (settings : Settings) (id : Nat) (shortcut : String) (action : BaseAction) :
    Settings :=
  let group := shortcut ++ "." ++ toString id
  let s := settings.setValue group "Enabled" (Variant.bool action.isEnabled)
  let s := s.setValue group "Comment" (Variant.string action.description)
  match action with
  | .command command arguments _ _ =>
    s.setValue group "Exec" (Variant.stringList (command :: arguments))
  | .method service path interface method _ _ =>
    let s := s.setValue group "DBus-service" (Variant.string service)
    let s := s.setValue group "DBus-path" (Variant.string path)
    let s := s.setValue group "DBus-interface" (Variant.string interface)
    s.setValue group "DBus-method" (Variant.string method)
  | .dbus service path _ persistent _ =>
    if persistent then
      let s := s.setValue group "DBus-service" (Variant.string service)
      s.setValue group "DBus-path" (Variant.string path)
    else s

/-- Embedding of `Core::saveConfig` as far as the file is concerned: what the file holds after
the call, given what it held before. -/
def saveConfigFile (c : Core) (g : GrabSession) (settings : Settings) : Settings :=
  if c.mSaveAllowed then
    let s := settings.setValue "General" "MultipleActionsBehaviour"
      (Variant.string c.mMultipleActionsBehaviour.name)
    let s := s.setValue "General" "AllowGrabLocks" (Variant.bool g.mAllowGrabLocks)
    let s := s.setValue "General" "AllowGrabBaseSpecial" (Variant.bool g.mAllowGrabBaseSpecial)
    let s := s.setValue "General" "AllowGrabMiscSpecial" (Variant.bool g.mAllowGrabMiscSpecial)
    let s := s.setValue "General" "AllowGrabBaseKeypad" (Variant.bool g.mAllowGrabBaseKeypad)
    let s := s.setValue "General" "AllowGrabMiscKeypad" (Variant.bool g.mAllowGrabMiscKeypad)
    let s := s.setValue "General" "AllowGrabPrintable" (Variant.bool g.mAllowGrabPrintable)
    c.mShortcutAndActionById.foldl (fun s entry => saveAction s entry.1 entry.2.1 entry.2.2) s
  else settings

/-- The statement `if (id) mShortcutAndActionById[id].second->setEnabled(enabled);` of the
constructor; an id without an action makes the code call through a null pointer (`none`). -/
def applyEnabled (c : Core) (id : Nat) (enabled : Bool) : Option Core :=
  if id ≠ 0 then
    match qfind c.mShortcutAndActionById id with
    | none => none
    | some (shortcut, action) =>
      some { c with mShortcutAndActionById :=
                    qset c.mShortcutAndActionById id (shortcut, action.setEnabled enabled) }
  else some c

/-- One round of the loop of the constructor `Core::Core` over the groups of the file.
`xerror` tells whether an X11 error is harvested after the `GRAB_KEY` request of the group.
An empty list under `Exec` makes the code read `values[0]` of an empty list (`none`). -/
def loadGroup (x : XServer) (settings : Settings) (c : Core) (group : String) (xerror : Bool) :
    Option Core :=
  if group ≠ "General" then
    let shortcut := (split group '.').headD ""
    let enabled := settings.valueBool group "Enabled" true
    let description := settings.valueString group "Comment"
    if settings.contains group "Exec" then
      match settings.valueStringList group "Exec" with
      | [] => none
      | command :: arguments =>
        let added := addCommandAction x c shortcut command arguments description xerror
        applyEnabled added.2 added.1.2 enabled
    else
      let service := settings.valueString group "DBus-service"
      if service ≠ "" then
        let path := settings.valueString group "DBus-path"
        if path ≠ "" then
          if settings.contains group "DBus-interface" then
            let interface := settings.valueString group "DBus-interface"
            let method := settings.valueString group "DBus-method"
            if method ≠ "" then
              let added :=
                addMethodAction x c shortcut service path interface method description xerror
              applyEnabled added.2 added.1.2 enabled
            else some c
          else
            match registerDBusAction x c shortcut service path description xerror with
            | none => none
            | some (id, c1) => applyEnabled c1 id enabled
        else some c
      else some c
  else some c

/-- The loop of the constructor over `settings.childGroups()`. -/
def loadGroups (x : XServer) (settings : Settings) (xerror : String → Bool) :
    List String → Core → Option Core
  | [], c => some c
  | group :: rest, c =>
    match loadGroup x settings c group (xerror group) with
    | none => none
    | some c1 => loadGroups x settings xerror rest c1

/-- The policy after the constructor has read `General/MultipleActionsBehaviour`; the file is
not consulted when the policy was given on the command line. -/
def loadBehaviour (settings : Settings) (multipleActionsBehaviour : MultipleActionsBehaviour)
    (multipleActionsBehaviourSet : Bool) : MultipleActionsBehaviour :=
  if multipleActionsBehaviourSet then multipleActionsBehaviour
  else
    let iniValue := settings.valueString "General" "MultipleActionsBehaviour"
    if iniValue = "first" then MultipleActionsBehaviour.first
    else if iniValue = "last" then MultipleActionsBehaviour.last
    else if iniValue = "all" then MultipleActionsBehaviour.all
    else if iniValue = "none" then MultipleActionsBehaviour.none
    else multipleActionsBehaviour

/-- The allow flags after the constructor has read the group `General`. -/
def loadAllowFlags (settings : Settings) (g : GrabSession) : GrabSession :=
  { g with
    mAllowGrabLocks := settings.valueBool "General" "AllowGrabLocks" g.mAllowGrabLocks,
    mAllowGrabBaseSpecial :=
      settings.valueBool "General" "AllowGrabBaseSpecial" g.mAllowGrabBaseSpecial,
    mAllowGrabMiscSpecial :=
      settings.valueBool "General" "AllowGrabMiscSpecial" g.mAllowGrabMiscSpecial,
    mAllowGrabBaseKeypad :=
      settings.valueBool "General" "AllowGrabBaseKeypad" g.mAllowGrabBaseKeypad,
    mAllowGrabMiscKeypad :=
      settings.valueBool "General" "AllowGrabMiscKeypad" g.mAllowGrabMiscKeypad,
    mAllowGrabPrintable := settings.valueBool "General" "AllowGrabPrintable" g.mAllowGrabPrintable }

/-- The part of the constructor `Core::Core` that reads one configuration file: the policy,
the allow flags and the bindings are loaded while `mSaveAllowed` is false, then saving is
allowed. -/
def loadConfig (x : XServer) (multipleActionsBehaviour : MultipleActionsBehaviour)
    (multipleActionsBehaviourSet : Bool) (settings : Settings) (xerror : String → Bool) :
    Option (Core × GrabSession) :=
  let c0 :=
    { Core.fresh (loadBehaviour settings multipleActionsBehaviour multipleActionsBehaviourSet)
      with mSaveAllowed := false }
  match loadGroups x settings xerror settings.childGroups c0 with
  | none => none
  | some c1 =>
    some ({ c1 with mSaveAllowed := true }, loadAllowFlags settings GrabSession.fresh)

/-- A run of requests together with the configuration file: a request that has run
`saveConfig` (its last change of the state) leaves the file as `saveConfigFile` writes it from
the state in which the request ends. -/
def runSaving (x : XServer) (g : GrabSession) : Core × Settings → List Op →
    Option (Core × Settings)
  | cs, [] => some cs
  | (c, settings), op :: ops =>
    match step x c op with
    | none => none
    | some c1 =>
      if Effect.saveConfig ∈ c1.effects.drop c.effects.length then
        runSaving x g (c1, saveConfigFile c1 g settings) ops
      else runSaving x g (c1, settings) ops

/-! ## The interactive grab as a sequence of steps -/

/-- The steps of the interactive grab in the sequential model of the control core and the
worker: a call of `grab`, a key press delivered to the worker, the delivery of the queued
signal `onShortcutGrabbed`, and the expiry of the timer. -/
inductive GrabOp where
  | grab (timeout message x11result : Nat) (xerror : Bool)
  | keyPress (keycode state : Nat)
  | shortcutGrabbed
  | timerExpires (xerror : Bool)
  deriving DecidableEq, Repr

/-- One step of the interactive grab; a key press outside grabbing mode is none of its
business. -/
def grabStep (x : XServer) (g : GrabSession) : GrabOp → Option GrabSession
  | .grab timeout message x11result xerror =>
    some (grabShortcut g timeout message x11result xerror).2
  | .keyPress keycode state =>
    if g.mGrabbingShortcut then some (keyPressGrabbing x g keycode state) else some g
  | .shortcutGrabbed => shortcutGrabbed g
  | .timerExpires xerror => some (timerExpires g xerror)

/-- The state of the interactive grab after a sequence of steps. -/
def grabRun (x : XServer) : GrabSession → List GrabOp → Option GrabSession
  | g, [] => some g
  | g, op :: ops =>
    match grabStep x g op with
    | none => none
    | some g1 => grabRun x g1 ops

/-! ## Notions of the specification used in the statements -/

/-- The six modifier tokens of the shortcut syntax. -/
def isModifierName (seg : String) : Bool :=
  decide (seg = "Shift" ∨ seg = "Control" ∨ seg = "Alt" ∨ seg = "Meta" ∨ seg = "Level3"
    ∨ seg = "Level5")

/-- The mask bit the specification gives to a modifier token: Shift = 0x01, Control = 0x04,
Alt = Mod1 = 0x08, Level5 = Mod3 = 0x20, Meta = Mod4 = 0x40, Level3 = Mod5 = 0x80; 0 for any
other segment. -/
def modifierBit (seg : String) : Nat :=
  if seg = "Shift" then 0x01
  else if seg = "Control" then 0x04
  else if seg = "Alt" then 0x08
  else if seg = "Level5" then 0x20
  else if seg = "Meta" then 0x40
  else if seg = "Level3" then 0x80
  else 0

/-- The modifiers in the canonical order of the specification (Level5, Level3, Meta, Alt,
Control, Shift), each with its mask bit. -/
def canonicalModifiers : List (Nat × String) :=
  [(0x20, "Level5"), (0x80, "Level3"), (0x40, "Meta"), (0x08, "Alt"), (0x04, "Control"),
   (0x01, "Shift")]

/-- The names of exactly those modifiers whose bit is set in `mask`, in canonical order. -/
def canonicalNames (mask : Nat) : List String :=
  (canonicalModifiers.filter (fun p => decide (mask &&& p.1 ≠ 0))).map Prod.snd

/-- The modifier part of a canonical shortcut: every name of `canonicalNames mask` followed
by `+`. -/
def modifierText (mask : Nat) : String :=
  String.join ((canonicalNames mask).map (fun name => name ++ "+"))

/-- The canonical form of a shortcut string: `X11ToShortcut (ShortcutToX11 S)`. -/
def canonical (x : XServer) (shortcut : String) : Option String :=
  match ShortcutToX11 x shortcut with
  | none => none
  | some X11shortcut => X11ToShortcut x X11shortcut

/-- A keyboard with the keys `t`/`T` (keycode 28) and `F1` (keycode 67). -/
def keyboardTF1 : XServer where
  XStringToKeysym := fun s =>
    if s = "T" then 0x54 else if s = "t" then 0x74 else if s = "F1" then 0xffbe else 0
  XKeysymToKeycode := fun k =>
    if k = 0x54 then 28 else if k = 0x74 then 28 else if k = 0xffbe then 67 else 0
  XGetKeyboardMapping := fun k =>
    if k = 28 then [0x74, 0x54] else if k = 67 then [0xffbe, 0] else [0, 0]
  XKeysymToString := fun k =>
    if k = 0x54 then some "T" else if k = 0x74 then some "t" else if k = 0xffbe then some "F1"
    else none
  keycodeToStringError := fun _ => false

/-- A keyboard as `xmodmap` can produce it: keycode 38 carries `a`/`A`, keycode 66 carries `a`
in its first column, nothing in the second and `Multi_key` in the third. -/
def keyboardRemapped : XServer where
  XStringToKeysym := fun s =>
    if s = "a" then 0x61 else if s = "A" then 0x41 else if s = "Multi_key" then 0xff20 else 0
  XKeysymToKeycode := fun k =>
    if k = 0x61 then 38 else if k = 0x41 then 38 else if k = 0xff20 then 66 else 0
  XGetKeyboardMapping := fun k =>
    if k = 38 then [0x61, 0x41, 0] else if k = 66 then [0x61, 0, 0xff20] else [0, 0, 0]
  XKeysymToString := fun k =>
    if k = 0x61 then some "a" else if k = 0x41 then some "A"
    else if k = 0xff20 then some "Multi_key" else none
  keycodeToStringError := fun _ => false

/-- A keyboard on which two keycodes carry the name `A`: keycode 38 carries `a`/`A`, keycode 66
carries `A` in its first column and `Multi_key` in its third. -/
def keyboardDoubled : XServer where
  XStringToKeysym := fun s =>
    if s = "a" then 0x61 else if s = "A" then 0x41 else if s = "Multi_key" then 0xff20 else 0
  XKeysymToKeycode := fun k =>
    if k = 0x61 then 38 else if k = 0x41 then 38 else if k = 0xff20 then 66 else 0
  XGetKeyboardMapping := fun k =>
    if k = 38 then [0x61, 0x41, 0] else if k = 66 then [0x41, 0, 0xff20] else [0, 0, 0]
  XKeysymToString := fun k =>
    if k = 0x61 then some "a" else if k = 0x41 then some "A"
    else if k = 0xff20 then some "Multi_key" else none
  keycodeToStringError := fun _ => false

/-- No service is recorded with an empty set of paths. -/
def PathsNonempty (c : Core) : Prop :=
  ∀ service paths, qfind c.mDBusPathsByDBusService service = some paths → paths ≠ []

/-- The dispatch index `m` has an entry for `shortcut`, and that entry contains `id`. -/
def IndexedIn (m : QMap String (QSet Nat)) (shortcut : String) (id : Nat) : Prop :=
  ∃ ids, qfind m shortcut = some ids ∧ id ∈ ids

/-- The property of claim C1 for the entries that have an action: every id of the primary
store, stored with shortcut `S`, is in the entry of `S` in the dispatch index. -/
def StoreIndexed (c : Core) : Prop :=
  ∀ id shortcut action, qfind c.mShortcutAndActionById id = some (shortcut, action) →
    IndexedIn c.mIdsByShortcut shortcut id

/-- What one request may do to the id counter and to the keys of the primary store: either the
counter stays and no key is added, or the counter is incremented and the only key that may be
new is the incremented counter. -/
def IdStep (c c1 : Core) : Prop :=
  (c1.mLastId = c.mLastId ∧
    ∀ id v, qfind c1.mShortcutAndActionById id = some v →
      ∃ w, qfind c.mShortcutAndActionById id = some w) ∨
  (c1.mLastId = nextId c ∧
    ∀ id v, qfind c1.mShortcutAndActionById id = some v →
      id = nextId c ∨ ∃ w, qfind c.mShortcutAndActionById id = some w)

/-- A keyboard on which the canonical shortcut of a binding resolves to the same binding:
whenever `ShortcutToX11` gives `X` and `X11ToShortcut X` gives `u`, `ShortcutToX11 u` is `X`. -/
def KeyboardConsistent (x : XServer) : Prop :=
  ∀ s X u, ShortcutToX11 x s = some X → X11ToShortcut x X = some u → ShortcutToX11 x u = some X

/-- Every entry of the dispatch index is a non-empty set, and its shortcut has a binding in the
forward map that is grabbed at the server. -/
def BoundGrabbed (c : Core) : Prop :=
  ∀ S ids, qfind c.mIdsByShortcut S = some ids →
    ids ≠ [] ∧ ∃ X, qfind c.mX11ByShortcut S = some X ∧ X ∈ c.xGrabs

/-- Both maps between shortcuts and bindings hold only pairs (S, X) where `S` is the canonical
shortcut of `X` and resolves to `X`; the empty shortcut apart, which the forward map may hold
(the code looks up `mX11ByShortcut[""]` for an entry without a shortcut) and which then has no
entry in the dispatch index. -/
def MapsCanonical (x : XServer) (c : Core) : Prop :=
  (∀ S X, qfind c.mX11ByShortcut S = some X →
    (S ≠ "" → X11ToShortcut x X = some S ∧ ShortcutToX11 x S = some X) ∧
    (S = "" → qfind c.mIdsByShortcut "" = none)) ∧
  (∀ X S, qfind c.mShortcutByX11 X = some S →
    X11ToShortcut x X = some S ∧ ShortcutToX11 x S = some X)

/-- The invariant behind claim C2: the grabbed bindings are those of the shortcuts of the
dispatch index. -/
def GrabCore (x : XServer) (c : Core) : Prop :=
  BoundGrabbed c ∧
  (∀ X, X ∈ c.xGrabs →
    ∃ S ids, qfind c.mIdsByShortcut S = some ids ∧ qfind c.mX11ByShortcut S = some X) ∧
  MapsCanonical x c

/-- The state between `grabOrReuseKey` for the pair (`used`, `X`) and the insertion of the id
into the set of `used`: as `GrabCore`, but `X` is grabbed whether or not `used` has an entry in
the dispatch index. -/
def GrabPending (x : XServer) (c : Core) (X : X11Shortcut) (used : String) : Prop :=
  BoundGrabbed c ∧
  (∀ X1, X1 ∈ c.xGrabs →
    X1 = X ∨ ∃ S ids, qfind c.mIdsByShortcut S = some ids ∧ qfind c.mX11ByShortcut S = some X1) ∧
  MapsCanonical x c ∧
  qfind c.mX11ByShortcut used = some X ∧ X ∈ c.xGrabs ∧ used ≠ ""

/-- The dispatch index keeps no empty set of ids. -/
def NoEmptyIds (c : Core) : Prop :=
  ∀ S ids, qfind c.mIdsByShortcut S = some ids → ids ≠ []

/-- The effects of an operation that leads from state `c` to state `c1`: what the trace of `c1`
holds after the trace of `c`. -/
def issued (c c1 : Core) : List Effect := c1.effects.drop c.effects.length

/-- Taking `id` out of the id set of shortcut `S` in state `c` leaves the set empty. -/
def RemovesLast (c : Core) (S : String) (id : Nat) : Prop :=
  ∃ ids, qfind c.mIdsByShortcut S = some ids ∧ sremove ids id = []

/-- The statement of claim C14 for an operation that leads from `c` to `c1` and takes `id` out
of the id set of `S`: `UNGRAB_KEY` is issued for `mX11ByShortcut[S]`, and only for it, iff the
set becomes empty, in which case its entry is erased; otherwise the entry keeps the remaining
ids. -/
def UngrabIffLast (c c1 : Core) (S : String) (id : Nat) : Prop :=
  (∀ X, Effect.xUngrabKey X ∈ issued c c1 ↔
    X = (x11ByShortcutAt c S).1 ∧ RemovesLast c S id) ∧
  (∀ ids, qfind c.mIdsByShortcut S = some ids →
    qfind c1.mIdsByShortcut S = if sremove ids id = [] then none else some (sremove ids id))

/-- Every entry of the reverse map gives a binding its canonical shortcut. -/
def RevCanonical (x : XServer) (c : Core) : Prop :=
  ∀ X S, qfind c.mShortcutByX11 X = some S → X11ToShortcut x X = some S

/-- No id of the primary store or of the dispatch index exceeds the counter `mLastId`. -/
def IdsBounded (c : Core) : Prop :=
  (∀ id v, qfind c.mShortcutAndActionById id = some v → id ≤ c.mLastId) ∧
  (∀ S i, IndexedIn c.mIdsByShortcut S i → i ≤ c.mLastId)

/-- Where the ids of the dispatch index of `c1` come from, after a request served in state `c`:
from the index of `c`, from the counter of `c1`, or from the primary store of `c`. -/
def IndexFrom (c c1 : Core) : Prop :=
  ∀ S i, IndexedIn c1.mIdsByShortcut S i →
    IndexedIn c.mIdsByShortcut S i ∨ i = c1.mLastId ∨
      ∃ v, qfind c.mShortcutAndActionById i = some v

/-- The result `r` of `removeAction` reports success, and the registry of claim C12 (primary
store, dispatch index, grab set) is what it is in state `c`. -/
def RegistryRestored (c : Core) (r : Bool × Core) : Prop :=
  r.1 = true ∧ r.2.mShortcutAndActionById = c.mShortcutAndActionById ∧
    r.2.mIdsByShortcut = c.mIdsByShortcut ∧ r.2.xGrabs = c.xGrabs

/-- What one call of the service tracker may do to the registry: the primary store, the
service-client index, the dispatch index and the grab set lose members at most, and the trace
of effects grows at its end. -/
def Shrinks (c c1 : Core) : Prop :=
  (∀ id v, qfind c1.mShortcutAndActionById id = some v →
    qfind c.mShortcutAndActionById id = some v) ∧
  (∀ k v, qfind c1.mIdByDBusClient k = some v → qfind c.mIdByDBusClient k = some v) ∧
  (∀ S i, IndexedIn c1.mIdsByShortcut S i → IndexedIn c.mIdsByShortcut S i) ∧
  (∀ X, X ∈ c1.xGrabs → X ∈ c.xGrabs) ∧
  (∃ L, c1.effects = c.effects ++ L)

/-- No two entries of the service-client index hold the same id, and no id of the index
exceeds the counter `mLastId`. -/
def ClientInjective (c : Core) : Prop :=
  (∀ k v, qfind c.mIdByDBusClient k = some v → v ≤ c.mLastId) ∧
  (∀ k1 k2 v, qfind c.mIdByDBusClient k1 = some v → qfind c.mIdByDBusClient k2 = some v →
    k1 = k2)

/-- A keyboard with the keys `l`/`L` (keycode 46) and `t`/`T` (keycode 28). -/
def keyboardL : XServer where
  XStringToKeysym := fun s =>
    if s = "L" then 0x4c else if s = "l" then 0x6c else if s = "T" then 0x54
    else if s = "t" then 0x74 else 0
  XKeysymToKeycode := fun k =>
    if k = 0x4c then 46 else if k = 0x6c then 46 else if k = 0x54 then 28
    else if k = 0x74 then 28 else 0
  XGetKeyboardMapping := fun k =>
    if k = 46 then [0x6c, 0x4c] else if k = 28 then [0x74, 0x54] else [0, 0]
  XKeysymToString := fun k =>
    if k = 0x4c then some "L" else if k = 0x6c then some "l" else if k = 0x54 then some "T"
    else if k = 0x74 then some "t" else none
  keycodeToStringError := fun _ => false

/-- A keyboard with the keys `Escape` (keycode 9), `space` (keycode 65), `Control_L`
(keycode 37) and `t`/`T` (keycode 28). -/
def keyboardEscape : XServer where
  XStringToKeysym := fun s =>
    if s = "Escape" then 0xff1b else if s = "space" then 0x20
    else if s = "Control_L" then 0xffe3 else if s = "T" then 0x54
    else if s = "t" then 0x74 else 0
  XKeysymToKeycode := fun k =>
    if k = 0xff1b then 9 else if k = 0x20 then 65 else if k = 0xffe3 then 37
    else if k = 0x54 then 28 else if k = 0x74 then 28 else 0
  XGetKeyboardMapping := fun k =>
    if k = 9 then [0xff1b, 0] else if k = 65 then [0x20, 0] else if k = 37 then [0xffe3, 0]
    else if k = 28 then [0x74, 0x54] else [0, 0]
  XKeysymToString := fun k =>
    if k = 0xff1b then some "Escape" else if k = 0x20 then some "space"
    else if k = 0xffe3 then some "Control_L" else if k = 0x54 then some "T"
    else if k = 0x74 then some "t" else none
  keycodeToStringError := fun _ => false

/-- The state REQUESTED of the interactive grab: the worker is in grabbing mode and a reply is
pending. -/
def GrabRequested (g : GrabSession) : Prop :=
  g.mGrabbingShortcut = true ∧ g.mShortcutGrabRequested = true

/-- No interactive grab is in progress: the worker is not in grabbing mode and no reply is
pending. -/
def GrabIdle (g : GrabSession) : Prop :=
  g.mGrabbingShortcut = false ∧ g.mShortcutGrabRequested = false

/-- Every id that the dispatch index lists under a shortcut `S` is in the primary store, with
an action and with the shortcut `S`. -/
def IndexSound (c : Core) : Prop :=
  ∀ S id, IndexedIn c.mIdsByShortcut S id →
    ∃ action, qfind c.mShortcutAndActionById id = some (S, action)

/-- No id has an entry with an action and an entry with a null action at once: the two fields
`mShortcutAndActionById` and `mNullActionById` stand for one map. -/
def NullDisjoint (c : Core) : Prop :=
  ∀ id S, qfind c.mNullActionById id = some S → qfind c.mShortcutAndActionById id = none

/-- Every entry of the primary store with a null action has the empty shortcut. -/
def NullShortcutsEmpty (c : Core) : Prop :=
  ∀ id S, qfind c.mNullActionById id = some S → S = ""

/-- The invariant of claim C40: the worker is in grabbing mode only if a reply is pending. -/
def GrabConsistent (g : GrabSession) : Prop :=
  g.mGrabbingShortcut = true → g.mShortcutGrabRequested = true

/-- The invariant of claim C37: every entry of the service-client index refers to an id of the
primary store whose action is a service action. -/
def ClientsAreServices (c : Core) : Prop :=
  ∀ k id, qfind c.mIdByDBusClient k = some id →
    ∃ S action, qfind c.mShortcutAndActionById id = some (S, action) ∧ action.type = "dbus"

/-- The Method and Command bindings of a state, as the set of claim C31: shortcut and action
(parameters, description, enabled flag), without the ids. -/
def persistedBindings (c : Core) : List (String × BaseAction) :=
  (c.mShortcutAndActionById.map Prod.snd).filter
    (fun b => decide (b.2.type = "method" ∨ b.2.type = "command"))

/-- The six classes of `isAllowed` taken together with their allow flags: the condition under
which claim C34 says that the key is refused. -/
def refusedByClass (g : GrabSession) (keySym modifiers : Nat) : Prop :=
  (keySym ∈ lockKeysyms ∧ modifiers = 0 ∧ g.mAllowGrabLocks = false) ∨
  (keySym ∈ baseSpecialKeysyms ∧ modifiers = 0 ∧ g.mAllowGrabBaseSpecial = false) ∨
  (keySym ∈ miscSpecialKeysyms ∧ modifiers = 0 ∧ g.mAllowGrabMiscSpecial = false) ∨
  (keySym ∈ baseKeypadKeysyms ∧ modifiers = 0 ∧ g.mAllowGrabBaseKeypad = false) ∨
  (keySym ∈ miscKeypadKeysyms ∧ modifiers = 0 ∧ g.mAllowGrabMiscKeypad = false) ∨
  (keySym ∈ printableKeysyms ∧
    modifiers &&& (ShiftMask ||| Level3Mask ||| Level5Mask) = modifiers ∧
    g.mAllowGrabPrintable = false)

/-! # Theorems -/

set_option linter.unusedTactic false
set_option linter.unreachableTactic false
set_option linter.unusedVariables false

/-! ## Containers -/

section Containers
variable {κ ν : Type} [DecidableEq κ]

theorem qfind_qreplace (m : QMap κ ν) (k k' : κ) (v : ν) :
    qfind (qreplace m k v) k' = if k = k' ∧ (qfind m k).isSome then some v else qfind m k' := by
  induction m with
  | nil => simp [qreplace, qfind]
  | cons e t ih =>
    obtain ⟨a, b⟩ := e
    by_cases h : a = k
    · subst h
      by_cases h' : a = k' <;> simp [qreplace, qfind, h']
    · by_cases h' : a = k'
      · subst h'
        have : ¬ k = a := fun e => h e.symm
        simp [qreplace, qfind, h, this]
      · simp [qreplace, qfind, h, h', ih]

theorem qfind_append (m m' : QMap κ ν) (k : κ) :
    qfind (m ++ m') k = match qfind m k with
      | some v => some v
      | none => qfind m' k := by
  induction m with
  | nil => simp [qfind]
  | cons e t ih =>
    obtain ⟨a, b⟩ := e
    by_cases h : a = k <;> simp [qfind, h, ih]

@[simp] theorem qfind_qset (m : QMap κ ν) (k k' : κ) (v : ν) :
    qfind (qset m k v) k' = if k = k' then some v else qfind m k' := by
  unfold qset
  cases hk : qfind m k with
  | some w =>
    by_cases h : k = k'
    · subst h; simp [qfind_qreplace, hk]
    · simp [qfind_qreplace, h, hk]
  | none =>
    by_cases h : k = k'
    · subst h; simp [qfind_append, hk, qfind]
    · simp only [qfind_append, h, if_false]
      cases qfind m k' <;> simp [qfind, h]

@[simp] theorem qfind_qerase (m : QMap κ ν) (k k' : κ) :
    qfind (qerase m k) k' = if k = k' then none else qfind m k' := by
  induction m with
  | nil => simp [qerase, qfind]
  | cons e t ih =>
    obtain ⟨a, b⟩ := e
    by_cases h : a = k
    · subst h
      by_cases h' : a = k'
      · subst h'; simpa [qerase, qfind] using ih
      · simpa [qerase, qfind, h'] using ih
    · by_cases h' : a = k'
      · subst h'
        have : ¬ k = a := fun e => h e.symm
        simp [qerase, qfind, h, this]
      · simp [qerase, qfind, h, h', ih]

@[simp] theorem qfind_nil (k : κ) : qfind ([] : QMap κ ν) k = none := rfl

theorem mem_qkeys (m : QMap κ ν) (k : κ) : k ∈ qkeys m ↔ ∃ v, qfind m k = some v := by
  induction m with
  | nil => simp [qkeys, qfind]
  | cons e t ih =>
    obtain ⟨a, b⟩ := e
    unfold qkeys at ih ⊢
    by_cases h : a = k
    · simp [qfind, h]
    · have : ¬ k = a := fun e => h e.symm
      simp [qfind, h, this, ih]

theorem qerase_of_qfind_none (m : QMap κ ν) (k : κ) (h : qfind m k = none) : qerase m k = m := by
  induction m with
  | nil => rfl
  | cons e t ih =>
    obtain ⟨a, b⟩ := e
    by_cases h' : a = k
    · simp [qfind, h'] at h
    · simp [qfind, h'] at h
      simp [qerase, h', ih h]

theorem qreplace_self (m : QMap κ ν) (k : κ) (v : ν) (h : qfind m k = some v) : qreplace m k v = m := by
  induction m with
  | nil => rfl
  | cons e t ih =>
    obtain ⟨a, b⟩ := e
    by_cases h' : a = k
    · simp [qfind, h'] at h
      simp [qreplace, h', h]
    · simp [qfind, h'] at h
      simp [qreplace, h', ih h]

theorem qreplace_qreplace (m : QMap κ ν) (k : κ) (v w : ν) :
    qreplace (qreplace m k v) k w = qreplace m k w := by
  induction m with
  | nil => rfl
  | cons e t ih =>
    obtain ⟨a, b⟩ := e
    by_cases h' : a = k
    · simp [qreplace, h']
    · simp [qreplace, h', ih]

end Containers

section Sets
variable {α : Type} [DecidableEq α]

@[simp] theorem mem_sinsert (s : QSet α) (a b : α) : b ∈ sinsert s a ↔ b ∈ s ∨ b = a := by
  unfold sinsert
  by_cases h : a ∈ s
  · simp only [h, if_true]
    constructor
    · exact Or.inl
    · rintro (h' | h')
      · exact h'
      · exact h' ▸ h
  · simp [h]

@[simp] theorem mem_sremove (s : QSet α) (a b : α) : b ∈ sremove s a ↔ b ∈ s ∧ b ≠ a := by
  simp [sremove]

theorem sinsert_ne_nil (s : QSet α) (a : α) : sinsert s a ≠ [] := by
  intro h
  have : a ∈ sinsert s a := by simp
  rw [h] at this
  simp at this

theorem sremove_of_not_mem (s : QSet α) (a : α) (h : a ∉ s) : sremove s a = s := by
  unfold sremove
  rw [List.filter_eq_self]
  intro b hb
  simp
  rintro rfl
  exact h hb

end Sets

theorem some_pair_eq {α β : Type} {p : α × β} {a : α} {b : β} (h : some p = some (a, b)) :
    a = p.1 ∧ b = p.2 := by
  cases h
  exact ⟨rfl, rfl⟩

/-! ## Shortcut strings -/

theorem splitChars_ne_nil (sep : Char) (cs : List Char) : splitChars sep cs ≠ [] := by
  induction cs with
  | nil => simp [splitChars]
  | cons c cs ih =>
    unfold splitChars
    split
    · simp
    · split <;> simp

theorem split_ne_nil (s : String) (sep : Char) : split s sep ≠ [] := by
  simp [split, splitChars_ne_nil]

theorem getD_pred_length (l : List String) :
    l.getD (l.length - 1) "" = l.getLast?.getD "" := by
  rw [List.getLast?_eq_getElem?, List.getD_eq_getElem?_getD]

theorem modifiersLoop_eq (l : List String) (second : Nat) :
    modifiersLoop l second =
      if l.all isModifierName then some ((l.map modifierBit).foldl (· ||| ·) second) else none := by
  induction l generalizing second with
  | nil => simp [modifiersLoop]
  | cons part rest ih =>
    unfold modifiersLoop
    by_cases h1 : part = "Shift"
    · subst h1; simp [ih, isModifierName, modifierBit, ShiftMask]
    by_cases h2 : part = "Control"
    · subst h2; simp [ih, isModifierName, modifierBit, ControlMask]
    by_cases h3 : part = "Alt"
    · subst h3; simp [ih, isModifierName, modifierBit, AltMask, Mod1Mask]
    by_cases h4 : part = "Meta"
    · subst h4; simp [ih, isModifierName, modifierBit, MetaMask, Mod4Mask]
    by_cases h5 : part = "Level3"
    · subst h5; simp [ih, isModifierName, modifierBit, Level3Mask, Mod5Mask]
    by_cases h6 : part = "Level5"
    · subst h6; simp [ih, isModifierName, modifierBit, Level5Mask, Mod3Mask]
    simp [h1, h2, h3, h4, h5, h6, isModifierName]

theorem modifierBit_land (seg : String) : modifierBit seg &&& 0xED = modifierBit seg := by
  unfold modifierBit
  split_ifs <;> rfl

theorem foldl_lor_land (l : List Nat) (a : Nat) (ha : a &&& 0xED = a)
    (hl : ∀ b ∈ l, b &&& 0xED = b) : l.foldl (· ||| ·) a &&& 0xED = l.foldl (· ||| ·) a := by
  induction l generalizing a with
  | nil => simpa using ha
  | cons b t ih =>
    simp only [List.foldl_cons]
    apply ih
    · rw [Nat.and_comm, Nat.and_or_distrib_left, Nat.and_comm _ a, Nat.and_comm _ b, ha,
        hl b (by simp)]
    · intro c hc
      exact hl c (by simp [hc])

theorem ShortcutToX11_eq (x : XServer) (shortcut : String) :
    ShortcutToX11 x shortcut =
      if (split shortcut '+').dropLast.all isModifierName then
        if remoteStringToKeycode x ((split shortcut '+').getLast?.getD "") = 0 then none
        else some (remoteStringToKeycode x ((split shortcut '+').getLast?.getD ""),
          ((split shortcut '+').dropLast.map modifierBit).foldl (· ||| ·) 0)
      else none := by
  have hne : (split shortcut '+').length ≠ 0 := by
    simpa using split_ne_nil shortcut '+'
  unfold ShortcutToX11
  simp only [modifiersLoop_eq, ← List.dropLast_eq_take, getD_pred_length]
  split_ifs <;> simp_all

theorem testBit_foldl_lor (l : List Nat) (a i : Nat) :
    (l.foldl (· ||| ·) a).testBit i = (a.testBit i || l.any (fun b => b.testBit i)) := by
  induction l generalizing a with
  | nil => simp
  | cons b t ih => simp [ih, Nat.testBit_or, Bool.or_assoc]

theorem foldl_lor_congr (f : String → Nat) (l l' : List String)
    (h : ∀ seg, seg ∈ l' ↔ seg ∈ l) :
    (l'.map f).foldl (· ||| ·) 0 = (l.map f).foldl (· ||| ·) 0 := by
  apply Nat.eq_of_testBit_eq
  intro i
  rw [testBit_foldl_lor, testBit_foldl_lor, Bool.eq_iff_iff]
  simp [List.any_eq_true, h]

theorem all_congr (p : String → Bool) (l l' : List String) (h : ∀ seg, seg ∈ l' ↔ seg ∈ l) :
    l'.all p = l.all p := by
  rw [Bool.eq_iff_iff]
  simp [List.all_eq_true, h]

theorem ShortcutToX11_eq_none_iff (x : XServer) (shortcut : String) :
    ShortcutToX11 x shortcut = none ↔
      (∃ seg ∈ (split shortcut '+').dropLast, isModifierName seg = false) ∨
        remoteStringToKeycode x ((split shortcut '+').getLast?.getD "") = 0 := by
  rw [ShortcutToX11_eq]
  by_cases hall : (split shortcut '+').dropLast.all isModifierName = true
  · have hno : ¬ ∃ seg ∈ (split shortcut '+').dropLast, isModifierName seg = false := by
      rintro ⟨seg, hseg, hfalse⟩
      rw [List.all_eq_true] at hall
      rw [hall seg hseg] at hfalse
      exact Bool.noConfusion hfalse
    by_cases hk : remoteStringToKeycode x ((split shortcut '+').getLast?.getD "") = 0
    · simp [hall, hk]
    · simp [hall, hk, hno]
  · have hyes : ∃ seg ∈ (split shortcut '+').dropLast, isModifierName seg = false := by
      by_contra hcon
      apply hall
      rw [List.all_eq_true]
      intro seg hseg
      by_contra hne
      exact hcon ⟨seg, hseg, by simpa using hne⟩
    simp [hall, hyes]

theorem ShortcutToX11_eq_some (x : XServer) (shortcut : String) (X : X11Shortcut)
    (hX : ShortcutToX11 x shortcut = some X) :
    X.1 = remoteStringToKeycode x ((split shortcut '+').getLast?.getD "") ∧
    X.2 = ((split shortcut '+').dropLast.map modifierBit).foldl (· ||| ·) 0 ∧
    X.2 &&& 0xED = X.2 ∧ X.1 ≠ 0 := by
  rw [ShortcutToX11_eq] at hX
  split_ifs at hX with hall hk
  cases hX
  refine ⟨rfl, rfl, ?_, hk⟩
  apply foldl_lor_land
  · rfl
  · intro b hb
    rw [List.mem_map] at hb
    obtain ⟨seg, _, rfl⟩ := hb
    exact modifierBit_land seg

theorem ShortcutToX11_congr (x : XServer) (shortcut shortcut1 : String)
    (hmem : ∀ seg, seg ∈ (split shortcut1 '+').dropLast ↔ seg ∈ (split shortcut '+').dropLast)
    (hlast : (split shortcut1 '+').getLast? = (split shortcut '+').getLast?) :
    ShortcutToX11 x shortcut1 = ShortcutToX11 x shortcut := by
  rw [ShortcutToX11_eq, ShortcutToX11_eq, hlast, foldl_lor_congr modifierBit _ _ hmem,
    all_congr isModifierName _ _ hmem]

theorem X11ToShortcut_eq (x : XServer) (keycode mask : Nat) :
    X11ToShortcut x (keycode, mask) =
      if remoteKeycodeToString x keycode = "" then none
      else some (modifierText mask ++ remoteKeycodeToString x keycode) := by
  by_cases hne : remoteKeycodeToString x keycode = ""
  · simp [X11ToShortcut, hne]
  · unfold X11ToShortcut modifierText canonicalNames canonicalModifiers
    simp only [Level5Mask, Level3Mask, MetaMask, AltMask, ControlMask, ShiftMask, Mod1Mask,
      Mod3Mask, Mod4Mask, Mod5Mask, hne, if_false]
    by_cases h5 : mask &&& 0x20 ≠ 0 <;> by_cases h3 : mask &&& 0x80 ≠ 0 <;>
    by_cases hm : mask &&& 0x40 ≠ 0 <;> by_cases ha : mask &&& 0x08 ≠ 0 <;>
    by_cases hc : mask &&& 0x04 ≠ 0 <;> by_cases hs : mask % 2 = 1 <;>
    simp [List.filter, h5, h3, hm, ha, hc, hs, String.join, String.append_assoc]

/-- Claim C5. `ShortcutToX11` splits its input on `+`. It throws exactly when a segment other
than the last is not one of the six modifier tokens or the last segment resolves to keycode 0.
Otherwise it returns the keycode of the last segment together with the bitwise OR of the bits
of the modifier segments; that mask has no bit outside 0xED, and two inputs with the same last
segment and the same set of modifier segments (in any order, with any multiplicity) give the
same result. -/
theorem ShortcutToX11_spec (x : XServer) (shortcut : String) :
    (ShortcutToX11 x shortcut = none ↔
      (∃ seg ∈ (split shortcut '+').dropLast, isModifierName seg = false) ∨
        remoteStringToKeycode x ((split shortcut '+').getLast?.getD "") = 0) ∧
    (∀ X11shortcut, ShortcutToX11 x shortcut = some X11shortcut →
      X11shortcut.1 = remoteStringToKeycode x ((split shortcut '+').getLast?.getD "") ∧
      X11shortcut.2 = ((split shortcut '+').dropLast.map modifierBit).foldl (· ||| ·) 0 ∧
      X11shortcut.2 &&& 0xED = X11shortcut.2) ∧
    (∀ shortcut1 : String,
      (∀ seg, seg ∈ (split shortcut1 '+').dropLast ↔ seg ∈ (split shortcut '+').dropLast) →
      (split shortcut1 '+').getLast? = (split shortcut '+').getLast? →
      ShortcutToX11 x shortcut1 = ShortcutToX11 x shortcut) := by
  refine ⟨ShortcutToX11_eq_none_iff x shortcut, ?_, ?_⟩
  · intro X hX
    obtain ⟨h1, h2, h3, _⟩ := ShortcutToX11_eq_some x shortcut X hX
    exact ⟨h1, h2, h3⟩
  · intro shortcut1 hmem hlast
    exact ShortcutToX11_congr x shortcut shortcut1 hmem hlast

/-- Claim C6. For a keycode with a non-empty keysym name, `X11ToShortcut` returns the texts
"Level5+", "Level3+", "Meta+", "Alt+", "Control+", "Shift+" of exactly the modifiers whose bit
is set in the mask, in this order, followed by the name; it throws exactly when the name is
empty. -/
theorem X11ToShortcut_spec (x : XServer) (keycode mask : Nat) :
    (remoteKeycodeToString x keycode ≠ "" →
      X11ToShortcut x (keycode, mask) =
        some (modifierText mask ++ remoteKeycodeToString x keycode)) ∧
    (X11ToShortcut x (keycode, mask) = none ↔ remoteKeycodeToString x keycode = "") := by
  rw [X11ToShortcut_eq]
  by_cases hne : remoteKeycodeToString x keycode = "" <;> simp [hne]

theorem X11ToShortcut_ne_empty (x : XServer) (X : X11Shortcut) (S : String)
    (h : X11ToShortcut x X = some S) : S ≠ "" := by
  obtain ⟨k, m⟩ := X
  rw [X11ToShortcut_eq] at h
  split_ifs at h with hk
  cases h
  intro e
  apply hk
  have h1 := congrArg String.length e
  rw [String.length_append] at h1
  have h3 : ("" : String).length = 0 := rfl
  rw [h3] at h1
  have h2 : (remoteKeycodeToString x k).length = 0 := by omega
  exact String.ext (List.length_eq_zero.mp h2)

/-! ## What the building blocks leave unchanged -/

@[simp] theorem saveConfig_mLastId (c : Core) :
    (saveConfig c).mLastId = c.mLastId := by unfold saveConfig; split <;> rfl

@[simp] theorem saveConfig_mMultipleActionsBehaviour (c : Core) :
    (saveConfig c).mMultipleActionsBehaviour = c.mMultipleActionsBehaviour := by unfold saveConfig; split <;> rfl

@[simp] theorem saveConfig_mSaveAllowed (c : Core) :
    (saveConfig c).mSaveAllowed = c.mSaveAllowed := by unfold saveConfig; split <;> rfl

@[simp] theorem saveConfig_mShortcutAndActionById (c : Core) :
    (saveConfig c).mShortcutAndActionById = c.mShortcutAndActionById := by unfold saveConfig; split <;> rfl

@[simp] theorem saveConfig_mNullActionById (c : Core) :
    (saveConfig c).mNullActionById = c.mNullActionById := by unfold saveConfig; split <;> rfl

@[simp] theorem saveConfig_mIdsByShortcut (c : Core) :
    (saveConfig c).mIdsByShortcut = c.mIdsByShortcut := by unfold saveConfig; split <;> rfl

@[simp] theorem saveConfig_mX11ByShortcut (c : Core) :
    (saveConfig c).mX11ByShortcut = c.mX11ByShortcut := by unfold saveConfig; split <;> rfl

@[simp] theorem saveConfig_mShortcutByX11 (c : Core) :
    (saveConfig c).mShortcutByX11 = c.mShortcutByX11 := by unfold saveConfig; split <;> rfl

@[simp] theorem saveConfig_mIdByDBusClient (c : Core) :
    (saveConfig c).mIdByDBusClient = c.mIdByDBusClient := by unfold saveConfig; split <;> rfl

@[simp] theorem saveConfig_mDBusPathsByDBusService (c : Core) :
    (saveConfig c).mDBusPathsByDBusService = c.mDBusPathsByDBusService := by unfold saveConfig; split <;> rfl

@[simp] theorem saveConfig_mServiceNamesByServiceId (c : Core) :
    (saveConfig c).mServiceNamesByServiceId = c.mServiceNamesByServiceId := by unfold saveConfig; split <;> rfl

@[simp] theorem saveConfig_mPreferredServiceNameByServiceId (c : Core) :
    (saveConfig c).mPreferredServiceNameByServiceId = c.mPreferredServiceNameByServiceId := by unfold saveConfig; split <;> rfl

@[simp] theorem saveConfig_mServiceIdByServiceName (c : Core) :
    (saveConfig c).mServiceIdByServiceName = c.mServiceIdByServiceName := by unfold saveConfig; split <;> rfl

@[simp] theorem saveConfig_xGrabs (c : Core) :
    (saveConfig c).xGrabs = c.xGrabs := by unfold saveConfig; split <;> rfl

@[simp] theorem notifyAdaptor_mLastId (c : Core) (id : Nat) (signal : Effect) :
    (notifyAdaptor c id signal).mLastId = c.mLastId := by unfold notifyAdaptor; split <;> rfl

@[simp] theorem notifyAdaptor_mMultipleActionsBehaviour (c : Core) (id : Nat) (signal : Effect) :
    (notifyAdaptor c id signal).mMultipleActionsBehaviour = c.mMultipleActionsBehaviour := by unfold notifyAdaptor; split <;> rfl

@[simp] theorem notifyAdaptor_mSaveAllowed (c : Core) (id : Nat) (signal : Effect) :
    (notifyAdaptor c id signal).mSaveAllowed = c.mSaveAllowed := by unfold notifyAdaptor; split <;> rfl

@[simp] theorem notifyAdaptor_mShortcutAndActionById (c : Core) (id : Nat) (signal : Effect) :
    (notifyAdaptor c id signal).mShortcutAndActionById = c.mShortcutAndActionById := by unfold notifyAdaptor; split <;> rfl

@[simp] theorem notifyAdaptor_mNullActionById (c : Core) (id : Nat) (signal : Effect) :
    (notifyAdaptor c id signal).mNullActionById = c.mNullActionById := by unfold notifyAdaptor; split <;> rfl

@[simp] theorem notifyAdaptor_mIdsByShortcut (c : Core) (id : Nat) (signal : Effect) :
    (notifyAdaptor c id signal).mIdsByShortcut = c.mIdsByShortcut := by unfold notifyAdaptor; split <;> rfl

@[simp] theorem notifyAdaptor_mX11ByShortcut (c : Core) (id : Nat) (signal : Effect) :
    (notifyAdaptor c id signal).mX11ByShortcut = c.mX11ByShortcut := by unfold notifyAdaptor; split <;> rfl

@[simp] theorem notifyAdaptor_mShortcutByX11 (c : Core) (id : Nat) (signal : Effect) :
    (notifyAdaptor c id signal).mShortcutByX11 = c.mShortcutByX11 := by unfold notifyAdaptor; split <;> rfl

@[simp] theorem notifyAdaptor_mIdByDBusClient (c : Core) (id : Nat) (signal : Effect) :
    (notifyAdaptor c id signal).mIdByDBusClient = c.mIdByDBusClient := by unfold notifyAdaptor; split <;> rfl

@[simp] theorem notifyAdaptor_mDBusPathsByDBusService (c : Core) (id : Nat) (signal : Effect) :
    (notifyAdaptor c id signal).mDBusPathsByDBusService = c.mDBusPathsByDBusService := by unfold notifyAdaptor; split <;> rfl

@[simp] theorem notifyAdaptor_mServiceNamesByServiceId (c : Core) (id : Nat) (signal : Effect) :
    (notifyAdaptor c id signal).mServiceNamesByServiceId = c.mServiceNamesByServiceId := by unfold notifyAdaptor; split <;> rfl

@[simp] theorem notifyAdaptor_mPreferredServiceNameByServiceId (c : Core) (id : Nat) (signal : Effect) :
    (notifyAdaptor c id signal).mPreferredServiceNameByServiceId = c.mPreferredServiceNameByServiceId := by unfold notifyAdaptor; split <;> rfl

@[simp] theorem notifyAdaptor_mServiceIdByServiceName (c : Core) (id : Nat) (signal : Effect) :
    (notifyAdaptor c id signal).mServiceIdByServiceName = c.mServiceIdByServiceName := by unfold notifyAdaptor; split <;> rfl

@[simp] theorem notifyAdaptor_xGrabs (c : Core) (id : Nat) (signal : Effect) :
    (notifyAdaptor c id signal).xGrabs = c.xGrabs := by unfold notifyAdaptor; split <;> rfl

@[simp] theorem remoteXUngrabKey_mLastId (c : Core) (X : X11Shortcut) :
    (remoteXUngrabKey c X).mLastId = c.mLastId := rfl

@[simp] theorem remoteXUngrabKey_mMultipleActionsBehaviour (c : Core) (X : X11Shortcut) :
    (remoteXUngrabKey c X).mMultipleActionsBehaviour = c.mMultipleActionsBehaviour := rfl

@[simp] theorem remoteXUngrabKey_mSaveAllowed (c : Core) (X : X11Shortcut) :
    (remoteXUngrabKey c X).mSaveAllowed = c.mSaveAllowed := rfl

@[simp] theorem remoteXUngrabKey_mShortcutAndActionById (c : Core) (X : X11Shortcut) :
    (remoteXUngrabKey c X).mShortcutAndActionById = c.mShortcutAndActionById := rfl

@[simp] theorem remoteXUngrabKey_mNullActionById (c : Core) (X : X11Shortcut) :
    (remoteXUngrabKey c X).mNullActionById = c.mNullActionById := rfl

@[simp] theorem remoteXUngrabKey_mIdsByShortcut (c : Core) (X : X11Shortcut) :
    (remoteXUngrabKey c X).mIdsByShortcut = c.mIdsByShortcut := rfl

@[simp] theorem remoteXUngrabKey_mX11ByShortcut (c : Core) (X : X11Shortcut) :
    (remoteXUngrabKey c X).mX11ByShortcut = c.mX11ByShortcut := rfl

@[simp] theorem remoteXUngrabKey_mShortcutByX11 (c : Core) (X : X11Shortcut) :
    (remoteXUngrabKey c X).mShortcutByX11 = c.mShortcutByX11 := rfl

@[simp] theorem remoteXUngrabKey_mIdByDBusClient (c : Core) (X : X11Shortcut) :
    (remoteXUngrabKey c X).mIdByDBusClient = c.mIdByDBusClient := rfl

@[simp] theorem remoteXUngrabKey_mDBusPathsByDBusService (c : Core) (X : X11Shortcut) :
    (remoteXUngrabKey c X).mDBusPathsByDBusService = c.mDBusPathsByDBusService := rfl

@[simp] theorem remoteXUngrabKey_mServiceNamesByServiceId (c : Core) (X : X11Shortcut) :
    (remoteXUngrabKey c X).mServiceNamesByServiceId = c.mServiceNamesByServiceId := rfl

@[simp] theorem remoteXUngrabKey_mPreferredServiceNameByServiceId (c : Core) (X : X11Shortcut) :
    (remoteXUngrabKey c X).mPreferredServiceNameByServiceId = c.mPreferredServiceNameByServiceId := rfl

@[simp] theorem remoteXUngrabKey_mServiceIdByServiceName (c : Core) (X : X11Shortcut) :
    (remoteXUngrabKey c X).mServiceIdByServiceName = c.mServiceIdByServiceName := rfl

@[simp] theorem remoteXGrabKey_mLastId (c : Core) (X : X11Shortcut) (xerror : Bool) :
    (remoteXGrabKey c X xerror).2.mLastId = c.mLastId := by unfold remoteXGrabKey; cases xerror <;> rfl

@[simp] theorem remoteXGrabKey_mMultipleActionsBehaviour (c : Core) (X : X11Shortcut) (xerror : Bool) :
    (remoteXGrabKey c X xerror).2.mMultipleActionsBehaviour = c.mMultipleActionsBehaviour := by unfold remoteXGrabKey; cases xerror <;> rfl

@[simp] theorem remoteXGrabKey_mSaveAllowed (c : Core) (X : X11Shortcut) (xerror : Bool) :
    (remoteXGrabKey c X xerror).2.mSaveAllowed = c.mSaveAllowed := by unfold remoteXGrabKey; cases xerror <;> rfl

@[simp] theorem remoteXGrabKey_mShortcutAndActionById (c : Core) (X : X11Shortcut) (xerror : Bool) :
    (remoteXGrabKey c X xerror).2.mShortcutAndActionById = c.mShortcutAndActionById := by unfold remoteXGrabKey; cases xerror <;> rfl

@[simp] theorem remoteXGrabKey_mNullActionById (c : Core) (X : X11Shortcut) (xerror : Bool) :
    (remoteXGrabKey c X xerror).2.mNullActionById = c.mNullActionById := by unfold remoteXGrabKey; cases xerror <;> rfl

@[simp] theorem remoteXGrabKey_mIdsByShortcut (c : Core) (X : X11Shortcut) (xerror : Bool) :
    (remoteXGrabKey c X xerror).2.mIdsByShortcut = c.mIdsByShortcut := by unfold remoteXGrabKey; cases xerror <;> rfl

@[simp] theorem remoteXGrabKey_mX11ByShortcut (c : Core) (X : X11Shortcut) (xerror : Bool) :
    (remoteXGrabKey c X xerror).2.mX11ByShortcut = c.mX11ByShortcut := by unfold remoteXGrabKey; cases xerror <;> rfl

@[simp] theorem remoteXGrabKey_mShortcutByX11 (c : Core) (X : X11Shortcut) (xerror : Bool) :
    (remoteXGrabKey c X xerror).2.mShortcutByX11 = c.mShortcutByX11 := by unfold remoteXGrabKey; cases xerror <;> rfl

@[simp] theorem remoteXGrabKey_mIdByDBusClient (c : Core) (X : X11Shortcut) (xerror : Bool) :
    (remoteXGrabKey c X xerror).2.mIdByDBusClient = c.mIdByDBusClient := by unfold remoteXGrabKey; cases xerror <;> rfl

@[simp] theorem remoteXGrabKey_mDBusPathsByDBusService (c : Core) (X : X11Shortcut) (xerror : Bool) :
    (remoteXGrabKey c X xerror).2.mDBusPathsByDBusService = c.mDBusPathsByDBusService := by unfold remoteXGrabKey; cases xerror <;> rfl

@[simp] theorem remoteXGrabKey_mServiceNamesByServiceId (c : Core) (X : X11Shortcut) (xerror : Bool) :
    (remoteXGrabKey c X xerror).2.mServiceNamesByServiceId = c.mServiceNamesByServiceId := by unfold remoteXGrabKey; cases xerror <;> rfl

@[simp] theorem remoteXGrabKey_mPreferredServiceNameByServiceId (c : Core) (X : X11Shortcut) (xerror : Bool) :
    (remoteXGrabKey c X xerror).2.mPreferredServiceNameByServiceId = c.mPreferredServiceNameByServiceId := by unfold remoteXGrabKey; cases xerror <;> rfl

@[simp] theorem remoteXGrabKey_mServiceIdByServiceName (c : Core) (X : X11Shortcut) (xerror : Bool) :
    (remoteXGrabKey c X xerror).2.mServiceIdByServiceName = c.mServiceIdByServiceName := by unfold remoteXGrabKey; cases xerror <;> rfl

@[simp] theorem grabOrReuseKey_mLastId (c : Core) (X : X11Shortcut) (shortcut : String) (xerror : Bool) :
    (grabOrReuseKey c X shortcut xerror).2.mLastId = c.mLastId := by unfold grabOrReuseKey remoteXGrabKey; cases xerror <;> (split <;> rfl)

@[simp] theorem grabOrReuseKey_mMultipleActionsBehaviour (c : Core) (X : X11Shortcut) (shortcut : String) (xerror : Bool) :
    (grabOrReuseKey c X shortcut xerror).2.mMultipleActionsBehaviour = c.mMultipleActionsBehaviour := by unfold grabOrReuseKey remoteXGrabKey; cases xerror <;> (split <;> rfl)

@[simp] theorem grabOrReuseKey_mSaveAllowed (c : Core) (X : X11Shortcut) (shortcut : String) (xerror : Bool) :
    (grabOrReuseKey c X shortcut xerror).2.mSaveAllowed = c.mSaveAllowed := by unfold grabOrReuseKey remoteXGrabKey; cases xerror <;> (split <;> rfl)

@[simp] theorem grabOrReuseKey_mShortcutAndActionById (c : Core) (X : X11Shortcut) (shortcut : String) (xerror : Bool) :
    (grabOrReuseKey c X shortcut xerror).2.mShortcutAndActionById = c.mShortcutAndActionById := by unfold grabOrReuseKey remoteXGrabKey; cases xerror <;> (split <;> rfl)

@[simp] theorem grabOrReuseKey_mNullActionById (c : Core) (X : X11Shortcut) (shortcut : String) (xerror : Bool) :
    (grabOrReuseKey c X shortcut xerror).2.mNullActionById = c.mNullActionById := by unfold grabOrReuseKey remoteXGrabKey; cases xerror <;> (split <;> rfl)

@[simp] theorem grabOrReuseKey_mIdsByShortcut (c : Core) (X : X11Shortcut) (shortcut : String) (xerror : Bool) :
    (grabOrReuseKey c X shortcut xerror).2.mIdsByShortcut = c.mIdsByShortcut := by unfold grabOrReuseKey remoteXGrabKey; cases xerror <;> (split <;> rfl)

@[simp] theorem grabOrReuseKey_mX11ByShortcut (c : Core) (X : X11Shortcut) (shortcut : String) (xerror : Bool) :
    (grabOrReuseKey c X shortcut xerror).2.mX11ByShortcut = c.mX11ByShortcut := by unfold grabOrReuseKey remoteXGrabKey; cases xerror <;> (split <;> rfl)

@[simp] theorem grabOrReuseKey_mShortcutByX11 (c : Core) (X : X11Shortcut) (shortcut : String) (xerror : Bool) :
    (grabOrReuseKey c X shortcut xerror).2.mShortcutByX11 = c.mShortcutByX11 := by unfold grabOrReuseKey remoteXGrabKey; cases xerror <;> (split <;> rfl)

@[simp] theorem grabOrReuseKey_mIdByDBusClient (c : Core) (X : X11Shortcut) (shortcut : String) (xerror : Bool) :
    (grabOrReuseKey c X shortcut xerror).2.mIdByDBusClient = c.mIdByDBusClient := by unfold grabOrReuseKey remoteXGrabKey; cases xerror <;> (split <;> rfl)

@[simp] theorem grabOrReuseKey_mDBusPathsByDBusService (c : Core) (X : X11Shortcut) (shortcut : String) (xerror : Bool) :
    (grabOrReuseKey c X shortcut xerror).2.mDBusPathsByDBusService = c.mDBusPathsByDBusService := by unfold grabOrReuseKey remoteXGrabKey; cases xerror <;> (split <;> rfl)

@[simp] theorem grabOrReuseKey_mServiceNamesByServiceId (c : Core) (X : X11Shortcut) (shortcut : String) (xerror : Bool) :
    (grabOrReuseKey c X shortcut xerror).2.mServiceNamesByServiceId = c.mServiceNamesByServiceId := by unfold grabOrReuseKey remoteXGrabKey; cases xerror <;> (split <;> rfl)

@[simp] theorem grabOrReuseKey_mPreferredServiceNameByServiceId (c : Core) (X : X11Shortcut) (shortcut : String) (xerror : Bool) :
    (grabOrReuseKey c X shortcut xerror).2.mPreferredServiceNameByServiceId = c.mPreferredServiceNameByServiceId := by unfold grabOrReuseKey remoteXGrabKey; cases xerror <;> (split <;> rfl)

@[simp] theorem grabOrReuseKey_mServiceIdByServiceName (c : Core) (X : X11Shortcut) (shortcut : String) (xerror : Bool) :
    (grabOrReuseKey c X shortcut xerror).2.mServiceIdByServiceName = c.mServiceIdByServiceName := by unfold grabOrReuseKey remoteXGrabKey; cases xerror <;> (split <;> rfl)

@[simp] theorem rememberX11_mLastId (c : Core) (shortcut : String) (X : X11Shortcut) :
    (rememberX11 c shortcut X).mLastId = c.mLastId := by unfold rememberX11; split <;> rfl

@[simp] theorem rememberX11_mMultipleActionsBehaviour (c : Core) (shortcut : String) (X : X11Shortcut) :
    (rememberX11 c shortcut X).mMultipleActionsBehaviour = c.mMultipleActionsBehaviour := by unfold rememberX11; split <;> rfl

@[simp] theorem rememberX11_mSaveAllowed (c : Core) (shortcut : String) (X : X11Shortcut) :
    (rememberX11 c shortcut X).mSaveAllowed = c.mSaveAllowed := by unfold rememberX11; split <;> rfl

@[simp] theorem rememberX11_mShortcutAndActionById (c : Core) (shortcut : String) (X : X11Shortcut) :
    (rememberX11 c shortcut X).mShortcutAndActionById = c.mShortcutAndActionById := by unfold rememberX11; split <;> rfl

@[simp] theorem rememberX11_mNullActionById (c : Core) (shortcut : String) (X : X11Shortcut) :
    (rememberX11 c shortcut X).mNullActionById = c.mNullActionById := by unfold rememberX11; split <;> rfl

@[simp] theorem rememberX11_mIdsByShortcut (c : Core) (shortcut : String) (X : X11Shortcut) :
    (rememberX11 c shortcut X).mIdsByShortcut = c.mIdsByShortcut := by unfold rememberX11; split <;> rfl

@[simp] theorem rememberX11_mShortcutByX11 (c : Core) (shortcut : String) (X : X11Shortcut) :
    (rememberX11 c shortcut X).mShortcutByX11 = c.mShortcutByX11 := by unfold rememberX11; split <;> rfl

@[simp] theorem rememberX11_mIdByDBusClient (c : Core) (shortcut : String) (X : X11Shortcut) :
    (rememberX11 c shortcut X).mIdByDBusClient = c.mIdByDBusClient := by unfold rememberX11; split <;> rfl

@[simp] theorem rememberX11_mDBusPathsByDBusService (c : Core) (shortcut : String) (X : X11Shortcut) :
    (rememberX11 c shortcut X).mDBusPathsByDBusService = c.mDBusPathsByDBusService := by unfold rememberX11; split <;> rfl

@[simp] theorem rememberX11_mServiceNamesByServiceId (c : Core) (shortcut : String) (X : X11Shortcut) :
    (rememberX11 c shortcut X).mServiceNamesByServiceId = c.mServiceNamesByServiceId := by unfold rememberX11; split <;> rfl

@[simp] theorem rememberX11_mPreferredServiceNameByServiceId (c : Core) (shortcut : String) (X : X11Shortcut) :
    (rememberX11 c shortcut X).mPreferredServiceNameByServiceId = c.mPreferredServiceNameByServiceId := by unfold rememberX11; split <;> rfl

@[simp] theorem rememberX11_mServiceIdByServiceName (c : Core) (shortcut : String) (X : X11Shortcut) :
    (rememberX11 c shortcut X).mServiceIdByServiceName = c.mServiceIdByServiceName := by unfold rememberX11; split <;> rfl

@[simp] theorem rememberX11_xGrabs (c : Core) (shortcut : String) (X : X11Shortcut) :
    (rememberX11 c shortcut X).xGrabs = c.xGrabs := by unfold rememberX11; split <;> rfl

@[simp] theorem rememberX11_effects (c : Core) (shortcut : String) (X : X11Shortcut) :
    (rememberX11 c shortcut X).effects = c.effects := by unfold rememberX11; split <;> rfl

@[simp] theorem addActionCommon_mLastId (x : XServer) (c : Core) (shortcut : String) :
    (addActionCommon x c shortcut).2.mLastId = c.mLastId := by unfold addActionCommon; split <;> [rfl; (split <;> [simp; (split <;> [rfl; simp])])]

@[simp] theorem addActionCommon_mMultipleActionsBehaviour (x : XServer) (c : Core) (shortcut : String) :
    (addActionCommon x c shortcut).2.mMultipleActionsBehaviour = c.mMultipleActionsBehaviour := by unfold addActionCommon; split <;> [rfl; (split <;> [simp; (split <;> [rfl; simp])])]

@[simp] theorem addActionCommon_mSaveAllowed (x : XServer) (c : Core) (shortcut : String) :
    (addActionCommon x c shortcut).2.mSaveAllowed = c.mSaveAllowed := by unfold addActionCommon; split <;> [rfl; (split <;> [simp; (split <;> [rfl; simp])])]

@[simp] theorem addActionCommon_mShortcutAndActionById (x : XServer) (c : Core) (shortcut : String) :
    (addActionCommon x c shortcut).2.mShortcutAndActionById = c.mShortcutAndActionById := by unfold addActionCommon; split <;> [rfl; (split <;> [simp; (split <;> [rfl; simp])])]

@[simp] theorem addActionCommon_mNullActionById (x : XServer) (c : Core) (shortcut : String) :
    (addActionCommon x c shortcut).2.mNullActionById = c.mNullActionById := by unfold addActionCommon; split <;> [rfl; (split <;> [simp; (split <;> [rfl; simp])])]

@[simp] theorem addActionCommon_mIdsByShortcut (x : XServer) (c : Core) (shortcut : String) :
    (addActionCommon x c shortcut).2.mIdsByShortcut = c.mIdsByShortcut := by unfold addActionCommon; split <;> [rfl; (split <;> [simp; (split <;> [rfl; simp])])]

@[simp] theorem addActionCommon_mIdByDBusClient (x : XServer) (c : Core) (shortcut : String) :
    (addActionCommon x c shortcut).2.mIdByDBusClient = c.mIdByDBusClient := by unfold addActionCommon; split <;> [rfl; (split <;> [simp; (split <;> [rfl; simp])])]

@[simp] theorem addActionCommon_mDBusPathsByDBusService (x : XServer) (c : Core) (shortcut : String) :
    (addActionCommon x c shortcut).2.mDBusPathsByDBusService = c.mDBusPathsByDBusService := by unfold addActionCommon; split <;> [rfl; (split <;> [simp; (split <;> [rfl; simp])])]

@[simp] theorem addActionCommon_mServiceNamesByServiceId (x : XServer) (c : Core) (shortcut : String) :
    (addActionCommon x c shortcut).2.mServiceNamesByServiceId = c.mServiceNamesByServiceId := by unfold addActionCommon; split <;> [rfl; (split <;> [simp; (split <;> [rfl; simp])])]

@[simp] theorem addActionCommon_mPreferredServiceNameByServiceId (x : XServer) (c : Core) (shortcut : String) :
    (addActionCommon x c shortcut).2.mPreferredServiceNameByServiceId = c.mPreferredServiceNameByServiceId := by unfold addActionCommon; split <;> [rfl; (split <;> [simp; (split <;> [rfl; simp])])]

@[simp] theorem addActionCommon_mServiceIdByServiceName (x : XServer) (c : Core) (shortcut : String) :
    (addActionCommon x c shortcut).2.mServiceIdByServiceName = c.mServiceIdByServiceName := by unfold addActionCommon; split <;> [rfl; (split <;> [simp; (split <;> [rfl; simp])])]

@[simp] theorem addActionCommon_xGrabs (x : XServer) (c : Core) (shortcut : String) :
    (addActionCommon x c shortcut).2.xGrabs = c.xGrabs := by unfold addActionCommon; split <;> [rfl; (split <;> [simp; (split <;> [rfl; simp])])]

@[simp] theorem addActionCommon_effects (x : XServer) (c : Core) (shortcut : String) :
    (addActionCommon x c shortcut).2.effects = c.effects := by unfold addActionCommon; split <;> [rfl; (split <;> [simp; (split <;> [rfl; simp])])]

@[simp] theorem x11ByShortcutAt_mLastId (c : Core) (shortcut : String) :
    (x11ByShortcutAt c shortcut).2.mLastId = c.mLastId := by unfold x11ByShortcutAt; split <;> rfl

@[simp] theorem x11ByShortcutAt_mMultipleActionsBehaviour (c : Core) (shortcut : String) :
    (x11ByShortcutAt c shortcut).2.mMultipleActionsBehaviour = c.mMultipleActionsBehaviour := by unfold x11ByShortcutAt; split <;> rfl

@[simp] theorem x11ByShortcutAt_mSaveAllowed (c : Core) (shortcut : String) :
    (x11ByShortcutAt c shortcut).2.mSaveAllowed = c.mSaveAllowed := by unfold x11ByShortcutAt; split <;> rfl

@[simp] theorem x11ByShortcutAt_mShortcutAndActionById (c : Core) (shortcut : String) :
    (x11ByShortcutAt c shortcut).2.mShortcutAndActionById = c.mShortcutAndActionById := by unfold x11ByShortcutAt; split <;> rfl

@[simp] theorem x11ByShortcutAt_mNullActionById (c : Core) (shortcut : String) :
    (x11ByShortcutAt c shortcut).2.mNullActionById = c.mNullActionById := by unfold x11ByShortcutAt; split <;> rfl

@[simp] theorem x11ByShortcutAt_mIdsByShortcut (c : Core) (shortcut : String) :
    (x11ByShortcutAt c shortcut).2.mIdsByShortcut = c.mIdsByShortcut := by unfold x11ByShortcutAt; split <;> rfl

@[simp] theorem x11ByShortcutAt_mShortcutByX11 (c : Core) (shortcut : String) :
    (x11ByShortcutAt c shortcut).2.mShortcutByX11 = c.mShortcutByX11 := by unfold x11ByShortcutAt; split <;> rfl

@[simp] theorem x11ByShortcutAt_mIdByDBusClient (c : Core) (shortcut : String) :
    (x11ByShortcutAt c shortcut).2.mIdByDBusClient = c.mIdByDBusClient := by unfold x11ByShortcutAt; split <;> rfl

@[simp] theorem x11ByShortcutAt_mDBusPathsByDBusService (c : Core) (shortcut : String) :
    (x11ByShortcutAt c shortcut).2.mDBusPathsByDBusService = c.mDBusPathsByDBusService := by unfold x11ByShortcutAt; split <;> rfl

@[simp] theorem x11ByShortcutAt_mServiceNamesByServiceId (c : Core) (shortcut : String) :
    (x11ByShortcutAt c shortcut).2.mServiceNamesByServiceId = c.mServiceNamesByServiceId := by unfold x11ByShortcutAt; split <;> rfl

@[simp] theorem x11ByShortcutAt_mPreferredServiceNameByServiceId (c : Core) (shortcut : String) :
    (x11ByShortcutAt c shortcut).2.mPreferredServiceNameByServiceId = c.mPreferredServiceNameByServiceId := by unfold x11ByShortcutAt; split <;> rfl

@[simp] theorem x11ByShortcutAt_mServiceIdByServiceName (c : Core) (shortcut : String) :
    (x11ByShortcutAt c shortcut).2.mServiceIdByServiceName = c.mServiceIdByServiceName := by unfold x11ByShortcutAt; split <;> rfl

@[simp] theorem x11ByShortcutAt_xGrabs (c : Core) (shortcut : String) :
    (x11ByShortcutAt c shortcut).2.xGrabs = c.xGrabs := by unfold x11ByShortcutAt; split <;> rfl

@[simp] theorem x11ByShortcutAt_effects (c : Core) (shortcut : String) :
    (x11ByShortcutAt c shortcut).2.effects = c.effects := by unfold x11ByShortcutAt; split <;> rfl

@[simp] theorem insertId_mLastId (c : Core) (shortcut : String) (id : Nat) :
    (insertId c shortcut id).mLastId = c.mLastId := by unfold insertId; split <;> rfl

@[simp] theorem insertId_mMultipleActionsBehaviour (c : Core) (shortcut : String) (id : Nat) :
    (insertId c shortcut id).mMultipleActionsBehaviour = c.mMultipleActionsBehaviour := by unfold insertId; split <;> rfl

@[simp] theorem insertId_mSaveAllowed (c : Core) (shortcut : String) (id : Nat) :
    (insertId c shortcut id).mSaveAllowed = c.mSaveAllowed := by unfold insertId; split <;> rfl

@[simp] theorem insertId_mShortcutAndActionById (c : Core) (shortcut : String) (id : Nat) :
    (insertId c shortcut id).mShortcutAndActionById = c.mShortcutAndActionById := by unfold insertId; split <;> rfl

@[simp] theorem insertId_mNullActionById (c : Core) (shortcut : String) (id : Nat) :
    (insertId c shortcut id).mNullActionById = c.mNullActionById := by unfold insertId; split <;> rfl

@[simp] theorem insertId_mX11ByShortcut (c : Core) (shortcut : String) (id : Nat) :
    (insertId c shortcut id).mX11ByShortcut = c.mX11ByShortcut := by unfold insertId; split <;> rfl

@[simp] theorem insertId_mShortcutByX11 (c : Core) (shortcut : String) (id : Nat) :
    (insertId c shortcut id).mShortcutByX11 = c.mShortcutByX11 := by unfold insertId; split <;> rfl

@[simp] theorem insertId_mIdByDBusClient (c : Core) (shortcut : String) (id : Nat) :
    (insertId c shortcut id).mIdByDBusClient = c.mIdByDBusClient := by unfold insertId; split <;> rfl

@[simp] theorem insertId_mDBusPathsByDBusService (c : Core) (shortcut : String) (id : Nat) :
    (insertId c shortcut id).mDBusPathsByDBusService = c.mDBusPathsByDBusService := by unfold insertId; split <;> rfl

@[simp] theorem insertId_mServiceNamesByServiceId (c : Core) (shortcut : String) (id : Nat) :
    (insertId c shortcut id).mServiceNamesByServiceId = c.mServiceNamesByServiceId := by unfold insertId; split <;> rfl

@[simp] theorem insertId_mPreferredServiceNameByServiceId (c : Core) (shortcut : String) (id : Nat) :
    (insertId c shortcut id).mPreferredServiceNameByServiceId = c.mPreferredServiceNameByServiceId := by unfold insertId; split <;> rfl

@[simp] theorem insertId_mServiceIdByServiceName (c : Core) (shortcut : String) (id : Nat) :
    (insertId c shortcut id).mServiceIdByServiceName = c.mServiceIdByServiceName := by unfold insertId; split <;> rfl

@[simp] theorem insertId_xGrabs (c : Core) (shortcut : String) (id : Nat) :
    (insertId c shortcut id).xGrabs = c.xGrabs := by unfold insertId; split <;> rfl

@[simp] theorem insertId_effects (c : Core) (shortcut : String) (id : Nat) :
    (insertId c shortcut id).effects = c.effects := by unfold insertId; split <;> rfl

@[simp] theorem releaseId_mLastId (c : Core) (shortcut : String) (id : Nat) (X : X11Shortcut) :
    (releaseId c shortcut id X).mLastId = c.mLastId := by unfold releaseId; split <;> [rfl; (dsimp only; split <;> rfl)]

@[simp] theorem releaseId_mMultipleActionsBehaviour (c : Core) (shortcut : String) (id : Nat) (X : X11Shortcut) :
    (releaseId c shortcut id X).mMultipleActionsBehaviour = c.mMultipleActionsBehaviour := by unfold releaseId; split <;> [rfl; (dsimp only; split <;> rfl)]

@[simp] theorem releaseId_mSaveAllowed (c : Core) (shortcut : String) (id : Nat) (X : X11Shortcut) :
    (releaseId c shortcut id X).mSaveAllowed = c.mSaveAllowed := by unfold releaseId; split <;> [rfl; (dsimp only; split <;> rfl)]

@[simp] theorem releaseId_mShortcutAndActionById (c : Core) (shortcut : String) (id : Nat) (X : X11Shortcut) :
    (releaseId c shortcut id X).mShortcutAndActionById = c.mShortcutAndActionById := by unfold releaseId; split <;> [rfl; (dsimp only; split <;> rfl)]

@[simp] theorem releaseId_mNullActionById (c : Core) (shortcut : String) (id : Nat) (X : X11Shortcut) :
    (releaseId c shortcut id X).mNullActionById = c.mNullActionById := by unfold releaseId; split <;> [rfl; (dsimp only; split <;> rfl)]

@[simp] theorem releaseId_mX11ByShortcut (c : Core) (shortcut : String) (id : Nat) (X : X11Shortcut) :
    (releaseId c shortcut id X).mX11ByShortcut = c.mX11ByShortcut := by unfold releaseId; split <;> [rfl; (dsimp only; split <;> rfl)]

@[simp] theorem releaseId_mShortcutByX11 (c : Core) (shortcut : String) (id : Nat) (X : X11Shortcut) :
    (releaseId c shortcut id X).mShortcutByX11 = c.mShortcutByX11 := by unfold releaseId; split <;> [rfl; (dsimp only; split <;> rfl)]

@[simp] theorem releaseId_mIdByDBusClient (c : Core) (shortcut : String) (id : Nat) (X : X11Shortcut) :
    (releaseId c shortcut id X).mIdByDBusClient = c.mIdByDBusClient := by unfold releaseId; split <;> [rfl; (dsimp only; split <;> rfl)]

@[simp] theorem releaseId_mDBusPathsByDBusService (c : Core) (shortcut : String) (id : Nat) (X : X11Shortcut) :
    (releaseId c shortcut id X).mDBusPathsByDBusService = c.mDBusPathsByDBusService := by unfold releaseId; split <;> [rfl; (dsimp only; split <;> rfl)]

@[simp] theorem releaseId_mServiceNamesByServiceId (c : Core) (shortcut : String) (id : Nat) (X : X11Shortcut) :
    (releaseId c shortcut id X).mServiceNamesByServiceId = c.mServiceNamesByServiceId := by unfold releaseId; split <;> [rfl; (dsimp only; split <;> rfl)]

@[simp] theorem releaseId_mPreferredServiceNameByServiceId (c : Core) (shortcut : String) (id : Nat) (X : X11Shortcut) :
    (releaseId c shortcut id X).mPreferredServiceNameByServiceId = c.mPreferredServiceNameByServiceId := by unfold releaseId; split <;> [rfl; (dsimp only; split <;> rfl)]

@[simp] theorem releaseId_mServiceIdByServiceName (c : Core) (shortcut : String) (id : Nat) (X : X11Shortcut) :
    (releaseId c shortcut id X).mServiceIdByServiceName = c.mServiceIdByServiceName := by unfold releaseId; split <;> [rfl; (dsimp only; split <;> rfl)]

@[simp] theorem releaseOldShortcut_mLastId (c : Core) (shortcut : String) (id : Nat) :
    (releaseOldShortcut c shortcut id).mLastId = c.mLastId := by unfold releaseOldShortcut; split <;> [rfl; (dsimp only; split <;> [(unfold x11ByShortcutAt; dsimp only; split <;> rfl); rfl])]

@[simp] theorem releaseOldShortcut_mMultipleActionsBehaviour (c : Core) (shortcut : String) (id : Nat) :
    (releaseOldShortcut c shortcut id).mMultipleActionsBehaviour = c.mMultipleActionsBehaviour := by unfold releaseOldShortcut; split <;> [rfl; (dsimp only; split <;> [(unfold x11ByShortcutAt; dsimp only; split <;> rfl); rfl])]

@[simp] theorem releaseOldShortcut_mSaveAllowed (c : Core) (shortcut : String) (id : Nat) :
    (releaseOldShortcut c shortcut id).mSaveAllowed = c.mSaveAllowed := by unfold releaseOldShortcut; split <;> [rfl; (dsimp only; split <;> [(unfold x11ByShortcutAt; dsimp only; split <;> rfl); rfl])]

@[simp] theorem releaseOldShortcut_mShortcutAndActionById (c : Core) (shortcut : String) (id : Nat) :
    (releaseOldShortcut c shortcut id).mShortcutAndActionById = c.mShortcutAndActionById := by unfold releaseOldShortcut; split <;> [rfl; (dsimp only; split <;> [(unfold x11ByShortcutAt; dsimp only; split <;> rfl); rfl])]

@[simp] theorem releaseOldShortcut_mNullActionById (c : Core) (shortcut : String) (id : Nat) :
    (releaseOldShortcut c shortcut id).mNullActionById = c.mNullActionById := by unfold releaseOldShortcut; split <;> [rfl; (dsimp only; split <;> [(unfold x11ByShortcutAt; dsimp only; split <;> rfl); rfl])]

@[simp] theorem releaseOldShortcut_mShortcutByX11 (c : Core) (shortcut : String) (id : Nat) :
    (releaseOldShortcut c shortcut id).mShortcutByX11 = c.mShortcutByX11 := by unfold releaseOldShortcut; split <;> [rfl; (dsimp only; split <;> [(unfold x11ByShortcutAt; dsimp only; split <;> rfl); rfl])]

@[simp] theorem releaseOldShortcut_mIdByDBusClient (c : Core) (shortcut : String) (id : Nat) :
    (releaseOldShortcut c shortcut id).mIdByDBusClient = c.mIdByDBusClient := by unfold releaseOldShortcut; split <;> [rfl; (dsimp only; split <;> [(unfold x11ByShortcutAt; dsimp only; split <;> rfl); rfl])]

@[simp] theorem releaseOldShortcut_mDBusPathsByDBusService (c : Core) (shortcut : String) (id : Nat) :
    (releaseOldShortcut c shortcut id).mDBusPathsByDBusService = c.mDBusPathsByDBusService := by unfold releaseOldShortcut; split <;> [rfl; (dsimp only; split <;> [(unfold x11ByShortcutAt; dsimp only; split <;> rfl); rfl])]

@[simp] theorem releaseOldShortcut_mServiceNamesByServiceId (c : Core) (shortcut : String) (id : Nat) :
    (releaseOldShortcut c shortcut id).mServiceNamesByServiceId = c.mServiceNamesByServiceId := by unfold releaseOldShortcut; split <;> [rfl; (dsimp only; split <;> [(unfold x11ByShortcutAt; dsimp only; split <;> rfl); rfl])]

@[simp] theorem releaseOldShortcut_mPreferredServiceNameByServiceId (c : Core) (shortcut : String) (id : Nat) :
    (releaseOldShortcut c shortcut id).mPreferredServiceNameByServiceId = c.mPreferredServiceNameByServiceId := by unfold releaseOldShortcut; split <;> [rfl; (dsimp only; split <;> [(unfold x11ByShortcutAt; dsimp only; split <;> rfl); rfl])]

@[simp] theorem releaseOldShortcut_mServiceIdByServiceName (c : Core) (shortcut : String) (id : Nat) :
    (releaseOldShortcut c shortcut id).mServiceIdByServiceName = c.mServiceIdByServiceName := by unfold releaseOldShortcut; split <;> [rfl; (dsimp only; split <;> [(unfold x11ByShortcutAt; dsimp only; split <;> rfl); rfl])]

@[simp] theorem shortcutByX11At_mLastId (c : Core) (X : X11Shortcut) :
    (shortcutByX11At c X).2.mLastId = c.mLastId := by unfold shortcutByX11At; split <;> rfl

@[simp] theorem shortcutByX11At_mMultipleActionsBehaviour (c : Core) (X : X11Shortcut) :
    (shortcutByX11At c X).2.mMultipleActionsBehaviour = c.mMultipleActionsBehaviour := by unfold shortcutByX11At; split <;> rfl

@[simp] theorem shortcutByX11At_mSaveAllowed (c : Core) (X : X11Shortcut) :
    (shortcutByX11At c X).2.mSaveAllowed = c.mSaveAllowed := by unfold shortcutByX11At; split <;> rfl

@[simp] theorem shortcutByX11At_mShortcutAndActionById (c : Core) (X : X11Shortcut) :
    (shortcutByX11At c X).2.mShortcutAndActionById = c.mShortcutAndActionById := by unfold shortcutByX11At; split <;> rfl

@[simp] theorem shortcutByX11At_mNullActionById (c : Core) (X : X11Shortcut) :
    (shortcutByX11At c X).2.mNullActionById = c.mNullActionById := by unfold shortcutByX11At; split <;> rfl

@[simp] theorem shortcutByX11At_mIdsByShortcut (c : Core) (X : X11Shortcut) :
    (shortcutByX11At c X).2.mIdsByShortcut = c.mIdsByShortcut := by unfold shortcutByX11At; split <;> rfl

@[simp] theorem shortcutByX11At_mX11ByShortcut (c : Core) (X : X11Shortcut) :
    (shortcutByX11At c X).2.mX11ByShortcut = c.mX11ByShortcut := by unfold shortcutByX11At; split <;> rfl

@[simp] theorem shortcutByX11At_mIdByDBusClient (c : Core) (X : X11Shortcut) :
    (shortcutByX11At c X).2.mIdByDBusClient = c.mIdByDBusClient := by unfold shortcutByX11At; split <;> rfl

@[simp] theorem shortcutByX11At_mDBusPathsByDBusService (c : Core) (X : X11Shortcut) :
    (shortcutByX11At c X).2.mDBusPathsByDBusService = c.mDBusPathsByDBusService := by unfold shortcutByX11At; split <;> rfl

@[simp] theorem shortcutByX11At_mServiceNamesByServiceId (c : Core) (X : X11Shortcut) :
    (shortcutByX11At c X).2.mServiceNamesByServiceId = c.mServiceNamesByServiceId := by unfold shortcutByX11At; split <;> rfl

@[simp] theorem shortcutByX11At_mPreferredServiceNameByServiceId (c : Core) (X : X11Shortcut) :
    (shortcutByX11At c X).2.mPreferredServiceNameByServiceId = c.mPreferredServiceNameByServiceId := by unfold shortcutByX11At; split <;> rfl

@[simp] theorem shortcutByX11At_mServiceIdByServiceName (c : Core) (X : X11Shortcut) :
    (shortcutByX11At c X).2.mServiceIdByServiceName = c.mServiceIdByServiceName := by unfold shortcutByX11At; split <;> rfl

@[simp] theorem shortcutByX11At_xGrabs (c : Core) (X : X11Shortcut) :
    (shortcutByX11At c X).2.xGrabs = c.xGrabs := by unfold shortcutByX11At; split <;> rfl

@[simp] theorem shortcutByX11At_effects (c : Core) (X : X11Shortcut) :
    (shortcutByX11At c X).2.effects = c.effects := by unfold shortcutByX11At; split <;> rfl

@[simp] theorem addActionTail_mMultipleActionsBehaviour (c : Core) (X : X11Shortcut) (used : String) (action : BaseAction) (xerror : Bool) :
    (addActionTail c X used action xerror).2.mMultipleActionsBehaviour = c.mMultipleActionsBehaviour := by simp [addActionTail]

@[simp] theorem addActionTail_mSaveAllowed (c : Core) (X : X11Shortcut) (used : String) (action : BaseAction) (xerror : Bool) :
    (addActionTail c X used action xerror).2.mSaveAllowed = c.mSaveAllowed := by simp [addActionTail]

@[simp] theorem addActionTail_mX11ByShortcut (c : Core) (X : X11Shortcut) (used : String) (action : BaseAction) (xerror : Bool) :
    (addActionTail c X used action xerror).2.mX11ByShortcut = c.mX11ByShortcut := by simp [addActionTail]

@[simp] theorem addActionTail_mShortcutByX11 (c : Core) (X : X11Shortcut) (used : String) (action : BaseAction) (xerror : Bool) :
    (addActionTail c X used action xerror).2.mShortcutByX11 = c.mShortcutByX11 := by simp [addActionTail]

@[simp] theorem addActionTail_mIdByDBusClient (c : Core) (X : X11Shortcut) (used : String) (action : BaseAction) (xerror : Bool) :
    (addActionTail c X used action xerror).2.mIdByDBusClient = c.mIdByDBusClient := by simp [addActionTail]

@[simp] theorem addActionTail_mDBusPathsByDBusService (c : Core) (X : X11Shortcut) (used : String) (action : BaseAction) (xerror : Bool) :
    (addActionTail c X used action xerror).2.mDBusPathsByDBusService = c.mDBusPathsByDBusService := by simp [addActionTail]

@[simp] theorem addActionTail_mServiceNamesByServiceId (c : Core) (X : X11Shortcut) (used : String) (action : BaseAction) (xerror : Bool) :
    (addActionTail c X used action xerror).2.mServiceNamesByServiceId = c.mServiceNamesByServiceId := by simp [addActionTail]

@[simp] theorem addActionTail_mPreferredServiceNameByServiceId (c : Core) (X : X11Shortcut) (used : String) (action : BaseAction) (xerror : Bool) :
    (addActionTail c X used action xerror).2.mPreferredServiceNameByServiceId = c.mPreferredServiceNameByServiceId := by simp [addActionTail]

@[simp] theorem addActionTail_mServiceIdByServiceName (c : Core) (X : X11Shortcut) (used : String) (action : BaseAction) (xerror : Bool) :
    (addActionTail c X used action xerror).2.mServiceIdByServiceName = c.mServiceIdByServiceName := by simp [addActionTail]

@[simp] theorem addDBusActionTail_mMultipleActionsBehaviour (c : Core) (X : X11Shortcut) (used service path description sender : String) (xerror : Bool) :
    (addDBusActionTail c X used service path description sender xerror).2.mMultipleActionsBehaviour = c.mMultipleActionsBehaviour := by simp [addDBusActionTail]

@[simp] theorem addDBusActionTail_mSaveAllowed (c : Core) (X : X11Shortcut) (used service path description sender : String) (xerror : Bool) :
    (addDBusActionTail c X used service path description sender xerror).2.mSaveAllowed = c.mSaveAllowed := by simp [addDBusActionTail]

@[simp] theorem addDBusActionTail_mX11ByShortcut (c : Core) (X : X11Shortcut) (used service path description sender : String) (xerror : Bool) :
    (addDBusActionTail c X used service path description sender xerror).2.mX11ByShortcut = c.mX11ByShortcut := by simp [addDBusActionTail]

@[simp] theorem addDBusActionTail_mShortcutByX11 (c : Core) (X : X11Shortcut) (used service path description sender : String) (xerror : Bool) :
    (addDBusActionTail c X used service path description sender xerror).2.mShortcutByX11 = c.mShortcutByX11 := by simp [addDBusActionTail]

@[simp] theorem addDBusActionTail_mDBusPathsByDBusService (c : Core) (X : X11Shortcut) (used service path description sender : String) (xerror : Bool) :
    (addDBusActionTail c X used service path description sender xerror).2.mDBusPathsByDBusService = c.mDBusPathsByDBusService := by simp [addDBusActionTail]

@[simp] theorem addDBusActionTail_mServiceNamesByServiceId (c : Core) (X : X11Shortcut) (used service path description sender : String) (xerror : Bool) :
    (addDBusActionTail c X used service path description sender xerror).2.mServiceNamesByServiceId = c.mServiceNamesByServiceId := by simp [addDBusActionTail]

@[simp] theorem addDBusActionTail_mPreferredServiceNameByServiceId (c : Core) (X : X11Shortcut) (used service path description sender : String) (xerror : Bool) :
    (addDBusActionTail c X used service path description sender xerror).2.mPreferredServiceNameByServiceId = c.mPreferredServiceNameByServiceId := by simp [addDBusActionTail]

@[simp] theorem addDBusActionTail_mServiceIdByServiceName (c : Core) (X : X11Shortcut) (used service path description sender : String) (xerror : Bool) :
    (addDBusActionTail c X used service path description sender xerror).2.mServiceIdByServiceName = c.mServiceIdByServiceName := by simp [addDBusActionTail]

@[simp] theorem moveToShortcut_mLastId (c : Core) (id : Nat) (old new : String) (action : BaseAction) :
    (moveToShortcut c id old new action).mLastId = c.mLastId := by simp [moveToShortcut]

@[simp] theorem moveToShortcut_mMultipleActionsBehaviour (c : Core) (id : Nat) (old new : String) (action : BaseAction) :
    (moveToShortcut c id old new action).mMultipleActionsBehaviour = c.mMultipleActionsBehaviour := by simp [moveToShortcut]

@[simp] theorem moveToShortcut_mSaveAllowed (c : Core) (id : Nat) (old new : String) (action : BaseAction) :
    (moveToShortcut c id old new action).mSaveAllowed = c.mSaveAllowed := by simp [moveToShortcut]

@[simp] theorem moveToShortcut_mNullActionById (c : Core) (id : Nat) (old new : String) (action : BaseAction) :
    (moveToShortcut c id old new action).mNullActionById = c.mNullActionById := by simp [moveToShortcut]

@[simp] theorem moveToShortcut_mShortcutByX11 (c : Core) (id : Nat) (old new : String) (action : BaseAction) :
    (moveToShortcut c id old new action).mShortcutByX11 = c.mShortcutByX11 := by simp [moveToShortcut]

@[simp] theorem moveToShortcut_mIdByDBusClient (c : Core) (id : Nat) (old new : String) (action : BaseAction) :
    (moveToShortcut c id old new action).mIdByDBusClient = c.mIdByDBusClient := by simp [moveToShortcut]

@[simp] theorem moveToShortcut_mDBusPathsByDBusService (c : Core) (id : Nat) (old new : String) (action : BaseAction) :
    (moveToShortcut c id old new action).mDBusPathsByDBusService = c.mDBusPathsByDBusService := by simp [moveToShortcut]

@[simp] theorem moveToShortcut_mServiceNamesByServiceId (c : Core) (id : Nat) (old new : String) (action : BaseAction) :
    (moveToShortcut c id old new action).mServiceNamesByServiceId = c.mServiceNamesByServiceId := by simp [moveToShortcut]

@[simp] theorem moveToShortcut_mPreferredServiceNameByServiceId (c : Core) (id : Nat) (old new : String) (action : BaseAction) :
    (moveToShortcut c id old new action).mPreferredServiceNameByServiceId = c.mPreferredServiceNameByServiceId := by simp [moveToShortcut]

@[simp] theorem moveToShortcut_mServiceIdByServiceName (c : Core) (id : Nat) (old new : String) (action : BaseAction) :
    (moveToShortcut c id old new action).mServiceIdByServiceName = c.mServiceIdByServiceName := by simp [moveToShortcut]

@[simp] theorem announceShortcutChanged_mLastId (c : Core) (new : String) (id : Nat) :
    (announceShortcutChanged c new id).mLastId = c.mLastId := by unfold announceShortcutChanged; split <;> rfl

@[simp] theorem announceShortcutChanged_mMultipleActionsBehaviour (c : Core) (new : String) (id : Nat) :
    (announceShortcutChanged c new id).mMultipleActionsBehaviour = c.mMultipleActionsBehaviour := by unfold announceShortcutChanged; split <;> rfl

@[simp] theorem announceShortcutChanged_mSaveAllowed (c : Core) (new : String) (id : Nat) :
    (announceShortcutChanged c new id).mSaveAllowed = c.mSaveAllowed := by unfold announceShortcutChanged; split <;> rfl

@[simp] theorem announceShortcutChanged_mShortcutAndActionById (c : Core) (new : String) (id : Nat) :
    (announceShortcutChanged c new id).mShortcutAndActionById = c.mShortcutAndActionById := by unfold announceShortcutChanged; split <;> rfl

@[simp] theorem announceShortcutChanged_mNullActionById (c : Core) (new : String) (id : Nat) :
    (announceShortcutChanged c new id).mNullActionById = c.mNullActionById := by unfold announceShortcutChanged; split <;> rfl

@[simp] theorem announceShortcutChanged_mIdsByShortcut (c : Core) (new : String) (id : Nat) :
    (announceShortcutChanged c new id).mIdsByShortcut = c.mIdsByShortcut := by unfold announceShortcutChanged; split <;> rfl

@[simp] theorem announceShortcutChanged_mX11ByShortcut (c : Core) (new : String) (id : Nat) :
    (announceShortcutChanged c new id).mX11ByShortcut = c.mX11ByShortcut := by unfold announceShortcutChanged; split <;> rfl

@[simp] theorem announceShortcutChanged_mShortcutByX11 (c : Core) (new : String) (id : Nat) :
    (announceShortcutChanged c new id).mShortcutByX11 = c.mShortcutByX11 := by unfold announceShortcutChanged; split <;> rfl

@[simp] theorem announceShortcutChanged_mIdByDBusClient (c : Core) (new : String) (id : Nat) :
    (announceShortcutChanged c new id).mIdByDBusClient = c.mIdByDBusClient := by unfold announceShortcutChanged; split <;> rfl

@[simp] theorem announceShortcutChanged_mDBusPathsByDBusService (c : Core) (new : String) (id : Nat) :
    (announceShortcutChanged c new id).mDBusPathsByDBusService = c.mDBusPathsByDBusService := by unfold announceShortcutChanged; split <;> rfl

@[simp] theorem announceShortcutChanged_mServiceNamesByServiceId (c : Core) (new : String) (id : Nat) :
    (announceShortcutChanged c new id).mServiceNamesByServiceId = c.mServiceNamesByServiceId := by unfold announceShortcutChanged; split <;> rfl

@[simp] theorem announceShortcutChanged_mPreferredServiceNameByServiceId (c : Core) (new : String) (id : Nat) :
    (announceShortcutChanged c new id).mPreferredServiceNameByServiceId = c.mPreferredServiceNameByServiceId := by unfold announceShortcutChanged; split <;> rfl

@[simp] theorem announceShortcutChanged_mServiceIdByServiceName (c : Core) (new : String) (id : Nat) :
    (announceShortcutChanged c new id).mServiceIdByServiceName = c.mServiceIdByServiceName := by unfold announceShortcutChanged; split <;> rfl

@[simp] theorem announceShortcutChanged_xGrabs (c : Core) (new : String) (id : Nat) :
    (announceShortcutChanged c new id).xGrabs = c.xGrabs := by unfold announceShortcutChanged; split <;> rfl

@[simp] theorem rememberDBusPath_mLastId (c : Core) (service path : String) :
    (rememberDBusPath c service path).mLastId = c.mLastId := by unfold rememberDBusPath; split <;> rfl

@[simp] theorem rememberDBusPath_mMultipleActionsBehaviour (c : Core) (service path : String) :
    (rememberDBusPath c service path).mMultipleActionsBehaviour = c.mMultipleActionsBehaviour := by unfold rememberDBusPath; split <;> rfl

@[simp] theorem rememberDBusPath_mSaveAllowed (c : Core) (service path : String) :
    (rememberDBusPath c service path).mSaveAllowed = c.mSaveAllowed := by unfold rememberDBusPath; split <;> rfl

@[simp] theorem rememberDBusPath_mShortcutAndActionById (c : Core) (service path : String) :
    (rememberDBusPath c service path).mShortcutAndActionById = c.mShortcutAndActionById := by unfold rememberDBusPath; split <;> rfl

@[simp] theorem rememberDBusPath_mNullActionById (c : Core) (service path : String) :
    (rememberDBusPath c service path).mNullActionById = c.mNullActionById := by unfold rememberDBusPath; split <;> rfl

@[simp] theorem rememberDBusPath_mIdsByShortcut (c : Core) (service path : String) :
    (rememberDBusPath c service path).mIdsByShortcut = c.mIdsByShortcut := by unfold rememberDBusPath; split <;> rfl

@[simp] theorem rememberDBusPath_mX11ByShortcut (c : Core) (service path : String) :
    (rememberDBusPath c service path).mX11ByShortcut = c.mX11ByShortcut := by unfold rememberDBusPath; split <;> rfl

@[simp] theorem rememberDBusPath_mShortcutByX11 (c : Core) (service path : String) :
    (rememberDBusPath c service path).mShortcutByX11 = c.mShortcutByX11 := by unfold rememberDBusPath; split <;> rfl

@[simp] theorem rememberDBusPath_mIdByDBusClient (c : Core) (service path : String) :
    (rememberDBusPath c service path).mIdByDBusClient = c.mIdByDBusClient := by unfold rememberDBusPath; split <;> rfl

@[simp] theorem rememberDBusPath_mServiceNamesByServiceId (c : Core) (service path : String) :
    (rememberDBusPath c service path).mServiceNamesByServiceId = c.mServiceNamesByServiceId := by unfold rememberDBusPath; split <;> rfl

@[simp] theorem rememberDBusPath_mPreferredServiceNameByServiceId (c : Core) (service path : String) :
    (rememberDBusPath c service path).mPreferredServiceNameByServiceId = c.mPreferredServiceNameByServiceId := by unfold rememberDBusPath; split <;> rfl

@[simp] theorem rememberDBusPath_mServiceIdByServiceName (c : Core) (service path : String) :
    (rememberDBusPath c service path).mServiceIdByServiceName = c.mServiceIdByServiceName := by unfold rememberDBusPath; split <;> rfl

@[simp] theorem rememberDBusPath_xGrabs (c : Core) (service path : String) :
    (rememberDBusPath c service path).xGrabs = c.xGrabs := by unfold rememberDBusPath; split <;> rfl

@[simp] theorem rememberDBusPath_effects (c : Core) (service path : String) :
    (rememberDBusPath c service path).effects = c.effects := by unfold rememberDBusPath; split <;> rfl

@[simp] theorem forgetDBusPath_mLastId (c : Core) (service path : String) (paths : QSet String) :
    (forgetDBusPath c service path paths).mLastId = c.mLastId := by unfold forgetDBusPath; dsimp only; split <;> rfl

@[simp] theorem forgetDBusPath_mMultipleActionsBehaviour (c : Core) (service path : String) (paths : QSet String) :
    (forgetDBusPath c service path paths).mMultipleActionsBehaviour = c.mMultipleActionsBehaviour := by unfold forgetDBusPath; dsimp only; split <;> rfl

@[simp] theorem forgetDBusPath_mSaveAllowed (c : Core) (service path : String) (paths : QSet String) :
    (forgetDBusPath c service path paths).mSaveAllowed = c.mSaveAllowed := by unfold forgetDBusPath; dsimp only; split <;> rfl

@[simp] theorem forgetDBusPath_mShortcutAndActionById (c : Core) (service path : String) (paths : QSet String) :
    (forgetDBusPath c service path paths).mShortcutAndActionById = c.mShortcutAndActionById := by unfold forgetDBusPath; dsimp only; split <;> rfl

@[simp] theorem forgetDBusPath_mNullActionById (c : Core) (service path : String) (paths : QSet String) :
    (forgetDBusPath c service path paths).mNullActionById = c.mNullActionById := by unfold forgetDBusPath; dsimp only; split <;> rfl

@[simp] theorem forgetDBusPath_mIdsByShortcut (c : Core) (service path : String) (paths : QSet String) :
    (forgetDBusPath c service path paths).mIdsByShortcut = c.mIdsByShortcut := by unfold forgetDBusPath; dsimp only; split <;> rfl

@[simp] theorem forgetDBusPath_mX11ByShortcut (c : Core) (service path : String) (paths : QSet String) :
    (forgetDBusPath c service path paths).mX11ByShortcut = c.mX11ByShortcut := by unfold forgetDBusPath; dsimp only; split <;> rfl

@[simp] theorem forgetDBusPath_mShortcutByX11 (c : Core) (service path : String) (paths : QSet String) :
    (forgetDBusPath c service path paths).mShortcutByX11 = c.mShortcutByX11 := by unfold forgetDBusPath; dsimp only; split <;> rfl

@[simp] theorem forgetDBusPath_mIdByDBusClient (c : Core) (service path : String) (paths : QSet String) :
    (forgetDBusPath c service path paths).mIdByDBusClient = c.mIdByDBusClient := by unfold forgetDBusPath; dsimp only; split <;> rfl

@[simp] theorem forgetDBusPath_mServiceNamesByServiceId (c : Core) (service path : String) (paths : QSet String) :
    (forgetDBusPath c service path paths).mServiceNamesByServiceId = c.mServiceNamesByServiceId := by unfold forgetDBusPath; dsimp only; split <;> rfl

@[simp] theorem forgetDBusPath_mPreferredServiceNameByServiceId (c : Core) (service path : String) (paths : QSet String) :
    (forgetDBusPath c service path paths).mPreferredServiceNameByServiceId = c.mPreferredServiceNameByServiceId := by unfold forgetDBusPath; dsimp only; split <;> rfl

@[simp] theorem forgetDBusPath_mServiceIdByServiceName (c : Core) (service path : String) (paths : QSet String) :
    (forgetDBusPath c service path paths).mServiceIdByServiceName = c.mServiceIdByServiceName := by unfold forgetDBusPath; dsimp only; split <;> rfl

@[simp] theorem forgetDBusPath_xGrabs (c : Core) (service path : String) (paths : QSet String) :
    (forgetDBusPath c service path paths).xGrabs = c.xGrabs := by unfold forgetDBusPath; dsimp only; split <;> rfl

@[simp] theorem forgetDBusPath_effects (c : Core) (service path : String) (paths : QSet String) :
    (forgetDBusPath c service path paths).effects = c.effects := by unfold forgetDBusPath; dsimp only; split <;> rfl

@[simp] theorem forgetServiceName_mLastId (c : Core) (service id : String) :
    (forgetServiceName c service id).mLastId = c.mLastId := by unfold forgetServiceName; split <;> [rfl; (dsimp only; repeat' split) <;> rfl]

@[simp] theorem forgetServiceName_mMultipleActionsBehaviour (c : Core) (service id : String) :
    (forgetServiceName c service id).mMultipleActionsBehaviour = c.mMultipleActionsBehaviour := by unfold forgetServiceName; split <;> [rfl; (dsimp only; repeat' split) <;> rfl]

@[simp] theorem forgetServiceName_mSaveAllowed (c : Core) (service id : String) :
    (forgetServiceName c service id).mSaveAllowed = c.mSaveAllowed := by unfold forgetServiceName; split <;> [rfl; (dsimp only; repeat' split) <;> rfl]

@[simp] theorem forgetServiceName_mShortcutAndActionById (c : Core) (service id : String) :
    (forgetServiceName c service id).mShortcutAndActionById = c.mShortcutAndActionById := by unfold forgetServiceName; split <;> [rfl; (dsimp only; repeat' split) <;> rfl]

@[simp] theorem forgetServiceName_mNullActionById (c : Core) (service id : String) :
    (forgetServiceName c service id).mNullActionById = c.mNullActionById := by unfold forgetServiceName; split <;> [rfl; (dsimp only; repeat' split) <;> rfl]

@[simp] theorem forgetServiceName_mIdsByShortcut (c : Core) (service id : String) :
    (forgetServiceName c service id).mIdsByShortcut = c.mIdsByShortcut := by unfold forgetServiceName; split <;> [rfl; (dsimp only; repeat' split) <;> rfl]

@[simp] theorem forgetServiceName_mX11ByShortcut (c : Core) (service id : String) :
    (forgetServiceName c service id).mX11ByShortcut = c.mX11ByShortcut := by unfold forgetServiceName; split <;> [rfl; (dsimp only; repeat' split) <;> rfl]

@[simp] theorem forgetServiceName_mShortcutByX11 (c : Core) (service id : String) :
    (forgetServiceName c service id).mShortcutByX11 = c.mShortcutByX11 := by unfold forgetServiceName; split <;> [rfl; (dsimp only; repeat' split) <;> rfl]

@[simp] theorem forgetServiceName_mIdByDBusClient (c : Core) (service id : String) :
    (forgetServiceName c service id).mIdByDBusClient = c.mIdByDBusClient := by unfold forgetServiceName; split <;> [rfl; (dsimp only; repeat' split) <;> rfl]

@[simp] theorem forgetServiceName_mDBusPathsByDBusService (c : Core) (service id : String) :
    (forgetServiceName c service id).mDBusPathsByDBusService = c.mDBusPathsByDBusService := by unfold forgetServiceName; split <;> [rfl; (dsimp only; repeat' split) <;> rfl]

@[simp] theorem forgetServiceName_xGrabs (c : Core) (service id : String) :
    (forgetServiceName c service id).xGrabs = c.xGrabs := by unfold forgetServiceName; split <;> [rfl; (dsimp only; repeat' split) <;> rfl]

@[simp] theorem forgetServiceName_effects (c : Core) (service id : String) :
    (forgetServiceName c service id).effects = c.effects := by unfold forgetServiceName; split <;> [rfl; (dsimp only; repeat' split) <;> rfl]

/-! ## What the operations leave unchanged -/

theorem addMethodAction_mDBusPathsByDBusService (x : XServer) (c : Core) (shortcut service path interface method description : String) (xerror : Bool) :
    (addMethodAction x c shortcut service path interface method description xerror).2.mDBusPathsByDBusService = c.mDBusPathsByDBusService := by
  simp only [addMethodAction]
  repeat' split
  all_goals first | rfl | simp

theorem addMethodAction_mIdByDBusClient (x : XServer) (c : Core) (shortcut service path interface method description : String) (xerror : Bool) :
    (addMethodAction x c shortcut service path interface method description xerror).2.mIdByDBusClient = c.mIdByDBusClient := by
  simp only [addMethodAction]
  repeat' split
  all_goals first | rfl | simp

theorem addCommandAction_mDBusPathsByDBusService (x : XServer) (c : Core) (shortcut command : String) (arguments : List String) (description : String) (xerror : Bool) :
    (addCommandAction x c shortcut command arguments description xerror).2.mDBusPathsByDBusService = c.mDBusPathsByDBusService := by
  simp only [addCommandAction]
  repeat' split
  all_goals first | rfl | simp

theorem addCommandAction_mIdByDBusClient (x : XServer) (c : Core) (shortcut command : String) (arguments : List String) (description : String) (xerror : Bool) :
    (addCommandAction x c shortcut command arguments description xerror).2.mIdByDBusClient = c.mIdByDBusClient := by
  simp only [addCommandAction]
  repeat' split
  all_goals first | rfl | simp

theorem modifyActionDescription_mLastId (c : Core) (id : Nat) (description : String) :
    (modifyActionDescription c id description).2.mLastId = c.mLastId := by
  simp only [modifyActionDescription]
  repeat' split
  all_goals first | rfl | simp

theorem modifyActionDescription_mDBusPathsByDBusService (c : Core) (id : Nat) (description : String) :
    (modifyActionDescription c id description).2.mDBusPathsByDBusService = c.mDBusPathsByDBusService := by
  simp only [modifyActionDescription]
  repeat' split
  all_goals first | rfl | simp

theorem modifyActionDescription_mIdByDBusClient (c : Core) (id : Nat) (description : String) :
    (modifyActionDescription c id description).2.mIdByDBusClient = c.mIdByDBusClient := by
  simp only [modifyActionDescription]
  repeat' split
  all_goals first | rfl | simp

theorem modifyActionDescription_mShortcutByX11 (c : Core) (id : Nat) (description : String) :
    (modifyActionDescription c id description).2.mShortcutByX11 = c.mShortcutByX11 := by
  simp only [modifyActionDescription]
  repeat' split
  all_goals first | rfl | simp

theorem modifyActionDescription_mX11ByShortcut (c : Core) (id : Nat) (description : String) :
    (modifyActionDescription c id description).2.mX11ByShortcut = c.mX11ByShortcut := by
  simp only [modifyActionDescription]
  repeat' split
  all_goals first | rfl | simp

theorem modifyActionDescription_mIdsByShortcut (c : Core) (id : Nat) (description : String) :
    (modifyActionDescription c id description).2.mIdsByShortcut = c.mIdsByShortcut := by
  simp only [modifyActionDescription]
  repeat' split
  all_goals first | rfl | simp

theorem modifyActionDescription_xGrabs (c : Core) (id : Nat) (description : String) :
    (modifyActionDescription c id description).2.xGrabs = c.xGrabs := by
  simp only [modifyActionDescription]
  repeat' split
  all_goals first | rfl | simp

theorem modifyActionDescription_mNullActionById (c : Core) (id : Nat) (description : String) :
    (modifyActionDescription c id description).2.mNullActionById = c.mNullActionById := by
  simp only [modifyActionDescription]
  repeat' split
  all_goals first | rfl | simp

theorem modifyMethodAction_mLastId (c : Core) (id : Nat) (service path interface method description : String) :
    (modifyMethodAction c id service path interface method description).2.mLastId = c.mLastId := by
  simp only [modifyMethodAction]
  repeat' split
  all_goals first | rfl | simp

theorem modifyMethodAction_mDBusPathsByDBusService (c : Core) (id : Nat) (service path interface method description : String) :
    (modifyMethodAction c id service path interface method description).2.mDBusPathsByDBusService = c.mDBusPathsByDBusService := by
  simp only [modifyMethodAction]
  repeat' split
  all_goals first | rfl | simp

theorem modifyMethodAction_mIdByDBusClient (c : Core) (id : Nat) (service path interface method description : String) :
    (modifyMethodAction c id service path interface method description).2.mIdByDBusClient = c.mIdByDBusClient := by
  simp only [modifyMethodAction]
  repeat' split
  all_goals first | rfl | simp

theorem modifyMethodAction_mShortcutByX11 (c : Core) (id : Nat) (service path interface method description : String) :
    (modifyMethodAction c id service path interface method description).2.mShortcutByX11 = c.mShortcutByX11 := by
  simp only [modifyMethodAction]
  repeat' split
  all_goals first | rfl | simp

theorem modifyMethodAction_mX11ByShortcut (c : Core) (id : Nat) (service path interface method description : String) :
    (modifyMethodAction c id service path interface method description).2.mX11ByShortcut = c.mX11ByShortcut := by
  simp only [modifyMethodAction]
  repeat' split
  all_goals first | rfl | simp

theorem modifyMethodAction_mIdsByShortcut (c : Core) (id : Nat) (service path interface method description : String) :
    (modifyMethodAction c id service path interface method description).2.mIdsByShortcut = c.mIdsByShortcut := by
  simp only [modifyMethodAction]
  repeat' split
  all_goals first | rfl | simp

theorem modifyMethodAction_xGrabs (c : Core) (id : Nat) (service path interface method description : String) :
    (modifyMethodAction c id service path interface method description).2.xGrabs = c.xGrabs := by
  simp only [modifyMethodAction]
  repeat' split
  all_goals first | rfl | simp

theorem modifyMethodAction_mNullActionById (c : Core) (id : Nat) (service path interface method description : String) :
    (modifyMethodAction c id service path interface method description).2.mNullActionById = c.mNullActionById := by
  simp only [modifyMethodAction]
  repeat' split
  all_goals first | rfl | simp

theorem modifyCommandAction_mLastId (c : Core) (id : Nat) (command : String) (arguments : List String) (description : String) :
    (modifyCommandAction c id command arguments description).2.mLastId = c.mLastId := by
  simp only [modifyCommandAction]
  repeat' split
  all_goals first | rfl | simp

theorem modifyCommandAction_mDBusPathsByDBusService (c : Core) (id : Nat) (command : String) (arguments : List String) (description : String) :
    (modifyCommandAction c id command arguments description).2.mDBusPathsByDBusService = c.mDBusPathsByDBusService := by
  simp only [modifyCommandAction]
  repeat' split
  all_goals first | rfl | simp

theorem modifyCommandAction_mIdByDBusClient (c : Core) (id : Nat) (command : String) (arguments : List String) (description : String) :
    (modifyCommandAction c id command arguments description).2.mIdByDBusClient = c.mIdByDBusClient := by
  simp only [modifyCommandAction]
  repeat' split
  all_goals first | rfl | simp

theorem modifyCommandAction_mShortcutByX11 (c : Core) (id : Nat) (command : String) (arguments : List String) (description : String) :
    (modifyCommandAction c id command arguments description).2.mShortcutByX11 = c.mShortcutByX11 := by
  simp only [modifyCommandAction]
  repeat' split
  all_goals first | rfl | simp

theorem modifyCommandAction_mX11ByShortcut (c : Core) (id : Nat) (command : String) (arguments : List String) (description : String) :
    (modifyCommandAction c id command arguments description).2.mX11ByShortcut = c.mX11ByShortcut := by
  simp only [modifyCommandAction]
  repeat' split
  all_goals first | rfl | simp

theorem modifyCommandAction_mIdsByShortcut (c : Core) (id : Nat) (command : String) (arguments : List String) (description : String) :
    (modifyCommandAction c id command arguments description).2.mIdsByShortcut = c.mIdsByShortcut := by
  simp only [modifyCommandAction]
  repeat' split
  all_goals first | rfl | simp

theorem modifyCommandAction_xGrabs (c : Core) (id : Nat) (command : String) (arguments : List String) (description : String) :
    (modifyCommandAction c id command arguments description).2.xGrabs = c.xGrabs := by
  simp only [modifyCommandAction]
  repeat' split
  all_goals first | rfl | simp

theorem modifyCommandAction_mNullActionById (c : Core) (id : Nat) (command : String) (arguments : List String) (description : String) :
    (modifyCommandAction c id command arguments description).2.mNullActionById = c.mNullActionById := by
  simp only [modifyCommandAction]
  repeat' split
  all_goals first | rfl | simp

theorem changeShortcut_mLastId (x : XServer) (c : Core) (id : Nat) (shortcut : String) (xerror : Bool) :
    (changeShortcut x c id shortcut xerror).2.mLastId = c.mLastId := by
  simp only [changeShortcut]
  repeat' split
  all_goals first | rfl | simp

theorem changeShortcut_mDBusPathsByDBusService (x : XServer) (c : Core) (id : Nat) (shortcut : String) (xerror : Bool) :
    (changeShortcut x c id shortcut xerror).2.mDBusPathsByDBusService = c.mDBusPathsByDBusService := by
  simp only [changeShortcut]
  repeat' split
  all_goals first | rfl | simp

theorem changeShortcut_mIdByDBusClient (x : XServer) (c : Core) (id : Nat) (shortcut : String) (xerror : Bool) :
    (changeShortcut x c id shortcut xerror).2.mIdByDBusClient = c.mIdByDBusClient := by
  simp only [changeShortcut]
  repeat' split
  all_goals first | rfl | simp

theorem changeShortcut_mNullActionById (x : XServer) (c : Core) (id : Nat) (shortcut : String) (xerror : Bool) :
    (changeShortcut x c id shortcut xerror).2.mNullActionById = c.mNullActionById := by
  simp only [changeShortcut]
  repeat' split
  all_goals first | rfl | simp

theorem swapActions_mLastId (c : Core) (id1 id2 : Nat) :
    (swapActions c id1 id2).2.mLastId = c.mLastId := by
  simp only [swapActions]
  repeat' split
  all_goals first | rfl | simp

theorem swapActions_mDBusPathsByDBusService (c : Core) (id1 id2 : Nat) :
    (swapActions c id1 id2).2.mDBusPathsByDBusService = c.mDBusPathsByDBusService := by
  simp only [swapActions]
  repeat' split
  all_goals first | rfl | simp

theorem swapActions_mIdByDBusClient (c : Core) (id1 id2 : Nat) :
    (swapActions c id1 id2).2.mIdByDBusClient = c.mIdByDBusClient := by
  simp only [swapActions]
  repeat' split
  all_goals first | rfl | simp

theorem swapActions_mShortcutByX11 (c : Core) (id1 id2 : Nat) :
    (swapActions c id1 id2).2.mShortcutByX11 = c.mShortcutByX11 := by
  simp only [swapActions]
  repeat' split
  all_goals first | rfl | simp

theorem swapActions_mX11ByShortcut (c : Core) (id1 id2 : Nat) :
    (swapActions c id1 id2).2.mX11ByShortcut = c.mX11ByShortcut := by
  simp only [swapActions]
  repeat' split
  all_goals first | rfl | simp

theorem swapActions_mIdsByShortcut (c : Core) (id1 id2 : Nat) :
    (swapActions c id1 id2).2.mIdsByShortcut = c.mIdsByShortcut := by
  simp only [swapActions]
  repeat' split
  all_goals first | rfl | simp

theorem swapActions_xGrabs (c : Core) (id1 id2 : Nat) :
    (swapActions c id1 id2).2.xGrabs = c.xGrabs := by
  simp only [swapActions]
  repeat' split
  all_goals first | rfl | simp

theorem swapActions_mNullActionById (c : Core) (id1 id2 : Nat) :
    (swapActions c id1 id2).2.mNullActionById = c.mNullActionById := by
  simp only [swapActions]
  repeat' split
  all_goals first | rfl | simp

theorem removeAction_mLastId (c : Core) (id : Nat) :
    (removeAction c id).2.mLastId = c.mLastId := by
  simp only [removeAction]
  repeat' split
  all_goals first | rfl | simp

theorem removeAction_mDBusPathsByDBusService (c : Core) (id : Nat) :
    (removeAction c id).2.mDBusPathsByDBusService = c.mDBusPathsByDBusService := by
  simp only [removeAction]
  repeat' split
  all_goals first | rfl | simp

theorem removeAction_mIdByDBusClient (c : Core) (id : Nat) :
    (removeAction c id).2.mIdByDBusClient = c.mIdByDBusClient := by
  simp only [removeAction]
  repeat' split
  all_goals first | rfl | simp

theorem removeAction_mShortcutByX11 (c : Core) (id : Nat) :
    (removeAction c id).2.mShortcutByX11 = c.mShortcutByX11 := by
  simp only [removeAction]
  repeat' split
  all_goals first | rfl | simp

theorem removeAction_mNullActionById (c : Core) (id : Nat) :
    (removeAction c id).2.mNullActionById = c.mNullActionById := by
  simp only [removeAction]
  repeat' split
  all_goals first | rfl | simp

theorem modifyDBusAction_mLastId (c c1 : Core) (path description sender : String) (r : Nat)
    (h : modifyDBusAction c path description sender = some (r, c1)) : c1.mLastId = c.mLastId := by
  simp only [modifyDBusAction] at h
  repeat' split at h
  all_goals first | (cases h; done) | (cases h; first | rfl | simp)

theorem modifyDBusAction_mDBusPathsByDBusService (c c1 : Core) (path description sender : String) (r : Nat)
    (h : modifyDBusAction c path description sender = some (r, c1)) : c1.mDBusPathsByDBusService = c.mDBusPathsByDBusService := by
  simp only [modifyDBusAction] at h
  repeat' split at h
  all_goals first | (cases h; done) | (cases h; first | rfl | simp)

theorem modifyDBusAction_mIdByDBusClient (c c1 : Core) (path description sender : String) (r : Nat)
    (h : modifyDBusAction c path description sender = some (r, c1)) : c1.mIdByDBusClient = c.mIdByDBusClient := by
  simp only [modifyDBusAction] at h
  repeat' split at h
  all_goals first | (cases h; done) | (cases h; first | rfl | simp)

theorem modifyDBusAction_mShortcutByX11 (c c1 : Core) (path description sender : String) (r : Nat)
    (h : modifyDBusAction c path description sender = some (r, c1)) : c1.mShortcutByX11 = c.mShortcutByX11 := by
  simp only [modifyDBusAction] at h
  repeat' split at h
  all_goals first | (cases h; done) | (cases h; first | rfl | simp)

theorem modifyDBusAction_mX11ByShortcut (c c1 : Core) (path description sender : String) (r : Nat)
    (h : modifyDBusAction c path description sender = some (r, c1)) : c1.mX11ByShortcut = c.mX11ByShortcut := by
  simp only [modifyDBusAction] at h
  repeat' split at h
  all_goals first | (cases h; done) | (cases h; first | rfl | simp)

theorem modifyDBusAction_mIdsByShortcut (c c1 : Core) (path description sender : String) (r : Nat)
    (h : modifyDBusAction c path description sender = some (r, c1)) : c1.mIdsByShortcut = c.mIdsByShortcut := by
  simp only [modifyDBusAction] at h
  repeat' split at h
  all_goals first | (cases h; done) | (cases h; first | rfl | simp)

theorem modifyDBusAction_xGrabs (c c1 : Core) (path description sender : String) (r : Nat)
    (h : modifyDBusAction c path description sender = some (r, c1)) : c1.xGrabs = c.xGrabs := by
  simp only [modifyDBusAction] at h
  repeat' split at h
  all_goals first | (cases h; done) | (cases h; first | rfl | simp)

theorem modifyDBusAction_mNullActionById (c c1 : Core) (path description sender : String) (r : Nat)
    (h : modifyDBusAction c path description sender = some (r, c1)) : c1.mNullActionById = c.mNullActionById := by
  simp only [modifyDBusAction] at h
  repeat' split at h
  all_goals first | (cases h; done) | (cases h; first | rfl | simp)

theorem changeDBusShortcut_mLastId (x : XServer) (c c1 : Core) (path shortcut sender : String) (xerror : Bool) (r : String × Nat)
    (h : changeDBusShortcut x c path shortcut sender xerror = some (r, c1)) : c1.mLastId = c.mLastId := by
  simp only [changeDBusShortcut] at h
  repeat' split at h
  all_goals first | (cases h; done) | (cases h; first | rfl | simp)

theorem changeDBusShortcut_mDBusPathsByDBusService (x : XServer) (c c1 : Core) (path shortcut sender : String) (xerror : Bool) (r : String × Nat)
    (h : changeDBusShortcut x c path shortcut sender xerror = some (r, c1)) : c1.mDBusPathsByDBusService = c.mDBusPathsByDBusService := by
  simp only [changeDBusShortcut] at h
  repeat' split at h
  all_goals first | (cases h; done) | (cases h; first | rfl | simp)

theorem changeDBusShortcut_mIdByDBusClient (x : XServer) (c c1 : Core) (path shortcut sender : String) (xerror : Bool) (r : String × Nat)
    (h : changeDBusShortcut x c path shortcut sender xerror = some (r, c1)) : c1.mIdByDBusClient = c.mIdByDBusClient := by
  simp only [changeDBusShortcut] at h
  repeat' split at h
  all_goals first | (cases h; done) | (cases h; first | rfl | simp)

theorem changeDBusShortcut_mNullActionById (x : XServer) (c c1 : Core) (path shortcut sender : String) (xerror : Bool) (r : String × Nat)
    (h : changeDBusShortcut x c path shortcut sender xerror = some (r, c1)) : c1.mNullActionById = c.mNullActionById := by
  simp only [changeDBusShortcut] at h
  repeat' split at h
  all_goals first | (cases h; done) | (cases h; first | rfl | simp)

theorem removeDBusAction_mLastId (c c1 : Core) (path sender : String) (r : Nat)
    (h : removeDBusAction c path sender = some (r, c1)) : c1.mLastId = c.mLastId := by
  simp only [removeDBusAction, removeNullDBusAction] at h
  repeat' split at h
  all_goals first | (cases h; done) | (cases h; first | rfl | simp)

theorem removeDBusAction_mShortcutByX11 (c c1 : Core) (path sender : String) (r : Nat)
    (h : removeDBusAction c path sender = some (r, c1)) : c1.mShortcutByX11 = c.mShortcutByX11 := by
  simp only [removeDBusAction, removeNullDBusAction] at h
  repeat' split at h
  all_goals first | (cases h; done) | (cases h; first | rfl | simp)

theorem keyPressNormal_mLastId (c c1 : Core) (keycode state : Nat) (call : Nat → Bool)
    (h : keyPressNormal c keycode state call = some c1) : c1.mLastId = c.mLastId := by
  simp only [keyPressNormal] at h
  repeat' split at h
  all_goals first | (cases h; done) | (cases h; first | rfl | simp)

theorem keyPressNormal_mDBusPathsByDBusService (c c1 : Core) (keycode state : Nat) (call : Nat → Bool)
    (h : keyPressNormal c keycode state call = some c1) : c1.mDBusPathsByDBusService = c.mDBusPathsByDBusService := by
  simp only [keyPressNormal] at h
  repeat' split at h
  all_goals first | (cases h; done) | (cases h; first | rfl | simp)

theorem keyPressNormal_mIdByDBusClient (c c1 : Core) (keycode state : Nat) (call : Nat → Bool)
    (h : keyPressNormal c keycode state call = some c1) : c1.mIdByDBusClient = c.mIdByDBusClient := by
  simp only [keyPressNormal] at h
  repeat' split at h
  all_goals first | (cases h; done) | (cases h; first | rfl | simp)

theorem keyPressNormal_mX11ByShortcut (c c1 : Core) (keycode state : Nat) (call : Nat → Bool)
    (h : keyPressNormal c keycode state call = some c1) : c1.mX11ByShortcut = c.mX11ByShortcut := by
  simp only [keyPressNormal] at h
  repeat' split at h
  all_goals first | (cases h; done) | (cases h; first | rfl | simp)

theorem keyPressNormal_mIdsByShortcut (c c1 : Core) (keycode state : Nat) (call : Nat → Bool)
    (h : keyPressNormal c keycode state call = some c1) : c1.mIdsByShortcut = c.mIdsByShortcut := by
  simp only [keyPressNormal] at h
  repeat' split at h
  all_goals first | (cases h; done) | (cases h; first | rfl | simp)

theorem keyPressNormal_mShortcutAndActionById (c c1 : Core) (keycode state : Nat) (call : Nat → Bool)
    (h : keyPressNormal c keycode state call = some c1) : c1.mShortcutAndActionById = c.mShortcutAndActionById := by
  simp only [keyPressNormal] at h
  repeat' split at h
  all_goals first | (cases h; done) | (cases h; first | rfl | simp)

theorem keyPressNormal_xGrabs (c c1 : Core) (keycode state : Nat) (call : Nat → Bool)
    (h : keyPressNormal c keycode state call = some c1) : c1.xGrabs = c.xGrabs := by
  simp only [keyPressNormal] at h
  repeat' split at h
  all_goals first | (cases h; done) | (cases h; first | rfl | simp)

theorem keyPressNormal_mNullActionById (c c1 : Core) (keycode state : Nat) (call : Nat → Bool)
    (h : keyPressNormal c keycode state call = some c1) : c1.mNullActionById = c.mNullActionById := by
  simp only [keyPressNormal] at h
  repeat' split at h
  all_goals first | (cases h; done) | (cases h; first | rfl | simp)

/-! ## What the service tracker leaves unchanged -/

theorem serviceAppearedPath_shape (c c1 : Core) (id path : String)
    (h : serviceAppearedPath c id path = some c1) : ∃ eff, c1 = { c with effects := eff } := by
  unfold serviceAppearedPath at h
  repeat' split at h
  all_goals first | (cases h; done) | (cases h; exact ⟨_, rfl⟩)

theorem serviceAppearedLoop_shape (id : String) (paths : List String) (c c1 : Core)
    (h : serviceAppearedLoop id paths c = some c1) : ∃ eff, c1 = { c with effects := eff } := by
  induction paths generalizing c with
  | nil =>
    simp only [serviceAppearedLoop] at h
    cases h
    exact ⟨_, rfl⟩
  | cons path rest ih =>
    simp only [serviceAppearedLoop] at h
    split at h
    · cases h
    · rename_i c2 h2
      obtain ⟨eff, rfl⟩ := serviceAppearedPath_shape _ _ _ _ h2
      obtain ⟨eff1, rfl⟩ := ih _ h
      exact ⟨_, rfl⟩

theorem serviceAppeared_shape (c c1 : Core) (service id : String)
    (h : serviceAppeared c service id = some c1) :
    ∃ names preferred ids eff,
      c1 = { c with mServiceNamesByServiceId := names, mPreferredServiceNameByServiceId := preferred,
                    mServiceIdByServiceName := ids, effects := eff } := by
  unfold serviceAppeared at h
  split at h
  · dsimp only at h
    split at h
    · obtain ⟨eff, rfl⟩ := serviceAppearedLoop_shape _ _ _ _ h
      split <;> exact ⟨_, _, _, _, rfl⟩
    · cases h
      split <;> exact ⟨_, _, _, _, rfl⟩
  · cases h
    exact ⟨_, _, _, _, rfl⟩

theorem serviceDisappearedPath_shape (c c1 : Core) (service id path : String) (n n1 : Nat)
    (h : serviceDisappearedPath c service id path n = some (c1, n1)) :
    c1.mLastId = c.mLastId ∧ c1.mDBusPathsByDBusService = c.mDBusPathsByDBusService ∧
      c1.mShortcutByX11 = c.mShortcutByX11 := by
  simp only [serviceDisappearedPath, serviceDisappearedNull] at h
  repeat' split at h
  all_goals first | (cases h; done) | (cases h; simp)

theorem serviceDisappearedLoop_shape (service id : String) (paths : List String) (c c1 : Core)
    (n n1 : Nat) (h : serviceDisappearedLoop service id paths (c, n) = some (c1, n1)) :
    c1.mLastId = c.mLastId ∧ c1.mDBusPathsByDBusService = c.mDBusPathsByDBusService ∧
      c1.mShortcutByX11 = c.mShortcutByX11 := by
  induction paths generalizing c n with
  | nil =>
    simp only [serviceDisappearedLoop] at h
    cases h
    exact ⟨rfl, rfl, rfl⟩
  | cons path rest ih =>
    simp only [serviceDisappearedLoop] at h
    split at h
    · cases h
    · rename_i acc h2
      obtain ⟨c2, n2⟩ := acc
      obtain ⟨a1, a2, a3⟩ := serviceDisappearedPath_shape _ _ _ _ _ _ _ h2
      obtain ⟨b1, b2, b3⟩ := ih _ _ h
      exact ⟨b1.trans a1, b2.trans a2, b3.trans a3⟩

theorem serviceDisappeared_mLastId (c c1 : Core) (service id : String)
    (h : serviceDisappeared c service id = some c1) : c1.mLastId = c.mLastId := by
  unfold serviceDisappeared at h
  split at h
  · split at h
    · cases h
    · rename_i hl
      cases h
      have := (serviceDisappearedLoop_shape _ _ _ _ _ _ _ hl).1
      split <;> simpa using this
  · cases h
    simp

theorem serviceDisappeared_mShortcutByX11 (c c1 : Core) (service id : String)
    (h : serviceDisappeared c service id = some c1) : c1.mShortcutByX11 = c.mShortcutByX11 := by
  unfold serviceDisappeared at h
  split at h
  · split at h
    · cases h
    · rename_i hl
      cases h
      have := (serviceDisappearedLoop_shape _ _ _ _ _ _ _ hl).2.2
      split <;> simpa using this
  · cases h
    simp

/-! ## Registration followed by a query -/

theorem addActionTail_fst (c : Core) (X : X11Shortcut) (used : String) (action : BaseAction)
    (xerror : Bool) :
    (addActionTail c X used action xerror).1 =
      ((grabOrReuseKey c X used xerror).1, nextId (grabOrReuseKey c X used xerror).2) := by
  simp [addActionTail]

theorem addActionTail_store (c : Core) (X : X11Shortcut) (used : String) (action : BaseAction)
    (xerror : Bool) :
    (addActionTail c X used action xerror).2.mShortcutAndActionById =
      qset c.mShortcutAndActionById (nextId (grabOrReuseKey c X used xerror).2)
        ((grabOrReuseKey c X used xerror).1, action) := by
  simp [addActionTail]

theorem getActionById_of_find (j : List String → String → String → String → String) (c : Core)
    (id : Nat) (S : String) (action : BaseAction)
    (h : qfind c.mShortcutAndActionById id = some (S, action)) :
    (getActionById j c id).1 = true ∧ (getActionById j c id).2.shortcut = S ∧
      (getActionById j c id).2.type = action.type ∧
      (getActionById j c id).2.description = action.description ∧ id ∈ getAllActionIds c := by
  refine ⟨?_, ?_, ?_, ?_, ?_⟩
  · simp [getActionById, h]
  · simp [getActionById, h, actionInfo]
  · simp [getActionById, h, actionInfo]
  · simp [getActionById, h, actionInfo]
  · rw [getAllActionIds, (List.perm_insertionSort _ _).mem_iff, List.mem_append, mem_qkeys]
    exact Or.inl ⟨_, h⟩

theorem addActionTail_info (j : List String → String → String → String → String) (c c1 : Core)
    (X : X11Shortcut) (used S : String) (id : Nat) (action : BaseAction) (xerror : Bool)
    (h : addActionTail c X used action xerror = ((S, id), c1)) :
    (getActionById j c1 id).1 = true ∧ (getActionById j c1 id).2.shortcut = S ∧
      (getActionById j c1 id).2.type = action.type ∧
      (getActionById j c1 id).2.description = action.description ∧ id ∈ getAllActionIds c1 := by
  apply getActionById_of_find
  have h1 := addActionTail_fst c X used action xerror
  have h2 := addActionTail_store c X used action xerror
  rw [h] at h1 h2
  simp only [Prod.mk.injEq] at h1
  simp only at h2
  rw [h2, h1.1, h1.2]
  simp

/-- Claim C4. After a successful `register_command` or `register_method` (nonzero id, returned
shortcut `S`), `info(id)` finds the action, its record has shortcut `S`, the type "command"
resp. "method" and the description passed in, and `id` is in the list of `all_ids()`. -/
theorem register_then_info (j : List String → String → String → String → String) (x : XServer)
    (c c1 : Core) (shortcut S : String) (id : Nat) (xerror : Bool) (hid : id ≠ 0) :
    (∀ command arguments description,
      addCommandAction x c shortcut command arguments description xerror = ((S, id), c1) →
        (getActionById j c1 id).1 = true ∧ (getActionById j c1 id).2.shortcut = S ∧
        (getActionById j c1 id).2.type = "command" ∧
        (getActionById j c1 id).2.description = description ∧ id ∈ getAllActionIds c1) ∧
    (∀ service path interface method description,
      addMethodAction x c shortcut service path interface method description xerror = ((S, id), c1) →
        (getActionById j c1 id).1 = true ∧ (getActionById j c1 id).2.shortcut = S ∧
        (getActionById j c1 id).2.type = "method" ∧
        (getActionById j c1 id).2.description = description ∧ id ∈ getAllActionIds c1) := by
  constructor
  · intro command arguments description h
    unfold addCommandAction at h
    dsimp only at h
    split at h
    · simp only [Prod.mk.injEq] at h
      exact absurd h.1.2.symm hid
    · exact addActionTail_info j _ _ _ _ _ _ _ _ h
  · intro service path interface method description h
    unfold addMethodAction at h
    dsimp only at h
    split at h
    · simp only [Prod.mk.injEq] at h
      exact absurd h.1.2.symm hid
    · exact addActionTail_info j _ _ _ _ _ _ _ _ h

/-- Witness of `register_then_info`: a terminal command registered on a fresh daemon. -/
theorem register_then_info_witness :
    (1 ≠ 0) ∧
    (getActionById (fun _ _ _ _ => "")
      (addCommandAction keyboardTF1 (Core.fresh .first) "Control+Alt+T" "/usr/bin/xterm" []
        "terminal" false).2 1).2.type = "command" ∧
    1 ∈ getAllActionIds
      (addCommandAction keyboardTF1 (Core.fresh .first) "Control+Alt+T" "/usr/bin/xterm" []
        "terminal" false).2 :=
  have h := (register_then_info (fun _ _ _ _ => "") keyboardTF1 (Core.fresh .first)
    (addCommandAction keyboardTF1 (Core.fresh .first) "Control+Alt+T" "/usr/bin/xterm" []
      "terminal" false).2 "Control+Alt+T" "Alt+Control+T" 1 false (by decide)).1
    "/usr/bin/xterm" [] "terminal" (by decide)
  ⟨by decide, h.2.2.1, h.2.2.2.2⟩

/-! ## The two registration examples -/

theorem ShortcutToX11_AltControlF1 (x : XServer) (h : remoteStringToKeycode x "F1" ≠ 0) :
    ShortcutToX11 x "Alt+Control+F1" = some (remoteStringToKeycode x "F1", 12) := by
  have hs : split "Alt+Control+F1" '+' = ["Alt", "Control", "F1"] := by decide
  rw [ShortcutToX11_eq, hs]
  simp [h, isModifierName, modifierBit]

theorem ShortcutToX11_ControlAltT (x : XServer) (h : remoteStringToKeycode x "T" ≠ 0) :
    ShortcutToX11 x "Control+Alt+T" = some (remoteStringToKeycode x "T", 12) := by
  have hs : split "Control+Alt+T" '+' = ["Control", "Alt", "T"] := by decide
  rw [ShortcutToX11_eq, hs]
  simp [h, isModifierName, modifierBit]

theorem X11ToShortcut_AltControl (x : XServer) (k : Nat) (h : remoteKeycodeToString x k ≠ "") :
    X11ToShortcut x (k, 12) = some ("Alt+Control+" ++ remoteKeycodeToString x k) := by
  rw [X11ToShortcut_eq, if_neg h]
  rfl

theorem addActionCommon_fresh (x : XServer) (b : MultipleActionsBehaviour) (shortcut used : String)
    (X : X11Shortcut) (h1 : ShortcutToX11 x shortcut = some X) (h2 : X11ToShortcut x X = some used) :
    addActionCommon x (Core.fresh b) shortcut =
      (some (X, used),
        { Core.fresh b with mShortcutByX11 := [(X, used)], mX11ByShortcut := [(used, X)] }) := by
  simp [addActionCommon, h1, h2, Core.fresh, rememberX11, qset, qfind]

/-- A counterexample to claim C7 as stated: on a keyboard where `F1` and `T` resolve to nonzero
keycodes that map back to these names, `register_method("Alt+Control+F1", ...)` on a fresh daemon
returns "Alt+Control+F1", not "Control+Alt+F1", and `register_command("Control+Alt+T", ...)`
returns ("Alt+Control+T", 1). -/
theorem registration_examples_counterexample :
    remoteStringToKeycode keyboardTF1 "F1" = 67 ∧ remoteKeycodeToString keyboardTF1 67 = "F1" ∧
    remoteStringToKeycode keyboardTF1 "T" = 28 ∧ remoteKeycodeToString keyboardTF1 28 = "T" ∧
    (addMethodAction keyboardTF1 (Core.fresh .first) "Alt+Control+F1" "svc" "/path" "iface" "m" ""
      false).1 = ("Alt+Control+F1", 1) ∧
    (addMethodAction keyboardTF1 (Core.fresh .first) "Alt+Control+F1" "svc" "/path" "iface" "m" ""
      false).1.1 ≠ "Control+Alt+F1" ∧
    (addCommandAction keyboardTF1 (Core.fresh .first) "Control+Alt+T" "/usr/bin/xterm" []
      "terminal" false).1 = ("Alt+Control+T", 1) ∧
    (addCommandAction keyboardTF1 (Core.fresh .first) "Control+Alt+T" "/usr/bin/xterm" []
      "terminal" false).1 ≠ ("Control+Alt+T", 1) := by
  decide

/-- Claim C7, amended. On a keyboard where the key names `F1` and `T` resolve to nonzero keycodes
that map back to those names, and with the X server accepting the grab, a fresh daemon answers
`register_method("Alt+Control+F1", ...)` with the canonical shortcut "Alt+Control+F1" (Alt
precedes Control in the canonical order) and `register_command("Control+Alt+T", "/usr/bin/xterm",
[], "terminal")` with ("Alt+Control+T", 1). -/
theorem registration_examples (x : XServer) (b : MultipleActionsBehaviour)
    (service path interface method description : String)
    (hF1 : remoteStringToKeycode x "F1" ≠ 0)
    (hF1back : remoteKeycodeToString x (remoteStringToKeycode x "F1") = "F1")
    (hT : remoteStringToKeycode x "T" ≠ 0)
    (hTback : remoteKeycodeToString x (remoteStringToKeycode x "T") = "T") :
    (addMethodAction x (Core.fresh b) "Alt+Control+F1" service path interface method description
      false).1 = ("Alt+Control+F1", 1) ∧
    (addCommandAction x (Core.fresh b) "Control+Alt+T" "/usr/bin/xterm" [] "terminal" false).1 =
      ("Alt+Control+T", 1) := by
  have e1 := X11ToShortcut_AltControl x (remoteStringToKeycode x "F1") (by rw [hF1back]; decide)
  have e2 := X11ToShortcut_AltControl x (remoteStringToKeycode x "T") (by rw [hTback]; decide)
  rw [hF1back] at e1
  rw [hTback] at e2
  constructor
  · unfold addMethodAction
    rw [addActionCommon_fresh x b _ _ _ (ShortcutToX11_AltControlF1 x hF1) e1]
    simp [addActionTail_fst, grabOrReuseKey, remoteXGrabKey, nextId, Core.fresh]
  · unfold addCommandAction
    rw [addActionCommon_fresh x b _ _ _ (ShortcutToX11_ControlAltT x hT) e2]
    simp [addActionTail_fst, grabOrReuseKey, remoteXGrabKey, nextId, Core.fresh]

/-- Witness of `registration_examples`: the keyboard `keyboardTF1`. -/
theorem registration_examples_witness :
    (addMethodAction keyboardTF1 (Core.fresh .first) "Alt+Control+F1" "svc" "/path" "iface" "m" ""
      false).1 = ("Alt+Control+F1", 1) ∧
    (addCommandAction keyboardTF1 (Core.fresh .first) "Control+Alt+T" "/usr/bin/xterm" []
      "terminal" false).1 = ("Alt+Control+T", 1) :=
  registration_examples keyboardTF1 .first "svc" "/path" "iface" "m" "" (by decide) (by decide)
    (by decide) (by decide)

/-! ## Canonical shortcuts -/

theorem splitChars_of_not_mem (sep : Char) (a : List Char) (h : sep ∉ a) :
    splitChars sep a = [a] := by
  induction a with
  | nil => rfl
  | cons c cs ih =>
    have hc : ¬ c = sep := fun e => h (by simp [e])
    have hcs : sep ∉ cs := fun e => h (by simp [e])
    simp [splitChars, hc, ih hcs]

theorem splitChars_append (sep : Char) (a b : List Char) (h : sep ∉ a) :
    splitChars sep (a ++ sep :: b) = a :: splitChars sep b := by
  induction a with
  | nil => simp [splitChars]
  | cons c cs ih =>
    have hc : ¬ c = sep := fun e => h (by simp [e])
    have hcs : sep ∉ cs := fun e => h (by simp [e])
    simp [splitChars, hc, ih hcs]

theorem splitChars_flatten (sep : Char) (L : List (List Char)) (b : List Char)
    (hL : ∀ a ∈ L, sep ∉ a) (hb : sep ∉ b) :
    splitChars sep ((L.map (fun a => a ++ [sep])).flatten ++ b) = L ++ [b] := by
  induction L with
  | nil => simpa using splitChars_of_not_mem sep b hb
  | cons a t ih =>
    have ha : sep ∉ a := hL a (by simp)
    have ht : ∀ a ∈ t, sep ∉ a := fun a' h' => hL a' (by simp [h'])
    simp only [List.map_cons, List.flatten_cons, List.append_assoc, List.singleton_append,
      List.cons_append]
    rw [splitChars_append sep a _ ha, List.nil_append, ih ht]

theorem split_join_names (L : List String) (N : String) (hL : ∀ n ∈ L, '+' ∉ n.data)
    (hN : '+' ∉ N.data) :
    split (String.join (L.map (fun n => n ++ "+")) ++ N) '+' = L ++ [N] := by
  unfold split
  have hdata : (String.join (L.map (fun n => n ++ "+")) ++ N).data =
      ((L.map String.data).map (fun a => a ++ ['+'])).flatten ++ N.data := by
    simp [String.data_join, List.map_map, Function.comp_def]
  rw [hdata, splitChars_flatten '+' (L.map String.data) N.data _ hN]
  · simp [List.map_map, Function.comp_def]
  · intro a ha
    rw [List.mem_map] at ha
    obtain ⟨n, hn, rfl⟩ := ha
    exact hL n hn

theorem canonicalNames_mem (mask : Nat) (n : String) (h : n ∈ canonicalNames mask) :
    '+' ∉ n.data ∧ isModifierName n = true := by
  unfold canonicalNames at h
  rw [List.mem_map] at h
  obtain ⟨p, hp, rfl⟩ := h
  have hp' := (List.mem_filter.mp hp).1
  clear hp
  revert p
  decide

set_option maxRecDepth 100000 in
theorem canonicalNames_mask :
    ∀ mask < 256, mask &&& 0xED = mask →
      ((canonicalNames mask).map modifierBit).foldl (· ||| ·) 0 = mask := by
  decide

theorem ShortcutToX11_modifierText (x : XServer) (mask : Nat) (N : String)
    (hmask : mask &&& 0xED = mask) (hN : '+' ∉ N.data) (hk : remoteStringToKeycode x N ≠ 0) :
    ShortcutToX11 x (modifierText mask ++ N) = some (remoteStringToKeycode x N, mask) := by
  have hlt : mask < 256 := by
    rw [← hmask]
    exact Nat.and_lt_two_pow mask (by decide : 0xED < 2 ^ 8)
  rw [ShortcutToX11_eq]
  unfold modifierText
  rw [split_join_names _ _ (fun n hn => (canonicalNames_mem mask n hn).1) hN]
  have hall : (canonicalNames mask).all isModifierName = true := by
    rw [List.all_eq_true]
    exact fun n hn => (canonicalNames_mem mask n hn).2
  simp [hall, hk, canonicalNames_mask mask hlt hmask]

theorem canonical_fixed (x : XServer) (shortcut used : String) (X : X11Shortcut)
    (h1 : ShortcutToX11 x shortcut = some X) (h2 : X11ToShortcut x X = some used)
    (hplus : '+' ∉ (remoteKeycodeToString x X.1).data)
    (hback : remoteStringToKeycode x (remoteKeycodeToString x X.1) = X.1) :
    ShortcutToX11 x used = some X := by
  obtain ⟨_, _, hmask, hne⟩ := ShortcutToX11_eq_some x shortcut X h1
  obtain ⟨k, mask⟩ := X
  rw [X11ToShortcut_eq] at h2
  split_ifs at h2 with hempty
  cases h2
  rw [ShortcutToX11_modifierText x mask _ hmask hplus (by rw [hback]; exact hne), hback]

/-- A counterexample to claim C8 as stated: on the keyboard `keyboardRemapped` the canonical form
of "Multi_key" is "a" (keycode 66), and the canonical form of "a" is "A" (keycode 38), so
canonicalising twice does not give what canonicalising once gives. -/
theorem canonical_idempotent_counterexample :
    canonical keyboardRemapped "Multi_key" = some "a" ∧
    canonical keyboardRemapped "a" = some "A" ∧
    ShortcutToX11 keyboardRemapped "Multi_key" = some (66, 0) ∧
    ShortcutToX11 keyboardRemapped "a" = some (38, 0) := by
  decide

/-- Claim C8, amended. Let `canonical S = X11ToShortcut (ShortcutToX11 S)`. For every `S` on
which it succeeds with binding `X` and result `S1`, provided the name of the key of `X` contains
no `+` and resolves back to the keycode of `X`, `ShortcutToX11 S1` is `X` again and
`canonical S1 = S1`. -/
theorem canonical_idempotent (x : XServer) (shortcut used : String) (X : X11Shortcut)
    (h1 : ShortcutToX11 x shortcut = some X) (h2 : X11ToShortcut x X = some used)
    (hplus : '+' ∉ (remoteKeycodeToString x X.1).data)
    (hback : remoteStringToKeycode x (remoteKeycodeToString x X.1) = X.1) :
    canonical x shortcut = some used ∧ ShortcutToX11 x used = some X ∧
      canonical x used = some used := by
  have h3 := canonical_fixed x shortcut used X h1 h2 hplus hback
  refine ⟨?_, h3, ?_⟩
  · simp [canonical, h1, h2]
  · simp [canonical, h3, h2]

/-- Witness of `canonical_idempotent`: "Control+Alt+T" on the keyboard `keyboardTF1`. -/
theorem canonical_idempotent_witness :
    canonical keyboardTF1 "Control+Alt+T" = some "Alt+Control+T" ∧
    ShortcutToX11 keyboardTF1 "Alt+Control+T" = some (28, 12) ∧
    canonical keyboardTF1 "Alt+Control+T" = some "Alt+Control+T" :=
  canonical_idempotent keyboardTF1 "Control+Alt+T" "Alt+Control+T" (28, 12) (by decide)
    (by decide) (by decide) (by decide)

/-! ## Runs -/

theorem run_invariant (x : XServer) (P : Core → Prop) (Q : Op → Prop)
    (hstep : ∀ c op c1, Q op → P c → step x c op = some c1 → P c1) :
    ∀ (ops : List Op) (c c1 : Core), (∀ op ∈ ops, Q op) → P c → run x c ops = some c1 → P c1 := by
  intro ops
  induction ops with
  | nil =>
    intro c c1 _ hc h
    simp only [run] at h
    cases h
    exact hc
  | cons op rest ih =>
    intro c c1 hQ hc h
    simp only [run] at h
    split at h
    · cases h
    · rename_i c2 h2
      exact ih c2 c1 (fun o ho => hQ o (by simp [ho])) (hstep c op c2 (hQ op (by simp)) hc h2) h

/-! ## The paths recorded for a service -/

theorem PathsNonempty_of_eq (c c1 : Core)
    (h : c1.mDBusPathsByDBusService = c.mDBusPathsByDBusService) (hc : PathsNonempty c) :
    PathsNonempty c1 := by
  unfold PathsNonempty
  rw [h]
  exact hc

theorem PathsNonempty_qerase (c c1 : Core) (service : String)
    (h : c1.mDBusPathsByDBusService = qerase c.mDBusPathsByDBusService service)
    (hc : PathsNonempty c) : PathsNonempty c1 := by
  intro s ps hs
  rw [h, qfind_qerase] at hs
  split_ifs at hs
  exact hc s ps hs

theorem PathsNonempty_qset (c c1 : Core) (service : String) (paths : QSet String)
    (h : c1.mDBusPathsByDBusService = qset c.mDBusPathsByDBusService service paths)
    (hne : paths ≠ []) (hc : PathsNonempty c) : PathsNonempty c1 := by
  intro s ps hs
  rw [h, qfind_qset] at hs
  split_ifs at hs
  · cases hs; exact hne
  · exact hc s ps hs

theorem PathsNonempty_forgetDBusPath (c : Core) (service path : String) (paths : QSet String)
    (hc : PathsNonempty c) : PathsNonempty (forgetDBusPath c service path paths) := by
  unfold forgetDBusPath
  dsimp only
  split
  · exact PathsNonempty_qerase c _ service rfl hc
  · rename_i hne
    exact PathsNonempty_qset c _ service _ rfl hne hc

theorem PathsNonempty_rememberDBusPath (c : Core) (service path : String)
    (hc : PathsNonempty c) : PathsNonempty (rememberDBusPath c service path) := by
  unfold rememberDBusPath
  split
  · exact PathsNonempty_qset c _ service _ rfl (sinsert_ne_nil _ _) hc
  · exact PathsNonempty_qset c _ service _ rfl (sinsert_ne_nil _ _) hc

theorem PathsNonempty_addOrRegisterDBusAction (x : XServer) (c c1 : Core)
    (shortcut service path description sender : String) (xerror : Bool) (r : String × Nat)
    (hc : PathsNonempty c)
    (h : addOrRegisterDBusAction x c shortcut service path description sender xerror = some (r, c1)) :
    PathsNonempty c1 := by
  simp only [addOrRegisterDBusAction] at h
  repeat' split at h
  all_goals first | (cases h; done) | (obtain ⟨rfl, rfl⟩ := some_pair_eq h; first | exact hc | skip)
  · apply PathsNonempty_forgetDBusPath
    exact PathsNonempty_of_eq _ _ (by simp) (PathsNonempty_rememberDBusPath c service path hc)
  · exact PathsNonempty_of_eq _ _ (by simp) (PathsNonempty_rememberDBusPath c service path hc)

theorem PathsNonempty_removeDBusAction (c c1 : Core) (path sender : String) (r : Nat)
    (hc : PathsNonempty c) (h : removeDBusAction c path sender = some (r, c1)) :
    PathsNonempty c1 := by
  simp only [removeDBusAction, removeNullDBusAction] at h
  repeat' split at h
  all_goals first | (cases h; done) | (obtain ⟨rfl, rfl⟩ := some_pair_eq h; first | exact hc | skip)
  all_goals
    refine PathsNonempty_of_eq _ _ (notifyAdaptor_mDBusPathsByDBusService ..) ?_
    apply PathsNonempty_forgetDBusPath
    exact PathsNonempty_of_eq _ _ (by simp) hc

theorem PathsNonempty_serviceDisappeared (c c1 : Core) (service id : String)
    (hc : PathsNonempty c) (h : serviceDisappeared c service id = some c1) :
    PathsNonempty c1 := by
  unfold serviceDisappeared at h
  split at h
  · split at h
    · cases h
    · rename_i hl
      cases h
      have hp := (serviceDisappearedLoop_shape _ _ _ _ _ _ _ hl).2.1
      split
      · exact PathsNonempty_qerase c _ id (by simp [hp]) hc
      · exact PathsNonempty_of_eq _ _ (by simp [hp]) hc
  · cases h
    exact PathsNonempty_of_eq _ _ (by simp) hc

theorem PathsNonempty_step (x : XServer) (c c1 : Core) (op : Op) (hc : PathsNonempty c)
    (h : step x c op = some c1) : PathsNonempty c1 := by
  cases op with
  | addMethodAction shortcut service path interface method description xerror =>
    cases h
    exact PathsNonempty_of_eq _ _ (addMethodAction_mDBusPathsByDBusService ..) hc
  | addCommandAction shortcut command arguments description xerror =>
    cases h
    exact PathsNonempty_of_eq _ _ (addCommandAction_mDBusPathsByDBusService ..) hc
  | addDBusAction shortcut path description sender xerror =>
    simp only [step, addDBusAction, Option.map_eq_some'] at h
    obtain ⟨⟨r, c2⟩, h, rfl⟩ := h
    exact PathsNonempty_addOrRegisterDBusAction _ _ _ _ _ _ _ _ _ _ hc h
  | registerDBusAction shortcut service path description xerror =>
    simp only [step, registerDBusAction, Option.map_eq_some'] at h
    obtain ⟨⟨r, c2⟩, h, rfl⟩ := h
    split at h
    · cases h
    · rename_i h2
      cases h
      exact PathsNonempty_addOrRegisterDBusAction _ _ _ _ _ _ _ _ _ _ hc h2
  | modifyDBusAction path description sender =>
    simp only [step, Option.map_eq_some'] at h
    obtain ⟨⟨r, c2⟩, h, rfl⟩ := h
    exact PathsNonempty_of_eq _ _ (modifyDBusAction_mDBusPathsByDBusService _ _ _ _ _ _ h) hc
  | modifyActionDescription id description =>
    cases h
    exact PathsNonempty_of_eq _ _ (modifyActionDescription_mDBusPathsByDBusService ..) hc
  | modifyMethodAction id service path interface method description =>
    cases h
    exact PathsNonempty_of_eq _ _ (modifyMethodAction_mDBusPathsByDBusService ..) hc
  | modifyCommandAction id command arguments description =>
    cases h
    exact PathsNonempty_of_eq _ _ (modifyCommandAction_mDBusPathsByDBusService ..) hc
  | changeDBusShortcut path shortcut sender xerror =>
    simp only [step, Option.map_eq_some'] at h
    obtain ⟨⟨r, c2⟩, h, rfl⟩ := h
    exact PathsNonempty_of_eq _ _ (changeDBusShortcut_mDBusPathsByDBusService _ _ _ _ _ _ _ _ h) hc
  | changeShortcut id shortcut xerror =>
    cases h
    exact PathsNonempty_of_eq _ _ (changeShortcut_mDBusPathsByDBusService ..) hc
  | swapActions id1 id2 =>
    cases h
    exact PathsNonempty_of_eq _ _ (swapActions_mDBusPathsByDBusService ..) hc
  | removeDBusAction path sender =>
    simp only [step, Option.map_eq_some'] at h
    obtain ⟨⟨r, c2⟩, h, rfl⟩ := h
    exact PathsNonempty_removeDBusAction _ _ _ _ _ hc h
  | removeAction id =>
    cases h
    exact PathsNonempty_of_eq _ _ (removeAction_mDBusPathsByDBusService ..) hc
  | setMultipleActionsBehaviour behaviour =>
    cases h
    exact PathsNonempty_of_eq _ _ (by simp [setMultipleActionsBehaviour]) hc
  | serviceAppeared service id =>
    obtain ⟨_, _, _, _, rfl⟩ := serviceAppeared_shape _ _ _ _ h
    exact PathsNonempty_of_eq _ _ rfl hc
  | serviceDisappeared service id =>
    exact PathsNonempty_serviceDisappeared _ _ _ _ hc h
  | keyPress keycode state call =>
    exact PathsNonempty_of_eq _ _ (keyPressNormal_mDBusPathsByDBusService _ _ _ _ _ h) hc

theorem PathsNonempty_run (x : XServer) (b : MultipleActionsBehaviour) (ops : List Op) (c : Core)
    (h : run x (Core.fresh b) ops = some c) : PathsNonempty c := by
  refine run_invariant x PathsNonempty (fun _ => True) ?_ ops _ c (fun _ _ => trivial) ?_ h
  · intro c op c1 _ hc hs
    exact PathsNonempty_step x c c1 op hc hs
  · intro s ps hs
    simp [Core.fresh] at hs

/-! ## A shortcut with an unknown modifier -/

theorem qerase_append_single {κ ν : Type} [DecidableEq κ] (m : QMap κ ν) (k : κ) (v : ν)
    (h : qfind m k = none) : qerase (m ++ [(k, v)]) k = m := by
  induction m with
  | nil => simp [qerase]
  | cons e t ih =>
    obtain ⟨a, b⟩ := e
    by_cases h' : a = k
    · simp [qfind, h'] at h
    · simp [qfind, h'] at h
      simp [qerase, h', ih h]

theorem core_eq_of_paths (c : Core) (paths : QMap String (QSet String))
    (h : paths = c.mDBusPathsByDBusService) :
    { c with mDBusPathsByDBusService := paths } = c := by
  subst h
  rfl

theorem forget_remember (c : Core) (service path : String) (hc : PathsNonempty c)
    (hknown : dBusPathKnown c service path = false) :
    ∃ paths, qfind (rememberDBusPath c service path).mDBusPathsByDBusService service = some paths ∧
      forgetDBusPath (rememberDBusPath c service path) service path paths = c := by
  unfold dBusPathKnown at hknown
  unfold rememberDBusPath
  cases hf : qfind c.mDBusPathsByDBusService service with
  | none =>
    refine ⟨sinsert [] path, by simp, ?_⟩
    simp only [forgetDBusPath, sinsert, sremove, qset, hf]
    simp only [List.not_mem_nil, if_false, List.nil_append, List.filter, ne_eq, not_true,
      decide_False, if_true]
    exact core_eq_of_paths c _ (qerase_append_single _ _ _ hf)
  | some paths =>
    rw [hf] at hknown
    have hnot : path ∉ paths := by simpa using hknown
    have hne : paths ≠ [] := hc service paths hf
    refine ⟨sinsert paths path, by simp, ?_⟩
    have hrem : sremove (sinsert paths path) path = paths := by
      simp only [sinsert, hnot, if_false, sremove, List.filter_append, List.filter, ne_eq,
        not_true, decide_False, List.append_nil]
      exact sremove_of_not_mem paths path hnot
    simp only [forgetDBusPath, hrem, hne, if_false, qset, hf]
    have h2 : qfind (qreplace c.mDBusPathsByDBusService service (sinsert paths path)) service
        = some (sinsert paths path) := by
      simp [qfind_qreplace, hf]
    simp only [h2, qreplace_qreplace]
    exact core_eq_of_paths c _ (qreplace_self _ _ _ hf)

theorem addActionCommon_of_unknown_modifier (x : XServer) (c : Core) (shortcut : String)
    (hbad : ∃ seg ∈ (split shortcut '+').dropLast, isModifierName seg = false) :
    addActionCommon x c shortcut = (none, c) := by
  have h : ShortcutToX11 x shortcut = none :=
    (ShortcutToX11_eq_none_iff x shortcut).2 (Or.inl hbad)
  simp [addActionCommon, h]

theorem addOrRegisterDBusAction_of_unknown_modifier (x : XServer) (c : Core)
    (shortcut service path description sender : String) (xerror : Bool)
    (hbad : ∃ seg ∈ (split shortcut '+').dropLast, isModifierName seg = false)
    (hc : PathsNonempty c) :
    (dBusPathKnown c service path = false →
      addOrRegisterDBusAction x c shortcut service path description sender xerror
        = some (("", 0), c)) ∧
    (dBusPathKnown c service path = true →
      (qfind c.mIdByDBusClient (service, path) = none →
        addOrRegisterDBusAction x c shortcut service path description sender xerror
          = some (("", 0), c)) ∧
      (∀ id S action, qfind c.mIdByDBusClient (service, path) = some id →
        qfind c.mShortcutAndActionById id = some (S, action) →
        addOrRegisterDBusAction x c shortcut service path description sender xerror
          = some ((S, id), c)) ∧
      (∀ id S, qfind c.mIdByDBusClient (service, path) = some id →
        qfind c.mShortcutAndActionById id = none → qfind c.mNullActionById id = some S →
        addOrRegisterDBusAction x c shortcut service path description sender xerror
          = some ((S, id), c))) := by
  refine ⟨?_, ?_⟩
  · intro hknown
    obtain ⟨paths, hp, hf⟩ := forget_remember c service path hc hknown
    simp only [addOrRegisterDBusAction, hknown, addActionCommon_of_unknown_modifier x _ _ hbad,
      hp, hf]
    simp
  · intro hknown
    refine ⟨?_, ?_, ?_⟩
    · intro hcl
      simp only [addOrRegisterDBusAction, hknown, hcl, if_true]
    · intro id S action hcl hv
      simp only [addOrRegisterDBusAction, hknown, hcl, hv, if_true]
    · intro id S hcl hv hn
      simp only [addOrRegisterDBusAction, hknown, hcl, hv, hn, if_true]

/-- A counterexample to claim C10 as stated: once the peer ":1.42" has a binding for "/p",
`add_service_action("Bogus+T", "/p", ...)` by the same peer does not return ("", 0) but the
shortcut and id of the existing binding. -/
theorem unknown_modifier_counterexample :
    (∃ seg ∈ (split "Bogus+T" '+').dropLast, isModifierName seg = false) ∧
    (match run keyboardTF1 (Core.fresh .first) [Op.addDBusAction "Control+T" "/p" "" ":1.42" false] with
      | some c => (addDBusAction keyboardTF1 c "Bogus+T" "/p" "" ":1.42" false).map Prod.fst
      | none => none) = some ("Control+T", 1) := by
  refine ⟨⟨"Bogus", by decide, by decide⟩, by decide⟩

/-- Claim C10, amended. In every state the daemon can reach, for every shortcut string with a
modifier segment that is not one of the six tokens: `register_command` and `register_method`
return ("", 0), `change_shortcut` returns "", and `add_service_action` returns ("", 0) unless
the path is already registered for the service of the caller and the service-client index holds
an id for the pair; when it holds an id that is in the primary store, `add_service_action`
returns the stored shortcut and that id. In all these cases the state afterwards is exactly the
state before the call. -/
theorem unknown_modifier_rejected (x : XServer) (b : MultipleActionsBehaviour) (ops : List Op)
    (c : Core) (shortcut : String) (hrun : run x (Core.fresh b) ops = some c)
    (hbad : ∃ seg ∈ (split shortcut '+').dropLast, isModifierName seg = false) :
    (∀ command arguments description xerror,
      addCommandAction x c shortcut command arguments description xerror = (("", 0), c)) ∧
    (∀ service path interface method description xerror,
      addMethodAction x c shortcut service path interface method description xerror
        = (("", 0), c)) ∧
    (∀ id xerror, changeShortcut x c id shortcut xerror = ("", c)) ∧
    (∀ path description sender xerror,
      (dBusPathKnown c ((qfind c.mPreferredServiceNameByServiceId sender).getD sender) path = false →
        addDBusAction x c shortcut path description sender xerror = some (("", 0), c)) ∧
      (dBusPathKnown c ((qfind c.mPreferredServiceNameByServiceId sender).getD sender) path = true →
        (qfind c.mIdByDBusClient
            ((qfind c.mPreferredServiceNameByServiceId sender).getD sender, path) = none →
          addDBusAction x c shortcut path description sender xerror = some (("", 0), c)) ∧
        (∀ id S action, qfind c.mIdByDBusClient
            ((qfind c.mPreferredServiceNameByServiceId sender).getD sender, path) = some id →
          qfind c.mShortcutAndActionById id = some (S, action) →
          addDBusAction x c shortcut path description sender xerror = some ((S, id), c)) ∧
        (∀ id S, qfind c.mIdByDBusClient
            ((qfind c.mPreferredServiceNameByServiceId sender).getD sender, path) = some id →
          qfind c.mShortcutAndActionById id = none → qfind c.mNullActionById id = some S →
          addDBusAction x c shortcut path description sender xerror = some ((S, id), c)))) := by
  have hc := PathsNonempty_run x b ops c hrun
  refine ⟨?_, ?_, ?_, ?_⟩
  · intro command arguments description xerror
    simp [addCommandAction, addActionCommon_of_unknown_modifier x c shortcut hbad]
  · intro service path interface method description xerror
    simp [addMethodAction, addActionCommon_of_unknown_modifier x c shortcut hbad]
  · intro id xerror
    unfold changeShortcut
    split
    · rfl
    · simp [addActionCommon_of_unknown_modifier x c shortcut hbad]
  · intro path description sender xerror
    have hservice : addDBusAction x c shortcut path description sender xerror
        = addOrRegisterDBusAction x c shortcut
            ((qfind c.mPreferredServiceNameByServiceId sender).getD sender) path description
            sender xerror := by
      unfold addDBusAction
      cases qfind c.mPreferredServiceNameByServiceId sender <;> rfl
    rw [hservice]
    exact addOrRegisterDBusAction_of_unknown_modifier x c shortcut _ path description sender
      xerror hbad hc

/-- Witness of `unknown_modifier_rejected`: "Bogus+T" on a fresh daemon, and
`add_service_action("Bogus+T", "/p")` by the peer ":1.42" once it has a binding for "/p". -/
theorem unknown_modifier_rejected_witness :
    addCommandAction keyboardTF1 (Core.fresh .first) "Bogus+T" "/usr/bin/xterm" [] "" false
        = (("", 0), Core.fresh .first) ∧
    changeShortcut keyboardTF1 (Core.fresh .first) 1 "Bogus+T" false = ("", Core.fresh .first) ∧
    addDBusAction keyboardTF1 (Core.fresh .first) "Bogus+T" "/p" "" ":1.42" false
        = some (("", 0), Core.fresh .first) ∧
    addDBusAction keyboardTF1
        ((run keyboardTF1 (Core.fresh .first)
          [Op.addDBusAction "Control+T" "/p" "" ":1.42" false]).getD (Core.fresh .first))
        "Bogus+T" "/p" "" ":1.42" false
      = some (("Control+T", 1), (run keyboardTF1 (Core.fresh .first)
          [Op.addDBusAction "Control+T" "/p" "" ":1.42" false]).getD (Core.fresh .first)) :=
  have h := unknown_modifier_rejected keyboardTF1 .first [] (Core.fresh .first) "Bogus+T" rfl
    ⟨"Bogus", by decide, by decide⟩
  ⟨h.1 _ _ _ _, h.2.2.1 _ _, (h.2.2.2 "/p" "" ":1.42" false).1 (by decide),
    (((unknown_modifier_rejected keyboardTF1 .first
      [Op.addDBusAction "Control+T" "/p" "" ":1.42" false]
      ((run keyboardTF1 (Core.fresh .first)
        [Op.addDBusAction "Control+T" "/p" "" ":1.42" false]).getD (Core.fresh .first))
      "Bogus+T" (by decide) ⟨"Bogus", by decide, by decide⟩).2.2.2 "/p" "" ":1.42" false).2
      (by decide)).2.1 1 "Control+T" (BaseAction.dbus ":1.42" "/p" "" false true)
      (by decide) (by decide)⟩

/-! ## Membership in the dispatch index -/

@[simp] theorem IndexedIn_insertId (c : Core) (S S1 : String) (id id1 : Nat) :
    IndexedIn (insertId c S id).mIdsByShortcut S1 id1 ↔
      IndexedIn c.mIdsByShortcut S1 id1 ∨ (S1 = S ∧ id1 = id) := by
  unfold insertId IndexedIn
  by_cases hS : S = S1
  · subst hS
    cases hf : qfind c.mIdsByShortcut S with
    | none => simp [hf]
    | some ids => simp [hf]
  · have hS' : ¬ S1 = S := fun e => hS e.symm
    cases hf : qfind c.mIdsByShortcut S <;> simp [hf, hS, hS']

@[simp] theorem IndexedIn_releaseId (c : Core) (S S1 : String) (id id1 : Nat) (X : X11Shortcut) :
    IndexedIn (releaseId c S id X).mIdsByShortcut S1 id1 ↔
      IndexedIn c.mIdsByShortcut S1 id1 ∧ ¬ (S1 = S ∧ id1 = id) := by
  unfold releaseId IndexedIn
  by_cases hS : S = S1
  · subst hS
    cases hf : qfind c.mIdsByShortcut S with
    | none => simp [hf]
    | some ids =>
      dsimp only
      by_cases he : sremove ids id = []
      · simp only [he, if_true, remoteXUngrabKey_mIdsByShortcut, qfind_qerase]
        have : ∀ a ∈ ids, a = id := by
          intro a ha
          by_contra hne
          have : a ∈ sremove ids id := by simp [ha, hne]
          rw [he] at this
          simp at this
        simp
        intro hid1
        exact this id1 hid1
      · simp [he]
  · have hS' : ¬ S1 = S := fun e => hS e.symm
    cases hf : qfind c.mIdsByShortcut S with
    | none => simp [hf, hS']
    | some ids =>
      dsimp only
      by_cases he : sremove ids id = [] <;> simp [he, hS, hS']

@[simp] theorem IndexedIn_releaseOldShortcut (c : Core) (S S1 : String) (id id1 : Nat) :
    IndexedIn (releaseOldShortcut c S id).mIdsByShortcut S1 id1 ↔
      IndexedIn c.mIdsByShortcut S1 id1 ∧ ¬ (S1 = S ∧ id1 = id) := by
  have h : (releaseOldShortcut c S id).mIdsByShortcut = (releaseId c S id (0, 0)).mIdsByShortcut := by
    unfold releaseOldShortcut releaseId
    split
    · rfl
    · dsimp only
      split <;> simp
  rw [h, IndexedIn_releaseId]

/-! ## Every stored id is indexed -/

theorem StoreIndexed_of_eq (c c1 : Core)
    (h1 : c1.mShortcutAndActionById = c.mShortcutAndActionById)
    (h2 : c1.mIdsByShortcut = c.mIdsByShortcut) (hc : StoreIndexed c) : StoreIndexed c1 := by
  unfold StoreIndexed
  rw [h1, h2]
  exact hc

theorem StoreIndexed_add (c c1 : Core) (id : Nat) (new : String) (action : BaseAction)
    (hstore : c1.mShortcutAndActionById = qset c.mShortcutAndActionById id (new, action))
    (hindex : ∀ S1 id1, IndexedIn c1.mIdsByShortcut S1 id1 ↔
      IndexedIn c.mIdsByShortcut S1 id1 ∨ (S1 = new ∧ id1 = id))
    (hc : StoreIndexed c) : StoreIndexed c1 := by
  intro id1 S1 a1 hs
  rw [hstore, qfind_qset] at hs
  rw [hindex]
  split_ifs at hs with hid
  · cases hs
    exact Or.inr ⟨rfl, hid.symm⟩
  · exact Or.inl (hc id1 S1 a1 hs)

theorem StoreIndexed_move (c c1 : Core) (id : Nat) (old new : String) (action : BaseAction)
    (hstore : c1.mShortcutAndActionById = qset c.mShortcutAndActionById id (new, action))
    (hindex : ∀ S1 id1, IndexedIn c1.mIdsByShortcut S1 id1 ↔
      (IndexedIn c.mIdsByShortcut S1 id1 ∧ ¬ (S1 = old ∧ id1 = id)) ∨ (S1 = new ∧ id1 = id))
    (hc : StoreIndexed c) : StoreIndexed c1 := by
  intro id1 S1 a1 hs
  rw [hstore, qfind_qset] at hs
  rw [hindex]
  split_ifs at hs with hid
  · cases hs
    exact Or.inr ⟨rfl, hid.symm⟩
  · refine Or.inl ⟨hc id1 S1 a1 hs, ?_⟩
    rintro ⟨_, h2⟩
    exact hid h2.symm

theorem StoreIndexed_remove (c c1 : Core) (id : Nat) (S : String)
    (hstore : c1.mShortcutAndActionById = qerase c.mShortcutAndActionById id)
    (hindex : ∀ S1 id1, IndexedIn c1.mIdsByShortcut S1 id1 ↔
      IndexedIn c.mIdsByShortcut S1 id1 ∧ ¬ (S1 = S ∧ id1 = id))
    (hc : StoreIndexed c) : StoreIndexed c1 := by
  intro id1 S1 a1 hs
  rw [hstore, qfind_qerase] at hs
  rw [hindex]
  split_ifs at hs with hid
  refine ⟨hc id1 S1 a1 hs, ?_⟩
  rintro ⟨_, h2⟩
  exact hid h2.symm

theorem StoreIndexed_replace (c c1 : Core) (id : Nat) (S : String) (a a1 : BaseAction)
    (hf : qfind c.mShortcutAndActionById id = some (S, a))
    (hstore : c1.mShortcutAndActionById = qset c.mShortcutAndActionById id (S, a1))
    (hindex : c1.mIdsByShortcut = c.mIdsByShortcut)
    (hc : StoreIndexed c) : StoreIndexed c1 := by
  intro id1 S1 a2 hs
  rw [hstore, qfind_qset] at hs
  rw [hindex]
  split_ifs at hs with hid
  · cases hs
    subst hid
    exact hc _ _ _ hf
  · exact hc _ _ _ hs

theorem StoreIndexed_addMethodAction (x : XServer) (c : Core)
    (shortcut service path interface method description : String) (xerror : Bool)
    (hc : StoreIndexed c) :
    StoreIndexed (addMethodAction x c shortcut service path interface method description xerror).2 := by
  simp only [addMethodAction]
  split
  · exact StoreIndexed_of_eq c _ (by simp) (by simp) hc
  · rename_i X used _
    refine StoreIndexed_add c _
      (nextId (grabOrReuseKey (addActionCommon x c shortcut).2 X used xerror).2)
      (grabOrReuseKey (addActionCommon x c shortcut).2 X used xerror).1
      (BaseAction.method service path interface method description true) ?_ ?_ hc
    · simp [addActionTail]
    · intro S1 id1
      simp [addActionTail]

theorem StoreIndexed_addCommandAction (x : XServer) (c : Core) (shortcut command : String)
    (arguments : List String) (description : String) (xerror : Bool) (hc : StoreIndexed c) :
    StoreIndexed (addCommandAction x c shortcut command arguments description xerror).2 := by
  simp only [addCommandAction]
  split
  · exact StoreIndexed_of_eq c _ (by simp) (by simp) hc
  · rename_i X used _
    refine StoreIndexed_add c _
      (nextId (grabOrReuseKey (addActionCommon x c shortcut).2 X used xerror).2)
      (grabOrReuseKey (addActionCommon x c shortcut).2 X used xerror).1
      (BaseAction.command command arguments description true) ?_ ?_ hc
    · simp [addActionTail]
    · intro S1 id1
      simp [addActionTail]

theorem StoreIndexed_addOrRegisterDBusAction (x : XServer) (c c1 : Core)
    (shortcut service path description sender : String) (xerror : Bool) (r : String × Nat)
    (hc : StoreIndexed c)
    (h : addOrRegisterDBusAction x c shortcut service path description sender xerror = some (r, c1)) :
    StoreIndexed c1 := by
  simp only [addOrRegisterDBusAction] at h
  repeat' split at h
  all_goals first | (cases h; done) | (obtain ⟨rfl, rfl⟩ := some_pair_eq h; first | exact hc | skip)
  · exact StoreIndexed_of_eq c _ (by simp) (by simp) hc
  · rename_i X used _
    refine StoreIndexed_add c _
      (nextId (grabOrReuseKey (addActionCommon x (rememberDBusPath c service path) shortcut).2 X
        used xerror).2)
      (grabOrReuseKey (addActionCommon x (rememberDBusPath c service path) shortcut).2 X
        used xerror).1
      (if sender = "" then BaseAction.dbus service path description true true
        else BaseAction.dbus service path description (decide (service ≠ sender)) true) ?_ ?_ hc
    · simp [addDBusActionTail]
    · intro S1 id1
      simp [addDBusActionTail]

theorem StoreIndexed_modifyDBusAction (c c1 : Core) (path description sender : String) (r : Nat)
    (hc : StoreIndexed c) (h : modifyDBusAction c path description sender = some (r, c1)) :
    StoreIndexed c1 := by
  simp only [modifyDBusAction] at h
  repeat' split at h
  all_goals first | (cases h; done) | (obtain ⟨rfl, rfl⟩ := some_pair_eq h; first | exact hc | skip)
  rename_i S a _ hf
  refine StoreIndexed_replace c _ r S a (a.setDescription description) hf ?_ ?_ hc <;> simp

theorem StoreIndexed_modifyActionDescription (c : Core) (id : Nat) (description : String)
    (hc : StoreIndexed c) : StoreIndexed (modifyActionDescription c id description).2 := by
  simp only [modifyActionDescription]
  repeat' split
  all_goals first | exact hc | skip
  rename_i S a hf _
  refine StoreIndexed_replace c _ id S a (a.setDescription description) hf ?_ ?_ hc <;> simp

theorem StoreIndexed_modifyMethodAction (c : Core) (id : Nat)
    (service path interface method description : String) (hc : StoreIndexed c) :
    StoreIndexed (modifyMethodAction c id service path interface method description).2 := by
  simp only [modifyMethodAction]
  repeat' split
  all_goals first | exact hc | skip
  rename_i S a hf _
  refine StoreIndexed_replace c _ id S a
    (BaseAction.method service path interface method description true) hf ?_ ?_ hc <;> simp

theorem StoreIndexed_modifyCommandAction (c : Core) (id : Nat) (command : String)
    (arguments : List String) (description : String) (hc : StoreIndexed c) :
    StoreIndexed (modifyCommandAction c id command arguments description).2 := by
  simp only [modifyCommandAction]
  repeat' split
  all_goals first | exact hc | skip
  rename_i S a hf _
  refine StoreIndexed_replace c _ id S a
    (BaseAction.command command arguments description true) hf ?_ ?_ hc <;> simp

theorem StoreIndexed_swapActions (c : Core) (id1 id2 : Nat) (hc : StoreIndexed c) :
    StoreIndexed (swapActions c id1 id2).2 := by
  simp only [swapActions]
  repeat' split
  all_goals first | exact hc | skip
  rename_i S1 a1 hf1 _ S2 a2 hf2 hS
  intro id S a hs
  simp only [saveConfig_mShortcutAndActionById, saveConfig_mIdsByShortcut, qfind_qset] at hs ⊢
  split_ifs at hs with h2 h1
  · cases hs
    subst h2
    exact hc _ _ _ hf2
  · cases hs
    subst h1
    exact hc _ _ _ hf1
  · exact hc _ _ _ hs

theorem StoreIndexed_changeShortcut (x : XServer) (c : Core) (id : Nat) (shortcut : String)
    (xerror : Bool) (hc : StoreIndexed c) :
    StoreIndexed (changeShortcut x c id shortcut xerror).2 := by
  simp only [changeShortcut]
  repeat' split
  · exact hc
  · exact StoreIndexed_of_eq c _ (by simp) (by simp) hc
  · rename_i old action _ _ X used _ _ _
    refine StoreIndexed_move c _ id old
      (grabOrReuseKey (addActionCommon x c shortcut).2 X used xerror).1 action ?_ ?_ hc
    · simp [moveToShortcut]
    · intro S1 id1
      simp [moveToShortcut]
  · rename_i old action _ _ X used _ _ _
    refine StoreIndexed_move c _ id old
      (grabOrReuseKey (addActionCommon x c shortcut).2 X used xerror).1 action ?_ ?_ hc
    · simp [moveToShortcut]
    · intro S1 id1
      simp [moveToShortcut]
  · exact StoreIndexed_of_eq c _ (by simp) (by simp) hc

theorem StoreIndexed_changeDBusShortcut (x : XServer) (c c1 : Core) (path shortcut sender : String)
    (xerror : Bool) (r : String × Nat) (hc : StoreIndexed c)
    (h : changeDBusShortcut x c path shortcut sender xerror = some (r, c1)) :
    StoreIndexed c1 := by
  simp only [changeDBusShortcut] at h
  repeat' split at h
  all_goals first | (cases h; done) | (obtain ⟨rfl, rfl⟩ := some_pair_eq h; first | exact hc | skip)
  · exact StoreIndexed_of_eq c _ (by simp) (by simp) hc
  · exact StoreIndexed_of_eq c _ (by simp) (by simp) hc
  · rename_i id _ _ X used _ _ old action _ _ _
    refine StoreIndexed_move c _ id old
      (grabOrReuseKey (addActionCommon x c shortcut).2 X used xerror).1 action ?_ ?_ hc
    · simp [moveToShortcut]
    · intro S1 id1
      simp [moveToShortcut]
  · exact StoreIndexed_of_eq c _ (by simp) (by simp) hc

theorem StoreIndexed_removeAction (c : Core) (id : Nat) (hc : StoreIndexed c) :
    StoreIndexed (removeAction c id).2 := by
  simp only [removeAction]
  repeat' split
  · exact hc
  · exact hc
  · rename_i S action _ _
    refine StoreIndexed_remove c _ id S ?_ ?_ hc
    · simp
    · intro S1 id1
      simp

theorem StoreIndexed_removeDBusAction (c c1 : Core) (path sender : String) (r : Nat)
    (hc : StoreIndexed c) (h : removeDBusAction c path sender = some (r, c1)) :
    StoreIndexed c1 := by
  simp only [removeDBusAction, removeNullDBusAction] at h
  repeat' split at h
  all_goals first | (cases h; done) | (obtain ⟨rfl, rfl⟩ := some_pair_eq h; first | exact hc | skip)
  · rename_i _ _ _ S _ _ _ hf _ _
    refine StoreIndexed_remove c _ r S ?_ ?_ hc
    · simp [qerase_of_qfind_none _ _ hf]
    · intro S1 id1
      simp
  · rename_i S a _ paths _ hf hp
    refine StoreIndexed_remove c _ r S ?_ ?_ hc
    · simp
    · intro S1 id1
      simp

theorem StoreIndexed_serviceDisappearedPath (c c1 : Core) (id path : String) (n n1 : Nat)
    (hc : StoreIndexed c) (h : serviceDisappearedPath c id id path n = some (c1, n1)) :
    StoreIndexed c1 := by
  simp only [serviceDisappearedPath, serviceDisappearedNull, ne_eq, not_true_eq_false,
    if_false] at h
  repeat' split at h
  all_goals first | (cases h; done) | (obtain ⟨rfl, rfl⟩ := some_pair_eq h; first | exact hc | skip)
  · rename_i actionId _ _ hf _ S _
    refine StoreIndexed_remove c _ actionId S ?_ ?_ hc
    · simp [qerase_of_qfind_none _ _ hf]
    · intro S1 id1
      simp
  · rename_i actionId _ _ S action _
    refine StoreIndexed_remove c _ actionId S ?_ ?_ hc
    · simp
    · intro S1 id1
      simp

theorem StoreIndexed_serviceDisappearedLoop (id : String) (paths : List String) (c c1 : Core)
    (n n1 : Nat) (hc : StoreIndexed c)
    (h : serviceDisappearedLoop id id paths (c, n) = some (c1, n1)) : StoreIndexed c1 := by
  induction paths generalizing c n with
  | nil =>
    simp only [serviceDisappearedLoop] at h
    cases h
    exact hc
  | cons path rest ih =>
    simp only [serviceDisappearedLoop] at h
    split at h
    · cases h
    · rename_i acc h2
      obtain ⟨c2, n2⟩ := acc
      exact ih c2 n2 (StoreIndexed_serviceDisappearedPath _ _ _ _ _ _ hc h2) h

theorem StoreIndexed_serviceDisappeared (c c1 : Core) (id : String) (hc : StoreIndexed c)
    (h : serviceDisappeared c id id = some c1) : StoreIndexed c1 := by
  unfold serviceDisappeared at h
  split at h
  · split at h
    · cases h
    · rename_i hl
      cases h
      have h1 := StoreIndexed_serviceDisappearedLoop _ _ _ _ _ _ hc hl
      split
      · exact StoreIndexed_of_eq _ _ (by simp) (by simp) h1
      · exact StoreIndexed_of_eq _ _ (by simp) (by simp) h1
  · cases h
    exact StoreIndexed_of_eq _ _ (by simp) (by simp) hc

theorem StoreIndexed_step (x : XServer) (c c1 : Core) (op : Op)
    (hop : op.isAliasDisappeared = false) (hc : StoreIndexed c)
    (h : step x c op = some c1) : StoreIndexed c1 := by
  cases op with
  | addMethodAction shortcut service path interface method description xerror =>
    cases h
    exact StoreIndexed_addMethodAction _ _ _ _ _ _ _ _ _ hc
  | addCommandAction shortcut command arguments description xerror =>
    cases h
    exact StoreIndexed_addCommandAction _ _ _ _ _ _ _ hc
  | addDBusAction shortcut path description sender xerror =>
    simp only [step, addDBusAction, Option.map_eq_some'] at h
    obtain ⟨⟨r, c2⟩, h, rfl⟩ := h
    exact StoreIndexed_addOrRegisterDBusAction _ _ _ _ _ _ _ _ _ _ hc h
  | registerDBusAction shortcut service path description xerror =>
    simp only [step, registerDBusAction, Option.map_eq_some'] at h
    obtain ⟨⟨r, c2⟩, h, rfl⟩ := h
    split at h
    · cases h
    · rename_i h2
      cases h
      exact StoreIndexed_addOrRegisterDBusAction _ _ _ _ _ _ _ _ _ _ hc h2
  | modifyDBusAction path description sender =>
    simp only [step, Option.map_eq_some'] at h
    obtain ⟨⟨r, c2⟩, h, rfl⟩ := h
    exact StoreIndexed_modifyDBusAction _ _ _ _ _ _ hc h
  | modifyActionDescription id description =>
    cases h
    exact StoreIndexed_modifyActionDescription _ _ _ hc
  | modifyMethodAction id service path interface method description =>
    cases h
    exact StoreIndexed_modifyMethodAction _ _ _ _ _ _ _ hc
  | modifyCommandAction id command arguments description =>
    cases h
    exact StoreIndexed_modifyCommandAction _ _ _ _ _ hc
  | changeDBusShortcut path shortcut sender xerror =>
    simp only [step, Option.map_eq_some'] at h
    obtain ⟨⟨r, c2⟩, h, rfl⟩ := h
    exact StoreIndexed_changeDBusShortcut _ _ _ _ _ _ _ _ hc h
  | changeShortcut id shortcut xerror =>
    cases h
    exact StoreIndexed_changeShortcut _ _ _ _ _ hc
  | swapActions id1 id2 =>
    cases h
    exact StoreIndexed_swapActions _ _ _ hc
  | removeDBusAction path sender =>
    simp only [step, Option.map_eq_some'] at h
    obtain ⟨⟨r, c2⟩, h, rfl⟩ := h
    exact StoreIndexed_removeDBusAction _ _ _ _ _ hc h
  | removeAction id =>
    cases h
    exact StoreIndexed_removeAction _ _ hc
  | setMultipleActionsBehaviour behaviour =>
    cases h
    exact StoreIndexed_of_eq c _ (by simp [setMultipleActionsBehaviour])
      (by simp [setMultipleActionsBehaviour]) hc
  | serviceAppeared service id =>
    obtain ⟨_, _, _, _, rfl⟩ := serviceAppeared_shape _ _ _ _ h
    exact StoreIndexed_of_eq c _ rfl rfl hc
  | serviceDisappeared service id =>
    have hs : service = id := by simpa [Op.isAliasDisappeared] using hop
    subst hs
    exact StoreIndexed_serviceDisappeared _ _ _ hc h
  | keyPress keycode state call =>
    exact StoreIndexed_of_eq c _ (keyPressNormal_mShortcutAndActionById _ _ _ _ _ h)
      (keyPressNormal_mIdsByShortcut _ _ _ _ _ h) hc

theorem StoreIndexed_fresh (b : MultipleActionsBehaviour) : StoreIndexed (Core.fresh b) := by
  intro id S a hs
  simp [Core.fresh] at hs

/-- In every state reached from the empty registry by a sequence of requests none of which is
the disappearance of a name other than the unique name of its owner, every id that the primary
store holds with an action and with shortcut `S` has an entry for `S` in the dispatch index that
contains the id. -/
theorem StoreIndexed_run (x : XServer) (b : MultipleActionsBehaviour) (ops : List Op) (c : Core)
    (hrun : run x (Core.fresh b) ops = some c)
    (hops : ∀ op ∈ ops, op.isAliasDisappeared = false) : StoreIndexed c :=
  run_invariant x StoreIndexed (fun op => op.isAliasDisappeared = false)
    (fun c op c1 hop hc hs => StoreIndexed_step x c c1 op hop hc hs) ops _ c hops
    (StoreIndexed_fresh b) hrun

/-- Claim C1 (failing input), in two runs from the empty registry. (1) The peer ":1.42" adds
a service action for "Control+T" (id 1); the name "com.example.foo" of that peer appears and
disappears: id 1 is in the primary store with shortcut "Control+T", and the dispatch index has
no entry for "Control+T". It stays so when the name appears again. (2) The peer ":1.42" adds a
service action for "Control+T" under the path "/p" (id 1), a command is registered for
"Control+T" (id 2), the two are swapped and id 1, now the command, is removed; the peer then
adds a service action for "/p" again: the primary store gets the entry (1, ("", null)), which
the list of all ids shows, and the dispatch index has no entry for the shortcut "". -/
theorem stored_id_not_indexed :
    (run keyboardTF1 (Core.fresh .first)
        [Op.addDBusAction "Control+T" "/p" "d" ":1.42" false,
         Op.serviceAppeared "com.example.foo" ":1.42",
         Op.serviceDisappeared "com.example.foo" ":1.42"]).map
      (fun c => (c.mShortcutAndActionById, c.mIdsByShortcut))
      = some ([(1, ("Control+T", BaseAction.dbus ":1.42" "/p" "d" false true))], []) ∧
    (run keyboardTF1 (Core.fresh .first)
        [Op.addDBusAction "Control+T" "/p" "d" ":1.42" false,
         Op.serviceAppeared "com.example.foo" ":1.42",
         Op.serviceDisappeared "com.example.foo" ":1.42",
         Op.serviceAppeared "com.example.foo" ":1.42"]).map
      (fun c => (c.mShortcutAndActionById, c.mIdsByShortcut))
      = some ([(1, ("Control+T", BaseAction.dbus ":1.42" "/p" "d" false true))], []) ∧
    (run keyboardTF1 (Core.fresh .first)
        [Op.addDBusAction "Control+T" "/p" "d" ":1.42" false,
         Op.addCommandAction "Control+T" "/usr/bin/xterm" [] "terminal" false,
         Op.swapActions 1 2,
         Op.removeAction 1,
         Op.addDBusAction "Control+T" "/p" "d" ":1.42" false]).map
      (fun c => (c.mNullActionById, getAllActionIds c, c.mIdsByShortcut))
      = some ([(1, "")], [1, 2], [("Control+T", [2])]) :=
  ⟨by decide, by decide, by decide⟩

/-! ## Allocation of ids -/

theorem IdStep_of_eq (c c1 : Core) (h1 : c1.mLastId = c.mLastId)
    (h2 : c1.mShortcutAndActionById = c.mShortcutAndActionById) : IdStep c c1 := by
  left
  refine ⟨h1, ?_⟩
  intro id v hv
  rw [h2] at hv
  exact ⟨v, hv⟩

theorem IdStep_replace (c c1 : Core) (id : Nat) (v0 : String × BaseAction)
    (hf : qfind c.mShortcutAndActionById id = some v0) (h1 : c1.mLastId = c.mLastId)
    (hk : ∀ id1, id1 ≠ id →
      qfind c1.mShortcutAndActionById id1 = qfind c.mShortcutAndActionById id1) :
    IdStep c c1 := by
  left
  refine ⟨h1, ?_⟩
  intro id1 v hv
  by_cases hid : id1 = id
  · subst hid
    exact ⟨v0, hf⟩
  · rw [hk id1 hid] at hv
    exact ⟨v, hv⟩

theorem IdStep_erase (c c1 : Core) (h1 : c1.mLastId = c.mLastId)
    (hk : ∀ id1 v, qfind c1.mShortcutAndActionById id1 = some v →
      qfind c.mShortcutAndActionById id1 = some v) : IdStep c c1 := by
  left
  exact ⟨h1, fun id1 v hv => ⟨v, hk id1 v hv⟩⟩

theorem IdStep_add (c c1 : Core) (h1 : c1.mLastId = nextId c)
    (hk : ∀ id1, id1 ≠ nextId c →
      qfind c1.mShortcutAndActionById id1 = qfind c.mShortcutAndActionById id1) :
    IdStep c c1 := by
  right
  refine ⟨h1, ?_⟩
  intro id1 v hv
  by_cases hid : id1 = nextId c
  · exact Or.inl hid
  · rw [hk id1 hid] at hv
    exact Or.inr ⟨v, hv⟩

theorem nextId_congr (c c1 : Core) (h : c1.mLastId = c.mLastId) : nextId c1 = nextId c := by
  simp [nextId, h]

theorem IdStep_addMethodAction (x : XServer) (c : Core)
    (shortcut service path interface method description : String) (xerror : Bool) :
    IdStep c (addMethodAction x c shortcut service path interface method description xerror).2 := by
  simp only [addMethodAction]
  split
  · exact IdStep_of_eq c _ (by simp) (by simp)
  · refine IdStep_add c _ ?_ ?_
    · simp [addActionTail, nextId]
    · intro id1 hid
      have hid' : ¬ (c.mLastId + 1) % 18446744073709551616 = id1 := fun e => hid (by simp [nextId, ← e])
      simp [addActionTail, nextId, hid']

theorem IdStep_addCommandAction (x : XServer) (c : Core) (shortcut command : String)
    (arguments : List String) (description : String) (xerror : Bool) :
    IdStep c (addCommandAction x c shortcut command arguments description xerror).2 := by
  simp only [addCommandAction]
  split
  · exact IdStep_of_eq c _ (by simp) (by simp)
  · refine IdStep_add c _ ?_ ?_
    · simp [addActionTail, nextId]
    · intro id1 hid
      have hid' : ¬ (c.mLastId + 1) % 18446744073709551616 = id1 := fun e => hid (by simp [nextId, ← e])
      simp [addActionTail, nextId, hid']

theorem IdStep_addOrRegisterDBusAction (x : XServer) (c c1 : Core)
    (shortcut service path description sender : String) (xerror : Bool) (r : String × Nat)
    (h : addOrRegisterDBusAction x c shortcut service path description sender xerror = some (r, c1)) :
    IdStep c c1 := by
  simp only [addOrRegisterDBusAction] at h
  repeat' split at h
  all_goals first | (cases h; done) | (obtain ⟨rfl, rfl⟩ := some_pair_eq h; skip)
  · exact IdStep_of_eq _ _ rfl rfl
  · exact IdStep_of_eq _ _ rfl rfl
  · exact IdStep_of_eq _ _ rfl rfl
  · exact IdStep_of_eq _ _ rfl rfl
  · exact IdStep_of_eq c _ (by simp) (by simp)
  · refine IdStep_add c _ ?_ ?_
    · simp [addDBusActionTail, nextId]
    · intro id1 hid
      have hid' : ¬ (c.mLastId + 1) % 18446744073709551616 = id1 := fun e => hid (by simp [nextId, ← e])
      simp [addDBusActionTail, nextId, hid']

theorem IdStep_modifyDBusAction (c c1 : Core) (path description sender : String) (r : Nat)
    (h : modifyDBusAction c path description sender = some (r, c1)) : IdStep c c1 := by
  simp only [modifyDBusAction] at h
  repeat' split at h
  all_goals first | (cases h; done) | (obtain ⟨rfl, rfl⟩ := some_pair_eq h; skip)
  · exact IdStep_of_eq _ _ rfl rfl
  · rename_i S a _ hf
    refine IdStep_replace c _ r (S, a) hf (by simp) ?_
    intro id1 hid
    have hid' : ¬ r = id1 := fun e => hid e.symm
    simp [hid']

theorem IdStep_modifyActionDescription (c : Core) (id : Nat) (description : String) :
    IdStep c (modifyActionDescription c id description).2 := by
  simp only [modifyActionDescription]
  repeat' split
  all_goals first | exact IdStep_of_eq _ _ rfl rfl | skip
  rename_i S a hf _
  refine IdStep_replace c _ id (S, a) hf (by simp) ?_
  intro id1 hid
  have hid' : ¬ id = id1 := fun e => hid e.symm
  simp [hid']

theorem IdStep_modifyMethodAction (c : Core) (id : Nat)
    (service path interface method description : String) :
    IdStep c (modifyMethodAction c id service path interface method description).2 := by
  simp only [modifyMethodAction]
  repeat' split
  all_goals first | exact IdStep_of_eq _ _ rfl rfl | skip
  rename_i S a hf _
  refine IdStep_replace c _ id (S, a) hf (by simp) ?_
  intro id1 hid
  have hid' : ¬ id = id1 := fun e => hid e.symm
  simp [hid']

theorem IdStep_modifyCommandAction (c : Core) (id : Nat) (command : String)
    (arguments : List String) (description : String) :
    IdStep c (modifyCommandAction c id command arguments description).2 := by
  simp only [modifyCommandAction]
  repeat' split
  all_goals first | exact IdStep_of_eq _ _ rfl rfl | skip
  rename_i S a hf _
  refine IdStep_replace c _ id (S, a) hf (by simp) ?_
  intro id1 hid
  have hid' : ¬ id = id1 := fun e => hid e.symm
  simp [hid']

theorem IdStep_swapActions (c : Core) (id1 id2 : Nat) : IdStep c (swapActions c id1 id2).2 := by
  simp only [swapActions]
  repeat' split
  all_goals first | exact IdStep_of_eq _ _ rfl rfl | skip
  rename_i S1 a1 hf1 _ S2 a2 hf2 hS
  left
  refine ⟨by simp, ?_⟩
  intro id v hv
  simp only [saveConfig_mShortcutAndActionById, qfind_qset] at hv
  split_ifs at hv with h2 h1
  · subst h2
    exact ⟨_, hf2⟩
  · subst h1
    exact ⟨_, hf1⟩
  · exact ⟨v, hv⟩

theorem IdStep_changeShortcut (x : XServer) (c : Core) (id : Nat) (shortcut : String)
    (xerror : Bool) : IdStep c (changeShortcut x c id shortcut xerror).2 := by
  simp only [changeShortcut]
  repeat' split
  · exact IdStep_of_eq _ _ rfl rfl
  · exact IdStep_of_eq c _ (by simp) (by simp)
  · rename_i old action hf _ X used _ _ _
    refine IdStep_replace c _ id (old, action) hf (by simp [moveToShortcut]) ?_
    intro id1 hid
    have hid' : ¬ id = id1 := fun e => hid e.symm
    simp [moveToShortcut, hid']
  · rename_i old action hf _ X used _ _ _
    refine IdStep_replace c _ id (old, action) hf (by simp [moveToShortcut]) ?_
    intro id1 hid
    have hid' : ¬ id = id1 := fun e => hid e.symm
    simp [moveToShortcut, hid']
  · exact IdStep_of_eq c _ (by simp) (by simp)

theorem IdStep_changeDBusShortcut (x : XServer) (c c1 : Core) (path shortcut sender : String)
    (xerror : Bool) (r : String × Nat)
    (h : changeDBusShortcut x c path shortcut sender xerror = some (r, c1)) : IdStep c c1 := by
  simp only [changeDBusShortcut] at h
  repeat' split at h
  all_goals first | (cases h; done) | (obtain ⟨rfl, rfl⟩ := some_pair_eq h; skip)
  · exact IdStep_of_eq _ _ rfl rfl
  · exact IdStep_of_eq c _ (by simp) (by simp)
  · exact IdStep_of_eq c _ (by simp) (by simp)
  · rename_i id _ _ X used _ _ old action hf _ _
    refine IdStep_replace c _ id (old, action) (by simpa using hf) (by simp [moveToShortcut]) ?_
    intro id1 hid
    have hid' : ¬ id = id1 := fun e => hid e.symm
    simp [moveToShortcut, hid']
  · exact IdStep_of_eq c _ (by simp) (by simp)

theorem IdStep_removeAction (c : Core) (id : Nat) : IdStep c (removeAction c id).2 := by
  simp only [removeAction]
  repeat' split
  · exact IdStep_of_eq _ _ rfl rfl
  · exact IdStep_of_eq _ _ rfl rfl
  · refine IdStep_erase c _ (by simp) ?_
    intro id1 v hv
    simp only [saveConfig_mShortcutAndActionById, releaseId_mShortcutAndActionById,
      qfind_qerase, x11ByShortcutAt_mShortcutAndActionById] at hv
    split_ifs at hv
    exact hv

theorem IdStep_removeDBusAction (c c1 : Core) (path sender : String) (r : Nat)
    (h : removeDBusAction c path sender = some (r, c1)) : IdStep c c1 := by
  simp only [removeDBusAction, removeNullDBusAction] at h
  repeat' split at h
  all_goals first | (cases h; done) | (obtain ⟨rfl, rfl⟩ := some_pair_eq h; skip)
  · exact IdStep_of_eq _ _ rfl rfl
  · exact IdStep_of_eq c _ (by simp) (by simp)
  · refine IdStep_erase c _ (by simp) ?_
    intro id1 v hv
    simp only [notifyAdaptor_mShortcutAndActionById, forgetDBusPath_mShortcutAndActionById,
      releaseId_mShortcutAndActionById, qfind_qerase, x11ByShortcutAt_mShortcutAndActionById] at hv
    split_ifs at hv
    exact hv

theorem storeSub_serviceDisappearedPath (c c1 : Core) (service id path : String) (n n1 : Nat)
    (h : serviceDisappearedPath c service id path n = some (c1, n1)) :
    ∀ id1 v, qfind c1.mShortcutAndActionById id1 = some v →
      qfind c.mShortcutAndActionById id1 = some v := by
  simp only [serviceDisappearedPath, serviceDisappearedNull] at h
  repeat' split at h
  all_goals first | (cases h; done) | (obtain ⟨rfl, rfl⟩ := some_pair_eq h; skip)
  · exact fun _ _ hv => hv
  · exact fun _ _ hv => hv
  · intro id1 v hv
    simpa using hv
  · intro id1 v hv
    simpa using hv
  · intro id1 v hv
    simp only [releaseId_mShortcutAndActionById, qfind_qerase,
      x11ByShortcutAt_mShortcutAndActionById] at hv
    split_ifs at hv
    exact hv

theorem storeSub_serviceDisappearedLoop (service id : String) (paths : List String)
    (c c1 : Core) (n n1 : Nat)
    (h : serviceDisappearedLoop service id paths (c, n) = some (c1, n1)) :
    ∀ id1 v, qfind c1.mShortcutAndActionById id1 = some v →
      qfind c.mShortcutAndActionById id1 = some v := by
  induction paths generalizing c n with
  | nil =>
    simp only [serviceDisappearedLoop] at h
    cases h
    exact fun _ _ hv => hv
  | cons path rest ih =>
    simp only [serviceDisappearedLoop] at h
    split at h
    · cases h
    · rename_i acc h2
      obtain ⟨c2, n2⟩ := acc
      intro id1 v hv
      exact storeSub_serviceDisappearedPath _ _ _ _ _ _ _ h2 id1 v (ih _ _ h id1 v hv)

theorem IdStep_serviceDisappeared (c c1 : Core) (service id : String)
    (h : serviceDisappeared c service id = some c1) : IdStep c c1 := by
  refine IdStep_erase c c1 (serviceDisappeared_mLastId _ _ _ _ h) ?_
  unfold serviceDisappeared at h
  split at h
  · split at h
    · cases h
    · rename_i hl
      cases h
      have hs := storeSub_serviceDisappearedLoop _ _ _ _ _ _ _ hl
      intro id1 v hv
      rw [forgetServiceName_mShortcutAndActionById] at hv
      apply hs
      split at hv <;> simpa using hv
  · cases h
    intro id1 v hv
    rw [forgetServiceName_mShortcutAndActionById] at hv
    exact hv

theorem IdStep_step (x : XServer) (c c1 : Core) (op : Op) (h : step x c op = some c1) :
    IdStep c c1 := by
  cases op with
  | addMethodAction shortcut service path interface method description xerror =>
    cases h
    exact IdStep_addMethodAction _ _ _ _ _ _ _ _ _
  | addCommandAction shortcut command arguments description xerror =>
    cases h
    exact IdStep_addCommandAction _ _ _ _ _ _ _
  | addDBusAction shortcut path description sender xerror =>
    simp only [step, addDBusAction, Option.map_eq_some'] at h
    obtain ⟨⟨r, c2⟩, h, rfl⟩ := h
    exact IdStep_addOrRegisterDBusAction _ _ _ _ _ _ _ _ _ _ h
  | registerDBusAction shortcut service path description xerror =>
    simp only [step, registerDBusAction, Option.map_eq_some'] at h
    obtain ⟨⟨r, c2⟩, h, rfl⟩ := h
    split at h
    · cases h
    · rename_i h2
      cases h
      exact IdStep_addOrRegisterDBusAction _ _ _ _ _ _ _ _ _ _ h2
  | modifyDBusAction path description sender =>
    simp only [step, Option.map_eq_some'] at h
    obtain ⟨⟨r, c2⟩, h, rfl⟩ := h
    exact IdStep_modifyDBusAction _ _ _ _ _ _ h
  | modifyActionDescription id description =>
    cases h
    exact IdStep_modifyActionDescription _ _ _
  | modifyMethodAction id service path interface method description =>
    cases h
    exact IdStep_modifyMethodAction _ _ _ _ _ _ _
  | modifyCommandAction id command arguments description =>
    cases h
    exact IdStep_modifyCommandAction _ _ _ _ _
  | changeDBusShortcut path shortcut sender xerror =>
    simp only [step, Option.map_eq_some'] at h
    obtain ⟨⟨r, c2⟩, h, rfl⟩ := h
    exact IdStep_changeDBusShortcut _ _ _ _ _ _ _ _ h
  | changeShortcut id shortcut xerror =>
    cases h
    exact IdStep_changeShortcut _ _ _ _ _
  | swapActions id1 id2 =>
    cases h
    exact IdStep_swapActions _ _ _
  | removeDBusAction path sender =>
    simp only [step, Option.map_eq_some'] at h
    obtain ⟨⟨r, c2⟩, h, rfl⟩ := h
    exact IdStep_removeDBusAction _ _ _ _ _ h
  | removeAction id =>
    cases h
    exact IdStep_removeAction _ _
  | setMultipleActionsBehaviour behaviour =>
    cases h
    exact IdStep_of_eq c _ (by simp [setMultipleActionsBehaviour])
      (by simp [setMultipleActionsBehaviour])
  | serviceAppeared service id =>
    obtain ⟨_, _, _, _, rfl⟩ := serviceAppeared_shape _ _ _ _ h
    exact IdStep_of_eq c _ rfl rfl
  | serviceDisappeared service id =>
    exact IdStep_serviceDisappeared _ _ _ _ h
  | keyPress keycode state call =>
    exact IdStep_of_eq c _ (keyPressNormal_mLastId _ _ _ _ _ h)
      (keyPressNormal_mShortcutAndActionById _ _ _ _ _ h)

theorem allocations_length_le (x : XServer) :
    ∀ (ops : List Op) (c : Core), (allocations x c ops).length ≤ ops.length := by
  intro ops
  induction ops with
  | nil => intro c; simp [allocations]
  | cons op rest ih =>
    intro c
    simp only [allocations]
    split
    · simp
    · rename_i c1 _
      have := ih c1
      split <;> simp <;> omega

theorem allocations_append (x : XServer) :
    ∀ (pre post : List Op) (c c1 : Core), run x c pre = some c1 →
      allocations x c (pre ++ post) = allocations x c pre ++ allocations x c1 post := by
  intro pre
  induction pre with
  | nil =>
    intro post c c1 h
    simp only [run] at h
    cases h
    simp [allocations]
  | cons op rest ih =>
    intro post c c1 h
    simp only [run] at h
    split at h
    · cases h
    · rename_i c2 h2
      have hi := ih post c2 c1 h
      simp only [List.cons_append, allocations, h2]
      simp only [List.append_eq] at hi ⊢
      rw [hi]
      split <;> simp

theorem allocations_range (x : XServer) :
    ∀ (ops : List Op) (c : Core), c.mLastId + ops.length < 2 ^ 64 →
      allocations x c ops = List.range' (c.mLastId + 1) (allocations x c ops).length := by
  intro ops
  induction ops with
  | nil => intro c _; simp [allocations]
  | cons op rest ih =>
    intro c hlen
    simp only [List.length_cons] at hlen
    simp only [allocations]
    split
    · simp
    · rename_i c1 h1
      have hnext : nextId c = c.mLastId + 1 := by
        unfold nextId
        exact Nat.mod_eq_of_lt (by omega)
      rcases IdStep_step x c c1 op h1 with ⟨he, _⟩ | ⟨he, _⟩
      · have := ih c1 (by omega)
        simp only [he, ne_eq, not_true_eq_false, if_false]
        rw [he] at this
        exact this
      · rw [hnext] at he
        have hne : c1.mLastId ≠ c.mLastId := by omega
        have := ih c1 (by omega)
        simp only [hne, ne_eq, not_false_eq_true, if_true, List.length_cons, List.range'_succ]
        rw [he] at this ⊢
        rw [← this]

theorem store_allocated (x : XServer) :
    ∀ (ops : List Op) (c c1 : Core), c.mLastId + ops.length < 2 ^ 64 →
      run x c ops = some c1 →
      ∀ id v, qfind c1.mShortcutAndActionById id = some v →
        (∃ w, qfind c.mShortcutAndActionById id = some w) ∨ id ∈ allocations x c ops := by
  intro ops
  induction ops with
  | nil =>
    intro c c1 _ h id v hv
    simp only [run] at h
    cases h
    exact Or.inl ⟨v, hv⟩
  | cons op rest ih =>
    intro c c1 hlen h id v hv
    simp only [List.length_cons] at hlen
    simp only [run] at h
    split at h
    · cases h
    · rename_i c2 h2
      have hnext : nextId c = c.mLastId + 1 := by
        unfold nextId
        exact Nat.mod_eq_of_lt (by omega)
      simp only [allocations, h2]
      rcases IdStep_step x c c2 op h2 with ⟨he, hk⟩ | ⟨he, hk⟩
      · rcases ih c2 c1 (by omega) h id v hv with ⟨w, hw⟩ | hm
        · exact Or.inl (hk id w hw)
        · right
          simpa [he] using hm
      · have hne : c2.mLastId ≠ c.mLastId := by omega
        rcases ih c2 c1 (by omega) h id v hv with ⟨w, hw⟩ | hm
        · rcases hk id w hw with hid | hold
          · right
            rw [he] at hne
            simp [hne, hid, he]
          · exact Or.inl hold
        · right
          simp [hne, hm]

/-- Claim C3. Ids are allocated as `++mLastId` from 0. For a daemon started empty that serves the
requests `pre` and then `post` (fewer than 2^64 requests in all, so that the 64-bit counter
cannot wrap): the ids allocated are 1, 2, 3, ... in this order, so every one is nonzero and any
later allocation is greater than any earlier one; every id found in the primary store after
`pre` was allocated during `pre`; and every id allocated during `post` is greater than every id
allocated during `pre`, whether or not that id has been removed in between. -/
theorem ids_strictly_increasing (x : XServer) (b : MultipleActionsBehaviour) (pre post : List Op)
    (c1 : Core) (hlen : (pre ++ post).length < 2 ^ 64)
    (hrun : run x (Core.fresh b) pre = some c1) :
    allocations x (Core.fresh b) (pre ++ post)
        = allocations x (Core.fresh b) pre ++ allocations x c1 post ∧
      allocations x (Core.fresh b) (pre ++ post)
        = List.range' 1 (allocations x (Core.fresh b) (pre ++ post)).length ∧
      (∀ a ∈ allocations x (Core.fresh b) (pre ++ post), a ≠ 0) ∧
      List.Pairwise (fun a b => a < b) (allocations x (Core.fresh b) (pre ++ post)) ∧
      (∀ id v, qfind c1.mShortcutAndActionById id = some v →
        id ∈ allocations x (Core.fresh b) pre) ∧
      (∀ a ∈ allocations x (Core.fresh b) pre, ∀ b ∈ allocations x c1 post, a < b) := by
  have happ := allocations_append x pre post (Core.fresh b) c1 hrun
  have hrange := allocations_range x (pre ++ post) (Core.fresh b)
    (by simpa [Core.fresh] using hlen)
  have hpw : List.Pairwise (fun a b => a < b) (allocations x (Core.fresh b) (pre ++ post)) := by
    rw [hrange]
    exact List.pairwise_lt_range' 1 _
  refine ⟨happ, ?_, ?_, hpw, ?_, ?_⟩
  · simpa [Core.fresh] using hrange
  · intro a ha
    rw [hrange] at ha
    have := (List.mem_range'_1.mp ha).1
    simp [Core.fresh] at this
    omega
  · intro id v hv
    have hl : (Core.fresh b).mLastId + pre.length < 2 ^ 64 := by
      simp only [List.length_append] at hlen
      simp only [Core.fresh]
      omega
    rcases store_allocated x pre (Core.fresh b) c1 hl hrun id v hv with ⟨w, hw⟩ | hm
    · simp [Core.fresh, qfind] at hw
    · exact hm
  · rw [happ] at hpw
    exact (List.pairwise_append.mp hpw).2.2

/-- Witness of `ids_strictly_increasing`: two commands are registered and the first is removed,
then a third command is registered on the shortcut of the removed one. -/
theorem ids_strictly_increasing_witness :
    allocations keyboardTF1 (Core.fresh .first)
        [Op.addCommandAction "Control+T" "/usr/bin/xterm" [] "terminal" false,
         Op.addCommandAction "F1" "/usr/bin/man" [] "help" false,
         Op.removeAction 1,
         Op.addCommandAction "Control+T" "/usr/bin/xterm" [] "terminal" false] = [1, 2, 3] ∧
      ∀ a ∈ allocations keyboardTF1 (Core.fresh .first)
          [Op.addCommandAction "Control+T" "/usr/bin/xterm" [] "terminal" false,
           Op.addCommandAction "F1" "/usr/bin/man" [] "help" false,
           Op.removeAction 1],
        ∀ b ∈ allocations keyboardTF1
          ((run keyboardTF1 (Core.fresh .first)
            [Op.addCommandAction "Control+T" "/usr/bin/xterm" [] "terminal" false,
             Op.addCommandAction "F1" "/usr/bin/man" [] "help" false,
             Op.removeAction 1]).getD (Core.fresh .first))
          [Op.addCommandAction "Control+T" "/usr/bin/xterm" [] "terminal" false], a < b :=
  ⟨by decide,
   (ids_strictly_increasing keyboardTF1 .first
    [Op.addCommandAction "Control+T" "/usr/bin/xterm" [] "terminal" false,
     Op.addCommandAction "F1" "/usr/bin/man" [] "help" false,
     Op.removeAction 1]
    [Op.addCommandAction "Control+T" "/usr/bin/xterm" [] "terminal" false]
    ((run keyboardTF1 (Core.fresh .first)
      [Op.addCommandAction "Control+T" "/usr/bin/xterm" [] "terminal" false,
       Op.addCommandAction "F1" "/usr/bin/man" [] "help" false,
       Op.removeAction 1]).getD (Core.fresh .first))
    (by decide) (by decide)).2.2.2.2.2⟩

/-! ## The maps between shortcuts and X11 bindings -/

/-- Claim C9, failing input. On a daemon started empty, a `KeyPress` of the unbound key `t`
(keycode 28, no modifier) makes `mShortcutByX11[X]` of the handler add the entry
`(28, 0) ↦ ""` to the reverse map, while the forward map stays empty: the maps are no longer
mutual inverses, and the reverse map has an entry for the empty string. A later
`register_command("T", ...)` then finds that entry, returns the shortcut `""` with id 1 and
files the action under `""`; after that the press of any other unbound key (here `F1`, keycode
67) runs the action. -/
theorem keypress_adds_empty_shortcut :
    (run keyboardTF1 (Core.fresh .first) [Op.keyPress 28 0 (fun _ => true)]).map
        (fun c => (c.mShortcutByX11, c.mX11ByShortcut)) = some ([((28, 0), "")], []) ∧
      (addCommandAction keyboardTF1
        ((run keyboardTF1 (Core.fresh .first) [Op.keyPress 28 0 (fun _ => true)]).getD
          (Core.fresh .first)) "T" "/usr/bin/xterm" [] "terminal" false).1 = ("", 1) ∧
      (run keyboardTF1 (Core.fresh .first)
        [Op.keyPress 28 0 (fun _ => true),
         Op.addCommandAction "T" "/usr/bin/xterm" [] "terminal" false,
         Op.keyPress 67 0 (fun _ => true)]).map
        (fun c => (c.mShortcutByX11, c.mX11ByShortcut))
        = some ([((28, 0), ""), ((67, 0), "")], [("", (28, 0))]) ∧
      (run keyboardTF1 (Core.fresh .first)
        [Op.keyPress 28 0 (fun _ => true),
         Op.addCommandAction "T" "/usr/bin/xterm" [] "terminal" false,
         Op.keyPress 67 0 (fun _ => true)]).map
        (fun c => (c.mIdsByShortcut, c.effects.getLast?))
        = some ([("", [1])], some (Effect.call 1 true)) :=
  ⟨by decide, by decide, by decide, by decide⟩

/-! ## No empty set in the dispatch index -/

theorem NoEmptyIds_of_eq (c c1 : Core) (h : c1.mIdsByShortcut = c.mIdsByShortcut)
    (hc : NoEmptyIds c) : NoEmptyIds c1 := by
  unfold NoEmptyIds
  rw [h]
  exact hc

theorem NoEmptyIds_insertId (c : Core) (S : String) (id : Nat) (hc : NoEmptyIds c) :
    NoEmptyIds (insertId c S id) := by
  intro S1 ids h
  unfold insertId at h
  split at h
  all_goals
    simp only [qfind_qset] at h
    split_ifs at h with e
    · cases h
      exact sinsert_ne_nil _ _
    · exact hc S1 ids h

theorem NoEmptyIds_releaseId (c : Core) (S : String) (id : Nat) (X : X11Shortcut)
    (hc : NoEmptyIds c) : NoEmptyIds (releaseId c S id X) := by
  intro S1 ids h
  unfold releaseId at h
  split at h
  · exact hc S1 ids h
  · dsimp only at h
    split at h
    · simp only [remoteXUngrabKey, qfind_qerase] at h
      split_ifs at h with e
      exact hc S1 ids h
    · rename_i hne
      simp only [qfind_qset] at h
      split_ifs at h with e
      · cases h
        exact hne
      · exact hc S1 ids h

theorem NoEmptyIds_releaseOldShortcut (c : Core) (S : String) (id : Nat)
    (hc : NoEmptyIds c) : NoEmptyIds (releaseOldShortcut c S id) := by
  intro S1 ids h
  unfold releaseOldShortcut at h
  split at h
  · exact hc S1 ids h
  · dsimp only at h
    split at h
    · simp only [remoteXUngrabKey, x11ByShortcutAt_mIdsByShortcut, qfind_qerase] at h
      split_ifs at h with e
      exact hc S1 ids h
    · rename_i hne
      simp only [qfind_qset] at h
      split_ifs at h with e
      · cases h
        exact hne
      · exact hc S1 ids h

theorem NoEmptyIds_addActionTail (c : Core) (X : X11Shortcut) (used : String)
    (action : BaseAction) (xerror : Bool) (hc : NoEmptyIds c) :
    NoEmptyIds (addActionTail c X used action xerror).2 := by
  simp only [addActionTail]
  refine NoEmptyIds_of_eq
    (insertId { (grabOrReuseKey c X used xerror).2 with
                  mLastId := nextId (grabOrReuseKey c X used xerror).2 }
      (grabOrReuseKey c X used xerror).1 (nextId (grabOrReuseKey c X used xerror).2)) _
    (by simp) ?_
  exact NoEmptyIds_insertId _ _ _ (NoEmptyIds_of_eq c _ (by simp) hc)

theorem NoEmptyIds_addDBusActionTail (c : Core) (X : X11Shortcut) (used : String)
    (service path description sender : String) (xerror : Bool) (hc : NoEmptyIds c) :
    NoEmptyIds (addDBusActionTail c X used service path description sender xerror).2 := by
  simp only [addDBusActionTail]
  refine NoEmptyIds_of_eq
    (insertId { (grabOrReuseKey c X used xerror).2 with
                  mLastId := nextId (grabOrReuseKey c X used xerror).2 }
      (grabOrReuseKey c X used xerror).1 (nextId (grabOrReuseKey c X used xerror).2)) _
    (by simp) ?_
  exact NoEmptyIds_insertId _ _ _ (NoEmptyIds_of_eq c _ (by simp) hc)

theorem NoEmptyIds_moveToShortcut (c : Core) (id : Nat) (old new : String)
    (action : BaseAction) (hc : NoEmptyIds c) :
    NoEmptyIds (moveToShortcut c id old new action) := by
  simp only [moveToShortcut]
  refine NoEmptyIds_of_eq (insertId (releaseOldShortcut c old id) new id) _ (by simp) ?_
  exact NoEmptyIds_insertId _ _ _ (NoEmptyIds_releaseOldShortcut c old id hc)

theorem NoEmptyIds_addMethodAction (x : XServer) (c : Core)
    (shortcut service path interface method description : String) (xerror : Bool)
    (hc : NoEmptyIds c) :
    NoEmptyIds (addMethodAction x c shortcut service path interface method description xerror).2 := by
  simp only [addMethodAction]
  split
  · exact NoEmptyIds_of_eq c _ (by simp) hc
  · exact NoEmptyIds_addActionTail _ _ _ _ _ (NoEmptyIds_of_eq c _ (by simp) hc)

theorem NoEmptyIds_addCommandAction (x : XServer) (c : Core) (shortcut command : String)
    (arguments : List String) (description : String) (xerror : Bool) (hc : NoEmptyIds c) :
    NoEmptyIds (addCommandAction x c shortcut command arguments description xerror).2 := by
  simp only [addCommandAction]
  split
  · exact NoEmptyIds_of_eq c _ (by simp) hc
  · exact NoEmptyIds_addActionTail _ _ _ _ _ (NoEmptyIds_of_eq c _ (by simp) hc)

theorem NoEmptyIds_addOrRegisterDBusAction (x : XServer) (c c1 : Core)
    (shortcut service path description sender : String) (xerror : Bool) (r : String × Nat)
    (hc : NoEmptyIds c)
    (h : addOrRegisterDBusAction x c shortcut service path description sender xerror
      = some (r, c1)) : NoEmptyIds c1 := by
  simp only [addOrRegisterDBusAction] at h
  repeat' split at h
  all_goals first | (cases h; done) | (obtain ⟨rfl, rfl⟩ := some_pair_eq h; first | exact hc | skip)
  · exact NoEmptyIds_of_eq c _ (by simp) hc
  · exact NoEmptyIds_addDBusActionTail _ _ _ _ _ _ _ _ (NoEmptyIds_of_eq c _ (by simp) hc)

theorem NoEmptyIds_changeShortcut (x : XServer) (c : Core) (id : Nat) (shortcut : String)
    (xerror : Bool) (hc : NoEmptyIds c) :
    NoEmptyIds (changeShortcut x c id shortcut xerror).2 := by
  simp only [changeShortcut]
  repeat' split
  · exact hc
  · exact NoEmptyIds_of_eq c _ (by simp) hc
  · refine NoEmptyIds_of_eq (moveToShortcut _ _ _ _ _) _ (by simp; rfl) ?_
    exact NoEmptyIds_moveToShortcut _ _ _ _ _ (NoEmptyIds_of_eq c _ (by simp) hc)
  · refine NoEmptyIds_of_eq (moveToShortcut _ _ _ _ _) _ (by simp; rfl) ?_
    exact NoEmptyIds_moveToShortcut _ _ _ _ _ (NoEmptyIds_of_eq c _ (by simp) hc)
  · exact NoEmptyIds_of_eq c _ (by simp) hc

theorem NoEmptyIds_changeDBusShortcut (x : XServer) (c c1 : Core) (path shortcut sender : String)
    (xerror : Bool) (r : String × Nat) (hc : NoEmptyIds c)
    (h : changeDBusShortcut x c path shortcut sender xerror = some (r, c1)) :
    NoEmptyIds c1 := by
  simp only [changeDBusShortcut] at h
  repeat' split at h
  all_goals first | (cases h; done) | (obtain ⟨rfl, rfl⟩ := some_pair_eq h; first | exact hc | skip)
  · exact NoEmptyIds_of_eq c _ (by simp) hc
  · exact NoEmptyIds_of_eq c _ (by simp) hc
  · refine NoEmptyIds_of_eq (moveToShortcut _ _ _ _ _) _ (by simp; rfl) ?_
    exact NoEmptyIds_moveToShortcut _ _ _ _ _ (NoEmptyIds_of_eq c _ (by simp) hc)
  · exact NoEmptyIds_of_eq c _ (by simp) hc

theorem NoEmptyIds_removeAction (c : Core) (id : Nat) (hc : NoEmptyIds c) :
    NoEmptyIds (removeAction c id).2 := by
  simp only [removeAction]
  repeat' split
  · exact hc
  · exact hc
  · refine NoEmptyIds_of_eq (releaseId _ _ _ _) _ (by simp; rfl) ?_
    exact NoEmptyIds_releaseId _ _ _ _ (NoEmptyIds_of_eq c _ (by simp) hc)

theorem NoEmptyIds_removeDBusAction (c c1 : Core) (path sender : String) (r : Nat)
    (hc : NoEmptyIds c) (h : removeDBusAction c path sender = some (r, c1)) :
    NoEmptyIds c1 := by
  simp only [removeDBusAction, removeNullDBusAction] at h
  repeat' split at h
  all_goals first | (cases h; done) | (obtain ⟨rfl, rfl⟩ := some_pair_eq h; first | exact hc | skip)
  all_goals
    refine NoEmptyIds_of_eq (releaseId _ _ _ _) _ (by simp; rfl) ?_
    exact NoEmptyIds_releaseId _ _ _ _ (NoEmptyIds_of_eq c _ (by simp) hc)

theorem NoEmptyIds_serviceDisappearedPath (c c1 : Core) (service id path : String) (n n1 : Nat)
    (hc : NoEmptyIds c) (h : serviceDisappearedPath c service id path n = some (c1, n1)) :
    NoEmptyIds c1 := by
  simp only [serviceDisappearedPath, serviceDisappearedNull] at h
  repeat' split at h
  all_goals first | (cases h; done) | (obtain ⟨rfl, rfl⟩ := some_pair_eq h; first | exact hc | skip)
  all_goals
    refine NoEmptyIds_of_eq (releaseId _ _ _ _) _ (by simp; rfl) ?_
    exact NoEmptyIds_releaseId _ _ _ _ (NoEmptyIds_of_eq c _ (by simp) hc)

theorem NoEmptyIds_serviceDisappearedLoop (service id : String) (paths : List String)
    (c c1 : Core) (n n1 : Nat) (hc : NoEmptyIds c)
    (h : serviceDisappearedLoop service id paths (c, n) = some (c1, n1)) : NoEmptyIds c1 := by
  induction paths generalizing c n with
  | nil =>
    simp only [serviceDisappearedLoop] at h
    cases h
    exact hc
  | cons path rest ih =>
    simp only [serviceDisappearedLoop] at h
    split at h
    · cases h
    · rename_i acc h2
      obtain ⟨c2, n2⟩ := acc
      exact ih c2 n2 (NoEmptyIds_serviceDisappearedPath _ _ _ _ _ _ _ hc h2) h

theorem NoEmptyIds_serviceDisappeared (c c1 : Core) (service id : String) (hc : NoEmptyIds c)
    (h : serviceDisappeared c service id = some c1) : NoEmptyIds c1 := by
  unfold serviceDisappeared at h
  split at h
  · split at h
    · cases h
    · rename_i hl
      cases h
      have h1 := NoEmptyIds_serviceDisappearedLoop _ _ _ _ _ _ _ hc hl
      split
      · exact NoEmptyIds_of_eq _ _ (by simp) h1
      · exact NoEmptyIds_of_eq _ _ (by simp) h1
  · cases h
    exact NoEmptyIds_of_eq _ _ (by simp) hc

theorem NoEmptyIds_step (x : XServer) (c c1 : Core) (op : Op) (hc : NoEmptyIds c)
    (h : step x c op = some c1) : NoEmptyIds c1 := by
  cases op with
  | addMethodAction shortcut service path interface method description xerror =>
    cases h
    exact NoEmptyIds_addMethodAction _ _ _ _ _ _ _ _ _ hc
  | addCommandAction shortcut command arguments description xerror =>
    cases h
    exact NoEmptyIds_addCommandAction _ _ _ _ _ _ _ hc
  | addDBusAction shortcut path description sender xerror =>
    simp only [step, addDBusAction, Option.map_eq_some'] at h
    obtain ⟨⟨r, c2⟩, h, rfl⟩ := h
    exact NoEmptyIds_addOrRegisterDBusAction _ _ _ _ _ _ _ _ _ _ hc h
  | registerDBusAction shortcut service path description xerror =>
    simp only [step, registerDBusAction, Option.map_eq_some'] at h
    obtain ⟨⟨r, c2⟩, h, rfl⟩ := h
    split at h
    · cases h
    · rename_i h2
      cases h
      exact NoEmptyIds_addOrRegisterDBusAction _ _ _ _ _ _ _ _ _ _ hc h2
  | modifyDBusAction path description sender =>
    simp only [step, Option.map_eq_some'] at h
    obtain ⟨⟨r, c2⟩, h, rfl⟩ := h
    exact NoEmptyIds_of_eq c _ (modifyDBusAction_mIdsByShortcut _ _ _ _ _ _ h) hc
  | modifyActionDescription id description =>
    cases h
    exact NoEmptyIds_of_eq c _ (modifyActionDescription_mIdsByShortcut _ _ _) hc
  | modifyMethodAction id service path interface method description =>
    cases h
    exact NoEmptyIds_of_eq c _ (modifyMethodAction_mIdsByShortcut _ _ _ _ _ _ _) hc
  | modifyCommandAction id command arguments description =>
    cases h
    exact NoEmptyIds_of_eq c _ (modifyCommandAction_mIdsByShortcut _ _ _ _ _) hc
  | changeDBusShortcut path shortcut sender xerror =>
    simp only [step, Option.map_eq_some'] at h
    obtain ⟨⟨r, c2⟩, h, rfl⟩ := h
    exact NoEmptyIds_changeDBusShortcut _ _ _ _ _ _ _ _ hc h
  | changeShortcut id shortcut xerror =>
    cases h
    exact NoEmptyIds_changeShortcut _ _ _ _ _ hc
  | swapActions id1 id2 =>
    cases h
    exact NoEmptyIds_of_eq c _ (swapActions_mIdsByShortcut _ _ _) hc
  | removeDBusAction path sender =>
    simp only [step, Option.map_eq_some'] at h
    obtain ⟨⟨r, c2⟩, h, rfl⟩ := h
    exact NoEmptyIds_removeDBusAction _ _ _ _ _ hc h
  | removeAction id =>
    cases h
    exact NoEmptyIds_removeAction _ _ hc
  | setMultipleActionsBehaviour behaviour =>
    cases h
    exact NoEmptyIds_of_eq c _ (by simp [setMultipleActionsBehaviour]) hc
  | serviceAppeared service id =>
    obtain ⟨_, _, _, _, rfl⟩ := serviceAppeared_shape _ _ _ _ h
    exact NoEmptyIds_of_eq c _ rfl hc
  | serviceDisappeared service id =>
    exact NoEmptyIds_serviceDisappeared _ _ _ _ hc h
  | keyPress keycode state call =>
    exact NoEmptyIds_of_eq c _ (keyPressNormal_mIdsByShortcut _ _ _ _ _ h) hc
/-! ## Entries of the primary store with a null action -/

theorem NullShortcutsEmpty_of_eq (c c1 : Core) (h : c1.mNullActionById = c.mNullActionById)
    (hc : NullShortcutsEmpty c) : NullShortcutsEmpty c1 := by
  unfold NullShortcutsEmpty
  rw [h]
  exact hc

theorem NullShortcutsEmpty_qerase (c c1 : Core) (id : Nat)
    (h : c1.mNullActionById = qerase c.mNullActionById id) (hc : NullShortcutsEmpty c) :
    NullShortcutsEmpty c1 := by
  intro id1 S hS
  rw [h, qfind_qerase] at hS
  split_ifs at hS
  exact hc id1 S hS

theorem NullShortcutsEmpty_qset (c c1 : Core) (id : Nat)
    (h : c1.mNullActionById = qset c.mNullActionById id "") (hc : NullShortcutsEmpty c) :
    NullShortcutsEmpty c1 := by
  intro id1 S hS
  rw [h, qfind_qset] at hS
  split_ifs at hS
  · cases hS
    rfl
  · exact hc id1 S hS

theorem NullShortcutsEmpty_fresh (b : MultipleActionsBehaviour) :
    NullShortcutsEmpty (Core.fresh b) := by
  intro id S h
  simp [Core.fresh] at h

theorem NullShortcutsEmpty_addMethodAction (x : XServer) (c : Core)
    (shortcut service path interface method description : String) (xerror : Bool)
    (hc : NullShortcutsEmpty c) :
    NullShortcutsEmpty
      (addMethodAction x c shortcut service path interface method description xerror).2 := by
  simp only [addMethodAction]
  split
  · exact NullShortcutsEmpty_of_eq c _ (by simp) hc
  · exact NullShortcutsEmpty_qerase c _ _ (by simp [addActionTail]; rfl) hc

theorem NullShortcutsEmpty_addCommandAction (x : XServer) (c : Core) (shortcut command : String)
    (arguments : List String) (description : String) (xerror : Bool)
    (hc : NullShortcutsEmpty c) :
    NullShortcutsEmpty (addCommandAction x c shortcut command arguments description xerror).2 := by
  simp only [addCommandAction]
  split
  · exact NullShortcutsEmpty_of_eq c _ (by simp) hc
  · exact NullShortcutsEmpty_qerase c _ _ (by simp [addActionTail]; rfl) hc

theorem NullShortcutsEmpty_addOrRegisterDBusAction (x : XServer) (c c1 : Core)
    (shortcut service path description sender : String) (xerror : Bool) (r : String × Nat)
    (hc : NullShortcutsEmpty c)
    (h : addOrRegisterDBusAction x c shortcut service path description sender xerror
      = some (r, c1)) : NullShortcutsEmpty c1 := by
  simp only [addOrRegisterDBusAction] at h
  repeat' split at h
  all_goals first | (cases h; done) | (obtain ⟨rfl, rfl⟩ := some_pair_eq h; first | exact hc | skip)
  · exact NullShortcutsEmpty_qset c _ _ rfl hc
  · exact NullShortcutsEmpty_of_eq c _ (by simp) hc
  · exact NullShortcutsEmpty_qerase c _ _ (by simp [addDBusActionTail]; rfl) hc

theorem NullShortcutsEmpty_removeDBusAction (c c1 : Core) (path sender : String) (r : Nat)
    (hc : NullShortcutsEmpty c) (h : removeDBusAction c path sender = some (r, c1)) :
    NullShortcutsEmpty c1 := by
  simp only [removeDBusAction, removeNullDBusAction] at h
  repeat' split at h
  all_goals first | (cases h; done) | (obtain ⟨rfl, rfl⟩ := some_pair_eq h; first | exact hc | skip)
  · exact NullShortcutsEmpty_qerase c _ _ (by simp; rfl) hc
  · exact NullShortcutsEmpty_of_eq c _ (by simp) hc

theorem NullShortcutsEmpty_serviceDisappearedPath (c c1 : Core) (service id path : String)
    (n n1 : Nat) (hc : NullShortcutsEmpty c)
    (h : serviceDisappearedPath c service id path n = some (c1, n1)) :
    NullShortcutsEmpty c1 := by
  simp only [serviceDisappearedPath, serviceDisappearedNull] at h
  repeat' split at h
  all_goals first | (cases h; done) | (obtain ⟨rfl, rfl⟩ := some_pair_eq h; first | exact hc | skip)
  · exact NullShortcutsEmpty_qerase c _ _ (by simp; rfl) hc
  · exact NullShortcutsEmpty_of_eq c _ (by simp) hc
  · exact NullShortcutsEmpty_of_eq c _ (by simp) hc

theorem NullShortcutsEmpty_serviceDisappearedLoop (service id : String) (paths : List String)
    (c c1 : Core) (n n1 : Nat) (hc : NullShortcutsEmpty c)
    (h : serviceDisappearedLoop service id paths (c, n) = some (c1, n1)) :
    NullShortcutsEmpty c1 := by
  induction paths generalizing c n with
  | nil =>
    simp only [serviceDisappearedLoop] at h
    cases h
    exact hc
  | cons path rest ih =>
    simp only [serviceDisappearedLoop] at h
    split at h
    · cases h
    · rename_i acc h2
      obtain ⟨c2, n2⟩ := acc
      exact ih c2 n2 (NullShortcutsEmpty_serviceDisappearedPath _ _ _ _ _ _ _ hc h2) h

theorem NullShortcutsEmpty_serviceDisappeared (c c1 : Core) (service id : String)
    (hc : NullShortcutsEmpty c) (h : serviceDisappeared c service id = some c1) :
    NullShortcutsEmpty c1 := by
  unfold serviceDisappeared at h
  split at h
  · split at h
    · cases h
    · rename_i hl
      cases h
      have h1 := NullShortcutsEmpty_serviceDisappearedLoop _ _ _ _ _ _ _ hc hl
      split
      · exact NullShortcutsEmpty_of_eq _ _ (by simp) h1
      · exact NullShortcutsEmpty_of_eq _ _ (by simp) h1
  · cases h
    exact NullShortcutsEmpty_of_eq _ _ (by simp) hc

theorem NullShortcutsEmpty_step (x : XServer) (c c1 : Core) (op : Op)
    (hc : NullShortcutsEmpty c) (h : step x c op = some c1) : NullShortcutsEmpty c1 := by
  cases op with
  | addMethodAction shortcut service path interface method description xerror =>
    cases h
    exact NullShortcutsEmpty_addMethodAction _ _ _ _ _ _ _ _ _ hc
  | addCommandAction shortcut command arguments description xerror =>
    cases h
    exact NullShortcutsEmpty_addCommandAction _ _ _ _ _ _ _ hc
  | addDBusAction shortcut path description sender xerror =>
    simp only [step, addDBusAction, Option.map_eq_some'] at h
    obtain ⟨⟨r, c2⟩, h, rfl⟩ := h
    exact NullShortcutsEmpty_addOrRegisterDBusAction _ _ _ _ _ _ _ _ _ _ hc h
  | registerDBusAction shortcut service path description xerror =>
    simp only [step, registerDBusAction, Option.map_eq_some'] at h
    obtain ⟨⟨r, c2⟩, h, rfl⟩ := h
    split at h
    · cases h
    · rename_i h2
      cases h
      exact NullShortcutsEmpty_addOrRegisterDBusAction _ _ _ _ _ _ _ _ _ _ hc h2
  | modifyDBusAction path description sender =>
    simp only [step, Option.map_eq_some'] at h
    obtain ⟨⟨r, c2⟩, h, rfl⟩ := h
    exact NullShortcutsEmpty_of_eq c _ (modifyDBusAction_mNullActionById _ _ _ _ _ _ h) hc
  | modifyActionDescription id description =>
    cases h
    exact NullShortcutsEmpty_of_eq c _ (modifyActionDescription_mNullActionById _ _ _) hc
  | modifyMethodAction id service path interface method description =>
    cases h
    exact NullShortcutsEmpty_of_eq c _ (modifyMethodAction_mNullActionById _ _ _ _ _ _ _) hc
  | modifyCommandAction id command arguments description =>
    cases h
    exact NullShortcutsEmpty_of_eq c _ (modifyCommandAction_mNullActionById _ _ _ _ _) hc
  | changeDBusShortcut path shortcut sender xerror =>
    simp only [step, Option.map_eq_some'] at h
    obtain ⟨⟨r, c2⟩, h, rfl⟩ := h
    exact NullShortcutsEmpty_of_eq c _
      (changeDBusShortcut_mNullActionById _ _ _ _ _ _ _ _ h) hc
  | changeShortcut id shortcut xerror =>
    cases h
    exact NullShortcutsEmpty_of_eq c _ (changeShortcut_mNullActionById _ _ _ _ _) hc
  | swapActions id1 id2 =>
    cases h
    exact NullShortcutsEmpty_of_eq c _ (swapActions_mNullActionById _ _ _) hc
  | removeDBusAction path sender =>
    simp only [step, Option.map_eq_some'] at h
    obtain ⟨⟨r, c2⟩, h, rfl⟩ := h
    exact NullShortcutsEmpty_removeDBusAction _ _ _ _ _ hc h
  | removeAction id =>
    cases h
    exact NullShortcutsEmpty_of_eq c _ (removeAction_mNullActionById _ _) hc
  | setMultipleActionsBehaviour behaviour =>
    cases h
    exact NullShortcutsEmpty_of_eq c _ (by simp [setMultipleActionsBehaviour]) hc
  | serviceAppeared service id =>
    obtain ⟨_, _, _, _, rfl⟩ := serviceAppeared_shape _ _ _ _ h
    exact NullShortcutsEmpty_of_eq c _ rfl hc
  | serviceDisappeared service id =>
    exact NullShortcutsEmpty_serviceDisappeared _ _ _ _ hc h
  | keyPress keycode state call =>
    exact NullShortcutsEmpty_of_eq c _ (keyPressNormal_mNullActionById _ _ _ _ _ h) hc

theorem NullShortcutsEmpty_run (x : XServer) (b : MultipleActionsBehaviour) (ops : List Op)
    (c : Core) (h : run x (Core.fresh b) ops = some c) : NullShortcutsEmpty c :=
  run_invariant x NullShortcutsEmpty (fun _ => True)
    (fun c op c1 _ hc hs => NullShortcutsEmpty_step x c c1 op hc hs) ops _ c
    (fun _ _ => trivial) (NullShortcutsEmpty_fresh b) h

/-! ## Grabs and the dispatch index -/

theorem GrabCore_of_eq (x : XServer) (c c1 : Core)
    (h1 : c1.mIdsByShortcut = c.mIdsByShortcut) (h2 : c1.mX11ByShortcut = c.mX11ByShortcut)
    (h3 : c1.mShortcutByX11 = c.mShortcutByX11) (h4 : c1.xGrabs = c.xGrabs)
    (hc : GrabCore x c) : GrabCore x c1 := by
  unfold GrabCore BoundGrabbed MapsCanonical at *
  rw [h1, h2, h3, h4]
  exact hc

theorem GrabPending_of_eq (x : XServer) (c c1 : Core) (X : X11Shortcut) (used : String)
    (h1 : c1.mIdsByShortcut = c.mIdsByShortcut) (h2 : c1.mX11ByShortcut = c.mX11ByShortcut)
    (h3 : c1.mShortcutByX11 = c.mShortcutByX11) (h4 : c1.xGrabs = c.xGrabs)
    (hc : GrabPending x c X used) : GrabPending x c1 X used := by
  unfold GrabPending BoundGrabbed MapsCanonical at *
  rw [h1, h2, h3, h4]
  exact hc

theorem GrabCore_fresh (x : XServer) (b : MultipleActionsBehaviour) : GrabCore x (Core.fresh b) := by
  refine ⟨?_, ?_, ?_, ?_⟩
  · intro S ids h
    simp [Core.fresh] at h
  · intro X h
    simp [Core.fresh] at h
  · intro S X h
    simp [Core.fresh] at h
  · intro X S h
    simp [Core.fresh] at h

theorem x11ByShortcutAt_of_find (c : Core) (S : String) (X : X11Shortcut)
    (h : qfind c.mX11ByShortcut S = some X) : x11ByShortcutAt c S = (X, c) := by
  simp [x11ByShortcutAt, h]

theorem fwd_injective (x : XServer) (c : Core) (hm : MapsCanonical x c) (S S1 : String)
    (X : X11Shortcut) (h : qfind c.mX11ByShortcut S = some X)
    (h1 : qfind c.mX11ByShortcut S1 = some X) (hS : S ≠ "") (hS1 : S1 ≠ "") : S = S1 := by
  have a := ((hm.1 S X h).1 hS).1
  have b := ((hm.1 S1 X h1).1 hS1).1
  rw [a] at b
  exact Option.some.inj b

theorem indexed_ne_empty (x : XServer) (c : Core) (hb : BoundGrabbed c)
    (hm : MapsCanonical x c) (S : String) (ids : QSet Nat)
    (hi : qfind c.mIdsByShortcut S = some ids) : S ≠ "" := by
  intro e
  subst e
  obtain ⟨_, X, hf, _⟩ := hb "" ids hi
  have := (hm.1 "" X hf).2 rfl
  rw [this] at hi
  cases hi

theorem MapsCanonical_index (x : XServer) (c c1 : Core)
    (h2 : c1.mX11ByShortcut = c.mX11ByShortcut) (h3 : c1.mShortcutByX11 = c.mShortcutByX11)
    (hi : qfind c1.mIdsByShortcut "" = qfind c.mIdsByShortcut "") (hm : MapsCanonical x c) :
    MapsCanonical x c1 := by
  unfold MapsCanonical at *
  rw [h2, h3, hi]
  exact hm

theorem addActionCommon_ne_empty (x : XServer) (c : Core) (shortcut : String)
    (X : X11Shortcut) (used : String) (hm : MapsCanonical x c)
    (h : (addActionCommon x c shortcut).1 = some (X, used)) : used ≠ "" := by
  unfold addActionCommon at h
  cases hS : ShortcutToX11 x shortcut with
  | none => simp [hS] at h
  | some X1 =>
    cases hr : qfind c.mShortcutByX11 X1 with
    | some used1 =>
      simp only [hS, hr] at h
      obtain ⟨rfl, rfl⟩ := Prod.mk.inj (Option.some.inj h)
      exact X11ToShortcut_ne_empty x _ _ (hm.2 X1 used1 hr).1
    | none =>
      cases hu : X11ToShortcut x X1 with
      | none => simp [hS, hr, hu] at h
      | some used1 =>
        simp only [hS, hr, hu] at h
        obtain ⟨rfl, rfl⟩ := Prod.mk.inj (Option.some.inj h)
        exact X11ToShortcut_ne_empty x _ _ hu

theorem MapsCanonical_rememberX11 (x : XServer) (c : Core) (X : X11Shortcut) (used : String)
    (hm : MapsCanonical x c) (h1 : X11ToShortcut x X = some used)
    (h2 : ShortcutToX11 x used = some X) :
    MapsCanonical x (rememberX11 c used X) ∧
      qfind (rememberX11 c used X).mX11ByShortcut used = some X := by
  have hu : used ≠ "" := X11ToShortcut_ne_empty x X used h1
  unfold rememberX11
  split
  · rename_i hf
    refine ⟨⟨?_, ?_⟩, by simp⟩
    · intro S X1 h
      simp only [qfind_qset] at h
      split_ifs at h with hS
      · cases h
        subst hS
        exact ⟨fun _ => ⟨h1, h2⟩, fun e => absurd e hu⟩
      · exact hm.1 S X1 h
    · exact hm.2
  · rename_i X1 hf
    refine ⟨hm, ?_⟩
    have := ((hm.1 used X1 hf).1 hu).2
    rw [h2] at this
    cases this
    exact hf

theorem BoundGrabbed_rememberX11 (c c1 : Core) (X : X11Shortcut) (used : String)
    (h1 : c1.mIdsByShortcut = c.mIdsByShortcut) (h2 : c1.mX11ByShortcut = c.mX11ByShortcut)
    (h4 : c1.xGrabs = c.xGrabs) (hb : BoundGrabbed c) :
    BoundGrabbed (rememberX11 c1 used X) := by
  intro S ids hS1
  obtain ⟨n1, X2, n2, n3⟩ := hb S ids (by simpa [h1] using hS1)
  refine ⟨n1, X2, ?_, by simpa [h4] using n3⟩
  unfold rememberX11
  split
  · rename_i hf
    simp only [qfind_qset]
    split_ifs with e
    · subst e
      rw [h2, n2] at hf
      cases hf
    · rw [h2]
      exact n2
  · rw [h2]
    exact n2

theorem grabsBound_rememberX11 (c c1 : Core) (X : X11Shortcut) (used : String)
    (h1 : c1.mIdsByShortcut = c.mIdsByShortcut) (h2 : c1.mX11ByShortcut = c.mX11ByShortcut)
    (h4 : c1.xGrabs = c.xGrabs)
    (hg : ∀ X, X ∈ c.xGrabs →
      ∃ S ids, qfind c.mIdsByShortcut S = some ids ∧ qfind c.mX11ByShortcut S = some X) :
    ∀ X2, X2 ∈ (rememberX11 c1 used X).xGrabs →
      ∃ S ids, qfind (rememberX11 c1 used X).mIdsByShortcut S = some ids ∧
        qfind (rememberX11 c1 used X).mX11ByShortcut S = some X2 := by
  intro X2 hX2
  obtain ⟨S, ids, n1, n2⟩ := hg X2 (by simpa [h4] using hX2)
  refine ⟨S, ids, by simpa [h1] using n1, ?_⟩
  unfold rememberX11
  split
  · rename_i hf
    simp only [qfind_qset]
    split_ifs with e
    · subst e
      rw [h2, n2] at hf
      cases hf
    · rw [h2]
      exact n2
  · rw [h2]
    exact n2

theorem GrabCore_addActionCommon (x : XServer) (c : Core) (shortcut : String)
    (X : X11Shortcut) (used : String) (hk : KeyboardConsistent x) (hc : GrabCore x c)
    (h : (addActionCommon x c shortcut).1 = some (X, used)) :
    GrabCore x (addActionCommon x c shortcut).2 ∧
      qfind (addActionCommon x c shortcut).2.mX11ByShortcut used = some X := by
  obtain ⟨hb, hg, hm⟩ := hc
  cases hS : ShortcutToX11 x shortcut with
  | none =>
    simp [addActionCommon, hS] at h
  | some X1 =>
    cases hr : qfind c.mShortcutByX11 X1 with
    | some used1 =>
      simp only [addActionCommon, hS, hr] at h ⊢
      obtain ⟨rfl, rfl⟩ := Prod.mk.inj (Option.some.inj h)
      obtain ⟨a1, a2⟩ := hm.2 X1 used1 hr
      obtain ⟨m1, m2⟩ := MapsCanonical_rememberX11 x c X1 used1 hm a1 a2
      exact ⟨⟨BoundGrabbed_rememberX11 c c X1 used1 rfl rfl rfl hb,
        grabsBound_rememberX11 c c X1 used1 rfl rfl rfl hg, m1⟩, m2⟩
    | none =>
      cases hu : X11ToShortcut x X1 with
      | none =>
        simp [addActionCommon, hS, hr, hu] at h
      | some used1 =>
        simp only [addActionCommon, hS, hr, hu] at h ⊢
        obtain ⟨rfl, rfl⟩ := Prod.mk.inj (Option.some.inj h)
        have a2 := hk shortcut X1 used1 hS hu
        have hm1 : MapsCanonical x { c with mShortcutByX11 := qset c.mShortcutByX11 X1 used1 } := by
          refine ⟨hm.1, ?_⟩
          intro X2 S hX2
          simp only [qfind_qset] at hX2
          split_ifs at hX2 with e
          · cases hX2
            subst e
            exact ⟨hu, a2⟩
          · exact hm.2 X2 S hX2
        obtain ⟨m1, m2⟩ := MapsCanonical_rememberX11 x _ X1 used1 hm1 hu a2
        exact ⟨⟨BoundGrabbed_rememberX11 c _ X1 used1 rfl rfl rfl hb,
          grabsBound_rememberX11 c _ X1 used1 rfl rfl rfl hg, m1⟩, m2⟩

theorem GrabPending_grabOrReuseKey (x : XServer) (c : Core) (X : X11Shortcut) (used : String)
    (hc : GrabCore x c) (hf : qfind c.mX11ByShortcut used = some X) (hu : used ≠ "") :
    (grabOrReuseKey c X used false).1 = used ∧
      GrabPending x (grabOrReuseKey c X used false).2 X used := by
  obtain ⟨hb, hg, hm⟩ := hc
  have key : ∀ c1 : Core, c1.mIdsByShortcut = c.mIdsByShortcut →
      c1.mX11ByShortcut = c.mX11ByShortcut → c1.mShortcutByX11 = c.mShortcutByX11 →
      c1.xGrabs = sinsert c.xGrabs X → GrabPending x c1 X used := by
    intro c1 e1 e2 e3 e4
    refine ⟨?_, ?_, ?_, by rw [e2]; exact hf, by simp [e4], hu⟩
    · intro S ids hS
      rw [e1] at hS
      obtain ⟨n1, X2, n2, n3⟩ := hb S ids hS
      exact ⟨n1, X2, by rw [e2]; exact n2, by simp [e4, n3]⟩
    · intro X1 hX1
      simp only [e4, mem_sinsert] at hX1
      rcases hX1 with h1 | h1
      · right
        rw [e1, e2]
        exact hg X1 h1
      · exact Or.inl h1
    · exact MapsCanonical_index x c c1 e2 e3 (by rw [e1]) hm
  cases hi : qfind c.mIdsByShortcut used with
  | none =>
    simp only [grabOrReuseKey, hi, remoteXGrabKey]
    exact ⟨rfl, key _ rfl rfl rfl rfl⟩
  | some ids =>
    cases ids with
    | nil =>
      simp only [grabOrReuseKey, hi, remoteXGrabKey]
      exact ⟨rfl, key _ rfl rfl rfl rfl⟩
    | cons a l =>
      simp only [grabOrReuseKey, hi]
      obtain ⟨n1, X2, n2, n3⟩ := hb used _ hi
      rw [hf] at n2
      cases n2
      exact ⟨trivial, hb, fun X1 h1 => Or.inr (hg X1 h1), hm, hf, n3, hu⟩

theorem GrabCore_insertId (x : XServer) (c : Core) (X : X11Shortcut) (used : String) (id : Nat)
    (hp : GrabPending x c X used) : GrabCore x (insertId c used id) := by
  obtain ⟨hb, hg, hm, hf, hX, hu⟩ := hp
  have key : ∀ (c1 : Core) (ids1 : QSet Nat), ids1 ≠ [] →
      c1.mIdsByShortcut = qset c.mIdsByShortcut used ids1 →
      c1.mX11ByShortcut = c.mX11ByShortcut → c1.mShortcutByX11 = c.mShortcutByX11 →
      c1.xGrabs = c.xGrabs → GrabCore x c1 := by
    intro c1 ids1 hne e1 e2 e3 e4
    refine ⟨?_, ?_, ?_⟩
    · intro S ids hS
      rw [e1, qfind_qset] at hS
      rw [e2, e4]
      split_ifs at hS with e
      · cases hS
        subst e
        exact ⟨hne, X, hf, hX⟩
      · exact hb S ids hS
    · intro X1 hX1
      rw [e4] at hX1
      rw [e1, e2]
      rcases hg X1 hX1 with h1 | ⟨S, ids, n1, n2⟩
      · subst h1
        exact ⟨used, ids1, by simp, hf⟩
      · by_cases e : used = S
        · subst e
          exact ⟨used, ids1, by simp, n2⟩
        · exact ⟨S, ids, by simp [e, n1], n2⟩
    · exact MapsCanonical_index x c c1 e2 e3 (by rw [e1, qfind_qset, if_neg hu]) hm
  unfold insertId
  split
  · exact key _ _ (sinsert_ne_nil _ _) rfl rfl rfl rfl
  · exact key _ _ (sinsert_ne_nil _ _) rfl rfl rfl rfl

theorem GrabCore_releaseId (x : XServer) (c : Core) (S : String) (id : Nat) (X : X11Shortcut)
    (hc : GrabCore x c) (hf : qfind c.mX11ByShortcut S = some X) :
    GrabCore x (releaseId c S id X) := by
  obtain ⟨hb, hg, hm⟩ := hc
  unfold releaseId
  split
  · exact ⟨hb, hg, hm⟩
  · rename_i ids hi
    dsimp only
    have hS : S ≠ "" := indexed_ne_empty x c hb hm S ids hi
    split
    · refine ⟨?_, ?_, MapsCanonical_index x c _ rfl rfl
        (by simp only [remoteXUngrabKey, qfind_qerase, if_neg hS]) hm⟩
      · intro S1 ids1 hS1
        simp only [remoteXUngrabKey, qfind_qerase] at hS1 ⊢
        split_ifs at hS1 with e
        obtain ⟨n1, X2, n2, n3⟩ := hb S1 ids1 hS1
        refine ⟨n1, X2, n2, ?_⟩
        simp only [mem_sremove]
        refine ⟨n3, ?_⟩
        intro e2
        subst e2
        exact e (fwd_injective x c hm S S1 X2 hf n2 hS (indexed_ne_empty x c hb hm S1 ids1 hS1))
      · intro X1 hX1
        simp only [remoteXUngrabKey, mem_sremove] at hX1
        obtain ⟨S1, ids1, n1, n2⟩ := hg X1 hX1.1
        refine ⟨S1, ids1, ?_, n2⟩
        simp only [remoteXUngrabKey, qfind_qerase]
        have e : ¬ S = S1 := by
          intro e
          subst e
          rw [hf] at n2
          exact hX1.2 (Option.some.inj n2).symm
        simp [e, n1]
    · rename_i hne
      refine ⟨?_, ?_, MapsCanonical_index x c _ rfl rfl
        (by simp only [qfind_qset, if_neg hS]) hm⟩
      · intro S1 ids1 hS1
        simp only [qfind_qset] at hS1
        split_ifs at hS1 with e
        · cases hS1
          subst e
          exact ⟨hne, (hb S ids hi).2⟩
        · exact hb S1 ids1 hS1
      · intro X1 hX1
        obtain ⟨S1, ids1, n1, n2⟩ := hg X1 hX1
        by_cases e : S = S1
        · subst e
          exact ⟨S, sremove ids id, by simp, n2⟩
        · exact ⟨S1, ids1, by simp [e, n1], n2⟩

theorem GrabPending_releaseOldShortcut (x : XServer) (c : Core) (X : X11Shortcut)
    (used old : String) (id : Nat) (hp : GrabPending x c X used) (hne : old ≠ used) :
    GrabPending x (releaseOldShortcut c old id) X used := by
  obtain ⟨hb, hg, hm, hf, hX, hu⟩ := hp
  unfold releaseOldShortcut
  split
  · exact ⟨hb, hg, hm, hf, hX, hu⟩
  · rename_i ids hi
    dsimp only
    have hold : old ≠ "" := indexed_ne_empty x c hb hm old ids hi
    obtain ⟨_, Xold, hfo, hXo⟩ := hb old ids hi
    have hdiff : X ≠ Xold := by
      intro e
      subst e
      exact hne (fwd_injective x c hm old used X hfo hf hold hu)
    split
    · have hfound : x11ByShortcutAt { c with mIdsByShortcut := qerase c.mIdsByShortcut old } old
          = (Xold, { c with mIdsByShortcut := qerase c.mIdsByShortcut old }) :=
        x11ByShortcutAt_of_find _ _ _ hfo
      rw [hfound]
      refine ⟨?_, ?_, MapsCanonical_index x c _ rfl rfl
        (by simp only [remoteXUngrabKey, qfind_qerase, if_neg hold]) hm, hf, ?_, hu⟩
      · intro S1 ids1 hS1
        simp only [remoteXUngrabKey, qfind_qerase] at hS1 ⊢
        split_ifs at hS1 with e
        obtain ⟨n1, X2, n2, n3⟩ := hb S1 ids1 hS1
        refine ⟨n1, X2, n2, ?_⟩
        simp only [mem_sremove]
        refine ⟨n3, ?_⟩
        intro e2
        subst e2
        exact e (fwd_injective x c hm old S1 X2 hfo n2 hold
          (indexed_ne_empty x c hb hm S1 ids1 hS1))
      · intro X1 hX1
        simp only [remoteXUngrabKey, mem_sremove] at hX1
        rcases hg X1 hX1.1 with h1 | ⟨S1, ids1, n1, n2⟩
        · exact Or.inl h1
        · right
          refine ⟨S1, ids1, ?_, n2⟩
          simp only [remoteXUngrabKey, qfind_qerase]
          have e : ¬ old = S1 := by
            intro e
            subst e
            rw [hfo] at n2
            exact hX1.2 (Option.some.inj n2).symm
          simp [e, n1]
      · simp only [remoteXUngrabKey, mem_sremove]
        exact ⟨hX, hdiff⟩
    · rename_i hne1
      refine ⟨?_, ?_, MapsCanonical_index x c _ rfl rfl
        (by simp only [qfind_qset, if_neg hold]) hm, hf, hX, hu⟩
      · intro S1 ids1 hS1
        simp only [qfind_qset] at hS1
        split_ifs at hS1 with e
        · cases hS1
          subst e
          exact ⟨hne1, Xold, hfo, hXo⟩
        · exact hb S1 ids1 hS1
      · intro X1 hX1
        rcases hg X1 hX1 with h1 | ⟨S1, ids1, n1, n2⟩
        · exact Or.inl h1
        · right
          by_cases e : old = S1
          · subst e
            exact ⟨old, sremove ids id, by simp, n2⟩
          · exact ⟨S1, ids1, by simp [e, n1], n2⟩

theorem addActionCommon_snd_of_none (x : XServer) (c : Core) (shortcut : String)
    (h : (addActionCommon x c shortcut).1 = none) : (addActionCommon x c shortcut).2 = c := by
  unfold addActionCommon at h ⊢
  repeat' split
  all_goals first | rfl | skip
  all_goals simp_all

theorem grabOrReuseKey_of_bound (c : Core) (X : X11Shortcut) (used : String) (xerror : Bool)
    (ids : QSet Nat) (hi : qfind c.mIdsByShortcut used = some ids) (hne : ids ≠ []) :
    grabOrReuseKey c X used xerror = (used, c) := by
  cases ids with
  | nil => exact absurd rfl hne
  | cons a l => simp [grabOrReuseKey, hi]

theorem GrabCore_addActionTail (x : XServer) (c : Core) (X : X11Shortcut) (used : String)
    (action : BaseAction) (hc : GrabCore x c) (hf : qfind c.mX11ByShortcut used = some X)
    (hu : used ≠ "") :
    GrabCore x (addActionTail c X used action false).2 := by
  obtain ⟨p1, p2⟩ := GrabPending_grabOrReuseKey x c X used hc hf hu
  simp only [addActionTail, p1]
  refine GrabCore_of_eq x
    (insertId { (grabOrReuseKey c X used false).2 with
                  mLastId := nextId (grabOrReuseKey c X used false).2 } used
      (nextId (grabOrReuseKey c X used false).2)) _ (by simp) (by simp) (by simp) (by simp) ?_
  exact GrabCore_insertId x _ X used _ (GrabPending_of_eq x _ _ X used rfl rfl rfl rfl p2)

theorem GrabCore_addDBusActionTail (x : XServer) (c : Core) (X : X11Shortcut) (used : String)
    (service path description sender : String) (hc : GrabCore x c)
    (hf : qfind c.mX11ByShortcut used = some X) (hu : used ≠ "") :
    GrabCore x (addDBusActionTail c X used service path description sender false).2 := by
  obtain ⟨p1, p2⟩ := GrabPending_grabOrReuseKey x c X used hc hf hu
  simp only [addDBusActionTail, p1]
  refine GrabCore_of_eq x
    (insertId { (grabOrReuseKey c X used false).2 with
                  mLastId := nextId (grabOrReuseKey c X used false).2 } used
      (nextId (grabOrReuseKey c X used false).2)) _ (by simp) (by simp) (by simp) (by simp) ?_
  exact GrabCore_insertId x _ X used _ (GrabPending_of_eq x _ _ X used rfl rfl rfl rfl p2)

theorem GrabCore_moveToShortcut (x : XServer) (c : Core) (X : X11Shortcut) (used old : String)
    (id : Nat) (action : BaseAction) (hc : GrabCore x c)
    (hf : qfind c.mX11ByShortcut used = some X) (hne : old ≠ used) (hu : used ≠ "") :
    GrabCore x (moveToShortcut (grabOrReuseKey c X used false).2 id old
      (grabOrReuseKey c X used false).1 action) := by
  obtain ⟨p1, p2⟩ := GrabPending_grabOrReuseKey x c X used hc hf hu
  simp only [moveToShortcut, p1]
  refine GrabCore_of_eq x
    (insertId (releaseOldShortcut (grabOrReuseKey c X used false).2 old id) used id) _
    (by simp) (by simp) (by simp) (by simp) ?_
  exact GrabCore_insertId x _ X used _ (GrabPending_releaseOldShortcut x _ X used old id p2 hne)

theorem GrabCore_addMethodAction (x : XServer) (c : Core)
    (shortcut service path interface method description : String)
    (hk : KeyboardConsistent x) (hc : GrabCore x c) :
    GrabCore x (addMethodAction x c shortcut service path interface method description false).2 := by
  simp only [addMethodAction]
  split
  · rename_i h
    rw [addActionCommon_snd_of_none x c shortcut h]
    exact hc
  · rename_i X used h
    obtain ⟨h1, h2⟩ := GrabCore_addActionCommon x c shortcut X used hk hc h
    exact GrabCore_addActionTail x _ X used _ h1 h2
      (addActionCommon_ne_empty x c shortcut X used hc.2.2 h)

theorem GrabCore_addCommandAction (x : XServer) (c : Core) (shortcut command : String)
    (arguments : List String) (description : String)
    (hk : KeyboardConsistent x) (hc : GrabCore x c) :
    GrabCore x (addCommandAction x c shortcut command arguments description false).2 := by
  simp only [addCommandAction]
  split
  · rename_i h
    rw [addActionCommon_snd_of_none x c shortcut h]
    exact hc
  · rename_i X used h
    obtain ⟨h1, h2⟩ := GrabCore_addActionCommon x c shortcut X used hk hc h
    exact GrabCore_addActionTail x _ X used _ h1 h2
      (addActionCommon_ne_empty x c shortcut X used hc.2.2 h)

theorem GrabCore_addOrRegisterDBusAction (x : XServer) (c c1 : Core)
    (shortcut service path description sender : String) (r : String × Nat)
    (hk : KeyboardConsistent x) (hc : GrabCore x c)
    (h : addOrRegisterDBusAction x c shortcut service path description sender false
      = some (r, c1)) : GrabCore x c1 := by
  have hr : GrabCore x (rememberDBusPath c service path) :=
    GrabCore_of_eq x c _ (by simp) (by simp) (by simp) (by simp) hc
  simp only [addOrRegisterDBusAction] at h
  repeat' split at h
  all_goals first | (cases h; done) | (obtain ⟨rfl, rfl⟩ := some_pair_eq h; first | exact hc | skip)
  · rename_i hn _ _ _
    rw [addActionCommon_snd_of_none x _ shortcut hn]
    exact GrabCore_of_eq x _ _ (by simp) (by simp) (by simp) (by simp) hr
  · rename_i X used hs
    obtain ⟨h1, h2⟩ := GrabCore_addActionCommon x _ shortcut X used hk hr hs
    exact GrabCore_addDBusActionTail x _ X used _ _ _ _ h1 h2
      (addActionCommon_ne_empty x _ shortcut X used hr.2.2 hs)

theorem GrabCore_changeShortcut (x : XServer) (c : Core) (id : Nat) (shortcut : String)
    (hk : KeyboardConsistent x) (hs : StoreIndexed c) (hc : GrabCore x c) :
    GrabCore x (changeShortcut x c id shortcut false).2 := by
  simp only [changeShortcut]
  split
  · exact hc
  · rename_i old action hst
    split
    · rename_i h
      simp only
      rw [addActionCommon_snd_of_none x c shortcut h]
      exact hc
    · rename_i X used h
      obtain ⟨h1, h2⟩ := GrabCore_addActionCommon x c shortcut X used hk hc h
      simp only
      by_cases hne : old = used
      · subst hne
        obtain ⟨ids, hi, hmem⟩ := hs id old action hst
        have hi2 : qfind (addActionCommon x c shortcut).2.mIdsByShortcut old = some ids := by
          simpa using hi
        have hids : ids ≠ [] := by
          intro e
          rw [e] at hmem
          cases hmem
        rw [grabOrReuseKey_of_bound _ X old false ids hi2 hids]
        simp only [ne_eq, not_true_eq_false, if_false]
        exact GrabCore_of_eq x _ _ (by simp) (by simp) (by simp) (by simp) h1
      · have hm := GrabCore_moveToShortcut x _ X used old id action h1 h2 hne
          (addActionCommon_ne_empty x c shortcut X used hc.2.2 h)
        simp only [ne_eq, hne, not_false_eq_true, if_true]
        split
        · exact GrabCore_of_eq x _ _ (by simp) (by simp) (by simp) (by simp) hm
        · exact GrabCore_of_eq x _ _ (by simp) (by simp) (by simp) (by simp) hm

theorem GrabCore_changeDBusShortcut (x : XServer) (c c1 : Core) (path shortcut sender : String)
    (r : String × Nat) (hk : KeyboardConsistent x) (hs : StoreIndexed c)
    (hn : NullShortcutsEmpty c) (hc : GrabCore x c)
    (h : changeDBusShortcut x c path shortcut sender false = some (r, c1)) : GrabCore x c1 := by
  simp only [changeDBusShortcut] at h
  split at h
  · obtain ⟨rfl, rfl⟩ := some_pair_eq h
    exact hc
  · rename_i id hid
    split at h
    · rename_i hn
      obtain ⟨rfl, rfl⟩ := some_pair_eq h
      rw [addActionCommon_snd_of_none x c shortcut hn]
      exact hc
    · rename_i X used hcommon
      obtain ⟨h1, h2⟩ := GrabCore_addActionCommon x c shortcut X used hk hc hcommon
      have hu : used ≠ "" := addActionCommon_ne_empty x c shortcut X used hc.2.2 hcommon
      split at h
      · split at h
        · cases h
        · rename_i old hnull
          have hold : old = "" := hn id old (by simpa using hnull)
          subst hold
          rw [if_pos (fun e => hu e.symm)] at h
          cases h
      · rename_i old action hst
        have hst1 : qfind c.mShortcutAndActionById id = some (old, action) := by
          simpa using hst
        by_cases hne : old = used
        · subst hne
          obtain ⟨ids, hi, hmem⟩ := hs id old action hst1
          have hi2 : qfind (addActionCommon x c shortcut).2.mIdsByShortcut old = some ids := by
            simpa using hi
          have hids : ids ≠ [] := by
            intro e
            rw [e] at hmem
            cases hmem
          simp only [ne_eq, not_true_eq_false, if_false,
            grabOrReuseKey_of_bound _ X old false ids hi2 hids] at h
          obtain ⟨rfl, rfl⟩ := some_pair_eq h
          exact GrabCore_of_eq x _ _ (by simp) (by simp) (by simp) (by simp) h1
        · have hm := GrabCore_moveToShortcut x _ X used old id action h1 h2 hne hu
          simp only [ne_eq, hne, not_false_eq_true, if_true] at h
          split at h
          · obtain ⟨rfl, rfl⟩ := some_pair_eq h
            exact GrabCore_of_eq x _ _ (by simp) (by simp) (by simp) (by simp) hm
          · cases h

theorem GrabCore_removeAction (x : XServer) (c : Core) (id : Nat) (hs : StoreIndexed c)
    (hc : GrabCore x c) : GrabCore x (removeAction c id).2 := by
  simp only [removeAction]
  split
  · exact hc
  · rename_i S action hst
    split
    · exact hc
    · obtain ⟨ids, hi, _⟩ := hs id S action hst
      obtain ⟨_, X, hf, _⟩ := hc.1 S ids hi
      simp only [x11ByShortcutAt_of_find c S X hf]
      refine GrabCore_of_eq x
        (releaseId { c with mShortcutAndActionById := qerase c.mShortcutAndActionById id } S id X)
        _ (by simp) (by simp) (by simp) (by simp) ?_
      exact GrabCore_releaseId x _ S id X (GrabCore_of_eq x c _ rfl rfl rfl rfl hc) hf

theorem index_empty_none (x : XServer) (c : Core) (hb : BoundGrabbed c)
    (hm : MapsCanonical x c) : qfind c.mIdsByShortcut "" = none := by
  cases hi : qfind c.mIdsByShortcut "" with
  | none => rfl
  | some ids => exact absurd rfl (indexed_ne_empty x c hb hm "" ids hi)

theorem releaseId_of_none (c : Core) (S : String) (id : Nat) (X : X11Shortcut)
    (h : qfind c.mIdsByShortcut S = none) : releaseId c S id X = c := by
  simp [releaseId, h]

theorem GrabCore_x11ByShortcutAt_empty (x : XServer) (c : Core) (hc : GrabCore x c) :
    GrabCore x (x11ByShortcutAt c "").2 := by
  obtain ⟨hb, hg, hm⟩ := hc
  have hi := index_empty_none x c hb hm
  unfold x11ByShortcutAt
  split
  · exact ⟨hb, hg, hm⟩
  · rename_i hf
    refine ⟨?_, ?_, ?_, hm.2⟩
    · intro S ids hS
      have hS0 : S ≠ "" := indexed_ne_empty x c hb hm S ids hS
      obtain ⟨n1, X, n2, n3⟩ := hb S ids hS
      exact ⟨n1, X, by simp [qfind_qset, Ne.symm hS0, n2], n3⟩
    · intro X hX
      obtain ⟨S, ids, n1, n2⟩ := hg X hX
      have hS0 : S ≠ "" := indexed_ne_empty x c hb hm S ids n1
      exact ⟨S, ids, n1, by simp [qfind_qset, Ne.symm hS0, n2]⟩
    · intro S X hS
      simp only [qfind_qset] at hS
      split_ifs at hS with e
      · subst e
        exact ⟨fun h0 => absurd rfl h0, fun _ => hi⟩
      · exact hm.1 S X hS

theorem GrabCore_removeNullDBusAction (x : XServer) (c c1 : Core) (id : Nat)
    (path sender : String) (r : Nat) (hc : GrabCore x c)
    (h : removeNullDBusAction c id "" path sender = some (r, c1)) : GrabCore x c1 := by
  have h0 := GrabCore_x11ByShortcutAt_empty x c hc
  have hi := index_empty_none x _ h0.1 h0.2.2
  simp only [removeNullDBusAction] at h
  rw [releaseId_of_none _ _ _ _ (by simpa using hi)] at h
  split at h
  · cases h
  · obtain ⟨rfl, rfl⟩ := some_pair_eq h
    exact GrabCore_of_eq x _ _ (by simp) (by simp) (by simp) (by simp) h0

theorem GrabCore_serviceDisappearedNull (x : XServer) (c c1 : Core) (id path : String)
    (n n1 actionId : Nat) (hc : GrabCore x c)
    (h : serviceDisappearedNull c id id path n actionId "" = some (c1, n1)) :
    GrabCore x c1 := by
  have h0 := GrabCore_x11ByShortcutAt_empty x c hc
  have hi := index_empty_none x _ h0.1 h0.2.2
  simp only [serviceDisappearedNull, ne_eq, not_true_eq_false, if_false] at h
  rw [releaseId_of_none _ _ _ _ hi] at h
  obtain ⟨rfl, rfl⟩ := some_pair_eq h
  exact GrabCore_of_eq x _ _ (by simp) (by simp) (by simp) (by simp) h0

theorem GrabCore_removeDBusAction (x : XServer) (c c1 : Core) (path sender : String) (r : Nat)
    (hs : StoreIndexed c) (hn : NullShortcutsEmpty c) (hc : GrabCore x c)
    (h : removeDBusAction c path sender = some (r, c1)) : GrabCore x c1 := by
  simp only [removeDBusAction] at h
  split at h
  · obtain ⟨rfl, rfl⟩ := some_pair_eq h
    exact hc
  · rename_i id hid
    split at h
    · split at h
      · cases h
      · rename_i S hnull
        have hS : S = "" := hn id S hnull
        subst hS
        have hr : r = id := by
          simp only [removeNullDBusAction] at h
          split at h
          · cases h
          · exact ((some_pair_eq h).1).trans rfl
        exact GrabCore_removeNullDBusAction x c c1 id path sender r hc h
    · rename_i S action hst
      obtain ⟨ids, hi, _⟩ := hs id S action hst
      obtain ⟨_, X, hf, _⟩ := hc.1 S ids hi
      simp only [x11ByShortcutAt_of_find c S X hf] at h
      split at h
      · cases h
      · obtain ⟨rfl, rfl⟩ := some_pair_eq h
        refine GrabCore_of_eq x
          (releaseId { c with mShortcutAndActionById := qerase c.mShortcutAndActionById r,
                              mIdByDBusClient := qerase c.mIdByDBusClient (sender, path) } S r X)
          _ (by simp) (by simp) (by simp) (by simp) ?_
        exact GrabCore_releaseId x _ S r X (GrabCore_of_eq x c _ rfl rfl rfl rfl hc) hf

theorem GrabCore_serviceDisappearedPath (x : XServer) (c c1 : Core) (id path : String)
    (n n1 : Nat) (hs : StoreIndexed c) (hn : NullShortcutsEmpty c) (hc : GrabCore x c)
    (h : serviceDisappearedPath c id id path n = some (c1, n1)) : GrabCore x c1 := by
  simp only [serviceDisappearedPath, ne_eq, not_true_eq_false, if_false] at h
  split at h
  · obtain ⟨rfl, rfl⟩ := some_pair_eq h
    exact hc
  · rename_i actionId hid
    split at h
    · split at h
      · obtain ⟨rfl, rfl⟩ := some_pair_eq h
        exact hc
      · rename_i S hnull
        have hS : S = "" := hn actionId S hnull
        subst hS
        exact GrabCore_serviceDisappearedNull x c c1 id path n n1 actionId hc h
    · rename_i S action hst
      obtain ⟨ids, hi, _⟩ := hs actionId S action hst
      obtain ⟨_, X, hf, _⟩ := hc.1 S ids hi
      simp only [x11ByShortcutAt_of_find c S X hf] at h
      obtain ⟨rfl, rfl⟩ := some_pair_eq h
      refine GrabCore_of_eq x (releaseId c S actionId X) _ (by simp) (by simp) (by simp)
        (by simp) ?_
      exact GrabCore_releaseId x _ S actionId X hc hf

theorem GrabCore_serviceDisappearedLoop (x : XServer) (id : String) (paths : List String)
    (c c1 : Core) (n n1 : Nat) (hs : StoreIndexed c) (hn : NullShortcutsEmpty c)
    (hc : GrabCore x c)
    (h : serviceDisappearedLoop id id paths (c, n) = some (c1, n1)) : GrabCore x c1 := by
  induction paths generalizing c n with
  | nil =>
    simp only [serviceDisappearedLoop] at h
    cases h
    exact hc
  | cons path rest ih =>
    simp only [serviceDisappearedLoop] at h
    split at h
    · cases h
    · rename_i acc h2
      obtain ⟨c2, n2⟩ := acc
      exact ih c2 n2 (StoreIndexed_serviceDisappearedPath _ _ _ _ _ _ hs h2)
        (NullShortcutsEmpty_serviceDisappearedPath _ _ _ _ _ _ _ hn h2)
        (GrabCore_serviceDisappearedPath x _ _ _ _ _ _ hs hn hc h2) h

theorem GrabCore_serviceDisappeared (x : XServer) (c c1 : Core) (id : String)
    (hs : StoreIndexed c) (hn : NullShortcutsEmpty c) (hc : GrabCore x c)
    (h : serviceDisappeared c id id = some c1) : GrabCore x c1 := by
  unfold serviceDisappeared at h
  split at h
  · split at h
    · cases h
    · rename_i hl
      cases h
      have h1 := GrabCore_serviceDisappearedLoop x _ _ _ _ _ _ hs hn hc hl
      split
      · exact GrabCore_of_eq x _ _ (by simp) (by simp) (by simp) (by simp) h1
      · exact GrabCore_of_eq x _ _ (by simp) (by simp) (by simp) (by simp) h1
  · cases h
    exact GrabCore_of_eq x _ _ (by simp) (by simp) (by simp) (by simp) hc

theorem GrabCore_step (x : XServer) (c c1 : Core) (op : Op) (hk : KeyboardConsistent x)
    (hop : op.isAliasDisappeared = false ∧ op.isKeyPress = false ∧ op.xerror = false)
    (hs : StoreIndexed c) (hn : NullShortcutsEmpty c) (hc : GrabCore x c)
    (h : step x c op = some c1) : GrabCore x c1 := by
  obtain ⟨hop, hkp, hx⟩ := hop
  cases op with
  | addMethodAction shortcut service path interface method description xerror =>
    simp only [Op.xerror] at hx
    subst hx
    cases h
    exact GrabCore_addMethodAction _ _ _ _ _ _ _ _ hk hc
  | addCommandAction shortcut command arguments description xerror =>
    simp only [Op.xerror] at hx
    subst hx
    cases h
    exact GrabCore_addCommandAction _ _ _ _ _ _ hk hc
  | addDBusAction shortcut path description sender xerror =>
    simp only [Op.xerror] at hx
    subst hx
    simp only [step, addDBusAction, Option.map_eq_some'] at h
    obtain ⟨⟨r, c2⟩, h, rfl⟩ := h
    exact GrabCore_addOrRegisterDBusAction _ _ _ _ _ _ _ _ _ hk hc h
  | registerDBusAction shortcut service path description xerror =>
    simp only [Op.xerror] at hx
    subst hx
    simp only [step, registerDBusAction, Option.map_eq_some'] at h
    obtain ⟨⟨r, c2⟩, h, rfl⟩ := h
    split at h
    · cases h
    · rename_i h2
      cases h
      exact GrabCore_addOrRegisterDBusAction _ _ _ _ _ _ _ _ _ hk hc h2
  | modifyDBusAction path description sender =>
    simp only [step, Option.map_eq_some'] at h
    obtain ⟨⟨r, c2⟩, h, rfl⟩ := h
    exact GrabCore_of_eq x c _ (modifyDBusAction_mIdsByShortcut _ _ _ _ _ _ h)
      (modifyDBusAction_mX11ByShortcut _ _ _ _ _ _ h)
      (modifyDBusAction_mShortcutByX11 _ _ _ _ _ _ h) (modifyDBusAction_xGrabs _ _ _ _ _ _ h) hc
  | modifyActionDescription id description =>
    cases h
    exact GrabCore_of_eq x c _ (modifyActionDescription_mIdsByShortcut _ _ _)
      (modifyActionDescription_mX11ByShortcut _ _ _)
      (modifyActionDescription_mShortcutByX11 _ _ _) (modifyActionDescription_xGrabs _ _ _) hc
  | modifyMethodAction id service path interface method description =>
    cases h
    exact GrabCore_of_eq x c _ (modifyMethodAction_mIdsByShortcut _ _ _ _ _ _ _)
      (modifyMethodAction_mX11ByShortcut _ _ _ _ _ _ _)
      (modifyMethodAction_mShortcutByX11 _ _ _ _ _ _ _)
      (modifyMethodAction_xGrabs _ _ _ _ _ _ _) hc
  | modifyCommandAction id command arguments description =>
    cases h
    exact GrabCore_of_eq x c _ (modifyCommandAction_mIdsByShortcut _ _ _ _ _)
      (modifyCommandAction_mX11ByShortcut _ _ _ _ _)
      (modifyCommandAction_mShortcutByX11 _ _ _ _ _) (modifyCommandAction_xGrabs _ _ _ _ _) hc
  | changeDBusShortcut path shortcut sender xerror =>
    simp only [Op.xerror] at hx
    subst hx
    simp only [step, Option.map_eq_some'] at h
    obtain ⟨⟨r, c2⟩, h, rfl⟩ := h
    exact GrabCore_changeDBusShortcut _ _ _ _ _ _ _ hk hs hn hc h
  | changeShortcut id shortcut xerror =>
    simp only [Op.xerror] at hx
    subst hx
    cases h
    exact GrabCore_changeShortcut _ _ _ _ hk hs hc
  | swapActions id1 id2 =>
    cases h
    exact GrabCore_of_eq x c _ (swapActions_mIdsByShortcut _ _ _)
      (swapActions_mX11ByShortcut _ _ _) (swapActions_mShortcutByX11 _ _ _)
      (swapActions_xGrabs _ _ _) hc
  | removeDBusAction path sender =>
    simp only [step, Option.map_eq_some'] at h
    obtain ⟨⟨r, c2⟩, h, rfl⟩ := h
    exact GrabCore_removeDBusAction _ _ _ _ _ _ hs hn hc h
  | removeAction id =>
    cases h
    exact GrabCore_removeAction _ _ _ hs hc
  | setMultipleActionsBehaviour behaviour =>
    cases h
    exact GrabCore_of_eq x c _ (by simp [setMultipleActionsBehaviour])
      (by simp [setMultipleActionsBehaviour]) (by simp [setMultipleActionsBehaviour])
      (by simp [setMultipleActionsBehaviour]) hc
  | serviceAppeared service id =>
    obtain ⟨_, _, _, _, rfl⟩ := serviceAppeared_shape _ _ _ _ h
    exact GrabCore_of_eq x c _ rfl rfl rfl rfl hc
  | serviceDisappeared service id =>
    have hse : service = id := by simpa [Op.isAliasDisappeared] using hop
    subst hse
    exact GrabCore_serviceDisappeared _ _ _ _ hs hn hc h
  | keyPress keycode state call =>
    simp [Op.isKeyPress] at hkp

theorem GrabCore_run (x : XServer) (b : MultipleActionsBehaviour) (ops : List Op) (c : Core)
    (hk : KeyboardConsistent x)
    (hops : ∀ op ∈ ops,
      op.isAliasDisappeared = false ∧ op.isKeyPress = false ∧ op.xerror = false)
    (hrun : run x (Core.fresh b) ops = some c) :
    StoreIndexed c ∧ GrabCore x c ∧ NullShortcutsEmpty c :=
  run_invariant x (fun c => StoreIndexed c ∧ GrabCore x c ∧ NullShortcutsEmpty c)
    (fun op => op.isAliasDisappeared = false ∧ op.isKeyPress = false ∧ op.xerror = false)
    (fun c op c1 hop hc hs =>
      ⟨StoreIndexed_step x c c1 op hop.1 hc.1 hs,
        GrabCore_step x c c1 op hk hop hc.1 hc.2.2 hc.2.1 hs,
        NullShortcutsEmpty_step x c c1 op hc.2.2 hs⟩)
    ops _ c hops ⟨StoreIndexed_fresh b, GrabCore_fresh x b, NullShortcutsEmpty_fresh b⟩ hrun

theorem remoteStringToKeycode_keyboardTF1 (s : String) :
    remoteStringToKeycode keyboardTF1 s = 0 ∨ remoteStringToKeycode keyboardTF1 s = 28 ∨
      remoteStringToKeycode keyboardTF1 s = 67 := by
  simp only [remoteStringToKeycode, workerStringToKeycode, keyboardTF1]
  split_ifs <;> simp

theorem keyboardTF1_consistent : KeyboardConsistent keyboardTF1 := by
  intro s X u h1 h2
  obtain ⟨hk1, _, _, hne⟩ := ShortcutToX11_eq_some keyboardTF1 s X h1
  have hX : X.1 = 28 ∨ X.1 = 67 := by
    rcases remoteStringToKeycode_keyboardTF1 ((split s '+').getLast?.getD "") with e | e | e
    · exact absurd (hk1.trans e) hne
    · exact Or.inl (hk1.trans e)
    · exact Or.inr (hk1.trans e)
  rcases hX with e | e
  · exact canonical_fixed keyboardTF1 s u X h1 h2 (by rw [e]; decide) (by rw [e]; decide)
  · exact canonical_fixed keyboardTF1 s u X h1 h2 (by rw [e]; decide) (by rw [e]; decide)

/-- A counterexample to claim C2 as stated, in three runs from the empty registry.
(1) The peer ":1.42" adds a service action for "Control+T", a name "com.example.foo" owned by
that peer disappears (the key is ungrabbed and the dispatch index emptied, the action stays in
the primary store), then `change_shortcut` gives action 1 the shortcut "Control+T" it already
has: the key (28, ControlMask) is grabbed again, but the dispatch index stays empty.
(2) On the keyboard `keyboardDoubled` a command is registered for "Multi_key" and removed, then
one for "A": the key (38, 0) is grabbed, while `mX11ByShortcut["A"]` is still (66, 0).
(3) The X server rejects the grabs of two registrations, which are filed under the shortcut ""
all the same; the removal of the first adds `mX11ByShortcut[""] = (0, 0)`: the index holds a
non-empty set for "", and nothing is grabbed. -/
theorem grabs_match_index_counterexample :
    (run keyboardTF1 (Core.fresh .first)
        [Op.addDBusAction "Control+T" "/p" "" ":1.42" false,
         Op.serviceDisappeared "com.example.foo" ":1.42",
         Op.changeShortcut 1 "Control+T" false]).map
      (fun c => (c.xGrabs, c.mIdsByShortcut)) = some ([(28, 4)], []) ∧
    (run keyboardDoubled (Core.fresh .first)
        [Op.addCommandAction "Multi_key" "/usr/bin/xterm" [] "" false,
         Op.removeAction 1,
         Op.addCommandAction "A" "/usr/bin/xterm" [] "" false]).map
      (fun c => (c.xGrabs, c.mIdsByShortcut)) = some ([(38, 0)], [("A", [2])]) ∧
    (run keyboardDoubled (Core.fresh .first)
        [Op.addCommandAction "Multi_key" "/usr/bin/xterm" [] "" false,
         Op.removeAction 1,
         Op.addCommandAction "A" "/usr/bin/xterm" [] "" false]).map
      (fun c => c.mX11ByShortcut) = some [("A", (66, 0))] ∧
    (run keyboardTF1 (Core.fresh .first)
        [Op.addCommandAction "Control+T" "/usr/bin/xterm" [] "" true,
         Op.addCommandAction "F1" "/usr/bin/xterm" [] "" true,
         Op.removeAction 1]).map
      (fun c => (c.xGrabs, c.mIdsByShortcut)) = some ([], [("", [2])]) ∧
    (run keyboardTF1 (Core.fresh .first)
        [Op.addCommandAction "Control+T" "/usr/bin/xterm" [] "" true,
         Op.addCommandAction "F1" "/usr/bin/xterm" [] "" true,
         Op.removeAction 1]).map
      (fun c => qfind c.mX11ByShortcut "") = some (some (0, 0)) :=
  ⟨by decide, by decide, by decide, by decide, by decide⟩

/-- Claim C2, amended. In every state reachable from the empty registry the dispatch index keeps
no empty set of ids. If moreover the keyboard is consistent (the canonical shortcut of a binding
resolves to that binding), the X server accepts every grab, and no request is a key press or the
disappearance of a name other than the unique name of its owner, then the grabbed bindings are
exactly the bindings `mX11ByShortcut[S]` of the shortcuts `S` with an entry in the index. -/
theorem grabs_match_index (x : XServer) (b : MultipleActionsBehaviour) (ops : List Op) (c : Core)
    (hrun : run x (Core.fresh b) ops = some c) :
    (∀ S ids, qfind c.mIdsByShortcut S = some ids → ids ≠ []) ∧
      (KeyboardConsistent x →
        (∀ op ∈ ops, op.isAliasDisappeared = false ∧ op.isKeyPress = false ∧ op.xerror = false) →
        ∀ X, X ∈ c.xGrabs ↔
          ∃ S ids, qfind c.mIdsByShortcut S = some ids ∧ ids ≠ [] ∧
            qfind c.mX11ByShortcut S = some X) := by
  refine ⟨?_, ?_⟩
  · exact run_invariant x NoEmptyIds (fun _ => True)
      (fun c op c1 _ hc hs => NoEmptyIds_step x c c1 op hc hs) ops _ c (fun _ _ => trivial)
      (by intro S ids h; simp [Core.fresh] at h) hrun
  · intro hk hops X
    have hinv : StoreIndexed c ∧ GrabCore x c :=
      ⟨(GrabCore_run x b ops c hk hops hrun).1, (GrabCore_run x b ops c hk hops hrun).2.1⟩
    obtain ⟨_, hb, hg, _⟩ := hinv
    constructor
    · intro hX
      obtain ⟨S, ids, h1, h2⟩ := hg X hX
      exact ⟨S, ids, h1, (hb S ids h1).1, h2⟩
    · rintro ⟨S, ids, h1, _, h2⟩
      obtain ⟨_, X1, h3, h4⟩ := hb S ids h1
      rw [h2] at h3
      cases h3
      exact h4

/-- Witness of `grabs_match_index`: two commands on "Control+T" (the second written
"Control+Control+T"), a service action on "F1", then the first command is removed: the key
(28, ControlMask) is grabbed, and it is the binding of an indexed shortcut. -/
theorem grabs_match_index_witness :
    (∀ op ∈ [Op.addCommandAction "Control+T" "/usr/bin/xterm" [] "terminal" false,
             Op.addCommandAction "Control+Control+T" "/usr/bin/xterm" [] "terminal" false,
             Op.addDBusAction "F1" "/p" "" ":1.42" false,
             Op.removeAction 1],
        op.isAliasDisappeared = false ∧ op.isKeyPress = false ∧ op.xerror = false) ∧
      ((28, 4) ∈ Core.xGrabs
        ((run keyboardTF1 (Core.fresh .first)
          [Op.addCommandAction "Control+T" "/usr/bin/xterm" [] "terminal" false,
           Op.addCommandAction "Control+Control+T" "/usr/bin/xterm" [] "terminal" false,
           Op.addDBusAction "F1" "/p" "" ":1.42" false,
           Op.removeAction 1]).getD (Core.fresh .first)) ↔
        ∃ S ids, qfind (Core.mIdsByShortcut
          ((run keyboardTF1 (Core.fresh .first)
            [Op.addCommandAction "Control+T" "/usr/bin/xterm" [] "terminal" false,
             Op.addCommandAction "Control+Control+T" "/usr/bin/xterm" [] "terminal" false,
             Op.addDBusAction "F1" "/p" "" ":1.42" false,
             Op.removeAction 1]).getD (Core.fresh .first))) S = some ids ∧ ids ≠ [] ∧
          qfind (Core.mX11ByShortcut
            ((run keyboardTF1 (Core.fresh .first)
              [Op.addCommandAction "Control+T" "/usr/bin/xterm" [] "terminal" false,
               Op.addCommandAction "Control+Control+T" "/usr/bin/xterm" [] "terminal" false,
               Op.addDBusAction "F1" "/p" "" ":1.42" false,
               Op.removeAction 1]).getD (Core.fresh .first))) S = some (28, 4)) :=
  ⟨by decide,
   (grabs_match_index keyboardTF1 .first
    [Op.addCommandAction "Control+T" "/usr/bin/xterm" [] "terminal" false,
     Op.addCommandAction "Control+Control+T" "/usr/bin/xterm" [] "terminal" false,
     Op.addDBusAction "F1" "/p" "" ":1.42" false,
     Op.removeAction 1]
    ((run keyboardTF1 (Core.fresh .first)
      [Op.addCommandAction "Control+T" "/usr/bin/xterm" [] "terminal" false,
       Op.addCommandAction "Control+Control+T" "/usr/bin/xterm" [] "terminal" false,
       Op.addDBusAction "F1" "/p" "" ":1.42" false,
       Op.removeAction 1]).getD (Core.fresh .first))
    (by decide)).2 keyboardTF1_consistent (by decide) (28, 4)⟩

/-! ## Operations guarded by the type of the action -/

theorem type_ne_dbus_iff (a : BaseAction) :
    a.type ≠ "dbus" ↔ ¬ (a.type ≠ "method" ∧ a.type ≠ "command") := by
  cases a <;> simp [BaseAction.type]

/-- Claim C16. `modify_method` returns true iff the id is in the primary store with an action of
type "method", `modify_command` iff the type is "command", `modify_description` and `remove`
iff the id is in the primary store and the type is not "dbus"; whenever one of them returns
false, the state after the call is the state before it. -/
theorem type_guarded_operations (c : Core) (id : Nat) :
    (∀ service path interface method description,
      ((modifyMethodAction c id service path interface method description).1 = true ↔
        ∃ S a, qfind c.mShortcutAndActionById id = some (S, a) ∧ a.type = "method") ∧
      ((modifyMethodAction c id service path interface method description).1 = false →
        (modifyMethodAction c id service path interface method description).2 = c)) ∧
    (∀ command arguments description,
      ((modifyCommandAction c id command arguments description).1 = true ↔
        ∃ S a, qfind c.mShortcutAndActionById id = some (S, a) ∧ a.type = "command") ∧
      ((modifyCommandAction c id command arguments description).1 = false →
        (modifyCommandAction c id command arguments description).2 = c)) ∧
    (∀ description,
      ((modifyActionDescription c id description).1 = true ↔
        ∃ S a, qfind c.mShortcutAndActionById id = some (S, a) ∧ a.type ≠ "dbus") ∧
      ((modifyActionDescription c id description).1 = false →
        (modifyActionDescription c id description).2 = c)) ∧
    ((removeAction c id).1 = true ↔
        ∃ S a, qfind c.mShortcutAndActionById id = some (S, a) ∧ a.type ≠ "dbus") ∧
    ((removeAction c id).1 = false → (removeAction c id).2 = c) := by
  refine ⟨?_, ?_, ?_, ?_, ?_⟩
  · intro service path interface method description
    unfold modifyMethodAction
    cases hf : qfind c.mShortcutAndActionById id with
    | none => simp
    | some p =>
      obtain ⟨S, a⟩ := p
      by_cases ht : a.type = "method"
      · simp only [ht, ne_eq, not_true_eq_false, if_false, Bool.true_eq_false, false_implies,
          and_true, true_iff]
        exact ⟨S, a, rfl, ht⟩
      · simp only [ne_eq, ht, not_false_eq_true, if_true, Bool.false_eq_true, false_iff,
          implies_true, and_true]
        rintro ⟨S1, a1, h1, h2⟩
        cases h1
        exact ht h2
  · intro command arguments description
    unfold modifyCommandAction
    cases hf : qfind c.mShortcutAndActionById id with
    | none => simp
    | some p =>
      obtain ⟨S, a⟩ := p
      by_cases ht : a.type = "command"
      · simp only [ht, ne_eq, not_true_eq_false, if_false, Bool.true_eq_false, false_implies,
          and_true, true_iff]
        exact ⟨S, a, rfl, ht⟩
      · simp only [ne_eq, ht, not_false_eq_true, if_true, Bool.false_eq_true, false_iff,
          implies_true, and_true]
        rintro ⟨S1, a1, h1, h2⟩
        cases h1
        exact ht h2
  · intro description
    unfold modifyActionDescription
    cases hf : qfind c.mShortcutAndActionById id with
    | none => simp
    | some p =>
      obtain ⟨S, a⟩ := p
      by_cases ht : a.type ≠ "method" ∧ a.type ≠ "command"
      · have hd : ¬ a.type ≠ "dbus" := fun h => (type_ne_dbus_iff a).mp h ht
        simp only [if_pos ht, Bool.false_eq_true, false_iff, implies_true, and_true]
        rintro ⟨S1, a1, h1, h2⟩
        cases h1
        exact hd h2
      · have hd : a.type ≠ "dbus" := (type_ne_dbus_iff a).mpr ht
        simp only [if_neg ht, Bool.true_eq_false, false_implies, and_true, true_iff]
        exact ⟨S, a, rfl, hd⟩
  · unfold removeAction
    cases hf : qfind c.mShortcutAndActionById id with
    | none => simp
    | some p =>
      obtain ⟨S, a⟩ := p
      by_cases ht : a.type = "dbus"
      · simp only [ht, if_true, Bool.false_eq_true, false_iff]
        rintro ⟨S1, a1, h1, h2⟩
        cases h1
        exact h2 ht
      · simp only [ht, if_false, true_iff]
        exact ⟨S, a, rfl, ht⟩
  · unfold removeAction
    cases hf : qfind c.mShortcutAndActionById id with
    | none => simp
    | some p =>
      obtain ⟨S, a⟩ := p
      by_cases ht : a.type = "dbus"
      · simp [ht]
      · simp [ht]

/-! ## Swapping the actions of two ids -/

theorem qset_of_find {κ ν : Type} [DecidableEq κ] (m : QMap κ ν) (k : κ) (v w : ν) (h : qfind m k = some w) :
    qset m k v = qreplace m k v := by
  simp [qset, h]

theorem qreplace_comm {κ ν : Type} [DecidableEq κ] (m : QMap κ ν) (a b : κ) (v w : ν) (h : a ≠ b) :
    qreplace (qreplace m a v) b w = qreplace (qreplace m b w) a v := by
  induction m with
  | nil => rfl
  | cons e t ih =>
    obtain ⟨k, u⟩ := e
    by_cases ha : k = a
    · subst ha
      have hb : ¬ k = b := h
      simp [qreplace, hb]
    · by_cases hb : k = b
      · subst hb
        simp [qreplace, ha]
      · simp [qreplace, ha, hb, ih]

theorem qset_self {κ ν : Type} [DecidableEq κ] (m : QMap κ ν) (k : κ) (v : ν) (h : qfind m k = some v) : qset m k v = m := by
  rw [qset_of_find m k v v h, qreplace_self m k v h]

theorem swap_store_twice (m : QMap Nat (String × BaseAction)) (a b : Nat)
    (X Y : String × BaseAction) (ha : qfind m a = some X) (hb : qfind m b = some Y) :
    qset (qset (qset (qset m a (X.1, Y.2)) b (Y.1, X.2)) a
        (X.1, (if a = b then Y.2 else X.2))) b (Y.1, (if a = b then X.2 else Y.2)) = m := by
  by_cases hab : a = b
  · subst hab
    rw [ha] at hb
    cases hb
    simp only [if_true]
    have h1 : qset m a (X.1, X.2) = m := qset_self m a _ ha
    rw [h1, h1, h1, h1]
  · simp only [hab, if_false]
    have f1 : qfind (qset m a (X.1, Y.2)) b = some Y := by simp [hab, hb]
    have f2 : qfind (qset (qset m a (X.1, Y.2)) b (Y.1, X.2)) a = some (X.1, Y.2) := by
      have hba : ¬ b = a := fun e => hab e.symm
      simp [hba]
    have f3 : qfind (qset (qset (qset m a (X.1, Y.2)) b (Y.1, X.2)) a (X.1, X.2)) b
        = some (Y.1, X.2) := by
      simp [hab]
    rw [qset_of_find _ b _ _ f3, qset_of_find _ a _ _ f2, qset_of_find _ b _ _ f1,
      qset_of_find _ a _ _ ha]
    rw [qreplace_comm _ b a _ _ (fun e => hab e.symm), qreplace_qreplace, qreplace_qreplace]
    have h1 : qreplace m a (X.1, X.2) = m := qreplace_self m a _ ha
    rw [h1]
    exact qreplace_self m b _ hb

/-- Claim C17. `swap(id1, id2)` returns true iff both ids are in the primary store with equal
shortcuts; on true the two actions are exchanged while each id keeps its shortcut, no other id
is touched, and the dispatch index, the maps between shortcuts and bindings and the grab set
are unchanged; on false the state is unchanged. -/
theorem swap_actions_spec (c : Core) (id1 id2 : Nat) :
    ((swapActions c id1 id2).1 = true ↔
      ∃ S a1 a2, qfind c.mShortcutAndActionById id1 = some (S, a1) ∧
        qfind c.mShortcutAndActionById id2 = some (S, a2)) ∧
    (∀ S a1 a2, qfind c.mShortcutAndActionById id1 = some (S, a1) →
      qfind c.mShortcutAndActionById id2 = some (S, a2) →
      qfind (swapActions c id1 id2).2.mShortcutAndActionById id1 = some (S, a2) ∧
      qfind (swapActions c id1 id2).2.mShortcutAndActionById id2 = some (S, a1) ∧
      (∀ id, id ≠ id1 → id ≠ id2 →
        qfind (swapActions c id1 id2).2.mShortcutAndActionById id
          = qfind c.mShortcutAndActionById id) ∧
      (swapActions c id1 id2).2.mIdsByShortcut = c.mIdsByShortcut ∧
      (swapActions c id1 id2).2.mX11ByShortcut = c.mX11ByShortcut ∧
      (swapActions c id1 id2).2.mShortcutByX11 = c.mShortcutByX11 ∧
      (swapActions c id1 id2).2.xGrabs = c.xGrabs) ∧
    ((swapActions c id1 id2).1 = false → (swapActions c id1 id2).2 = c) := by
  refine ⟨?_, ?_, ?_⟩
  · unfold swapActions
    cases h1 : qfind c.mShortcutAndActionById id1 with
    | none => simp
    | some p1 =>
      obtain ⟨S1, a1⟩ := p1
      cases h2 : qfind c.mShortcutAndActionById id2 with
      | none => simp
      | some p2 =>
        obtain ⟨S2, a2⟩ := p2
        by_cases hS : S1 = S2
        · subst hS
          simp
        · simp only [ne_eq, hS, not_false_eq_true, if_true, Bool.false_eq_true, false_iff]
          rintro ⟨S, b1, b2, e1, e2⟩
          cases e1
          cases e2
          exact hS rfl
  · intro S a1 a2 h1 h2
    refine ⟨?_, ?_, ?_, swapActions_mIdsByShortcut _ _ _, swapActions_mX11ByShortcut _ _ _,
      swapActions_mShortcutByX11 _ _ _, swapActions_xGrabs _ _ _⟩
    · simp only [swapActions, h1, h2, ne_eq, not_true_eq_false, if_false,
        saveConfig_mShortcutAndActionById, qfind_qset]
      by_cases e : id2 = id1
      · subst e
        rw [h1] at h2
        cases h2
        simp
      · simp [e]
    · simp [swapActions, h1, h2]
    · intro id n1 n2
      have e1 : ¬ id1 = id := fun e => n1 e.symm
      have e2 : ¬ id2 = id := fun e => n2 e.symm
      simp [swapActions, h1, h2, e1, e2]
  · unfold swapActions
    cases h1 : qfind c.mShortcutAndActionById id1 with
    | none => simp
    | some p1 =>
      obtain ⟨S1, a1⟩ := p1
      cases h2 : qfind c.mShortcutAndActionById id2 with
      | none => simp
      | some p2 =>
        obtain ⟨S2, a2⟩ := p2
        by_cases hS : S1 = S2
        · subst hS
          simp
        · simp [hS]

/-- Claim C18. Two calls of `swap(a, b)` in a row return the same boolean, and after them the
primary store (with the action every id holds), the dispatch index and the grab set are what
they were before the first call. -/
theorem swap_twice (c : Core) (a b : Nat) :
    (swapActions (swapActions c a b).2 a b).1 = (swapActions c a b).1 ∧
    (swapActions (swapActions c a b).2 a b).2.mShortcutAndActionById
      = c.mShortcutAndActionById ∧
    (swapActions (swapActions c a b).2 a b).2.mIdsByShortcut = c.mIdsByShortcut ∧
    (swapActions (swapActions c a b).2 a b).2.xGrabs = c.xGrabs := by
  refine ⟨?_, ?_, by rw [swapActions_mIdsByShortcut, swapActions_mIdsByShortcut],
    by rw [swapActions_xGrabs, swapActions_xGrabs]⟩
  · cases h1 : qfind c.mShortcutAndActionById a with
    | none => simp [swapActions, h1]
    | some p1 =>
      obtain ⟨S1, a1⟩ := p1
      cases h2 : qfind c.mShortcutAndActionById b with
      | none => simp [swapActions, h1, h2]
      | some p2 =>
        obtain ⟨S2, a2⟩ := p2
        by_cases hS : S1 = S2
        · subst hS
          by_cases hab : a = b
          · subst hab
            simp [swapActions, h1, h2]
          · have hba : ¬ b = a := fun e => hab e.symm
            simp [swapActions, h1, h2, hab, hba]
        · simp [swapActions, h1, h2, hS]
  · cases h1 : qfind c.mShortcutAndActionById a with
    | none => simp [swapActions, h1]
    | some p1 =>
      obtain ⟨S1, a1⟩ := p1
      cases h2 : qfind c.mShortcutAndActionById b with
      | none => simp [swapActions, h1, h2]
      | some p2 =>
        obtain ⟨S2, a2⟩ := p2
        by_cases hS : S1 = S2
        · subst hS
          have key := swap_store_twice c.mShortcutAndActionById a b (S1, a1) (S1, a2) h1 h2
          by_cases hab : a = b
          · subst hab
            rw [h1] at h2
            cases h2
            simp only [if_true] at key
            simp only [swapActions, h1, ne_eq, not_true_eq_false, if_false,
              saveConfig_mShortcutAndActionById, qfind_qset, if_true]
            exact key
          · have hba : ¬ b = a := fun e => hab e.symm
            simp only [hab, if_false] at key
            simp only [swapActions, h1, h2, ne_eq, not_true_eq_false, if_false,
              saveConfig_mShortcutAndActionById, qfind_qset, if_true, hab, hba]
            exact key
        · simp [swapActions, h1, h2, hS]

/-! ## Dispatch of a key press -/

theorem callFirst_append (store : QMap Nat (String × BaseAction)) (call : Nat → Bool)
    (pre rest : List Nat) (done : List Effect)
    (hpre : ∀ j ∈ pre, (qfind store j).isSome = true ∧ call j = false) :
    callFirst store call (pre ++ rest) done
      = callFirst store call rest (done ++ pre.map (fun j => Effect.call j false)) := by
  induction pre generalizing done with
  | nil => simp
  | cons j t ih =>
    obtain ⟨h1, h2⟩ := hpre j (by simp)
    obtain ⟨v, hv⟩ := Option.isSome_iff_exists.mp h1
    simp only [List.cons_append, callFirst, hv, h2, Bool.false_eq_true, if_false]
    have := ih (done ++ [Effect.call j false]) (fun k hk => hpre k (by simp [hk]))
    simp only [List.append_eq] at this ⊢
    rw [this]
    simp

theorem callLast_eq (store : QMap Nat (String × BaseAction)) (call : Nat → Bool)
    (ids : List Nat) :
    ∀ (n : Nat) (done : List Effect), n ≤ ids.length →
      callLast store call ids n done = callFirst store call (ids.take n).reverse done := by
  intro n
  induction n with
  | zero =>
    intro done _
    simp [callLast, callFirst]
  | succ n ih =>
    intro done hn
    have hlt : n < ids.length := hn
    have hget : ids.get? n = some (ids.get ⟨n, hlt⟩) := List.get?_eq_get hlt
    have htake : (ids.take (n + 1)).reverse = ids.get ⟨n, hlt⟩ :: (ids.take n).reverse := by
      rw [List.take_succ, List.getElem?_eq_getElem hlt, Option.toList, List.reverse_append]
      rfl
    rw [htake]
    simp only [callLast, hget, callFirst]
    cases hf : qfind store (ids.get ⟨n, hlt⟩) with
    | none => rfl
    | some v =>
      simp only
      split
      · rfl
      · exact ih _ (Nat.le_of_lt hlt)

/-- Claim C19. Under the policy FIRST, a key press in normal mode on a binding whose shortcut
has the id sequence `ids` (every id in the primary store) calls the actions from the front of
the sequence: if `ik` is the first id whose call returns true, the calls are those of the ids
before it (each returning false) and then `ik`, and no later id is called; if no call returns
true, every id is called once, in order. An id inserted into the set of a shortcut (by a
registration or by `change_shortcut`) goes to the end of the sequence. -/
theorem first_policy_dispatch (c : Core) (keycode state : Nat) (call : Nat → Bool) (S : String)
    (ids : List Nat) (hb : c.mMultipleActionsBehaviour = .first)
    (hS : qfind c.mShortcutByX11 (keycode, state) = some S)
    (hi : qfind c.mIdsByShortcut S = some ids)
    (hst : ∀ id ∈ ids, (qfind c.mShortcutAndActionById id).isSome = true) :
    (∀ pre ik post, ids = pre ++ ik :: post → (∀ j ∈ pre, call j = false) → call ik = true →
      keyPressNormal c keycode state call =
        some { c with
               effects := c.effects ++
                 (pre.map (fun j => Effect.call j false) ++ [Effect.call ik true]) }) ∧
    ((∀ j ∈ ids, call j = false) →
      keyPressNormal c keycode state call =
        some { c with effects := c.effects ++ ids.map (fun j => Effect.call j false) }) ∧
    (∀ id, id ∉ ids → qfind (insertId c S id).mIdsByShortcut S = some (ids ++ [id])) := by
  have hfound : shortcutByX11At c (keycode, state) = (S, c) := by simp [shortcutByX11At, hS]
  refine ⟨?_, ?_, ?_⟩
  · intro pre ik post hids hpre hik
    have hpre2 : ∀ j ∈ pre, (qfind c.mShortcutAndActionById j).isSome = true ∧ call j = false :=
      fun j hj => ⟨hst j (by simp [hids, hj]), hpre j hj⟩
    obtain ⟨v, hv⟩ := Option.isSome_iff_exists.mp (hst ik (by simp [hids]))
    simp only [keyPressNormal, hfound, hi, callActions, hb, hids]
    rw [callFirst_append _ _ pre (ik :: post) [] hpre2]
    simp [callFirst, hv, hik]
  · intro hall
    have hpre2 : ∀ j ∈ ids, (qfind c.mShortcutAndActionById j).isSome = true ∧ call j = false :=
      fun j hj => ⟨hst j hj, hall j hj⟩
    simp only [keyPressNormal, hfound, hi, callActions, hb]
    have := callFirst_append c.mShortcutAndActionById call ids [] [] hpre2
    rw [List.append_nil] at this
    rw [this]
    simp [callFirst]
  · intro id hid
    simp [insertId, hi, sinsert, hid]

/-- Witness of `first_policy_dispatch`: ids 5 and 6 are bound to "Meta+T" in this order, the
call of 5 returns false and the call of 6 returns true: the calls are 5, then 6. -/
theorem first_policy_dispatch_witness :
    keyPressNormal
        ((run keyboardTF1 (Core.fresh .first)
          [Op.addCommandAction "F1" "a" [] "" false, Op.addCommandAction "F1" "b" [] "" false,
           Op.addCommandAction "F1" "c" [] "" false, Op.addCommandAction "F1" "d" [] "" false,
           Op.addCommandAction "Meta+T" "e" [] "" false,
           Op.addCommandAction "Meta+T" "f" [] "" false]).getD (Core.fresh .first))
        28 64 (fun i => decide (i = 6))
      = some { (run keyboardTF1 (Core.fresh .first)
          [Op.addCommandAction "F1" "a" [] "" false, Op.addCommandAction "F1" "b" [] "" false,
           Op.addCommandAction "F1" "c" [] "" false, Op.addCommandAction "F1" "d" [] "" false,
           Op.addCommandAction "Meta+T" "e" [] "" false,
           Op.addCommandAction "Meta+T" "f" [] "" false]).getD (Core.fresh .first) with
               effects := Core.effects ((run keyboardTF1 (Core.fresh .first)
          [Op.addCommandAction "F1" "a" [] "" false, Op.addCommandAction "F1" "b" [] "" false,
           Op.addCommandAction "F1" "c" [] "" false, Op.addCommandAction "F1" "d" [] "" false,
           Op.addCommandAction "Meta+T" "e" [] "" false,
           Op.addCommandAction "Meta+T" "f" [] "" false]).getD (Core.fresh .first))
          ++ ([5].map (fun j => Effect.call j false) ++ [Effect.call 6 true]) } :=
  (first_policy_dispatch
    ((run keyboardTF1 (Core.fresh .first)
      [Op.addCommandAction "F1" "a" [] "" false, Op.addCommandAction "F1" "b" [] "" false,
       Op.addCommandAction "F1" "c" [] "" false, Op.addCommandAction "F1" "d" [] "" false,
       Op.addCommandAction "Meta+T" "e" [] "" false,
       Op.addCommandAction "Meta+T" "f" [] "" false]).getD (Core.fresh .first))
    28 64 (fun i => decide (i = 6)) "Meta+T" [5, 6] (by decide) (by decide) (by decide)
    (by decide)).1 [5] 6 [] rfl (by decide) (by decide)

/-- Claim C20. Under the policy LAST the calls made for the id sequence `ids` are the calls the
policy FIRST makes for the reversed sequence. -/
theorem last_policy_is_first_reversed (store : QMap Nat (String × BaseAction))
    (call : Nat → Bool) (ids : List Nat) :
    callActions store .last call ids = callActions store .first call ids.reverse ∧
    ∀ done, callLast store call ids ids.length done = callFirst store call ids.reverse done := by
  have h : ∀ done, callLast store call ids ids.length done
      = callFirst store call ids.reverse done := by
    intro done
    rw [callLast_eq store call ids ids.length done (Nat.le_refl _), List.take_length]
  exact ⟨by simp only [callActions]; exact h [], h⟩

/-! ## Rejected grabs and aliases of a peer -/

/-- Claim C11, failing input. On a daemon started empty, `register_command("Control+T", ...)`
and `register_method("Control+T", ...)` whose `GRAB_KEY` is rejected by the X server (the grab
is undone by `UNGRAB_KEY`) do not report a failure: they return the empty shortcut with the
fresh id 1, and the action is stored and indexed under the shortcut "". -/
theorem rejected_grab_registers :
    (addCommandAction keyboardTF1 (Core.fresh .first) "Control+T" "/usr/bin/xterm" [] "terminal"
      true).1 = ("", 1) ∧
    (addCommandAction keyboardTF1 (Core.fresh .first) "Control+T" "/usr/bin/xterm" [] "terminal"
      true).2.mShortcutAndActionById
      = [(1, ("", BaseAction.command "/usr/bin/xterm" [] "terminal" true))] ∧
    (addCommandAction keyboardTF1 (Core.fresh .first) "Control+T" "/usr/bin/xterm" [] "terminal"
      true).2.mIdsByShortcut = [("", [1])] ∧
    (addCommandAction keyboardTF1 (Core.fresh .first) "Control+T" "/usr/bin/xterm" [] "terminal"
      true).2.effects
      = [Effect.xGrabKey (28, 4), Effect.xUngrabKey (28, 4), Effect.saveConfig] ∧
    (addMethodAction keyboardTF1 (Core.fresh .first) "Control+T" "org.example" "/p" "i.f" "m" "d"
      true).1 = ("", 1) ∧
    (addMethodAction keyboardTF1 (Core.fresh .first) "Control+T" "org.example" "/p" "i.f" "m" "d"
      true).2.mIdsByShortcut = [("", [1])] :=
  ⟨by decide, by decide, by decide, by decide, by decide, by decide⟩

/-- Claim C13, failing input. The tracker has recorded the name "org.example.foo" for the peer
":1.42". `add_service_action("Control+T", "/p", "d", ":1.42")` succeeds with id 1, but the
binding is filed under ("org.example.foo", "/p"): `remove_service("/p", ":1.42")` and
`modify_service("/p", "new", ":1.42")` return 0, `change_service_shortcut("/p", "F1", ":1.42")`
returns ("", 0), and each leaves the state as it was. -/
theorem alias_hides_service_action :
    ((run keyboardTF1 (Core.fresh .first)
        [Op.serviceAppeared "org.example.foo" ":1.42"]).bind
      (fun c => (addDBusAction keyboardTF1 c "Control+T" "/p" "d" ":1.42" false).map
        (fun r => (r.1, r.2.mIdByDBusClient))))
      = some (("Control+T", 1), [(("org.example.foo", "/p"), 1)]) ∧
    ((run keyboardTF1 (Core.fresh .first)
        [Op.serviceAppeared "org.example.foo" ":1.42",
         Op.addDBusAction "Control+T" "/p" "d" ":1.42" false]).bind
      (fun c => (removeDBusAction c "/p" ":1.42").map (fun r => (r.1, decide (r.2 = c)))))
      = some (0, true) ∧
    ((run keyboardTF1 (Core.fresh .first)
        [Op.serviceAppeared "org.example.foo" ":1.42",
         Op.addDBusAction "Control+T" "/p" "d" ":1.42" false]).bind
      (fun c => (modifyDBusAction c "/p" "new" ":1.42").map (fun r => (r.1, decide (r.2 = c)))))
      = some (0, true) ∧
    ((run keyboardTF1 (Core.fresh .first)
        [Op.serviceAppeared "org.example.foo" ":1.42",
         Op.addDBusAction "Control+T" "/p" "d" ":1.42" false]).bind
      (fun c => (changeDBusShortcut keyboardTF1 c "/p" "F1" ":1.42" false).map
        (fun r => (r.1, decide (r.2 = c)))))
      = some (("", 0), true) :=
  ⟨by decide, by decide, by decide, by decide⟩

/-! ## Ungrabbing -/

theorem saveConfig_effects (c : Core) :
    (saveConfig c).effects = c.effects ++ (if c.mSaveAllowed then [Effect.saveConfig] else []) := by
  unfold saveConfig
  split <;> simp

theorem notifyAdaptor_effects (c : Core) (id : Nat) (signal : Effect) :
    (notifyAdaptor c id signal).effects = c.effects ++ (if id ≠ 0 then [signal] else []) := by
  unfold notifyAdaptor
  split <;> simp

theorem releaseId_effects (c : Core) (S : String) (id : Nat) (X : X11Shortcut) :
    (releaseId c S id X).effects = c.effects ++
      (match qfind c.mIdsByShortcut S with
        | some ids => if sremove ids id = [] then [Effect.xUngrabKey X] else []
        | none => []) := by
  unfold releaseId
  cases h : qfind c.mIdsByShortcut S with
  | none => simp
  | some ids =>
    dsimp only
    split <;> simp [remoteXUngrabKey]

theorem releaseId_index (c : Core) (S : String) (id : Nat) (X : X11Shortcut) (ids : QSet Nat)
    (h : qfind c.mIdsByShortcut S = some ids) :
    qfind (releaseId c S id X).mIdsByShortcut S
      = if sremove ids id = [] then none else some (sremove ids id) := by
  unfold releaseId
  simp only [h]
  split <;> simp [remoteXUngrabKey]

theorem releaseOldShortcut_effects (c : Core) (S : String) (id : Nat) :
    (releaseOldShortcut c S id).effects = c.effects ++
      (match qfind c.mIdsByShortcut S with
        | some ids =>
          if sremove ids id = [] then [Effect.xUngrabKey (x11ByShortcutAt c S).1] else []
        | none => []) := by
  unfold releaseOldShortcut
  cases h : qfind c.mIdsByShortcut S with
  | none => simp
  | some ids =>
    dsimp only
    split
    · simp only [remoteXUngrabKey, x11ByShortcutAt_effects, List.append_cancel_left_eq,
        List.cons.injEq, Effect.xUngrabKey.injEq, and_true]
      unfold x11ByShortcutAt
      dsimp only
      split <;> rfl
    · simp

theorem releaseOldShortcut_index (c : Core) (S : String) (id : Nat) (ids : QSet Nat)
    (h : qfind c.mIdsByShortcut S = some ids) :
    qfind (releaseOldShortcut c S id).mIdsByShortcut S
      = if sremove ids id = [] then none else some (sremove ids id) := by
  unfold releaseOldShortcut
  simp only [h]
  split <;> simp [remoteXUngrabKey]

theorem grabOrReuseKey_effects (c : Core) (X : X11Shortcut) (used : String) (xerror : Bool) :
    (grabOrReuseKey c X used xerror).2.effects = c.effects ++
      (match qfind c.mIdsByShortcut used with
        | some (_ :: _) => []
        | _ => Effect.xGrabKey X :: (if xerror then [Effect.xUngrabKey X] else [])) := by
  cases h : qfind c.mIdsByShortcut used with
  | none => cases xerror <;> simp [grabOrReuseKey, h, remoteXGrabKey, remoteXUngrabKey]
  | some ids =>
    cases ids with
    | nil => cases xerror <;> simp [grabOrReuseKey, h, remoteXGrabKey, remoteXUngrabKey]
    | cons a l => simp [grabOrReuseKey, h]

theorem issued_append (c c1 : Core) (L : List Effect) (h : c1.effects = c.effects ++ L) :
    issued c c1 = L := by
  unfold issued
  rw [h, List.drop_left]

theorem UngrabIffLast_of_trace (c c1 : Core) (S : String) (id : Nat) (P M : List Effect)
    (hP : ∀ X, Effect.xUngrabKey X ∉ P) (hM : ∀ X, Effect.xUngrabKey X ∉ M)
    (he : c1.effects = c.effects ++
      (P ++ (match qfind c.mIdsByShortcut S with
        | some ids =>
          if sremove ids id = [] then [Effect.xUngrabKey (x11ByShortcutAt c S).1] else []
        | none => []) ++ M))
    (hi : ∀ ids, qfind c.mIdsByShortcut S = some ids →
      qfind c1.mIdsByShortcut S = if sremove ids id = [] then none else some (sremove ids id)) :
    UngrabIffLast c c1 S id := by
  refine ⟨?_, hi⟩
  intro X
  rw [issued_append c c1 _ he]
  unfold RemovesLast
  cases h : qfind c.mIdsByShortcut S with
  | none => simp [hM X, hP X]
  | some ids =>
    by_cases hl : sremove ids id = []
    · simp [hl, hM X, hP X]
    · simp [hl, hM X, hP X]

theorem UngrabIffLast_removeAction (c : Core) (id : Nat) (S : String) (a : BaseAction)
    (hst : qfind c.mShortcutAndActionById id = some (S, a)) (ht : a.type ≠ "dbus") :
    UngrabIffLast c (removeAction c id).2 S id := by
  refine UngrabIffLast_of_trace c _ S id []
    (if c.mSaveAllowed then [Effect.saveConfig] else []) (by simp) ?_ ?_ ?_
  · intro X
    split <;> simp
  · simp only [removeAction, hst, ht, if_false, saveConfig_effects, releaseId_effects]
    simp
  · intro ids hi
    simp only [removeAction, hst, ht, if_false, saveConfig_mIdsByShortcut]
    exact releaseId_index _ S id _ ids (by simpa using hi)

theorem UngrabIffLast_removeDBusAction (c c1 : Core) (path sender : String) (r id : Nat)
    (S : String) (a : BaseAction) (hid : qfind c.mIdByDBusClient (sender, path) = some id)
    (hst : qfind c.mShortcutAndActionById id = some (S, a))
    (h : removeDBusAction c path sender = some (r, c1)) :
    UngrabIffLast c c1 S id := by
  simp only [removeDBusAction, hid, hst] at h
  split at h
  · cases h
  · obtain ⟨rfl, rfl⟩ := some_pair_eq h
    refine UngrabIffLast_of_trace c _ S r []
      (if r ≠ 0 then [Effect.actionRemoved r] else []) (by simp) ?_ ?_ ?_
    · intro X
      split <;> simp
    · simp only [notifyAdaptor_effects, forgetDBusPath_effects, releaseId_effects]
      simp
    · intro ids hi
      simp only [notifyAdaptor_mIdsByShortcut, forgetDBusPath_mIdsByShortcut]
      exact releaseId_index _ S r _ ids (by simpa using hi)

theorem UngrabIffLast_serviceDisappearedPath (c c1 : Core) (service id path : String)
    (n n1 actionId : Nat) (S : String) (a : BaseAction)
    (hid : qfind c.mIdByDBusClient (id, path) = some actionId)
    (hst : qfind c.mShortcutAndActionById actionId = some (S, a))
    (h : serviceDisappearedPath c service id path n = some (c1, n1)) :
    UngrabIffLast c c1 S actionId := by
  simp only [serviceDisappearedPath, hid, hst] at h
  split at h
  · split at h
    · obtain ⟨rfl, rfl⟩ := some_pair_eq h
      refine UngrabIffLast_of_trace c _ S actionId [] [Effect.disappeared actionId] (by simp)
        (by simp) ?_ ?_
      · simp only [releaseId_effects]
        simp
      · intro ids hi
        exact releaseId_index _ S actionId _ ids (by simpa using hi)
    · cases h
  · obtain ⟨rfl, rfl⟩ := some_pair_eq h
    refine UngrabIffLast_of_trace c _ S actionId [] [] (by simp) (by simp) ?_ ?_
    · simp only [releaseId_effects]
      simp
    · intro ids hi
      exact releaseId_index _ S actionId _ ids (by simpa using hi)

theorem grabOrReuseKey_fst_false (c : Core) (X : X11Shortcut) (used : String) :
    (grabOrReuseKey c X used false).1 = used := by
  cases h : qfind c.mIdsByShortcut used with
  | none => simp [grabOrReuseKey, h, remoteXGrabKey]
  | some ids =>
    cases ids with
    | nil => simp [grabOrReuseKey, h, remoteXGrabKey]
    | cons a l => simp [grabOrReuseKey, h]

theorem rememberX11_fwd_of_ne (c : Core) (used S : String) (X : X11Shortcut) (h : S ≠ used) :
    qfind (rememberX11 c used X).mX11ByShortcut S = qfind c.mX11ByShortcut S := by
  unfold rememberX11
  split
  · have e : ¬ used = S := fun e => h e.symm
    simp [e]
  · rfl

theorem addActionCommon_fwd_of_ne (x : XServer) (c : Core) (shortcut S : String)
    (X : X11Shortcut) (used : String)
    (h : (addActionCommon x c shortcut).1 = some (X, used)) (hne : S ≠ used) :
    qfind (addActionCommon x c shortcut).2.mX11ByShortcut S = qfind c.mX11ByShortcut S := by
  cases hS : ShortcutToX11 x shortcut with
  | none => simp [addActionCommon, hS] at h
  | some X1 =>
    cases hr : qfind c.mShortcutByX11 X1 with
    | some used1 =>
      simp only [addActionCommon, hS, hr] at h ⊢
      obtain ⟨rfl, rfl⟩ := Prod.mk.inj (Option.some.inj h)
      exact rememberX11_fwd_of_ne c used1 S X1 hne
    | none =>
      cases hu : X11ToShortcut x X1 with
      | none => simp [addActionCommon, hS, hr, hu] at h
      | some used1 =>
        simp only [addActionCommon, hS, hr, hu] at h ⊢
        obtain ⟨rfl, rfl⟩ := Prod.mk.inj (Option.some.inj h)
        exact rememberX11_fwd_of_ne _ used1 S X1 hne

theorem x11ByShortcutAt_fst_congr (c c1 : Core) (S : String)
    (h : qfind c1.mX11ByShortcut S = qfind c.mX11ByShortcut S) :
    (x11ByShortcutAt c1 S).1 = (x11ByShortcutAt c S).1 := by
  unfold x11ByShortcutAt
  rw [h]
  cases qfind c.mX11ByShortcut S <;> rfl

theorem qfind_insertId_ne (c : Core) (S S1 : String) (id : Nat) (h : S ≠ S1) :
    qfind (insertId c S id).mIdsByShortcut S1 = qfind c.mIdsByShortcut S1 := by
  unfold insertId
  split <;> simp [h]

theorem grab_no_ungrab (c : Core) (X : X11Shortcut) (used : String) (X1 : X11Shortcut) :
    Effect.xUngrabKey X1 ∉
      (match qfind c.mIdsByShortcut used with
        | some (_ :: _) => []
        | _ => Effect.xGrabKey X :: (if false = true then [Effect.xUngrabKey X] else [])) := by
  cases h : qfind c.mIdsByShortcut used with
  | none => simp
  | some ids => cases ids <;> simp

theorem UngrabIffLast_move (x : XServer) (c c1 : Core) (shortcut : String) (id : Nat)
    (old used : String) (X : X11Shortcut) (action : BaseAction) (M : List Effect)
    (hM : ∀ X1, Effect.xUngrabKey X1 ∉ M)
    (hc : (addActionCommon x c shortcut).1 = some (X, used)) (hne : old ≠ used)
    (he : c1.effects = (moveToShortcut (grabOrReuseKey (addActionCommon x c shortcut).2 X used
      false).2 id old (grabOrReuseKey (addActionCommon x c shortcut).2 X used false).1
      action).effects ++ M)
    (hi : c1.mIdsByShortcut = (moveToShortcut (grabOrReuseKey (addActionCommon x c shortcut).2 X
      used false).2 id old (grabOrReuseKey (addActionCommon x c shortcut).2 X used false).1
      action).mIdsByShortcut) :
    UngrabIffLast c c1 old id := by
  have hX : (x11ByShortcutAt (grabOrReuseKey (addActionCommon x c shortcut).2 X used false).2
      old).1 = (x11ByShortcutAt c old).1 :=
    x11ByShortcutAt_fst_congr c _ old
      (by simpa using addActionCommon_fwd_of_ne x c shortcut old X used hc hne)
  refine UngrabIffLast_of_trace c c1 old id _ M (grab_no_ungrab c X used) hM ?_ ?_
  · rw [he]
    simp only [moveToShortcut, insertId_effects, releaseOldShortcut_effects,
      grabOrReuseKey_effects, grabOrReuseKey_mIdsByShortcut, addActionCommon_effects,
      addActionCommon_mIdsByShortcut, hX, List.append_assoc]
  · intro ids h
    rw [hi]
    simp only [moveToShortcut, grabOrReuseKey_fst_false]
    rw [qfind_insertId_ne _ used old id (fun e => hne e.symm)]
    exact releaseOldShortcut_index _ old id ids (by simpa using h)

theorem UngrabIffLast_changeShortcut (x : XServer) (c : Core) (id : Nat) (shortcut : String)
    (old used : String) (X : X11Shortcut) (action : BaseAction)
    (hst : qfind c.mShortcutAndActionById id = some (old, action))
    (hc : (addActionCommon x c shortcut).1 = some (X, used)) (hne : old ≠ used) :
    UngrabIffLast c (changeShortcut x c id shortcut false).2 old id := by
  by_cases ht : action.type = "dbus"
  · refine UngrabIffLast_move x c _ shortcut id old used X action
      (Effect.shortcutChanged id old used ::
        (if c.mSaveAllowed then [Effect.saveConfig] else [])) ?_ hc hne ?_ ?_
    · intro X1
      split <;> simp
    · simp [changeShortcut, hst, hc, hne, ht, saveConfig_effects, grabOrReuseKey_fst_false,
        moveToShortcut]
    · simp [changeShortcut, hst, hc, hne, ht]
  · refine UngrabIffLast_move x c _ shortcut id old used X action
      (if c.mSaveAllowed then [Effect.saveConfig] else []) ?_ hc hne ?_ ?_
    · intro X1
      split <;> simp
    · simp [changeShortcut, hst, hc, hne, ht, saveConfig_effects, moveToShortcut]
    · simp [changeShortcut, hst, hc, hne, ht]

theorem announceShortcutChanged_effects (c : Core) (newShortcut : String) (id : Nat) :
    (announceShortcutChanged c newShortcut id).effects = c.effects ++
      (if newShortcut ≠ "" then [Effect.actionShortcutChanged id] else []) := by
  unfold announceShortcutChanged
  split <;> simp

theorem UngrabIffLast_changeDBusShortcut (x : XServer) (c c1 : Core)
    (path shortcut sender : String) (r : String × Nat) (id : Nat) (old used : String)
    (X : X11Shortcut) (action : BaseAction)
    (hid : qfind c.mIdByDBusClient (sender, path) = some id)
    (hst : qfind c.mShortcutAndActionById id = some (old, action))
    (hc : (addActionCommon x c shortcut).1 = some (X, used)) (hne : old ≠ used)
    (h : changeDBusShortcut x c path shortcut sender false = some (r, c1)) :
    UngrabIffLast c c1 old id := by
  simp only [changeDBusShortcut, hid, hc, addActionCommon_mShortcutAndActionById, hst, ne_eq,
    hne, not_false_eq_true, if_true] at h
  split at h
  · obtain ⟨rfl, rfl⟩ := some_pair_eq h
    refine UngrabIffLast_move x c _ shortcut id old used X action
      (Effect.shortcutChanged id old used ::
        (if used ≠ "" then [Effect.actionShortcutChanged id] else [])) ?_ hc hne ?_ ?_
    · intro X1
      split <;> simp
    · simp [announceShortcutChanged_effects, grabOrReuseKey_fst_false]
    · simp
  · cases h

theorem no_ungrab_changeShortcut_same (x : XServer) (c : Core) (id : Nat) (shortcut : String)
    (old : String) (X : X11Shortcut) (action : BaseAction)
    (hst : qfind c.mShortcutAndActionById id = some (old, action))
    (hc : (addActionCommon x c shortcut).1 = some (X, old)) :
    (∀ X1, Effect.xUngrabKey X1 ∉ issued c (changeShortcut x c id shortcut false).2) ∧
      (changeShortcut x c id shortcut false).2.mIdsByShortcut = c.mIdsByShortcut := by
  constructor
  · intro X1
    have he : (changeShortcut x c id shortcut false).2.effects = c.effects ++
        ((match qfind c.mIdsByShortcut old with
          | some (_ :: _) => []
          | _ => Effect.xGrabKey X :: (if false = true then [Effect.xUngrabKey X] else [])) ++
        (if c.mSaveAllowed then [Effect.saveConfig] else [])) := by
      simp [changeShortcut, hst, hc, saveConfig_effects, grabOrReuseKey_effects]
    rw [issued_append c _ _ he]
    have := grab_no_ungrab c X old X1
    simp only [List.mem_append, not_or]
    refine ⟨this, ?_⟩
    split <;> simp
  · simp [changeShortcut, hst, hc]

theorem no_ungrab_changeDBusShortcut_same (x : XServer) (c c1 : Core)
    (path shortcut sender : String) (r : String × Nat) (id : Nat) (old : String)
    (X : X11Shortcut) (action : BaseAction)
    (hid : qfind c.mIdByDBusClient (sender, path) = some id)
    (hst : qfind c.mShortcutAndActionById id = some (old, action))
    (hc : (addActionCommon x c shortcut).1 = some (X, old))
    (h : changeDBusShortcut x c path shortcut sender false = some (r, c1)) :
    (∀ X1, Effect.xUngrabKey X1 ∉ issued c c1) ∧ c1.mIdsByShortcut = c.mIdsByShortcut := by
  simp only [changeDBusShortcut, hid, hc, addActionCommon_mShortcutAndActionById, hst, ne_eq,
    not_true_eq_false, if_false] at h
  obtain ⟨rfl, rfl⟩ := some_pair_eq h
  constructor
  · intro X1
    have he : (announceShortcutChanged
          (grabOrReuseKey (addActionCommon x c shortcut).2 X old false).2
          (grabOrReuseKey (addActionCommon x c shortcut).2 X old false).1 id).effects
        = c.effects ++
        ((match qfind c.mIdsByShortcut old with
          | some (_ :: _) => []
          | _ => Effect.xGrabKey X :: (if false = true then [Effect.xUngrabKey X] else [])) ++
        (if old ≠ "" then [Effect.actionShortcutChanged id] else [])) := by
      simp [announceShortcutChanged_effects, grabOrReuseKey_effects, grabOrReuseKey_fst_false]
    rw [issued_append c _ _ he]
    have := grab_no_ungrab c X old X1
    simp only [List.mem_append, not_or]
    refine ⟨this, ?_⟩
    split <;> simp
  · simp

theorem RevCanonical_of_eq (x : XServer) (c c1 : Core)
    (h : c1.mShortcutByX11 = c.mShortcutByX11) (hc : RevCanonical x c) : RevCanonical x c1 := by
  unfold RevCanonical
  rw [h]
  exact hc

theorem RevCanonical_addActionCommon (x : XServer) (c : Core) (shortcut : String)
    (hc : RevCanonical x c) : RevCanonical x (addActionCommon x c shortcut).2 := by
  cases hS : ShortcutToX11 x shortcut with
  | none =>
    simp only [addActionCommon, hS]
    exact hc
  | some X1 =>
    cases hr : qfind c.mShortcutByX11 X1 with
    | some used1 =>
      simp only [addActionCommon, hS, hr]
      exact RevCanonical_of_eq x c _ (by simp) hc
    | none =>
      cases hu : X11ToShortcut x X1 with
      | none =>
        simp only [addActionCommon, hS, hr, hu]
        exact hc
      | some used1 =>
        simp only [addActionCommon, hS, hr, hu]
        intro X S h
        simp only [rememberX11_mShortcutByX11, qfind_qset] at h
        split_ifs at h with e
        · cases h
          subst e
          exact hu
        · exact hc X S h

theorem RevCanonical_addOrRegisterDBusAction (x : XServer) (c c1 : Core)
    (shortcut service path description sender : String) (xerror : Bool) (r : String × Nat)
    (hc : RevCanonical x c)
    (h : addOrRegisterDBusAction x c shortcut service path description sender xerror
      = some (r, c1)) : RevCanonical x c1 := by
  have hr : RevCanonical x (addActionCommon x (rememberDBusPath c service path) shortcut).2 :=
    RevCanonical_addActionCommon x _ shortcut
      (RevCanonical_of_eq x c (rememberDBusPath c service path) (by simp) hc)
  simp only [addOrRegisterDBusAction] at h
  repeat' split at h
  all_goals first | (cases h; done) | (obtain ⟨rfl, rfl⟩ := some_pair_eq h; first | exact hc | skip)
  · exact RevCanonical_of_eq x _ _ (by simp) hr
  · exact RevCanonical_of_eq x _ _ (by simp) hr

theorem changeShortcut_mShortcutByX11_eq (x : XServer) (c : Core) (id : Nat)
    (shortcut : String) (xerror : Bool) :
    (changeShortcut x c id shortcut xerror).2.mShortcutByX11
      = (addActionCommon x c shortcut).2.mShortcutByX11 ∨
    (changeShortcut x c id shortcut xerror).2.mShortcutByX11 = c.mShortcutByX11 := by
  simp only [changeShortcut]
  repeat' split
  all_goals first | (right; rfl) | (left; simp)

theorem RevCanonical_step (x : XServer) (c c1 : Core) (op : Op) (hop : op.isKeyPress = false)
    (hc : RevCanonical x c) (h : step x c op = some c1) : RevCanonical x c1 := by
  cases op with
  | addMethodAction shortcut service path interface method description xerror =>
    cases h
    simp only [addMethodAction]
    split
    · exact RevCanonical_addActionCommon x c shortcut hc
    · exact RevCanonical_of_eq x _ _ (by simp) (RevCanonical_addActionCommon x c shortcut hc)
  | addCommandAction shortcut command arguments description xerror =>
    cases h
    simp only [addCommandAction]
    split
    · exact RevCanonical_addActionCommon x c shortcut hc
    · exact RevCanonical_of_eq x _ _ (by simp) (RevCanonical_addActionCommon x c shortcut hc)
  | addDBusAction shortcut path description sender xerror =>
    simp only [step, addDBusAction, Option.map_eq_some'] at h
    obtain ⟨⟨r, c2⟩, h, rfl⟩ := h
    exact RevCanonical_addOrRegisterDBusAction _ _ _ _ _ _ _ _ _ _ hc h
  | registerDBusAction shortcut service path description xerror =>
    simp only [step, registerDBusAction, Option.map_eq_some'] at h
    obtain ⟨⟨r, c2⟩, h, rfl⟩ := h
    split at h
    · cases h
    · rename_i h2
      cases h
      exact RevCanonical_addOrRegisterDBusAction _ _ _ _ _ _ _ _ _ _ hc h2
  | modifyDBusAction path description sender =>
    simp only [step, Option.map_eq_some'] at h
    obtain ⟨⟨r, c2⟩, h, rfl⟩ := h
    exact RevCanonical_of_eq x c _ (modifyDBusAction_mShortcutByX11 _ _ _ _ _ _ h) hc
  | modifyActionDescription id description =>
    cases h
    exact RevCanonical_of_eq x c _ (modifyActionDescription_mShortcutByX11 _ _ _) hc
  | modifyMethodAction id service path interface method description =>
    cases h
    exact RevCanonical_of_eq x c _ (modifyMethodAction_mShortcutByX11 _ _ _ _ _ _ _) hc
  | modifyCommandAction id command arguments description =>
    cases h
    exact RevCanonical_of_eq x c _ (modifyCommandAction_mShortcutByX11 _ _ _ _ _) hc
  | changeDBusShortcut path shortcut sender xerror =>
    simp only [step, Option.map_eq_some'] at h
    obtain ⟨⟨r, c2⟩, h, rfl⟩ := h
    simp only [changeDBusShortcut] at h
    repeat' split at h
    all_goals first | (cases h; done) | (obtain ⟨rfl, rfl⟩ := some_pair_eq h; first | exact hc | skip)
    all_goals first
      | exact RevCanonical_addActionCommon x c shortcut hc
      | exact RevCanonical_of_eq x _ _ (by simp) (RevCanonical_addActionCommon x c shortcut hc)
  | changeShortcut id shortcut xerror =>
    cases h
    rcases changeShortcut_mShortcutByX11_eq x c id shortcut xerror with e | e
    · exact RevCanonical_of_eq x _ _ e (RevCanonical_addActionCommon x c shortcut hc)
    · exact RevCanonical_of_eq x _ _ e hc
  | swapActions id1 id2 =>
    cases h
    exact RevCanonical_of_eq x c _ (swapActions_mShortcutByX11 _ _ _) hc
  | removeDBusAction path sender =>
    simp only [step, Option.map_eq_some'] at h
    obtain ⟨⟨r, c2⟩, h, rfl⟩ := h
    exact RevCanonical_of_eq x c _ (removeDBusAction_mShortcutByX11 _ _ _ _ _ h) hc
  | removeAction id =>
    cases h
    exact RevCanonical_of_eq x c _ (removeAction_mShortcutByX11 _ _) hc
  | setMultipleActionsBehaviour behaviour =>
    cases h
    exact RevCanonical_of_eq x c _ (by simp [setMultipleActionsBehaviour]) hc
  | serviceAppeared service id =>
    obtain ⟨_, _, _, _, rfl⟩ := serviceAppeared_shape _ _ _ _ h
    exact RevCanonical_of_eq x c _ rfl hc
  | serviceDisappeared service id =>
    exact RevCanonical_of_eq x c _ (serviceDisappeared_mShortcutByX11 _ _ _ _ h) hc
  | keyPress keycode state call =>
    simp [Op.isKeyPress] at hop

theorem addActionCommon_fst_of_canonical (x : XServer) (c : Core) (input S : String)
    (X : X11Shortcut) (hc : RevCanonical x c) (hS : ShortcutToX11 x input = some X)
    (hX : X11ToShortcut x X = some S) : (addActionCommon x c input).1 = some (X, S) := by
  cases hr : qfind c.mShortcutByX11 X with
  | some used =>
    have := hc X used hr
    rw [hX] at this
    cases this
    simp [addActionCommon, hS, hr]
  | none => simp [addActionCommon, hS, hr, hX]

/-- In every state reached from the empty registry without key presses, for every id that the
primary store holds with shortcut `S` and that the dispatch index lists under `S`, and every
input string whose canonical form is `S`: `change_shortcut(id, input)` returns `S`, issues
neither `GRAB_KEY` nor `UNGRAB_KEY` (the configuration is saved, nothing else), and leaves the
primary store, the dispatch index and the grab set unchanged. -/
theorem changeShortcut_same_of_indexed (x : XServer) (b : MultipleActionsBehaviour) (ops : List Op)
    (c : Core) (id : Nat) (S input : String) (action : BaseAction) (xerror : Bool)
    (hrun : run x (Core.fresh b) ops = some c) (hops : ∀ op ∈ ops, op.isKeyPress = false)
    (hst : qfind c.mShortcutAndActionById id = some (S, action))
    (hidx : ∃ ids, qfind c.mIdsByShortcut S = some ids ∧ id ∈ ids)
    (hcan : canonical x input = some S) :
    (changeShortcut x c id input xerror).1 = S ∧
    issued c (changeShortcut x c id input xerror).2
      = (if c.mSaveAllowed then [Effect.saveConfig] else []) ∧
    (changeShortcut x c id input xerror).2.mShortcutAndActionById = c.mShortcutAndActionById ∧
    (changeShortcut x c id input xerror).2.mIdsByShortcut = c.mIdsByShortcut ∧
    (changeShortcut x c id input xerror).2.xGrabs = c.xGrabs := by
  have hrev : RevCanonical x c :=
    run_invariant x (RevCanonical x) (fun op => op.isKeyPress = false)
      (fun c op c1 hop hc hs => RevCanonical_step x c c1 op hop hc hs) ops _ c hops
      (by intro X S h; simp [Core.fresh] at h) hrun
  unfold canonical at hcan
  cases hS : ShortcutToX11 x input with
  | none => simp [hS] at hcan
  | some X =>
    simp only [hS] at hcan
    have hc1 := addActionCommon_fst_of_canonical x c input S X hrev hS hcan
    obtain ⟨ids, hi, hmem⟩ := hidx
    have hi2 : qfind (addActionCommon x c input).2.mIdsByShortcut S = some ids := by
      simpa using hi
    have hids : ids ≠ [] := by
      intro e
      rw [e] at hmem
      cases hmem
    have hg := grabOrReuseKey_of_bound (addActionCommon x c input).2 X S xerror ids hi2 hids
    have hres : changeShortcut x c id input xerror
        = (S, saveConfig (addActionCommon x c input).2) := by
      simp [changeShortcut, hst, hc1, hg]
    rw [hres]
    refine ⟨rfl, ?_, by simp, by simp, by simp⟩
    apply issued_append
    simp [saveConfig_effects]

/-- Claim C15 (failing input). The peer ":1.42" adds a service action for "Control+T" (id 1);
the name "com.example.foo" of that peer appears and disappears, which takes id 1 out of the
dispatch index and releases the key (28, ControlMask), but keeps id 1 in the primary store with
the shortcut "Control+T". The canonical form of "Control+T" is "Control+T", and
`change_shortcut(1, "Control+T")` returns "Control+T"; but it issues `GRAB_KEY` for
(28, ControlMask), and the key is grabbed afterwards while the dispatch index is still empty. -/
theorem change_to_same_shortcut_regrabs :
    (run keyboardTF1 (Core.fresh .first)
      [Op.addDBusAction "Control+T" "/p" "" ":1.42" false,
       Op.serviceAppeared "com.example.foo" ":1.42",
       Op.serviceDisappeared "com.example.foo" ":1.42"]).map
      (fun c => ((qfind c.mShortcutAndActionById 1).map Prod.fst,
        canonical keyboardTF1 "Control+T"))
      = some (some "Control+T", some "Control+T") ∧
    (run keyboardTF1 (Core.fresh .first)
      [Op.addDBusAction "Control+T" "/p" "" ":1.42" false,
       Op.serviceAppeared "com.example.foo" ":1.42",
       Op.serviceDisappeared "com.example.foo" ":1.42"]).map
      (fun c => (c.mIdsByShortcut, c.xGrabs)) = some ([], []) ∧
    (run keyboardTF1 (Core.fresh .first)
      [Op.addDBusAction "Control+T" "/p" "" ":1.42" false,
       Op.serviceAppeared "com.example.foo" ":1.42",
       Op.serviceDisappeared "com.example.foo" ":1.42"]).map
      (fun c => ((changeShortcut keyboardTF1 c 1 "Control+T" false).1,
        issued c (changeShortcut keyboardTF1 c 1 "Control+T" false).2))
      = some ("Control+T", [Effect.xGrabKey (28, 4), Effect.saveConfig]) ∧
    (run keyboardTF1 (Core.fresh .first)
      [Op.addDBusAction "Control+T" "/p" "" ":1.42" false,
       Op.serviceAppeared "com.example.foo" ":1.42",
       Op.serviceDisappeared "com.example.foo" ":1.42"]).map
      (fun c => ((changeShortcut keyboardTF1 c 1 "Control+T" false).2.mIdsByShortcut,
        (changeShortcut keyboardTF1 c 1 "Control+T" false).2.xGrabs))
      = some ([], [(28, 4)]) :=
  ⟨by decide, by decide, by decide, by decide⟩

/-! ## Ids never exceed the counter -/

theorem IndexFrom_of_eq (c c1 : Core) (h : c1.mIdsByShortcut = c.mIdsByShortcut) :
    IndexFrom c c1 := by
  intro S i hi
  rw [h] at hi
  exact Or.inl hi

theorem IndexFrom_add (c c1 : Core) (new : String)
    (hindex : ∀ S1 id1, IndexedIn c1.mIdsByShortcut S1 id1 ↔
      IndexedIn c.mIdsByShortcut S1 id1 ∨ (S1 = new ∧ id1 = c1.mLastId)) :
    IndexFrom c c1 := by
  intro S i hi
  rcases (hindex S i).mp hi with h | ⟨_, h⟩
  · exact Or.inl h
  · exact Or.inr (Or.inl h)

theorem IndexFrom_move (c c1 : Core) (id : Nat) (old new : String) (v : String × BaseAction)
    (hf : qfind c.mShortcutAndActionById id = some v)
    (hindex : ∀ S1 id1, IndexedIn c1.mIdsByShortcut S1 id1 ↔
      (IndexedIn c.mIdsByShortcut S1 id1 ∧ ¬ (S1 = old ∧ id1 = id)) ∨ (S1 = new ∧ id1 = id)) :
    IndexFrom c c1 := by
  intro S i hi
  rcases (hindex S i).mp hi with h | ⟨_, h⟩
  · exact Or.inl h.1
  · subst h
    exact Or.inr (Or.inr ⟨v, hf⟩)

theorem IndexFrom_remove (c c1 : Core) (id : Nat) (S : String)
    (hindex : ∀ S1 id1, IndexedIn c1.mIdsByShortcut S1 id1 ↔
      IndexedIn c.mIdsByShortcut S1 id1 ∧ ¬ (S1 = S ∧ id1 = id)) :
    IndexFrom c c1 := by
  intro S1 i hi
  exact Or.inl ((hindex S1 i).mp hi).1

theorem IndexFrom_addMethodAction (x : XServer) (c : Core)
    (shortcut service path interface method description : String) (xerror : Bool) :
    IndexFrom c
      (addMethodAction x c shortcut service path interface method description xerror).2 := by
  simp only [addMethodAction]
  split
  · exact IndexFrom_of_eq c _ (by simp)
  · rename_i X used _
    refine IndexFrom_add c _
      (grabOrReuseKey (addActionCommon x c shortcut).2 X used xerror).1 ?_
    intro S1 id1
    simp [addActionTail]

theorem IndexFrom_addCommandAction (x : XServer) (c : Core) (shortcut command : String)
    (arguments : List String) (description : String) (xerror : Bool) :
    IndexFrom c (addCommandAction x c shortcut command arguments description xerror).2 := by
  simp only [addCommandAction]
  split
  · exact IndexFrom_of_eq c _ (by simp)
  · rename_i X used _
    refine IndexFrom_add c _
      (grabOrReuseKey (addActionCommon x c shortcut).2 X used xerror).1 ?_
    intro S1 id1
    simp [addActionTail]

theorem IndexFrom_addOrRegisterDBusAction (x : XServer) (c c1 : Core)
    (shortcut service path description sender : String) (xerror : Bool) (r : String × Nat)
    (h : addOrRegisterDBusAction x c shortcut service path description sender xerror
      = some (r, c1)) : IndexFrom c c1 := by
  simp only [addOrRegisterDBusAction] at h
  repeat' split at h
  all_goals first | (cases h; done) | (obtain ⟨rfl, rfl⟩ := some_pair_eq h; skip)
  · exact IndexFrom_of_eq _ _ rfl
  · exact IndexFrom_of_eq _ _ rfl
  · exact IndexFrom_of_eq _ _ rfl
  · exact IndexFrom_of_eq _ _ rfl
  · exact IndexFrom_of_eq c _ (by simp)
  · rename_i X used _
    refine IndexFrom_add c _
      (grabOrReuseKey (addActionCommon x (rememberDBusPath c service path) shortcut).2 X
        used xerror).1 ?_
    intro S1 id1
    simp [addDBusActionTail]

theorem IndexFrom_changeShortcut (x : XServer) (c : Core) (id : Nat) (shortcut : String)
    (xerror : Bool) : IndexFrom c (changeShortcut x c id shortcut xerror).2 := by
  simp only [changeShortcut]
  repeat' split
  · exact IndexFrom_of_eq c _ rfl
  · exact IndexFrom_of_eq c _ (by simp)
  · rename_i old action hf _ X used _ _ _
    refine IndexFrom_move c _ id old
      (grabOrReuseKey (addActionCommon x c shortcut).2 X used xerror).1 (old, action) hf ?_
    intro S1 id1
    simp [moveToShortcut]
  · rename_i old action hf _ X used _ _ _
    refine IndexFrom_move c _ id old
      (grabOrReuseKey (addActionCommon x c shortcut).2 X used xerror).1 (old, action) hf ?_
    intro S1 id1
    simp [moveToShortcut]
  · exact IndexFrom_of_eq c _ (by simp)

theorem IndexFrom_changeDBusShortcut (x : XServer) (c c1 : Core) (path shortcut sender : String)
    (xerror : Bool) (r : String × Nat)
    (h : changeDBusShortcut x c path shortcut sender xerror = some (r, c1)) :
    IndexFrom c c1 := by
  simp only [changeDBusShortcut] at h
  repeat' split at h
  all_goals first | (cases h; done) | (obtain ⟨rfl, rfl⟩ := some_pair_eq h; skip)
  · exact IndexFrom_of_eq _ _ rfl
  · exact IndexFrom_of_eq c _ (by simp)
  · exact IndexFrom_of_eq c _ (by simp)
  · rename_i id _ _ X used _ _ old action hf _ _
    refine IndexFrom_move c _ id old
      (grabOrReuseKey (addActionCommon x c shortcut).2 X used xerror).1 (old, action)
      (by simpa using hf) ?_
    intro S1 id1
    simp [moveToShortcut]
  · exact IndexFrom_of_eq c _ (by simp)

theorem IndexFrom_removeAction (c : Core) (id : Nat) : IndexFrom c (removeAction c id).2 := by
  simp only [removeAction]
  repeat' split
  · exact IndexFrom_of_eq c _ rfl
  · exact IndexFrom_of_eq c _ rfl
  · rename_i S action _ _
    refine IndexFrom_remove c _ id S ?_
    intro S1 id1
    simp

theorem IndexFrom_removeDBusAction (c c1 : Core) (path sender : String) (r : Nat)
    (h : removeDBusAction c path sender = some (r, c1)) : IndexFrom c c1 := by
  simp only [removeDBusAction, removeNullDBusAction] at h
  repeat' split at h
  all_goals first | (cases h; done) | (obtain ⟨rfl, rfl⟩ := some_pair_eq h; skip)
  · exact IndexFrom_of_eq _ _ rfl
  · rename_i _ _ _ S _ _ _ hf _ _
    refine IndexFrom_remove c _ r S ?_
    intro S1 id1
    simp
  · rename_i S a _ paths _ hf hp
    refine IndexFrom_remove c _ r S ?_
    intro S1 id1
    simp

theorem indexSub_serviceDisappearedPath (c c1 : Core) (service id path : String) (n n1 : Nat)
    (h : serviceDisappearedPath c service id path n = some (c1, n1)) :
    ∀ S i, IndexedIn c1.mIdsByShortcut S i → IndexedIn c.mIdsByShortcut S i := by
  simp only [serviceDisappearedPath, serviceDisappearedNull] at h
  repeat' split at h
  all_goals first | (cases h; done) | (obtain ⟨rfl, rfl⟩ := some_pair_eq h; skip)
  · exact fun _ _ hi => hi
  · exact fun _ _ hi => hi
  · intro S i hi
    simp at hi
    exact hi.1
  · intro S i hi
    simp at hi
    exact hi.1
  · intro S i hi
    simp at hi
    exact hi.1

theorem indexSub_serviceDisappearedLoop (service id : String) (paths : List String)
    (c c1 : Core) (n n1 : Nat)
    (h : serviceDisappearedLoop service id paths (c, n) = some (c1, n1)) :
    ∀ S i, IndexedIn c1.mIdsByShortcut S i → IndexedIn c.mIdsByShortcut S i := by
  induction paths generalizing c n with
  | nil =>
    simp only [serviceDisappearedLoop] at h
    cases h
    exact fun _ _ hi => hi
  | cons path rest ih =>
    simp only [serviceDisappearedLoop] at h
    split at h
    · cases h
    · rename_i acc h2
      obtain ⟨c2, n2⟩ := acc
      intro S i hi
      exact indexSub_serviceDisappearedPath _ _ _ _ _ _ _ h2 S i (ih _ _ h S i hi)

theorem IndexFrom_serviceDisappeared (c c1 : Core) (service id : String)
    (h : serviceDisappeared c service id = some c1) : IndexFrom c c1 := by
  unfold serviceDisappeared at h
  split at h
  · split at h
    · cases h
    · rename_i hl
      cases h
      have hs := indexSub_serviceDisappearedLoop _ _ _ _ _ _ _ hl
      intro S i hi
      refine Or.inl (hs S i ?_)
      split at hi <;> simpa using hi
  · cases h
    exact IndexFrom_of_eq c _ (by simp)

theorem IndexFrom_step (x : XServer) (c c1 : Core) (op : Op) (h : step x c op = some c1) :
    IndexFrom c c1 := by
  cases op with
  | addMethodAction shortcut service path interface method description xerror =>
    cases h
    exact IndexFrom_addMethodAction _ _ _ _ _ _ _ _ _
  | addCommandAction shortcut command arguments description xerror =>
    cases h
    exact IndexFrom_addCommandAction _ _ _ _ _ _ _
  | addDBusAction shortcut path description sender xerror =>
    simp only [step, addDBusAction, Option.map_eq_some'] at h
    obtain ⟨⟨r, c2⟩, h, rfl⟩ := h
    exact IndexFrom_addOrRegisterDBusAction _ _ _ _ _ _ _ _ _ _ h
  | registerDBusAction shortcut service path description xerror =>
    simp only [step, registerDBusAction, Option.map_eq_some'] at h
    obtain ⟨⟨r, c2⟩, h, rfl⟩ := h
    split at h
    · cases h
    · rename_i h2
      cases h
      exact IndexFrom_addOrRegisterDBusAction _ _ _ _ _ _ _ _ _ _ h2
  | modifyDBusAction path description sender =>
    simp only [step, Option.map_eq_some'] at h
    obtain ⟨⟨r, c2⟩, h, rfl⟩ := h
    exact IndexFrom_of_eq c _ (modifyDBusAction_mIdsByShortcut _ _ _ _ _ _ h)
  | modifyActionDescription id description =>
    cases h
    exact IndexFrom_of_eq c _ (modifyActionDescription_mIdsByShortcut _ _ _)
  | modifyMethodAction id service path interface method description =>
    cases h
    exact IndexFrom_of_eq c _ (modifyMethodAction_mIdsByShortcut _ _ _ _ _ _ _)
  | modifyCommandAction id command arguments description =>
    cases h
    exact IndexFrom_of_eq c _ (modifyCommandAction_mIdsByShortcut _ _ _ _ _)
  | changeDBusShortcut path shortcut sender xerror =>
    simp only [step, Option.map_eq_some'] at h
    obtain ⟨⟨r, c2⟩, h, rfl⟩ := h
    exact IndexFrom_changeDBusShortcut _ _ _ _ _ _ _ _ h
  | changeShortcut id shortcut xerror =>
    cases h
    exact IndexFrom_changeShortcut _ _ _ _ _
  | swapActions id1 id2 =>
    cases h
    exact IndexFrom_of_eq c _ (swapActions_mIdsByShortcut _ _ _)
  | removeDBusAction path sender =>
    simp only [step, Option.map_eq_some'] at h
    obtain ⟨⟨r, c2⟩, h, rfl⟩ := h
    exact IndexFrom_removeDBusAction _ _ _ _ _ h
  | removeAction id =>
    cases h
    exact IndexFrom_removeAction _ _
  | setMultipleActionsBehaviour behaviour =>
    cases h
    exact IndexFrom_of_eq c _ (by simp [setMultipleActionsBehaviour])
  | serviceAppeared service id =>
    obtain ⟨_, _, _, _, rfl⟩ := serviceAppeared_shape _ _ _ _ h
    exact IndexFrom_of_eq c _ rfl
  | serviceDisappeared service id =>
    exact IndexFrom_serviceDisappeared _ _ _ _ h
  | keyPress keycode state call =>
    exact IndexFrom_of_eq c _ (keyPressNormal_mIdsByShortcut _ _ _ _ _ h)

theorem IdsBounded_step (x : XServer) (c c1 : Core) (op : Op) (hw : c.mLastId + 1 < 2 ^ 64)
    (hc : IdsBounded c) (h : step x c op = some c1) :
    IdsBounded c1 ∧ c1.mLastId ≤ c.mLastId + 1 := by
  have hnext : nextId c = c.mLastId + 1 := by
    unfold nextId
    exact Nat.mod_eq_of_lt hw
  have hfrom := IndexFrom_step x c c1 op h
  obtain ⟨hs, hi⟩ := hc
  rcases IdStep_step x c c1 op h with ⟨he, hk⟩ | ⟨he, hk⟩
  · refine ⟨⟨?_, ?_⟩, by omega⟩
    · intro id v hv
      obtain ⟨w, hw1⟩ := hk id v hv
      rw [he]
      exact hs id w hw1
    · intro S i hin
      rw [he]
      rcases hfrom S i hin with h1 | h1 | ⟨v, h1⟩
      · exact hi S i h1
      · omega
      · exact hs i v h1
  · rw [hnext] at he hk
    refine ⟨⟨?_, ?_⟩, by omega⟩
    · intro id v hv
      rcases hk id v hv with h1 | ⟨w, h1⟩
      · omega
      · have := hs id w h1
        omega
    · intro S i hin
      rcases hfrom S i hin with h1 | h1 | ⟨v, h1⟩
      · have := hi S i h1
        omega
      · omega
      · have := hs i v h1
        omega

theorem IdsBounded_run (x : XServer) :
    ∀ (ops : List Op) (c c1 : Core), c.mLastId + ops.length < 2 ^ 64 → IdsBounded c →
      run x c ops = some c1 → IdsBounded c1 ∧ c1.mLastId ≤ c.mLastId + ops.length := by
  intro ops
  induction ops with
  | nil =>
    intro c c1 _ hc h
    simp only [run] at h
    cases h
    exact ⟨hc, by simp⟩
  | cons op rest ih =>
    intro c c1 hlen hc h
    simp only [List.length_cons] at hlen ⊢
    simp only [run] at h
    split at h
    · cases h
    · rename_i c2 h2
      obtain ⟨hb, hl⟩ := IdsBounded_step x c c2 op (by omega) hc h2
      obtain ⟨hb1, hl1⟩ := ih c2 c1 (by omega) hb h
      exact ⟨hb1, by omega⟩

/-! ## Registration followed by removal -/

theorem sremove_sinsert_of_not_mem {α : Type} [DecidableEq α] (s : QSet α) (a : α)
    (h : a ∉ s) : sremove (sinsert s a) a = s := by
  have h1 : sinsert s a = s ++ [a] := by simp [sinsert, h]
  rw [h1]
  have h2 := sremove_of_not_mem s a h
  unfold sremove at h2 ⊢
  rw [List.filter_append, h2]
  simp

theorem qerase_qset_of_none {κ ν : Type} [DecidableEq κ] (m : QMap κ ν) (k : κ) (v : ν)
    (h : qfind m k = none) : qerase (qset m k v) k = m := by
  have : qset m k v = m ++ [(k, v)] := by simp [qset, h]
  rw [this]
  exact qerase_append_single m k v h

theorem qset_qset_restore {κ ν : Type} [DecidableEq κ] (m : QMap κ ν) (k : κ) (v w : ν)
    (h : qfind m k = some w) : qset (qset m k v) k w = m := by
  have h1 : qfind (qset m k v) k = some v := by simp
  rw [qset_of_find _ k w v h1, qset_of_find m k v w h, qreplace_qreplace]
  exact qreplace_self m k w h

theorem insertId_mIdsByShortcut_eq (c : Core) (S : String) (id : Nat) :
    (insertId c S id).mIdsByShortcut
      = qset c.mIdsByShortcut S (sinsert ((qfind c.mIdsByShortcut S).getD []) id) := by
  unfold insertId
  cases h : qfind c.mIdsByShortcut S <;> simp

theorem releaseId_mIdsByShortcut_eq (c : Core) (S : String) (id : Nat) (X : X11Shortcut) :
    (releaseId c S id X).mIdsByShortcut
      = (match qfind c.mIdsByShortcut S with
        | some ids =>
          if sremove ids id = [] then qerase c.mIdsByShortcut S
          else qset c.mIdsByShortcut S (sremove ids id)
        | none => c.mIdsByShortcut) := by
  unfold releaseId
  cases h : qfind c.mIdsByShortcut S with
  | none => simp
  | some ids =>
    dsimp only
    split <;> simp [remoteXUngrabKey]

theorem releaseId_xGrabs_eq (c : Core) (S : String) (id : Nat) (X : X11Shortcut) :
    (releaseId c S id X).xGrabs
      = (match qfind c.mIdsByShortcut S with
        | some ids => if sremove ids id = [] then sremove c.xGrabs X else c.xGrabs
        | none => c.xGrabs) := by
  unfold releaseId
  cases h : qfind c.mIdsByShortcut S with
  | none => simp
  | some ids =>
    dsimp only
    split <;> simp [remoteXUngrabKey]

theorem restore_index_grabs (x : XServer) (c : Core) (X : X11Shortcut) (used : String)
    (id : Nat) (hg : GrabCore x c) (hf : qfind c.mX11ByShortcut used = some X)
    (hu : used ≠ "")
    (hid : ∀ ids, qfind c.mIdsByShortcut used = some ids → id ∉ ids) (c0 c1 : Core)
    (h0i : c0.mIdsByShortcut = (grabOrReuseKey c X used false).2.mIdsByShortcut)
    (h1i : c1.mIdsByShortcut = (insertId c0 used id).mIdsByShortcut)
    (h1g : c1.xGrabs = (grabOrReuseKey c X used false).2.xGrabs) :
    (releaseId c1 used id X).mIdsByShortcut = c.mIdsByShortcut ∧
      (releaseId c1 used id X).xGrabs = c.xGrabs := by
  obtain ⟨hb, hgr, hm⟩ := hg
  rw [releaseId_mIdsByShortcut_eq, releaseId_xGrabs_eq, h1i, h1g, insertId_mIdsByShortcut_eq,
    h0i, grabOrReuseKey_mIdsByShortcut]
  cases hi : qfind c.mIdsByShortcut used with
  | none =>
    have hX : X ∉ c.xGrabs := by
      intro hmem
      obtain ⟨S, ids, n1, n2⟩ := hgr X hmem
      have := fwd_injective x c hm S used X n2 hf (indexed_ne_empty x c hb hm S ids n1) hu
      subst this
      rw [hi] at n1
      cases n1
    have hgrab : (grabOrReuseKey c X used false).2.xGrabs = sinsert c.xGrabs X := by
      simp [grabOrReuseKey, hi, remoteXGrabKey]
    simp only [hgrab, Option.getD_none, qfind_qset, if_true]
    have hs : sremove (sinsert ([] : QSet Nat) id) id = [] := by simp [sinsert, sremove]
    simp only [hs, if_true]
    exact ⟨qerase_qset_of_none _ _ _ hi, sremove_sinsert_of_not_mem _ _ hX⟩
  | some ids =>
    obtain ⟨hne, _⟩ := hb used ids hi
    have hnot := hid ids hi
    have hgrab : (grabOrReuseKey c X used false).2.xGrabs = c.xGrabs := by
      rw [grabOrReuseKey_of_bound c X used false ids hi hne]
    have hs : sremove (sinsert ids id) id = ids := sremove_sinsert_of_not_mem ids id hnot
    simp only [hgrab, Option.getD_some, qfind_qset, if_true, hs, hne, if_false]
    exact ⟨qset_qset_restore _ _ _ _ hi, trivial⟩

theorem removeAction_addActionTail (x : XServer) (c : Core) (X : X11Shortcut) (used : String)
    (action : BaseAction) (hg : GrabCore x c) (hf : qfind c.mX11ByShortcut used = some X)
    (hu : used ≠ "") (hb : IdsBounded c) (hw : c.mLastId + 1 < 2 ^ 64)
    (ht : action.type ≠ "dbus") :
    (removeAction (addActionTail c X used action false).2
        (addActionTail c X used action false).1.2).1 = true ∧
      (removeAction (addActionTail c X used action false).2
        (addActionTail c X used action false).1.2).2.mShortcutAndActionById
        = c.mShortcutAndActionById ∧
      (removeAction (addActionTail c X used action false).2
        (addActionTail c X used action false).1.2).2.mIdsByShortcut = c.mIdsByShortcut ∧
      (removeAction (addActionTail c X used action false).2
        (addActionTail c X used action false).1.2).2.xGrabs = c.xGrabs := by
  have hnext : nextId (grabOrReuseKey c X used false).2 = c.mLastId + 1 := by
    unfold nextId
    rw [grabOrReuseKey_mLastId]
    exact Nat.mod_eq_of_lt hw
  have hnone : qfind c.mShortcutAndActionById (c.mLastId + 1) = none := by
    cases h : qfind c.mShortcutAndActionById (c.mLastId + 1) with
    | none => rfl
    | some v =>
      have := hb.1 _ v h
      omega
  have hid : ∀ ids, qfind c.mIdsByShortcut used = some ids → c.mLastId + 1 ∉ ids := by
    intro ids hi hmem
    have := hb.2 used (c.mLastId + 1) ⟨ids, hi, hmem⟩
    omega
  have hfst : (addActionTail c X used action false).1.2 = c.mLastId + 1 := by
    simp [addActionTail, hnext]
  have hstore1 : qfind (addActionTail c X used action false).2.mShortcutAndActionById
      (c.mLastId + 1) = some (used, action) := by
    simp [addActionTail, hnext, grabOrReuseKey_fst_false]
  have hfwd1 : qfind (addActionTail c X used action false).2.mX11ByShortcut used = some X := by
    simpa using hf
  rw [hfst]
  simp only [removeAction, hstore1, ht, if_false, x11ByShortcutAt_of_find _ used X hfwd1]
  have key := restore_index_grabs x c X used (c.mLastId + 1) hg hf hu hid
    { (grabOrReuseKey c X used false).2 with mLastId := c.mLastId + 1 }
    { (addActionTail c X used action false).2 with
        mShortcutAndActionById :=
          qerase (addActionTail c X used action false).2.mShortcutAndActionById
            (c.mLastId + 1) }
    rfl (by simp [addActionTail, hnext, grabOrReuseKey_fst_false])
    (by simp [addActionTail])
  refine ⟨trivial, ?_, ?_, ?_⟩
  · simp only [saveConfig_mShortcutAndActionById, releaseId_mShortcutAndActionById]
    simp only [addActionTail, hnext, saveConfig_mShortcutAndActionById,
      insertId_mShortcutAndActionById, grabOrReuseKey_mShortcutAndActionById]
    exact qerase_qset_of_none _ _ _ hnone
  · simp only [saveConfig_mIdsByShortcut]
    exact key.1
  · simp only [saveConfig_xGrabs]
    exact key.2

theorem IdsBounded_of_eq (c c1 : Core) (h0 : c1.mLastId = c.mLastId)
    (h1 : c1.mShortcutAndActionById = c.mShortcutAndActionById)
    (h2 : c1.mIdsByShortcut = c.mIdsByShortcut) (hc : IdsBounded c) : IdsBounded c1 := by
  unfold IdsBounded
  rw [h0, h1, h2]
  exact hc

theorem RegistryRestored_tail (x : XServer) (c : Core) (shortcut : String) (X : X11Shortcut)
    (used : String) (action : BaseAction) (hk : KeyboardConsistent x) (hg : GrabCore x c)
    (hb : IdsBounded c) (hw : c.mLastId + 1 < 2 ^ 64) (ht : action.type ≠ "dbus")
    (hc : (addActionCommon x c shortcut).1 = some (X, used)) :
    RegistryRestored c
      (removeAction (addActionTail (addActionCommon x c shortcut).2 X used action false).2
        (addActionTail (addActionCommon x c shortcut).2 X used action false).1.2) := by
  obtain ⟨h1, h2⟩ := GrabCore_addActionCommon x c shortcut X used hk hg hc
  have hb2 : IdsBounded (addActionCommon x c shortcut).2 :=
    IdsBounded_of_eq c _ (by simp) (by simp) (by simp) hb
  have key := removeAction_addActionTail x (addActionCommon x c shortcut).2 X used action h1 h2
    (addActionCommon_ne_empty x c shortcut X used hg.2.2 hc) hb2 (by simpa using hw) ht
  unfold RegistryRestored
  refine ⟨key.1, ?_, ?_, ?_⟩
  · rw [key.2.1]
    simp
  · rw [key.2.2.1]
    simp
  · rw [key.2.2.2]
    simp

/-- A counterexample to claim C12 as stated, in two runs. (1) After
`add_service_action("Control+T")` by ":1.42", the disappearance of a name owned by that peer and
`change_shortcut(1, "Control+T")`, the key (28, ControlMask) is grabbed while the dispatch index
is empty; `register_command("Control+T")` then succeeds with id 2 and `remove(2)` returns true,
but the grab set is empty afterwards. (2) On the keyboard `keyboardDoubled`, after a command on
"Multi_key" has been registered and removed, `register_command("A")` succeeds with id 2 and
`remove(2)` returns true, but the key (38, 0) stays grabbed. -/
theorem register_then_remove_counterexample :
    (run keyboardTF1 (Core.fresh .first)
      [Op.addDBusAction "Control+T" "/p" "" ":1.42" false,
       Op.serviceDisappeared "com.example.foo" ":1.42",
       Op.changeShortcut 1 "Control+T" false]).map
      (fun c => (c.xGrabs, (addCommandAction keyboardTF1 c "Control+T" "a" [] "" false).1,
        (removeAction (addCommandAction keyboardTF1 c "Control+T" "a" [] "" false).2 2).1,
        (removeAction (addCommandAction keyboardTF1 c "Control+T" "a" [] "" false).2 2).2.xGrabs))
      = some ([(28, 4)], ("Control+T", 2), true, []) ∧
    (run keyboardDoubled (Core.fresh .first)
      [Op.addCommandAction "Multi_key" "a" [] "" false, Op.removeAction 1]).map
      (fun c => (c.xGrabs, (addCommandAction keyboardDoubled c "A" "a" [] "" false).1,
        (removeAction (addCommandAction keyboardDoubled c "A" "a" [] "" false).2 2).1,
        (removeAction (addCommandAction keyboardDoubled c "A" "a" [] "" false).2 2).2.xGrabs))
      = some ([], ("A", 2), true, [(38, 0)]) :=
  ⟨by decide, by decide⟩

/-- Claim C12, amended. Let `c` be reached from the empty registry on a consistent keyboard by
fewer than 2^64 - 1 requests, with every grab accepted and without key presses or the
disappearance of a name other than the unique name of its owner. For every `register_command`
or `register_method` in `c` that succeeds (nonzero id) with its grab accepted, the `remove` of
that id right afterwards returns true and leaves the primary store, the dispatch index and the
grab set exactly as they are in `c`. -/
theorem register_then_remove (x : XServer) (b : MultipleActionsBehaviour) (ops : List Op)
    (c : Core) (hk : KeyboardConsistent x)
    (hops : ∀ op ∈ ops, op.isAliasDisappeared = false ∧ op.isKeyPress = false ∧ op.xerror = false)
    (hlen : ops.length + 1 < 2 ^ 64) (hrun : run x (Core.fresh b) ops = some c) :
    (∀ shortcut command arguments description,
      (addCommandAction x c shortcut command arguments description false).1.2 ≠ 0 →
      RegistryRestored c
        (removeAction (addCommandAction x c shortcut command arguments description false).2
          (addCommandAction x c shortcut command arguments description false).1.2)) ∧
    (∀ shortcut service path interface method description,
      (addMethodAction x c shortcut service path interface method description false).1.2 ≠ 0 →
      RegistryRestored c
        (removeAction
          (addMethodAction x c shortcut service path interface method description false).2
          (addMethodAction x c shortcut service path interface method description false).1.2)) := by
  have hinv : StoreIndexed c ∧ GrabCore x c :=
    ⟨(GrabCore_run x b ops c hk hops hrun).1, (GrabCore_run x b ops c hk hops hrun).2.1⟩
  have hfresh : IdsBounded (Core.fresh b) := by
    constructor
    · intro id v h
      simp [Core.fresh] at h
    · rintro S i ⟨ids, h, _⟩
      simp [Core.fresh] at h
  obtain ⟨hb, hl⟩ := IdsBounded_run x ops (Core.fresh b) c
    (by simp only [Core.fresh]; omega) hfresh hrun
  have hw : c.mLastId + 1 < 2 ^ 64 := by
    simp only [Core.fresh] at hl
    omega
  refine ⟨?_, ?_⟩
  · intro shortcut command arguments description hsucc
    cases hc : (addActionCommon x c shortcut).1 with
    | none => simp [addCommandAction, hc] at hsucc
    | some p =>
      obtain ⟨X, used⟩ := p
      have := RegistryRestored_tail x c shortcut X used
        (BaseAction.command command arguments description true) hk hinv.2 hb hw
        (by simp [BaseAction.type]) hc
      simpa [addCommandAction, hc] using this
  · intro shortcut service path interface method description hsucc
    cases hc : (addActionCommon x c shortcut).1 with
    | none => simp [addMethodAction, hc] at hsucc
    | some p =>
      obtain ⟨X, used⟩ := p
      have := RegistryRestored_tail x c shortcut X used
        (BaseAction.method service path interface method description true) hk hinv.2 hb hw
        (by simp [BaseAction.type]) hc
      simpa [addMethodAction, hc] using this

/-- Witness of `register_then_remove`: with a command bound to "Control+T" and one to "F1", a
second command is registered on "Control+T" (id 3) and removed again. -/
theorem register_then_remove_witness :
    RegistryRestored
      ((run keyboardTF1 (Core.fresh .first)
        [Op.addCommandAction "Control+T" "a" [] "" false,
         Op.addCommandAction "F1" "b" [] "" false]).getD (Core.fresh .first))
      (removeAction
        (addCommandAction keyboardTF1
          ((run keyboardTF1 (Core.fresh .first)
            [Op.addCommandAction "Control+T" "a" [] "" false,
             Op.addCommandAction "F1" "b" [] "" false]).getD (Core.fresh .first))
          "Control+T" "c" [] "" false).2
        (addCommandAction keyboardTF1
          ((run keyboardTF1 (Core.fresh .first)
            [Op.addCommandAction "Control+T" "a" [] "" false,
             Op.addCommandAction "F1" "b" [] "" false]).getD (Core.fresh .first))
          "Control+T" "c" [] "" false).1.2) :=
  (register_then_remove keyboardTF1 .first
    [Op.addCommandAction "Control+T" "a" [] "" false,
     Op.addCommandAction "F1" "b" [] "" false]
    ((run keyboardTF1 (Core.fresh .first)
      [Op.addCommandAction "Control+T" "a" [] "" false,
       Op.addCommandAction "F1" "b" [] "" false]).getD (Core.fresh .first))
    keyboardTF1_consistent (by decide) (by decide) (by decide)).1
    "Control+T" "c" [] "" (by decide)
/-! ## The policy NONE -/

/-- Claim C21. Under the policy NONE, a key press in normal mode on a binding whose shortcut is
`S` calls an action exactly when one id is bound to `S`: with the id sequence `[id]` (the id in
the primary store, enabled or not) the one call made is that of `id`; with an id sequence of
any other length, or without an entry for `S` in the dispatch index, no call is made and the
state is unchanged. -/
theorem none_policy_dispatch (c : Core) (keycode state : Nat) (call : Nat → Bool) (S : String)
    (hb : c.mMultipleActionsBehaviour = .none)
    (hS : qfind c.mShortcutByX11 (keycode, state) = some S) :
    (∀ id, qfind c.mIdsByShortcut S = some [id] →
      (qfind c.mShortcutAndActionById id).isSome = true →
      keyPressNormal c keycode state call =
        some { c with effects := c.effects ++ [Effect.call id (call id)] }) ∧
    (∀ ids, qfind c.mIdsByShortcut S = some ids → ids.length ≠ 1 →
      keyPressNormal c keycode state call = some c) ∧
    (qfind c.mIdsByShortcut S = none → keyPressNormal c keycode state call = some c) := by
  have hfound : shortcutByX11At c (keycode, state) = (S, c) := by simp [shortcutByX11At, hS]
  refine ⟨?_, ?_, ?_⟩
  · intro id hi hst
    obtain ⟨v, hv⟩ := Option.isSome_iff_exists.mp hst
    have hcall : callActions c.mShortcutAndActionById c.mMultipleActionsBehaviour call [id]
        = some [Effect.call id (call id)] := by
      rw [hb]
      simp [callActions, hv]
    simp only [keyPressNormal, hfound, hi, hcall]
  · intro ids hi hlen
    have hcall : callActions c.mShortcutAndActionById c.mMultipleActionsBehaviour call ids
        = some [] := by
      rw [hb]
      simp only [callActions, if_neg hlen]
    simp only [keyPressNormal, hfound, hi, hcall, List.append_nil]
  · intro hi
    simp [keyPressNormal, hfound, hi]

/-- Witness of `none_policy_dispatch`: one command is bound to "F1" and two to
"Meta+T"; the press of F1 makes the one call, the press of Meta+T makes none. -/
theorem none_policy_dispatch_witness :
    keyPressNormal
        ((run keyboardTF1 (Core.fresh .none)
          [Op.addCommandAction "F1" "a" [] "" false,
           Op.addCommandAction "Meta+T" "e" [] "" false,
           Op.addCommandAction "Meta+T" "f" [] "" false]).getD (Core.fresh .none))
        67 0 (fun _ => false)
      = some { (run keyboardTF1 (Core.fresh .none)
          [Op.addCommandAction "F1" "a" [] "" false,
           Op.addCommandAction "Meta+T" "e" [] "" false,
           Op.addCommandAction "Meta+T" "f" [] "" false]).getD (Core.fresh .none) with
               effects := Core.effects ((run keyboardTF1 (Core.fresh .none)
          [Op.addCommandAction "F1" "a" [] "" false,
           Op.addCommandAction "Meta+T" "e" [] "" false,
           Op.addCommandAction "Meta+T" "f" [] "" false]).getD (Core.fresh .none))
          ++ [Effect.call 1 ((fun _ => false) 1)] } :=
  (none_policy_dispatch
    ((run keyboardTF1 (Core.fresh .none)
      [Op.addCommandAction "F1" "a" [] "" false,
       Op.addCommandAction "Meta+T" "e" [] "" false,
       Op.addCommandAction "Meta+T" "f" [] "" false]).getD (Core.fresh .none))
    67 0 (fun _ => false) "F1" (by decide) (by decide)).1 1 (by decide) (by decide)
/-! ## The interactive grab -/

/-- Claim C22. When the worker is not in grabbing mode, `grab(timeout)` returns
(failed = false, cancelled = false, timedout = true) exactly when `timeout < 1000` or
`timeout > 60000`; the state is then unchanged (no `X11_OP_XGrabKeyboard` request, the timer and
`mShortcutGrabRequested` as before). A timeout from 1000 to 60000, both included, is accepted:
the request is issued and, when no X11 error is harvested, the reply is delayed, the timer runs
with the given interval and the request is pending. -/
theorem grab_timeout_range (g : GrabSession) (timeout message x11result : Nat) (xerror : Bool)
    (hidle : g.mGrabbingShortcut = false) :
    ((grabShortcut g timeout message x11result xerror).1 = (false, false, true) ↔
      (timeout < 1000 ∨ timeout > 60000)) ∧
    ((timeout < 1000 ∨ timeout > 60000) →
      (grabShortcut g timeout message x11result xerror).2 = g) ∧
    (1000 ≤ timeout → timeout ≤ 60000 →
      (grabShortcut g timeout message x11result xerror).2.grabEffects
        = g.grabEffects ++ [GrabEffect.xGrabKeyboard] ∧
      (xerror = false →
        (grabShortcut g timeout message x11result xerror).1 = (false, false, false) ∧
        (grabShortcut g timeout message x11result xerror).2.mShortcutGrabRequested = true ∧
        (grabShortcut g timeout message x11result xerror).2.mShortcutGrabTimeout = some timeout ∧
        (grabShortcut g timeout message x11result xerror).2.mShortcutGrabRequest
          = some message)) := by
  refine ⟨?_, ?_, ?_⟩
  · by_cases hr : timeout > 60000 ∨ timeout < 1000
    · have hr1 : timeout < 1000 ∨ timeout > 60000 := hr.symm
      simp [grabShortcut, hidle, hr, hr1]
    · have hr1 : ¬ (timeout < 1000 ∨ timeout > 60000) := fun h => hr h.symm
      cases xerror <;> simp [grabShortcut, hidle, hr, hr1]
  · intro hr
    have hr1 : timeout > 60000 ∨ timeout < 1000 := hr.symm
    simp [grabShortcut, hidle, hr1]
  · intro h1 h2
    have hr : ¬ (timeout > 60000 ∨ timeout < 1000) := by omega
    refine ⟨?_, ?_⟩
    · cases xerror <;> simp [grabShortcut, hidle, hr, workerXGrabKeyboard]
    · intro hx
      subst hx
      simp [grabShortcut, hidle, hr, workerXGrabKeyboard]

/-- Witness of `grab_timeout_range`: on the daemon as constructed, the timeouts 999 and 60001
are rejected with timedout = true, 1000 and 60000 are accepted. -/
theorem grab_timeout_range_witness :
    (grabShortcut GrabSession.fresh 999 7 0 false).1 = (false, false, true) ∧
    (grabShortcut GrabSession.fresh 60001 7 0 false).1 = (false, false, true) ∧
    (grabShortcut GrabSession.fresh 999 7 0 false).2 = GrabSession.fresh ∧
    (grabShortcut GrabSession.fresh 1000 7 0 false).1 = (false, false, false) ∧
    (grabShortcut GrabSession.fresh 60000 7 0 false).1 = (false, false, false) ∧
    (grabShortcut GrabSession.fresh 60000 7 0 false).2.mShortcutGrabTimeout = some 60000 :=
  ⟨(grab_timeout_range GrabSession.fresh 999 7 0 false rfl).1.mpr (Or.inl (by decide)),
   (grab_timeout_range GrabSession.fresh 60001 7 0 false rfl).1.mpr (Or.inr (by decide)),
   (grab_timeout_range GrabSession.fresh 999 7 0 false rfl).2.1 (Or.inl (by decide)),
   ((grab_timeout_range GrabSession.fresh 1000 7 0 false rfl).2.2 (by decide) (by decide)).2
     rfl |>.1,
   ((grab_timeout_range GrabSession.fresh 60000 7 0 false rfl).2.2 (by decide) (by decide)).2
     rfl |>.1,
   ((grab_timeout_range GrabSession.fresh 60000 7 0 false rfl).2.2 (by decide) (by decide)).2
     rfl |>.2.2.1⟩

/-- Claim C23. An accepted `grab` (worker not in grabbing mode, timeout in range, no X11 error)
leads to the state REQUESTED, in which the worker is in grabbing mode and the reply is pending;
a key press that the worker ignores keeps that state. In the state REQUESTED every further
`grab`, for any timeout, returns (failed = true, cancelled = false, timedout = false) and
leaves the state as it is: no request to the worker, the same pending request, timer and
reply. -/
theorem grab_while_requested (g : GrabSession) (timeout message x11result : Nat) (xerror : Bool)
    (hreq : GrabRequested g) :
    grabShortcut g timeout message x11result xerror = ((true, false, false), g) ∧
    (∀ (g0 : GrabSession) (t0 m0 r0 : Nat), g0.mGrabbingShortcut = false → 1000 ≤ t0 →
      t0 ≤ 60000 → GrabRequested (grabShortcut g0 t0 m0 r0 false).2) ∧
    (∀ (x : XServer) (keycode state : Nat), (examineKeyPress x g keycode state).1 = true →
      keyPressGrabbing x g keycode state = g) := by
  refine ⟨?_, ?_, ?_⟩
  · simp [grabShortcut, hreq.1]
  · intro g0 t0 m0 r0 h0 h1 h2
    have hr : ¬ (t0 > 60000 ∨ t0 < 1000) := by omega
    simp [GrabRequested, grabShortcut, h0, hr, workerXGrabKeyboard]
  · intro x keycode state hi
    simp [keyPressGrabbing, hi]

/-- Witness of `grab_while_requested`: after an accepted grab with timeout 5000 for message 7,
a second grab with timeout 2000 fails and changes nothing. -/
theorem grab_while_requested_witness :
    grabShortcut (grabShortcut GrabSession.fresh 5000 7 0 false).2 2000 8 0 false
      = ((true, false, false), (grabShortcut GrabSession.fresh 5000 7 0 false).2) :=
  (grab_while_requested (grabShortcut GrabSession.fresh 5000 7 0 false).2 2000 8 0 false
    ⟨by decide, by decide⟩).1

/-- Claim C24. When the slot of the grab timer runs while a request is pending, the core issues
`X11_OP_XUngrabKeyboard` (the worker leaves grabbing mode), sends the pending reply with
(shortcut = "", failed = whether an X11 error was harvested, cancelled = false,
timedout = true) and clears `mShortcutGrabRequested`; when no request is pending it does
nothing. The expiry of the running timer stops the timer and runs the slot. -/
theorem grab_timer_fires (g : GrabSession) (xerror : Bool) :
    (g.mShortcutGrabRequested = true →
      (shortcutGrabTimedout g xerror).grabEffects = g.grabEffects ++
        [GrabEffect.xUngrabKeyboard,
         GrabEffect.reply g.mShortcutGrabRequest "" xerror false true] ∧
      (shortcutGrabTimedout g xerror).mShortcutGrabRequested = false ∧
      (shortcutGrabTimedout g xerror).mGrabbingShortcut = false) ∧
    (g.mShortcutGrabRequested = false → shortcutGrabTimedout g xerror = g) ∧
    (∀ t, g.mShortcutGrabTimeout = some t →
      timerExpires g xerror = shortcutGrabTimedout { g with mShortcutGrabTimeout := none } xerror ∧
      (timerExpires g xerror).mShortcutGrabTimeout = none) := by
  refine ⟨?_, ?_, ?_⟩
  · intro h
    simp [shortcutGrabTimedout, h, workerXUngrabKeyboard]
  · intro h
    simp [shortcutGrabTimedout, h]
  · intro t ht
    have h1 : timerExpires g xerror
        = shortcutGrabTimedout { g with mShortcutGrabTimeout := none } xerror := by
      simp [timerExpires, ht]
    refine ⟨h1, ?_⟩
    rw [h1]
    unfold shortcutGrabTimedout
    split <;> simp [workerXUngrabKeyboard]

/-- Witness of `grab_timer_fires`: the timer of an accepted grab for message 7 expires and an
X11 error is harvested for the ungrab; the reply is ("", true, false, true). -/
theorem grab_timer_fires_witness :
    (shortcutGrabTimedout (grabShortcut GrabSession.fresh 5000 7 0 false).2 true).grabEffects
      = (grabShortcut GrabSession.fresh 5000 7 0 false).2.grabEffects ++
        [GrabEffect.xUngrabKeyboard,
         GrabEffect.reply (grabShortcut GrabSession.fresh 5000 7 0 false).2.mShortcutGrabRequest
           "" true false true] ∧
    (shortcutGrabTimedout (grabShortcut GrabSession.fresh 5000 7 0 false).2 true).mShortcutGrabRequested
      = false ∧
    (shortcutGrabTimedout (grabShortcut GrabSession.fresh 5000 7 0 false).2 true).mGrabbingShortcut
      = false :=
  (grab_timer_fires (grabShortcut GrabSession.fresh 5000 7 0 false).2 true).1 (by decide)
/-! ## Key presses in grabbing mode -/

theorem land_allShifts (state mask : Nat) (h : allShifts &&& mask = mask) :
    (state &&& allShifts) &&& mask = state &&& mask := by
  rw [Nat.land_assoc, h]

theorem grabbedShortcut_masked (x : XServer) (keySym state : Nat) :
    grabbedShortcut x keySym (state &&& allShifts) = grabbedShortcut x keySym state := by
  unfold grabbedShortcut
  rw [land_allShifts state Level5Mask (by decide), land_allShifts state Level3Mask (by decide),
    land_allShifts state MetaMask (by decide), land_allShifts state AltMask (by decide),
    land_allShifts state ControlMask (by decide), land_allShifts state ShiftMask (by decide)]

theorem workerKeycodeToString_grabbedKeySym (x : XServer) (keycode : Nat) :
    workerKeycodeToString x (keycode % 256) =
      if grabbedKeySym x keycode ≠ 0 then
        (x.XKeysymToString (grabbedKeySym x keycode)).getD ""
      else "" := by
  unfold workerKeycodeToString grabbedKeySym
  dsimp only
  by_cases h2 : (x.XGetKeyboardMapping (keycode % 256)).length ≥ 2
      ∧ (x.XGetKeyboardMapping (keycode % 256)).getD 1 0 ≠ 0
      ∧ (x.XGetKeyboardMapping (keycode % 256)).getD 0 0 ≥ XK_a
      ∧ (x.XGetKeyboardMapping (keycode % 256)).getD 0 0 ≤ XK_z
  · have hl : (x.XGetKeyboardMapping (keycode % 256)).length ≠ 0 := by omega
    have h0 : (x.XGetKeyboardMapping (keycode % 256)).getD 0 0 ≠ 0 := by
      have := h2.2.2.1
      unfold XK_a at this
      omega
    simp only [if_pos h2, if_pos hl, if_pos h0, if_pos h2.2.1]
    cases x.XKeysymToString ((x.XGetKeyboardMapping (keycode % 256)).getD 1 0) <;> rfl
  · rw [if_neg h2]
    by_cases hl : (x.XGetKeyboardMapping (keycode % 256)).length ≠ 0
    · have hl1 : (x.XGetKeyboardMapping (keycode % 256)).length ≥ 1 := by omega
      simp only [if_pos hl1, if_pos hl]
      by_cases h0 : (x.XGetKeyboardMapping (keycode % 256)).getD 0 0 ≠ 0
      · simp only [if_pos h0, if_neg h2, if_pos hl1]
        cases x.XKeysymToString ((x.XGetKeyboardMapping (keycode % 256)).getD 0 0) <;> rfl
      · simp only [if_neg h0]
        simp
    · have hl1 : ¬ (x.XGetKeyboardMapping (keycode % 256)).length ≥ 1 := by omega
      simp only [if_neg hl1, if_neg hl]
      simp

theorem x11ToShortcut_grabbed (x : XServer) (keycode state : Nat) (name : String)
    (hsym : grabbedKeySym x keycode ≠ 0)
    (hname : x.XKeysymToString (grabbedKeySym x keycode) = some name) (hne : name ≠ "")
    (herr : x.keycodeToStringError (keycode % 256) = false) :
    X11ToShortcut x (keycode, state &&& allShifts)
      = some (modifierText (state &&& allShifts) ++ name) := by
  have hkey : remoteKeycodeToString x keycode = name := by
    unfold remoteKeycodeToString
    simp only [herr, workerKeycodeToString_grabbedKeySym, if_pos hsym, hname]
    rfl
  rw [X11ToShortcut_eq, hkey, if_neg hne]

theorem grabbedShortcut_eq (x : XServer) (keycode state : Nat) (name : String)
    (hsym : grabbedKeySym x keycode ≠ 0)
    (hname : x.XKeysymToString (grabbedKeySym x keycode) = some name) (hne : name ≠ "") :
    grabbedShortcut x (grabbedKeySym x keycode) state
      = modifierText (state &&& allShifts) ++ name := by
  have h1 : grabbedShortcut x (grabbedKeySym x keycode) (state &&& allShifts)
      = modifierText (state &&& allShifts) ++ name := by
    have h2 := X11ToShortcut_eq
      { x with XGetKeyboardMapping := fun _ => [grabbedKeySym x keycode],
               keycodeToStringError := fun _ => false } 0 (state &&& allShifts)
    have hk : remoteKeycodeToString
        { x with XGetKeyboardMapping := fun _ => [grabbedKeySym x keycode],
                 keycodeToStringError := fun _ => false } 0 = name := by
      simp [remoteKeycodeToString, workerKeycodeToString, hsym, hname]
    rw [hk, if_neg hne] at h2
    have h3 : X11ToShortcut
        { x with XGetKeyboardMapping := fun _ => [grabbedKeySym x keycode],
                 keycodeToStringError := fun _ => false } (0, state &&& allShifts)
        = some (grabbedShortcut x (grabbedKeySym x keycode) (state &&& allShifts)) := by
      simp [X11ToShortcut, grabbedShortcut, hk, hname, hne]
    rw [h3] at h2
    exact Option.some.inj h2
  rw [← grabbedShortcut_masked, h1]

theorem examineKeyPress_cancel_iff (x : XServer) (g : GrabSession) (keycode state : Nat) :
    (examineKeyPress x g keycode state).2.1 = true ↔
      grabbedKeySym x keycode = XK_Escape ∧ state &&& allShifts = 0 := by
  unfold examineKeyPress
  dsimp only
  by_cases hk : grabbedKeySym x keycode ≠ 0
  · rw [if_pos hk]
    by_cases he : isEscape (grabbedKeySym x keycode) (state &&& allShifts) = true
    · rw [if_pos he]
      simpa [isEscape] using he
    · rw [if_neg he]
      have he1 : ¬ (grabbedKeySym x keycode = XK_Escape ∧ state &&& allShifts = 0) := by
        simpa [isEscape] using he
      split <;> simp [he1]
  · rw [if_neg hk]
    have hk0 : grabbedKeySym x keycode = 0 := by omega
    simp [hk0, XK_Escape]

theorem examineKeyPress_cancel_not_ignored (x : XServer) (g : GrabSession) (keycode state : Nat)
    (h : (examineKeyPress x g keycode state).2.1 = true) :
    (examineKeyPress x g keycode state).1 = false := by
  unfold examineKeyPress at h ⊢
  dsimp only at h ⊢
  split at h
  · split at h
    · rename_i h1 h2
      rw [if_pos h1, if_pos h2]
    · split at h <;> simp at h
  · simp at h

/-- Claim C25. In grabbing mode a key press is reported as a cancellation exactly when the
keysym selected for the key is `Escape` and none of the six modifier bits of `allShifts` is
set in the event state; the other bits of the state (Lock, Mod2) have no influence. On a
cancellation the worker leaves grabbing mode and writes the record `cancel`, and the slot
`shortcutGrabbed` answers the pending request with (shortcut = "", failed = false,
cancelled = true, timedout = false). A key press that is not a cancellation, such as Escape
with one of the six modifiers, writes no record `cancel`. -/
theorem escape_cancels (x : XServer) (g : GrabSession) (keycode state : Nat) :
    ((examineKeyPress x g keycode state).2.1 = true ↔
      grabbedKeySym x keycode = XK_Escape ∧ state &&& allShifts = 0) ∧
    (∀ state1, state1 &&& allShifts = state &&& allShifts →
      (examineKeyPress x g keycode state1).2.1 = (examineKeyPress x g keycode state).2.1) ∧
    ((examineKeyPress x g keycode state).2.1 = true →
      (keyPressGrabbing x g keycode state).mGrabbingShortcut = false ∧
      (keyPressGrabbing x g keycode state).x11Response = g.x11Response ++ [GrabRecord.cancel] ∧
      (g.mShortcutGrabRequested = true → g.x11Response = [] →
        (shortcutGrabbed (keyPressGrabbing x g keycode state)).map
            (fun g2 => (g2.grabEffects, g2.mShortcutGrabRequested))
          = some (g.grabEffects ++ [GrabEffect.onShortcutGrabbed,
              GrabEffect.reply g.mShortcutGrabRequest "" false true false], false))) ∧
    ((examineKeyPress x g keycode state).2.1 = false →
      (keyPressGrabbing x g keycode state).x11Response = g.x11Response ∨
      (keyPressGrabbing x g keycode state).x11Response = g.x11Response ++
        [GrabRecord.shortcut (examineKeyPress x g keycode state).2.2]) := by
  refine ⟨examineKeyPress_cancel_iff x g keycode state, ?_, ?_, ?_⟩
  · intro state1 h1
    rw [Bool.eq_iff_iff, examineKeyPress_cancel_iff, examineKeyPress_cancel_iff, h1]
  · intro hc
    have hi := examineKeyPress_cancel_not_ignored x g keycode state hc
    refine ⟨?_, ?_, ?_⟩
    · simp [keyPressGrabbing, hi]
    · simp [keyPressGrabbing, hi, hc]
    · intro hreq hpipe
      simp [keyPressGrabbing, hi, hc, shortcutGrabbed, hreq, hpipe]
  · intro hc
    by_cases hi : (examineKeyPress x g keycode state).1 = true
    · exact Or.inl (by simp [keyPressGrabbing, hi])
    · exact Or.inr (by simp [keyPressGrabbing, hi, hc])

/-- Witness of `escape_cancels`: on a keyboard whose keycode 9 is Escape, a grab is pending for
message 7. Escape with CapsLock and NumLock (state 0x12) is a cancellation and is answered with
("", false, true, false); Escape with Control (state 0x04) is not a cancellation. -/
theorem escape_cancels_witness :
    (examineKeyPress keyboardEscape (grabShortcut GrabSession.fresh 5000 7 0 false).2 9 0x12).2.1
      = true ∧
    (shortcutGrabbed (keyPressGrabbing keyboardEscape
        (grabShortcut GrabSession.fresh 5000 7 0 false).2 9 0x12)).map
        (fun g2 => (g2.grabEffects, g2.mShortcutGrabRequested))
      = some ((grabShortcut GrabSession.fresh 5000 7 0 false).2.grabEffects ++
          [GrabEffect.onShortcutGrabbed,
           GrabEffect.reply (grabShortcut GrabSession.fresh 5000 7 0 false).2.mShortcutGrabRequest
             "" false true false], false) ∧
    ¬ (examineKeyPress keyboardEscape (grabShortcut GrabSession.fresh 5000 7 0 false).2
        9 0x04).2.1 = true :=
  ⟨(escape_cancels keyboardEscape (grabShortcut GrabSession.fresh 5000 7 0 false).2 9 0x12).1.mpr
     ⟨by decide, by decide⟩,
   ((escape_cancels keyboardEscape (grabShortcut GrabSession.fresh 5000 7 0 false).2 9
     0x12).2.2.1 (by decide)).2.2 (by decide) (by decide),
   fun h => absurd
     ((escape_cancels keyboardEscape (grabShortcut GrabSession.fresh 5000 7 0 false).2 9
       0x04).1.mp h).2 (by decide)⟩

/-- Claim C26. A key press accepted in grabbing mode (the selected keysym is not Escape without
modifiers, is no modifier keysym, is allowed by the allow flags and has a non-empty name) is
reported with the shortcut made of the texts "Level5+", "Level3+", "Meta+", "Alt+", "Control+",
"Shift+" of the modifier bits set in the event state, in this order, followed by the name of
the keysym. Unless an X11 error is harvested for the keycode, this is the string that
`X11ToShortcut` returns for the keycode and the state masked with `allShifts`. The slot
`shortcutGrabbed` answers the pending request with that shortcut and (failed = false,
cancelled = false, timedout = false). -/
theorem grabbed_shortcut_canonical (x : XServer) (g : GrabSession) (keycode state : Nat)
    (name : String) (hsym : grabbedKeySym x keycode ≠ 0)
    (hesc : isEscape (grabbedKeySym x keycode) (state &&& allShifts) = false)
    (hmod : isModifier (grabbedKeySym x keycode) = false)
    (hallow : isAllowed g (grabbedKeySym x keycode) (state &&& allShifts) = true)
    (hname : x.XKeysymToString (grabbedKeySym x keycode) = some name) (hne : name ≠ "") :
    examineKeyPress x g keycode state
      = (false, false, modifierText (state &&& allShifts) ++ name) ∧
    (x.keycodeToStringError (keycode % 256) = false →
      X11ToShortcut x (keycode, state &&& allShifts)
        = some (modifierText (state &&& allShifts) ++ name)) ∧
    (keyPressGrabbing x g keycode state).x11Response = g.x11Response ++
      [GrabRecord.shortcut (modifierText (state &&& allShifts) ++ name)] ∧
    (g.mShortcutGrabRequested = true → g.x11Response = [] →
      (shortcutGrabbed (keyPressGrabbing x g keycode state)).map
          (fun g2 => (g2.grabEffects, g2.mShortcutGrabRequested))
        = some (g.grabEffects ++ [GrabEffect.onShortcutGrabbed,
            GrabEffect.reply g.mShortcutGrabRequest
              (modifierText (state &&& allShifts) ++ name) false false false], false)) := by
  have hex : examineKeyPress x g keycode state
      = (false, false, modifierText (state &&& allShifts) ++ name) := by
    unfold examineKeyPress
    dsimp only
    rw [if_pos hsym, hesc, hmod, hallow, grabbedShortcut_eq x keycode state name hsym hname hne]
    simp
  refine ⟨hex, ?_, ?_, ?_⟩
  · intro herr
    exact x11ToShortcut_grabbed x keycode state name hsym hname hne herr
  · simp [keyPressGrabbing, hex]
  · intro hreq hpipe
    simp [keyPressGrabbing, hex, shortcutGrabbed, hreq, hpipe]

/-- Witness of `grabbed_shortcut_canonical`: a grab is pending for message 7; the key `space`
(keycode 65) pressed with Control, CapsLock and NumLock (state 0x16) is answered with
("Control+space", false, false, false). -/
theorem grabbed_shortcut_canonical_witness :
    modifierText (0x16 &&& allShifts) ++ "space" = "Control+space" ∧
    examineKeyPress keyboardEscape (grabShortcut GrabSession.fresh 5000 7 0 false).2 65 0x16
      = (false, false, modifierText (0x16 &&& allShifts) ++ "space") ∧
    X11ToShortcut keyboardEscape (65, 0x16 &&& allShifts)
      = some (modifierText (0x16 &&& allShifts) ++ "space") ∧
    (shortcutGrabbed (keyPressGrabbing keyboardEscape
        (grabShortcut GrabSession.fresh 5000 7 0 false).2 65 0x16)).map
        (fun g2 => (g2.grabEffects, g2.mShortcutGrabRequested))
      = some ((grabShortcut GrabSession.fresh 5000 7 0 false).2.grabEffects ++
          [GrabEffect.onShortcutGrabbed,
           GrabEffect.reply (grabShortcut GrabSession.fresh 5000 7 0 false).2.mShortcutGrabRequest
             (modifierText (0x16 &&& allShifts) ++ "space") false false false], false) :=
  ⟨by decide,
   (grabbed_shortcut_canonical keyboardEscape (grabShortcut GrabSession.fresh 5000 7 0 false).2
     65 0x16 "space" (by decide) (by decide) (by decide) (by decide) (by decide) (by decide)).1,
   (grabbed_shortcut_canonical keyboardEscape (grabShortcut GrabSession.fresh 5000 7 0 false).2
     65 0x16 "space" (by decide) (by decide) (by decide) (by decide) (by decide)
     (by decide)).2.1 (by decide),
   (grabbed_shortcut_canonical keyboardEscape (grabShortcut GrabSession.fresh 5000 7 0 false).2
     65 0x16 "space" (by decide) (by decide) (by decide) (by decide) (by decide)
     (by decide)).2.2.2 (by decide) (by decide)⟩
/-! ## What a disappearing name takes away -/

theorem Shrinks_refl (c : Core) : Shrinks c c :=
  ⟨fun _ _ h => h, fun _ _ h => h, fun _ _ h => h, fun _ h => h, ⟨[], by simp⟩⟩

theorem Shrinks_trans (c c1 c2 : Core) (h1 : Shrinks c c1) (h2 : Shrinks c1 c2) :
    Shrinks c c2 := by
  obtain ⟨a1, a2, a3, a4, L1, a5⟩ := h1
  obtain ⟨b1, b2, b3, b4, L2, b5⟩ := h2
  refine ⟨fun k v h => a1 k v (b1 k v h), fun k v h => a2 k v (b2 k v h),
    fun S i h => a3 S i (b3 S i h), fun X h => a4 X (b4 X h), ⟨L1 ++ L2, ?_⟩⟩
  rw [b5, a5, List.append_assoc]

theorem releaseId_xGrabs_sub (c : Core) (S : String) (id : Nat) (X X1 : X11Shortcut)
    (h : X1 ∈ (releaseId c S id X).xGrabs) : X1 ∈ c.xGrabs := by
  unfold releaseId at h
  split at h
  · exact h
  · dsimp only at h
    split at h
    · simp [remoteXUngrabKey] at h
      exact h.1
    · exact h

theorem Shrinks_releaseId (c : Core) (S : String) (id : Nat) (X : X11Shortcut) :
    Shrinks c (releaseId c S id X) := by
  refine ⟨?_, ?_, ?_, ?_, ?_⟩
  · intro k v h
    simpa using h
  · intro k v h
    simpa using h
  · intro S1 i h
    simp at h
    exact h.1
  · intro X1 h
    exact releaseId_xGrabs_sub c S id X X1 h
  · exact ⟨_, releaseId_effects c S id X⟩

theorem Shrinks_of_eq (c c1 : Core) (h1 : c1.mShortcutAndActionById = c.mShortcutAndActionById)
    (h2 : c1.mIdByDBusClient = c.mIdByDBusClient) (h3 : c1.mIdsByShortcut = c.mIdsByShortcut)
    (h4 : c1.xGrabs = c.xGrabs) (h5 : c1.effects = c.effects) : Shrinks c c1 := by
  refine ⟨?_, ?_, ?_, ?_, ⟨[], ?_⟩⟩
  · rw [h1]
    exact fun _ _ h => h
  · rw [h2]
    exact fun _ _ h => h
  · rw [h3]
    exact fun _ _ h => h
  · rw [h4]
    exact fun _ h => h
  · rw [h5]
    simp

theorem qfind_qerase_sub {κ ν : Type} [DecidableEq κ] (m : QMap κ ν) (k k1 : κ) (v : ν)
    (h : qfind (qerase m k) k1 = some v) : qfind m k1 = some v := by
  rw [qfind_qerase] at h
  split at h
  · cases h
  · exact h

theorem serviceDisappearedPath_none (c : Core) (service id path : String) (n : Nat)
    (hcl : qfind c.mIdByDBusClient (id, path) = none) :
    serviceDisappearedPath c service id path n = some (c, n) := by
  simp only [serviceDisappearedPath, hcl]

theorem serviceDisappearedPath_missing (c : Core) (service id path : String) (n a : Nat)
    (hcl : qfind c.mIdByDBusClient (id, path) = some a)
    (hst : qfind c.mShortcutAndActionById a = none)
    (hnull : qfind c.mNullActionById a = none) :
    serviceDisappearedPath c service id path n = some (c, n) := by
  simp only [serviceDisappearedPath, hcl, hst, hnull]

theorem serviceDisappearedPath_null (c : Core) (service id path : String) (n a : Nat)
    (S0 : String) (hcl : qfind c.mIdByDBusClient (id, path) = some a)
    (hst : qfind c.mShortcutAndActionById a = none)
    (hnull : qfind c.mNullActionById a = some S0) :
    serviceDisappearedPath c service id path n =
      serviceDisappearedNull c service id path n a S0 := by
  simp only [serviceDisappearedPath, hcl, hst, hnull]

theorem serviceDisappearedNull_alias (c : Core) (service id path : String) (n a : Nat)
    (S0 : String) (hne : id ≠ service) :
    serviceDisappearedNull c service id path n a S0 = none := by
  simp only [serviceDisappearedNull, if_pos hne]

theorem serviceDisappearedNull_owner (c : Core) (id path : String) (n a : Nat) (S0 : String) :
    serviceDisappearedNull c id id path n a S0 =
      some ({ releaseId (x11ByShortcutAt c S0).2 S0 a (x11ByShortcutAt c S0).1 with
              mNullActionById :=
                qerase (releaseId (x11ByShortcutAt c S0).2 S0 a
                  (x11ByShortcutAt c S0).1).mNullActionById a,
              mIdByDBusClient :=
                qerase (releaseId (x11ByShortcutAt c S0).2 S0 a
                  (x11ByShortcutAt c S0).1).mIdByDBusClient (id, path) }, n - 1) := by
  simp only [serviceDisappearedNull, ne_eq, not_true_eq_false, if_false]

theorem serviceDisappearedPath_alias (c : Core) (service id path : String) (n a : Nat)
    (S : String) (action : BaseAction) (hne : id ≠ service)
    (hcl : qfind c.mIdByDBusClient (id, path) = some a)
    (hst : qfind c.mShortcutAndActionById a = some (S, action)) :
    serviceDisappearedPath c service id path n =
      if action.type = "dbus" then
        some ({ releaseId (x11ByShortcutAt c S).2 S a (x11ByShortcutAt c S).1 with
                effects := (releaseId (x11ByShortcutAt c S).2 S a (x11ByShortcutAt c S).1).effects
                  ++ [Effect.disappeared a] }, n)
      else none := by
  simp only [serviceDisappearedPath, hcl, hst, if_pos hne]

theorem serviceDisappearedPath_owner (c : Core) (id path : String) (n a : Nat)
    (S : String) (action : BaseAction)
    (hcl : qfind c.mIdByDBusClient (id, path) = some a)
    (hst : qfind c.mShortcutAndActionById a = some (S, action)) :
    serviceDisappearedPath c id id path n =
      some ({ releaseId (x11ByShortcutAt c S).2 S a (x11ByShortcutAt c S).1 with
              mShortcutAndActionById :=
                qerase (releaseId (x11ByShortcutAt c S).2 S a
                  (x11ByShortcutAt c S).1).mShortcutAndActionById a,
              mIdByDBusClient :=
                qerase (releaseId (x11ByShortcutAt c S).2 S a
                  (x11ByShortcutAt c S).1).mIdByDBusClient (id, path) }, n - 1) := by
  simp only [serviceDisappearedPath, hcl, hst, ne_eq, not_true_eq_false, if_false]

theorem Shrinks_released (c : Core) (S : String) (a : Nat) :
    Shrinks c (releaseId (x11ByShortcutAt c S).2 S a (x11ByShortcutAt c S).1) :=
  Shrinks_trans _ _ _
    (Shrinks_of_eq c (x11ByShortcutAt c S).2 (by simp) (by simp) (by simp) (by simp) (by simp))
    (Shrinks_releaseId _ _ _ _)

theorem Shrinks_serviceDisappearedPath (c c1 : Core) (service id path : String) (n n1 : Nat)
    (h : serviceDisappearedPath c service id path n = some (c1, n1)) : Shrinks c c1 := by
  cases hcl : qfind c.mIdByDBusClient (id, path) with
  | none =>
    rw [serviceDisappearedPath_none c service id path n hcl] at h
    obtain ⟨rfl, rfl⟩ := some_pair_eq h
    exact Shrinks_refl _
  | some a =>
    cases hst : qfind c.mShortcutAndActionById a with
    | none =>
      cases hnull : qfind c.mNullActionById a with
      | none =>
        rw [serviceDisappearedPath_missing c service id path n a hcl hst hnull] at h
        obtain ⟨rfl, rfl⟩ := some_pair_eq h
        exact Shrinks_refl _
      | some S0 =>
        rw [serviceDisappearedPath_null c service id path n a S0 hcl hst hnull] at h
        obtain ⟨a1, a2, a3, a4, L, a5⟩ := Shrinks_released c S0 a
        by_cases hne : id ≠ service
        · rw [serviceDisappearedNull_alias c service id path n a S0 hne] at h
          cases h
        · have he : id = service := by
            by_contra hc
            exact hne hc
          subst he
          rw [serviceDisappearedNull_owner c id path n a S0] at h
          obtain ⟨rfl, rfl⟩ := some_pair_eq h
          refine ⟨a1, ?_, a3, a4, ⟨L, a5⟩⟩
          intro k v hk
          exact a2 k v (qfind_qerase_sub _ _ _ _ hk)
    | some v =>
      obtain ⟨S, action⟩ := v
      obtain ⟨a1, a2, a3, a4, L, a5⟩ := Shrinks_released c S a
      by_cases hne : id ≠ service
      · rw [serviceDisappearedPath_alias c service id path n a S action hne hcl hst] at h
        split at h
        · obtain ⟨rfl, rfl⟩ := some_pair_eq h
          refine ⟨a1, a2, a3, a4, ⟨L ++ [Effect.disappeared a], ?_⟩⟩
          simp only [a5, List.append_assoc]
        · cases h
      · have he : id = service := by
          by_contra hc
          exact hne hc
        subst he
        rw [serviceDisappearedPath_owner c id path n a S action hcl hst] at h
        obtain ⟨rfl, rfl⟩ := some_pair_eq h
        refine ⟨?_, ?_, a3, a4, ⟨L, a5⟩⟩
        · intro k v hk
          exact a1 k v (qfind_qerase_sub _ _ _ _ hk)
        · intro k v hk
          exact a2 k v (qfind_qerase_sub _ _ _ _ hk)

theorem Shrinks_serviceDisappearedLoop (service id : String) (paths : List String)
    (c c1 : Core) (n n1 : Nat)
    (h : serviceDisappearedLoop service id paths (c, n) = some (c1, n1)) : Shrinks c c1 := by
  induction paths generalizing c n with
  | nil =>
    simp only [serviceDisappearedLoop] at h
    cases h
    exact Shrinks_refl _
  | cons path rest ih =>
    simp only [serviceDisappearedLoop] at h
    split at h
    · cases h
    · rename_i acc h2
      obtain ⟨c2, n2⟩ := acc
      exact Shrinks_trans _ _ _ (Shrinks_serviceDisappearedPath _ _ _ _ _ _ _ h2) (ih _ _ h)

theorem forgetServiceName_registry (c : Core) (service id : String) :
    (forgetServiceName c service id).mShortcutAndActionById = c.mShortcutAndActionById ∧
    (forgetServiceName c service id).mIdByDBusClient = c.mIdByDBusClient ∧
    (forgetServiceName c service id).mIdsByShortcut = c.mIdsByShortcut ∧
    (forgetServiceName c service id).xGrabs = c.xGrabs ∧
    (forgetServiceName c service id).effects = c.effects := by
  unfold forgetServiceName
  split
  · exact ⟨rfl, rfl, rfl, rfl, rfl⟩
  · dsimp only
    repeat' split
    all_goals exact ⟨rfl, rfl, rfl, rfl, rfl⟩

/-- The registry part of the result of `serviceDisappeared` is that of the state after the
loop over the paths. -/
theorem serviceDisappeared_loop (c c1 : Core) (service id : String)
    (h : serviceDisappeared c service id = some c1) :
    (qfind c.mDBusPathsByDBusService id = none ∧ Shrinks c c1 ∧
      c1.mShortcutAndActionById = c.mShortcutAndActionById ∧
      c1.mIdByDBusClient = c.mIdByDBusClient ∧ c1.mIdsByShortcut = c.mIdsByShortcut ∧
      c1.xGrabs = c.xGrabs ∧ c1.effects = c.effects) ∨
    (∃ paths c2 n, qfind c.mDBusPathsByDBusService id = some paths ∧
      serviceDisappearedLoop service id paths (c, paths.length) = some (c2, n) ∧
      c1.mShortcutAndActionById = c2.mShortcutAndActionById ∧
      c1.mIdByDBusClient = c2.mIdByDBusClient ∧ c1.mIdsByShortcut = c2.mIdsByShortcut ∧
      c1.xGrabs = c2.xGrabs ∧ c1.effects = c2.effects) := by
  unfold serviceDisappeared at h
  split at h
  · rename_i paths hp
    split at h
    · cases h
    · rename_i c2 n hl
      cases h
      refine Or.inr ⟨paths, c2, n, hp, hl, ?_⟩
      obtain ⟨f1, f2, f3, f4, f5⟩ := forgetServiceName_registry
        (if n = 0 then
          { c2 with mDBusPathsByDBusService := qerase c2.mDBusPathsByDBusService id }
        else c2) service id
      rw [f1, f2, f3, f4, f5]
      split <;> exact ⟨rfl, rfl, rfl, rfl, rfl⟩
  · rename_i hp
    cases h
    obtain ⟨f1, f2, f3, f4, f5⟩ := forgetServiceName_registry c service id
    exact Or.inl ⟨hp, Shrinks_of_eq _ _ f1 f2 f3 f4 f5, f1, f2, f3, f4, f5⟩

theorem Shrinks_serviceDisappeared (c c1 : Core) (service id : String)
    (h : serviceDisappeared c service id = some c1) : Shrinks c c1 := by
  rcases serviceDisappeared_loop c c1 service id h with ⟨_, hs, _⟩ | ⟨paths, c2, n, _, hl, e⟩
  · exact hs
  · exact Shrinks_trans _ _ _ (Shrinks_serviceDisappearedLoop _ _ _ _ _ _ _ hl)
      (Shrinks_of_eq _ _ e.1 e.2.1 e.2.2.1 e.2.2.2.1 e.2.2.2.2)

theorem dBusPathKnown_iff (c : Core) (service path : String) :
    dBusPathKnown c service path = true ↔
      ∃ paths, qfind c.mDBusPathsByDBusService service = some paths ∧ path ∈ paths := by
  unfold dBusPathKnown
  cases qfind c.mDBusPathsByDBusService service <;> simp
/-! ## The unique name of the owner disappears -/

theorem x11ByShortcutAt_fst_at (c : Core) (S1 S : String) :
    (x11ByShortcutAt (x11ByShortcutAt c S1).2 S).1 = (x11ByShortcutAt c S).1 := by
  unfold x11ByShortcutAt
  cases h1 : qfind c.mX11ByShortcut S1 with
  | some X => rfl
  | none =>
    by_cases e : S1 = S
    · subst e
      simp [h1]
    · simp [e]
      cases qfind c.mX11ByShortcut S <;> rfl

theorem serviceDisappearedPath_fwd (c c1 : Core) (service id path : String) (n n1 : Nat)
    (S : String) (h : serviceDisappearedPath c service id path n = some (c1, n1)) :
    (x11ByShortcutAt c1 S).1 = (x11ByShortcutAt c S).1 := by
  cases hcl : qfind c.mIdByDBusClient (id, path) with
  | none =>
    rw [serviceDisappearedPath_none c service id path n hcl] at h
    obtain ⟨rfl, rfl⟩ := some_pair_eq h
    rfl
  | some a =>
    cases hst : qfind c.mShortcutAndActionById a with
    | none =>
      cases hnull : qfind c.mNullActionById a with
      | none =>
        rw [serviceDisappearedPath_missing c service id path n a hcl hst hnull] at h
        obtain ⟨rfl, rfl⟩ := some_pair_eq h
        rfl
      | some S0 =>
        rw [serviceDisappearedPath_null c service id path n a S0 hcl hst hnull] at h
        have key : c1.mX11ByShortcut = (x11ByShortcutAt c S0).2.mX11ByShortcut := by
          by_cases hne : id ≠ service
          · rw [serviceDisappearedNull_alias c service id path n a S0 hne] at h
            cases h
          · have he : id = service := by
              by_contra hc
              exact hne hc
            subst he
            rw [serviceDisappearedNull_owner c id path n a S0] at h
            obtain ⟨rfl, rfl⟩ := some_pair_eq h
            simp
        rw [x11ByShortcutAt_fst_congr (x11ByShortcutAt c S0).2 c1 S (by rw [key])]
        exact x11ByShortcutAt_fst_at c S0 S
    | some v =>
      obtain ⟨S1, action⟩ := v
      have key : c1.mX11ByShortcut = (x11ByShortcutAt c S1).2.mX11ByShortcut := by
        by_cases hne : id ≠ service
        · rw [serviceDisappearedPath_alias c service id path n a S1 action hne hcl hst] at h
          split at h
          · obtain ⟨rfl, rfl⟩ := some_pair_eq h
            simp
          · cases h
        · have he : id = service := by
            by_contra hc
            exact hne hc
          subst he
          rw [serviceDisappearedPath_owner c id path n a S1 action hcl hst] at h
          obtain ⟨rfl, rfl⟩ := some_pair_eq h
          simp
      rw [x11ByShortcutAt_fst_congr (x11ByShortcutAt c S1).2 c1 S (by rw [key])]
      exact x11ByShortcutAt_fst_at c S1 S

theorem releaseId_index_keep (c : Core) (S S1 : String) (a a1 : Nat) (X : X11Shortcut)
    (hne : a1 ≠ a) (hi : IndexedIn c.mIdsByShortcut S a) :
    IndexedIn (releaseId c S1 a1 X).mIdsByShortcut S a := by
  obtain ⟨ids, hf, hm⟩ := hi
  rw [releaseId_mIdsByShortcut_eq]
  by_cases e : S1 = S
  · subst e
    have hs : a ∈ sremove ids a1 := by
      simp [sremove, hm, hne.symm]
    have hs0 : sremove ids a1 ≠ [] := List.ne_nil_of_mem hs
    simp only [hf, if_neg hs0]
    exact ⟨_, by simp, hs⟩
  · refine ⟨ids, ?_, hm⟩
    cases h1 : qfind c.mIdsByShortcut S1 with
    | none => simpa using hf
    | some ids1 =>
      dsimp only
      split
      · simp [e, hf]
      · simp [e, hf]

theorem releaseId_last (c : Core) (S : String) (a : Nat) (X : X11Shortcut)
    (hi : IndexedIn c.mIdsByShortcut S a)
    (ho : ∀ i, IndexedIn c.mIdsByShortcut S i → i = a) :
    (releaseId c S a X).effects = c.effects ++ [Effect.xUngrabKey X] ∧
      X ∉ (releaseId c S a X).xGrabs := by
  obtain ⟨ids, hf, hm⟩ := hi
  have hs : sremove ids a = [] := by
    unfold sremove
    rw [List.filter_eq_nil_iff]
    intro i him
    simp [ho i ⟨ids, hf, him⟩]
  refine ⟨?_, ?_⟩
  · rw [releaseId_effects]
    simp only [hf, hs, if_true]
  · rw [releaseId_xGrabs_eq]
    simp only [hf, hs, if_true]
    simp [sremove]

/-- A round of the loop for a path that is not filed under the action `a` leaves alone what
the registry holds for `a`. -/
theorem owner_round_keeps (c c1 : Core) (id p : String) (n n1 a : Nat) (S : String)
    (h : serviceDisappearedPath c id id p n = some (c1, n1))
    (hp : qfind c.mIdByDBusClient (id, p) ≠ some a) :
    qfind c1.mShortcutAndActionById a = qfind c.mShortcutAndActionById a ∧
    (∀ q, q ≠ p → qfind c1.mIdByDBusClient (id, q) = qfind c.mIdByDBusClient (id, q)) ∧
    (IndexedIn c.mIdsByShortcut S a → IndexedIn c1.mIdsByShortcut S a) := by
  cases hcl : qfind c.mIdByDBusClient (id, p) with
  | none =>
    rw [serviceDisappearedPath_none c id id p n hcl] at h
    obtain ⟨rfl, rfl⟩ := some_pair_eq h
    exact ⟨rfl, fun _ _ => rfl, fun hi => hi⟩
  | some a1 =>
    have hne : a1 ≠ a := by
      intro e
      rw [hcl, e] at hp
      exact hp rfl
    cases hst : qfind c.mShortcutAndActionById a1 with
    | none =>
      cases hnull : qfind c.mNullActionById a1 with
      | none =>
        rw [serviceDisappearedPath_missing c id id p n a1 hcl hst hnull] at h
        obtain ⟨rfl, rfl⟩ := some_pair_eq h
        exact ⟨rfl, fun _ _ => rfl, fun hi => hi⟩
      | some S0 =>
        rw [serviceDisappearedPath_null c id id p n a1 S0 hcl hst hnull,
          serviceDisappearedNull_owner c id p n a1 S0] at h
        obtain ⟨rfl, rfl⟩ := some_pair_eq h
        refine ⟨?_, ?_, ?_⟩
        · simp
        · intro q hq
          have hk : ¬ (id, p) = (id, q) := by
            intro e
            exact hq (Prod.mk.inj e).2.symm
          simp [hk]
        · intro hi
          exact releaseId_index_keep (x11ByShortcutAt c S0).2 S S0 a a1 _ hne
            (by simpa using hi)
    | some v =>
      obtain ⟨S1, action⟩ := v
      rw [serviceDisappearedPath_owner c id p n a1 S1 action hcl hst] at h
      obtain ⟨rfl, rfl⟩ := some_pair_eq h
      refine ⟨?_, ?_, ?_⟩
      · simp [hne]
      · intro q hq
        have hk : ¬ (id, p) = (id, q) := by
          intro e
          exact hq (Prod.mk.inj e).2.symm
        simp [hk]
      · intro hi
        exact releaseId_index_keep (x11ByShortcutAt c S1).2 S S1 a a1 _ hne
          (by simpa using hi)

/-- The round of the loop for the path under which the action `a` is filed removes `a`. -/
theorem owner_round_removes (c c1 : Core) (id path : String) (n n1 a : Nat) (S : String)
    (action : BaseAction) (hcl : qfind c.mIdByDBusClient (id, path) = some a)
    (hst : qfind c.mShortcutAndActionById a = some (S, action))
    (h : serviceDisappearedPath c id id path n = some (c1, n1)) :
    qfind c1.mShortcutAndActionById a = none ∧ qfind c1.mIdByDBusClient (id, path) = none ∧
    ¬ IndexedIn c1.mIdsByShortcut S a ∧
    (IndexedIn c.mIdsByShortcut S a → (∀ i, IndexedIn c.mIdsByShortcut S i → i = a) →
      c1.effects = c.effects ++ [Effect.xUngrabKey (x11ByShortcutAt c S).1] ∧
      (x11ByShortcutAt c S).1 ∉ c1.xGrabs) := by
  rw [serviceDisappearedPath_owner c id path n a S action hcl hst] at h
  obtain ⟨rfl, rfl⟩ := some_pair_eq h
  refine ⟨by simp, by simp, by simp, ?_⟩
  intro hi ho
  have hl := releaseId_last (x11ByShortcutAt c S).2 S a (x11ByShortcutAt c S).1
    (by simpa using hi) (by simpa using ho)
  refine ⟨?_, ?_⟩
  · simpa using hl.1
  · simpa using hl.2

theorem owner_loop_removes (id path : String) (a : Nat) (S : String) (action : BaseAction)
    (paths : List String) (c c1 : Core) (n n1 : Nat)
    (h : serviceDisappearedLoop id id paths (c, n) = some (c1, n1)) (hp : path ∈ paths)
    (hcl : qfind c.mIdByDBusClient (id, path) = some a)
    (hst : qfind c.mShortcutAndActionById a = some (S, action))
    (huniq : ∀ p, qfind c.mIdByDBusClient (id, p) = some a → p = path) :
    qfind c1.mShortcutAndActionById a = none ∧ qfind c1.mIdByDBusClient (id, path) = none ∧
    ¬ IndexedIn c1.mIdsByShortcut S a ∧
    (IndexedIn c.mIdsByShortcut S a → (∀ i, IndexedIn c.mIdsByShortcut S i → i = a) →
      (∃ L, c1.effects = c.effects ++ L ∧ Effect.xUngrabKey (x11ByShortcutAt c S).1 ∈ L) ∧
      (x11ByShortcutAt c S).1 ∉ c1.xGrabs) := by
  induction paths generalizing c n with
  | nil => simp at hp
  | cons p rest ih =>
    simp only [serviceDisappearedLoop] at h
    split at h
    · cases h
    · rename_i acc h2
      obtain ⟨c2, n2⟩ := acc
      obtain ⟨_, t2, t3, _, L1, e1⟩ := Shrinks_serviceDisappearedPath _ _ _ _ _ _ _ h2
      obtain ⟨s1, s2, s3, s4, L2, e2⟩ := Shrinks_serviceDisappearedLoop _ _ _ _ _ _ _ h
      by_cases hpp : p = path
      · subst hpp
        obtain ⟨r1, r2, r3, r4⟩ := owner_round_removes c c2 id p n n2 a S action hcl hst h2
        refine ⟨?_, ?_, fun hi => r3 (s3 S a hi), ?_⟩
        · cases hf : qfind c1.mShortcutAndActionById a with
          | none => rfl
          | some v =>
            rw [s1 a v hf] at r1
            cases r1
        · cases hf : qfind c1.mIdByDBusClient (id, p) with
          | none => rfl
          | some v =>
            rw [s2 _ v hf] at r2
            cases r2
        · intro hi ho
          obtain ⟨e, hx⟩ := r4 hi ho
          refine ⟨⟨[Effect.xUngrabKey (x11ByShortcutAt c S).1] ++ L2, ?_, by simp⟩,
            fun hm => hx (s4 _ hm)⟩
          rw [e2, e, List.append_assoc]
      · have hpr : path ∈ rest := by
          have hpp1 : ¬ path = p := fun e => hpp e.symm
          simpa [hpp1] using hp
        have hnot : qfind c.mIdByDBusClient (id, p) ≠ some a := fun e => hpp (huniq p e)
        obtain ⟨k1, k2, k3⟩ := owner_round_keeps c c2 id p n n2 a S h2 hnot
        have hfwd := serviceDisappearedPath_fwd c c2 id id p n n2 S h2
        have hcl2 : qfind c2.mIdByDBusClient (id, path) = some a := by
          rw [k2 path (fun e => hpp e.symm)]
          exact hcl
        have hst2 : qfind c2.mShortcutAndActionById a = some (S, action) := by
          rw [k1]
          exact hst
        have huniq2 : ∀ q, qfind c2.mIdByDBusClient (id, q) = some a → q = path :=
          fun q hq => huniq q (t2 _ _ hq)
        obtain ⟨i1, i2, i3, i4⟩ := ih c2 n2 h hpr hcl2 hst2 huniq2
        refine ⟨i1, i2, i3, ?_⟩
        intro hi ho
        obtain ⟨⟨L, e, hm⟩, hx⟩ := i4 (k3 hi) (fun i hii => ho i (t3 S i hii))
        rw [hfwd] at hm hx
        refine ⟨⟨L1 ++ L, ?_, by simp [hm]⟩, hx⟩
        rw [e, e1, List.append_assoc]

theorem owner_loop_returns (id : String) (paths : List String) (c : Core) (n : Nat) :
    (serviceDisappearedLoop id id paths (c, n)).isSome = true := by
  induction paths generalizing c n with
  | nil => simp [serviceDisappearedLoop]
  | cons p rest ih =>
    have hr : ∃ c2 n2, serviceDisappearedPath c id id p n = some (c2, n2) := by
      cases hcl : qfind c.mIdByDBusClient (id, p) with
      | none => exact ⟨_, _, serviceDisappearedPath_none c id id p n hcl⟩
      | some a =>
        cases hst : qfind c.mShortcutAndActionById a with
        | none =>
          cases hnull : qfind c.mNullActionById a with
          | none => exact ⟨_, _, serviceDisappearedPath_missing c id id p n a hcl hst hnull⟩
          | some S0 =>
            exact ⟨_, _, (serviceDisappearedPath_null c id id p n a S0 hcl hst hnull).trans
              (serviceDisappearedNull_owner c id p n a S0)⟩
        | some v =>
          obtain ⟨S, action⟩ := v
          exact ⟨_, _, serviceDisappearedPath_owner c id p n a S action hcl hst⟩
    obtain ⟨c2, n2, h2⟩ := hr
    simp only [serviceDisappearedLoop, h2]
    exact ih c2 n2

theorem owner_disappeared_returns (c : Core) (id : String) :
    (serviceDisappeared c id id).isSome = true := by
  unfold serviceDisappeared
  cases hp : qfind c.mDBusPathsByDBusService id with
  | none => simp
  | some paths =>
    obtain ⟨r, hr⟩ := Option.isSome_iff_exists.mp (owner_loop_returns id paths c paths.length)
    obtain ⟨c2, n2⟩ := r
    simp [hr]

/-- What `serviceDisappeared(owner, owner)` does to an action filed under (owner, path), in a
state in which no other path of the owner is filed under the same id. -/
theorem owner_disappeared_removes (c c1 : Core) (id path : String) (a : Nat) (S : String)
    (action : BaseAction) (hk : dBusPathKnown c id path = true)
    (hcl : qfind c.mIdByDBusClient (id, path) = some a)
    (hst : qfind c.mShortcutAndActionById a = some (S, action))
    (huniq : ∀ p, qfind c.mIdByDBusClient (id, p) = some a → p = path)
    (h : serviceDisappeared c id id = some c1) :
    qfind c1.mShortcutAndActionById a = none ∧ qfind c1.mIdByDBusClient (id, path) = none ∧
    ¬ IndexedIn c1.mIdsByShortcut S a ∧
    (IndexedIn c.mIdsByShortcut S a → (∀ i, IndexedIn c.mIdsByShortcut S i → i = a) →
      Effect.xUngrabKey (x11ByShortcutAt c S).1 ∈ issued c c1 ∧
      (x11ByShortcutAt c S).1 ∉ c1.xGrabs) := by
  rw [dBusPathKnown_iff] at hk
  obtain ⟨paths1, hp1, hmem⟩ := hk
  rcases serviceDisappeared_loop c c1 id id h with
    ⟨hp, _⟩ | ⟨paths, c2, n, hp, hl, e1, e2, e3, e4, e5⟩
  · rw [hp] at hp1
    cases hp1
  · rw [hp] at hp1
    have e0 := Option.some.inj hp1
    rw [← e0] at hmem
    obtain ⟨i1, i2, i3, i4⟩ :=
      owner_loop_removes id path a S action paths c c2 _ n hl hmem hcl hst huniq
    refine ⟨by rw [e1]; exact i1, by rw [e2]; exact i2, by rw [e3]; exact i3, ?_⟩
    intro hi ho
    obtain ⟨⟨L, e, hm⟩, hx⟩ := i4 hi ho
    refine ⟨?_, by rw [e4]; exact hx⟩
    rw [issued_append c c1 L (by rw [e5, e])]
    exact hm
/-! ## The ids of the service-client index -/

theorem addOrRegisterDBusAction_client (x : XServer) (c c1 : Core)
    (shortcut service path description sender : String) (xerror : Bool) (r : String × Nat)
    (h : addOrRegisterDBusAction x c shortcut service path description sender xerror
      = some (r, c1)) :
    c1.mIdByDBusClient = c.mIdByDBusClient ∨
    (c1.mLastId = nextId c ∧
      c1.mIdByDBusClient = qset c.mIdByDBusClient (service, path) (nextId c)) := by
  unfold addOrRegisterDBusAction at h
  split at h
  · split at h
    · split at h
      · obtain ⟨rfl, rfl⟩ := some_pair_eq h
        exact Or.inl rfl
      · split at h
        · obtain ⟨rfl, rfl⟩ := some_pair_eq h
          exact Or.inl rfl
        · obtain ⟨rfl, rfl⟩ := some_pair_eq h
          exact Or.inl rfl
    · obtain ⟨rfl, rfl⟩ := some_pair_eq h
      exact Or.inl rfl
  · dsimp only at h
    split at h
    · split at h
      · cases h
      · obtain ⟨rfl, rfl⟩ := some_pair_eq h
        left
        simp
    · obtain ⟨rfl, rfl⟩ := some_pair_eq h
      right
      simp [addDBusActionTail, nextId]

theorem removeDBusAction_client (c c1 : Core) (path sender : String) (r : Nat)
    (h : removeDBusAction c path sender = some (r, c1)) :
    ∀ k v, qfind c1.mIdByDBusClient k = some v → qfind c.mIdByDBusClient k = some v := by
  unfold removeDBusAction at h
  split at h
  · obtain ⟨rfl, rfl⟩ := some_pair_eq h
    exact fun _ _ hk => hk
  · split at h
    · split at h
      · cases h
      · simp only [removeNullDBusAction] at h
        split at h
        · cases h
        · obtain ⟨rfl, rfl⟩ := some_pair_eq h
          intro k v hk
          simp only [notifyAdaptor_mIdByDBusClient, forgetDBusPath_mIdByDBusClient,
            releaseId_mIdByDBusClient] at hk
          have := qfind_qerase_sub _ _ _ _ hk
          simpa using this
    · dsimp only at h
      split at h
      · cases h
      · obtain ⟨rfl, rfl⟩ := some_pair_eq h
        intro k v hk
        simp only [notifyAdaptor_mIdByDBusClient, forgetDBusPath_mIdByDBusClient,
          releaseId_mIdByDBusClient] at hk
        have := qfind_qerase_sub _ _ _ _ hk
        simpa using this

theorem client_sub_of_eq (c c1 : Core) (h : c1.mIdByDBusClient = c.mIdByDBusClient) :
    ∀ k v, qfind c1.mIdByDBusClient k = some v → qfind c.mIdByDBusClient k = some v := by
  rw [h]
  exact fun _ _ hk => hk

theorem client_of_added (c c1 : Core) (key : DBusClient)
    (h : c1.mIdByDBusClient = c.mIdByDBusClient ∨
      (c1.mLastId = nextId c ∧ c1.mIdByDBusClient = qset c.mIdByDBusClient key (nextId c))) :
    (∀ k v, qfind c1.mIdByDBusClient k = some v → qfind c.mIdByDBusClient k = some v) ∨
    (c1.mLastId = nextId c ∧ ∃ k0, ∀ k v, qfind c1.mIdByDBusClient k = some v →
      (k = k0 ∧ v = nextId c) ∨ qfind c.mIdByDBusClient k = some v) := by
  rcases h with h | ⟨hl, h⟩
  · exact Or.inl (client_sub_of_eq c c1 h)
  · refine Or.inr ⟨hl, key, ?_⟩
    intro k v hk
    rw [h, qfind_qset] at hk
    split at hk
    · rename_i e
      cases hk
      exact Or.inl ⟨e.symm, rfl⟩
    · exact Or.inr hk

/-- What one request does to the service-client index: it loses entries at most, or the counter
is incremented and the one entry that may be new holds the incremented counter. -/
theorem client_step (x : XServer) (c c1 : Core) (op : Op) (h : step x c op = some c1) :
    (∀ k v, qfind c1.mIdByDBusClient k = some v → qfind c.mIdByDBusClient k = some v) ∨
    (c1.mLastId = nextId c ∧ ∃ k0, ∀ k v, qfind c1.mIdByDBusClient k = some v →
      (k = k0 ∧ v = nextId c) ∨ qfind c.mIdByDBusClient k = some v) := by
  cases op with
  | addMethodAction shortcut service path interface method description xerror =>
    cases h
    exact Or.inl (client_sub_of_eq c _ (addMethodAction_mIdByDBusClient _ _ _ _ _ _ _ _ _))
  | addCommandAction shortcut command arguments description xerror =>
    cases h
    exact Or.inl (client_sub_of_eq c _ (addCommandAction_mIdByDBusClient _ _ _ _ _ _ _))
  | addDBusAction shortcut path description sender xerror =>
    simp only [step, addDBusAction, Option.map_eq_some'] at h
    obtain ⟨⟨r, c2⟩, h, rfl⟩ := h
    exact client_of_added c c2 _ (addOrRegisterDBusAction_client _ _ _ _ _ _ _ _ _ _ h)
  | registerDBusAction shortcut service path description xerror =>
    simp only [step, registerDBusAction, Option.map_eq_some'] at h
    obtain ⟨⟨r, c2⟩, h, rfl⟩ := h
    split at h
    · cases h
    · rename_i h2
      cases h
      exact client_of_added c _ _ (addOrRegisterDBusAction_client _ _ _ _ _ _ _ _ _ _ h2)
  | modifyDBusAction path description sender =>
    simp only [step, Option.map_eq_some'] at h
    obtain ⟨⟨r, c2⟩, h, rfl⟩ := h
    exact Or.inl (client_sub_of_eq c _ (modifyDBusAction_mIdByDBusClient _ _ _ _ _ _ h))
  | modifyActionDescription id description =>
    cases h
    exact Or.inl (client_sub_of_eq c _ (modifyActionDescription_mIdByDBusClient _ _ _))
  | modifyMethodAction id service path interface method description =>
    cases h
    exact Or.inl (client_sub_of_eq c _ (modifyMethodAction_mIdByDBusClient _ _ _ _ _ _ _))
  | modifyCommandAction id command arguments description =>
    cases h
    exact Or.inl (client_sub_of_eq c _ (modifyCommandAction_mIdByDBusClient _ _ _ _ _))
  | changeDBusShortcut path shortcut sender xerror =>
    simp only [step, Option.map_eq_some'] at h
    obtain ⟨⟨r, c2⟩, h, rfl⟩ := h
    exact Or.inl (client_sub_of_eq c _ (changeDBusShortcut_mIdByDBusClient _ _ _ _ _ _ _ _ h))
  | changeShortcut id shortcut xerror =>
    cases h
    exact Or.inl (client_sub_of_eq c _ (changeShortcut_mIdByDBusClient _ _ _ _ _))
  | swapActions id1 id2 =>
    cases h
    exact Or.inl (client_sub_of_eq c _ (swapActions_mIdByDBusClient _ _ _))
  | removeDBusAction path sender =>
    simp only [step, Option.map_eq_some'] at h
    obtain ⟨⟨r, c2⟩, h, rfl⟩ := h
    exact Or.inl (removeDBusAction_client _ _ _ _ _ h)
  | removeAction id =>
    cases h
    exact Or.inl (client_sub_of_eq c _ (removeAction_mIdByDBusClient _ _))
  | setMultipleActionsBehaviour behaviour =>
    cases h
    exact Or.inl (client_sub_of_eq c _ (by simp [setMultipleActionsBehaviour]))
  | serviceAppeared service id =>
    obtain ⟨_, _, _, _, rfl⟩ := serviceAppeared_shape _ _ _ _ h
    exact Or.inl (fun _ _ hk => hk)
  | serviceDisappeared service id =>
    exact Or.inl (Shrinks_serviceDisappeared _ _ _ _ h).2.1
  | keyPress keycode state call =>
    exact Or.inl (client_sub_of_eq c _ (keyPressNormal_mIdByDBusClient _ _ _ _ _ h))

theorem ClientInjective_step (x : XServer) (c c1 : Core) (op : Op)
    (hw : c.mLastId + 1 < 2 ^ 64) (hc : ClientInjective c) (h : step x c op = some c1) :
    ClientInjective c1 ∧ c1.mLastId ≤ c.mLastId + 1 := by
  have hnext : nextId c = c.mLastId + 1 := by
    unfold nextId
    exact Nat.mod_eq_of_lt hw
  obtain ⟨hb, hi⟩ := hc
  have hl : c1.mLastId = c.mLastId ∨ c1.mLastId = c.mLastId + 1 := by
    rcases IdStep_step x c c1 op h with ⟨he, _⟩ | ⟨he, _⟩
    · exact Or.inl he
    · exact Or.inr (by rw [he, hnext])
  rcases client_step x c c1 op h with hsub | ⟨he, k0, hnew⟩
  · refine ⟨⟨?_, ?_⟩, by omega⟩
    · intro k v hk
      have := hb k v (hsub k v hk)
      omega
    · intro k1 k2 v h1 h2
      exact hi k1 k2 v (hsub _ _ h1) (hsub _ _ h2)
  · rw [hnext] at he hnew
    refine ⟨⟨?_, ?_⟩, by omega⟩
    · intro k v hk
      rcases hnew k v hk with ⟨_, hv⟩ | hold
      · omega
      · have := hb k v hold
        omega
    · intro k1 k2 v h1 h2
      rcases hnew k1 v h1 with ⟨e1, hv1⟩ | hold1
      · rcases hnew k2 v h2 with ⟨e2, _⟩ | hold2
        · rw [e1, e2]
        · have := hb k2 v hold2
          omega
      · rcases hnew k2 v h2 with ⟨_, hv2⟩ | hold2
        · have := hb k1 v hold1
          omega
        · exact hi k1 k2 v hold1 hold2

theorem ClientInjective_run (x : XServer) :
    ∀ (ops : List Op) (c c1 : Core), c.mLastId + ops.length < 2 ^ 64 → ClientInjective c →
      run x c ops = some c1 → ClientInjective c1 ∧ c1.mLastId ≤ c.mLastId + ops.length := by
  intro ops
  induction ops with
  | nil =>
    intro c c1 _ hc h
    simp only [run] at h
    cases h
    exact ⟨hc, by simp⟩
  | cons op rest ih =>
    intro c c1 hlen hc h
    simp only [List.length_cons] at hlen ⊢
    simp only [run] at h
    split at h
    · cases h
    · rename_i c2 h2
      obtain ⟨hb, hl⟩ := ClientInjective_step x c c2 op (by omega) hc h2
      obtain ⟨hb1, hl1⟩ := ih c2 c1 (by omega) hb h
      exact ⟨hb1, by omega⟩

theorem ClientInjective_fresh (b : MultipleActionsBehaviour) : ClientInjective (Core.fresh b) := by
  refine ⟨?_, ?_⟩
  · intro k v hk
    simp [Core.fresh] at hk
  · intro k1 k2 v hk
    simp [Core.fresh] at hk

/-- Where `add_service_action` files the action of a sender for which the tracker has recorded
no name: under (sender, path). The id returned is in the primary store with the shortcut
returned; its action is null only when the pair was registered already and the id of the pair
had no action in the store. -/
theorem addDBusAction_filed (x : XServer) (c c1 : Core)
    (shortcut path description sender : String) (xerror : Bool) (r : String × Nat)
    (hpref : qfind c.mPreferredServiceNameByServiceId sender = none)
    (h : addDBusAction x c shortcut path description sender xerror = some (r, c1))
    (hid : r.2 ≠ 0) :
    dBusPathKnown c1 sender path = true ∧ qfind c1.mIdByDBusClient (sender, path) = some r.2 ∧
    ((∃ action, qfind c1.mShortcutAndActionById r.2 = some (r.1, action)) ∨
      (dBusPathKnown c sender path = true ∧ qfind c1.mNullActionById r.2 = some r.1)) := by
  simp only [addDBusAction, hpref] at h
  unfold addOrRegisterDBusAction at h
  split at h
  · rename_i hk
    split at h
    · rename_i id hc
      split at h
      · rename_i S action hs
        obtain ⟨rfl, rfl⟩ := some_pair_eq h
        exact ⟨hk, hc, Or.inl ⟨action, hs⟩⟩
      · split at h
        · rename_i S hn
          obtain ⟨rfl, rfl⟩ := some_pair_eq h
          exact ⟨hk, hc, Or.inr ⟨hk, hn⟩⟩
        · obtain ⟨rfl, rfl⟩ := some_pair_eq h
          refine ⟨hk, hc, Or.inr ⟨hk, ?_⟩⟩
          simp
    · obtain ⟨rfl, rfl⟩ := some_pair_eq h
      exact absurd rfl hid
  · dsimp only at h
    split at h
    · split at h
      · cases h
      · obtain ⟨rfl, rfl⟩ := some_pair_eq h
        exact absurd rfl hid
    · obtain ⟨rfl, rfl⟩ := some_pair_eq h
      refine ⟨?_, ?_, Or.inl ?_⟩
      · rw [dBusPathKnown_iff]
        simp only [addDBusActionTail, notifyAdaptor_mDBusPathsByDBusService,
          insertId_mDBusPathsByDBusService, grabOrReuseKey_mDBusPathsByDBusService,
          addActionCommon_mDBusPathsByDBusService]
        unfold rememberDBusPath
        split <;> simp
      · simp [addDBusActionTail]
      · simp [addDBusActionTail]
/-! ## The two fields of the primary store share no id -/

theorem lastId_lt_of_IdStep (c c1 : Core) (h : IdStep c c1) (hb : c.mLastId < 2 ^ 64) :
    c1.mLastId < 2 ^ 64 := by
  rcases h with ⟨h1, _⟩ | ⟨h1, _⟩
  · rw [h1]
    exact hb
  · rw [h1]
    unfold nextId
    exact Nat.mod_lt _ (by norm_num)

theorem lastId_lt_run (x : XServer) (b : MultipleActionsBehaviour) (ops : List Op) (c : Core)
    (h : run x (Core.fresh b) ops = some c) : c.mLastId < 2 ^ 64 :=
  run_invariant x (fun c => c.mLastId < 2 ^ 64) (fun _ => True)
    (fun c op c1 _ hc hs => lastId_lt_of_IdStep c c1 (IdStep_step x c c1 op hs) hc) ops _ c
    (fun _ _ => trivial) (by simp [Core.fresh]) h

theorem storeKeys_sub_of_IdStep (c c1 : Core) (h : IdStep c c1) (hb : c.mLastId < 2 ^ 64)
    (hl : c1.mLastId = c.mLastId) :
    ∀ id v, qfind c1.mShortcutAndActionById id = some v →
      ∃ w, qfind c.mShortcutAndActionById id = some w := by
  rcases h with ⟨_, h2⟩ | ⟨h1, _⟩
  · exact h2
  · exfalso
    rw [hl] at h1
    unfold nextId at h1
    omega

theorem NullDisjoint_sub (c c1 : Core) (hc : NullDisjoint c)
    (hn : ∀ id S, qfind c1.mNullActionById id = some S → qfind c.mNullActionById id = some S)
    (hs : ∀ id v, qfind c1.mShortcutAndActionById id = some v →
      ∃ w, qfind c.mShortcutAndActionById id = some w) : NullDisjoint c1 := by
  intro id S h
  cases hf : qfind c1.mShortcutAndActionById id with
  | none => rfl
  | some v =>
    obtain ⟨w, hw⟩ := hs id v hf
    rw [hc id S (hn id S h)] at hw
    cases hw

theorem NullDisjoint_frame (c c1 : Core) (hI : IdStep c c1) (hb : c.mLastId < 2 ^ 64)
    (hc : NullDisjoint c) (hn : c1.mNullActionById = c.mNullActionById)
    (hl : c1.mLastId = c.mLastId) : NullDisjoint c1 :=
  NullDisjoint_sub c c1 hc (fun id S h => by rw [hn] at h; exact h)
    (storeKeys_sub_of_IdStep c c1 hI hb hl)

theorem NullDisjoint_add (c c1 : Core) (hI : IdStep c c1) (hc : NullDisjoint c)
    (hn : c1.mNullActionById = qerase c.mNullActionById c1.mLastId) : NullDisjoint c1 := by
  intro id S h
  rw [hn, qfind_qerase] at h
  split_ifs at h with e
  have h0 := hc id S h
  cases hf : qfind c1.mShortcutAndActionById id with
  | none => rfl
  | some v =>
    rcases hI with ⟨_, h2⟩ | ⟨h1, h2⟩
    · obtain ⟨w, hw⟩ := h2 id v hf
      rw [h0] at hw
      cases hw
    · rcases h2 id v hf with e2 | ⟨w, hw⟩
      · exact absurd (h1.trans e2.symm) e
      · rw [h0] at hw
        cases hw

theorem NullDisjoint_insert (c c1 : Core) (id : Nat) (S : String) (hc : NullDisjoint c)
    (hs : c1.mShortcutAndActionById = c.mShortcutAndActionById)
    (hf : qfind c.mShortcutAndActionById id = none)
    (hn : c1.mNullActionById = qset c.mNullActionById id S) : NullDisjoint c1 := by
  intro id1 S1 h
  rw [hn, qfind_qset] at h
  rw [hs]
  split_ifs at h with e
  · rw [← e]
    exact hf
  · exact hc id1 S1 h

theorem nullSub_removeDBusAction (c c1 : Core) (path sender : String) (r : Nat)
    (h : removeDBusAction c path sender = some (r, c1)) :
    ∀ id S, qfind c1.mNullActionById id = some S → qfind c.mNullActionById id = some S := by
  simp only [removeDBusAction, removeNullDBusAction] at h
  repeat' split at h
  all_goals first
    | (cases h; done)
    | (obtain ⟨rfl, rfl⟩ := some_pair_eq h; first | exact fun _ _ hk => hk | skip)
  · intro id S hk
    simp only [notifyAdaptor_mNullActionById, forgetDBusPath_mNullActionById,
      releaseId_mNullActionById] at hk
    have := qfind_qerase_sub _ _ _ _ hk
    simpa using this
  · intro id S hk
    simpa using hk

theorem nullSub_serviceDisappearedPath (c c1 : Core) (service id path : String) (n n1 : Nat)
    (h : serviceDisappearedPath c service id path n = some (c1, n1)) :
    ∀ i S, qfind c1.mNullActionById i = some S → qfind c.mNullActionById i = some S := by
  simp only [serviceDisappearedPath, serviceDisappearedNull] at h
  repeat' split at h
  all_goals first
    | (cases h; done)
    | (obtain ⟨rfl, rfl⟩ := some_pair_eq h; first | exact fun _ _ hk => hk | skip)
  · intro i S hk
    have := qfind_qerase_sub _ _ _ _ hk
    simpa using this
  · intro i S hk
    simpa using hk
  · intro i S hk
    simpa using hk

theorem nullSub_serviceDisappearedLoop (service id : String) (paths : List String)
    (c c1 : Core) (n n1 : Nat)
    (h : serviceDisappearedLoop service id paths (c, n) = some (c1, n1)) :
    ∀ i S, qfind c1.mNullActionById i = some S → qfind c.mNullActionById i = some S := by
  induction paths generalizing c n with
  | nil =>
    simp only [serviceDisappearedLoop] at h
    cases h
    exact fun _ _ hk => hk
  | cons path rest ih =>
    simp only [serviceDisappearedLoop] at h
    split at h
    · cases h
    · rename_i acc h2
      obtain ⟨c2, n2⟩ := acc
      exact fun i S hk =>
        nullSub_serviceDisappearedPath _ _ _ _ _ _ _ h2 i S (ih c2 n2 h i S hk)

theorem nullSub_serviceDisappeared (c c1 : Core) (service id : String)
    (h : serviceDisappeared c service id = some c1) :
    ∀ i S, qfind c1.mNullActionById i = some S → qfind c.mNullActionById i = some S := by
  unfold serviceDisappeared at h
  split at h
  · split at h
    · cases h
    · rename_i hl
      cases h
      have h1 := nullSub_serviceDisappearedLoop _ _ _ _ _ _ _ hl
      intro i S hk
      apply h1 i S
      split at hk
      · simpa using hk
      · simpa using hk
  · cases h
    intro i S hk
    simpa using hk

theorem NullDisjoint_addOrRegisterDBusAction (x : XServer) (c c1 : Core)
    (shortcut service path description sender : String) (xerror : Bool) (r : String × Nat)
    (hb : c.mLastId < 2 ^ 64) (hc : NullDisjoint c)
    (h : addOrRegisterDBusAction x c shortcut service path description sender xerror
      = some (r, c1)) : NullDisjoint c1 := by
  have hI := IdStep_addOrRegisterDBusAction x c c1 shortcut service path description sender
    xerror r h
  unfold addOrRegisterDBusAction at h
  split at h
  · split at h
    · split at h
      · obtain ⟨rfl, rfl⟩ := some_pair_eq h
        exact hc
      · rename_i hf
        split at h
        · obtain ⟨rfl, rfl⟩ := some_pair_eq h
          exact hc
        · obtain ⟨rfl, rfl⟩ := some_pair_eq h
          exact NullDisjoint_insert c _ _ "" hc rfl hf rfl
    · obtain ⟨rfl, rfl⟩ := some_pair_eq h
      exact hc
  · dsimp only at h
    split at h
    · split at h
      · cases h
      · obtain ⟨rfl, rfl⟩ := some_pair_eq h
        exact NullDisjoint_frame c _ hI hb hc (by simp) (by simp)
    · obtain ⟨rfl, rfl⟩ := some_pair_eq h
      exact NullDisjoint_add c _ hI hc (by simp [addDBusActionTail])

theorem NullDisjoint_step (x : XServer) (c c1 : Core) (op : Op) (hb : c.mLastId < 2 ^ 64)
    (hc : NullDisjoint c) (h : step x c op = some c1) : NullDisjoint c1 := by
  have hI := IdStep_step x c c1 op h
  cases op with
  | addMethodAction shortcut service path interface method description xerror =>
    cases h
    simp only [addMethodAction] at hI ⊢
    split at hI
    · exact NullDisjoint_frame c _ hI hb hc (by simp) (by simp)
    · exact NullDisjoint_add c _ hI hc (by simp [addActionTail])
  | addCommandAction shortcut command arguments description xerror =>
    cases h
    simp only [addCommandAction] at hI ⊢
    split at hI
    · exact NullDisjoint_frame c _ hI hb hc (by simp) (by simp)
    · exact NullDisjoint_add c _ hI hc (by simp [addActionTail])
  | addDBusAction shortcut path description sender xerror =>
    simp only [step, addDBusAction, Option.map_eq_some'] at h
    obtain ⟨⟨r, c2⟩, h, rfl⟩ := h
    exact NullDisjoint_addOrRegisterDBusAction _ _ _ _ _ _ _ _ _ _ hb hc h
  | registerDBusAction shortcut service path description xerror =>
    simp only [step, registerDBusAction, Option.map_eq_some'] at h
    obtain ⟨⟨r, c2⟩, h, rfl⟩ := h
    split at h
    · cases h
    · rename_i h2
      cases h
      exact NullDisjoint_addOrRegisterDBusAction _ _ _ _ _ _ _ _ _ _ hb hc h2
  | modifyDBusAction path description sender =>
    simp only [step, Option.map_eq_some'] at h
    obtain ⟨⟨r, c2⟩, h, rfl⟩ := h
    exact NullDisjoint_frame c _ hI hb hc (modifyDBusAction_mNullActionById _ _ _ _ _ _ h)
      (modifyDBusAction_mLastId _ _ _ _ _ _ h)
  | modifyActionDescription id description =>
    cases h
    exact NullDisjoint_frame c _ hI hb hc (modifyActionDescription_mNullActionById _ _ _)
      (modifyActionDescription_mLastId _ _ _)
  | modifyMethodAction id service path interface method description =>
    cases h
    exact NullDisjoint_frame c _ hI hb hc (modifyMethodAction_mNullActionById _ _ _ _ _ _ _)
      (modifyMethodAction_mLastId _ _ _ _ _ _ _)
  | modifyCommandAction id command arguments description =>
    cases h
    exact NullDisjoint_frame c _ hI hb hc (modifyCommandAction_mNullActionById _ _ _ _ _)
      (modifyCommandAction_mLastId _ _ _ _ _)
  | changeDBusShortcut path shortcut sender xerror =>
    simp only [step, Option.map_eq_some'] at h
    obtain ⟨⟨r, c2⟩, h, rfl⟩ := h
    exact NullDisjoint_frame c _ hI hb hc (changeDBusShortcut_mNullActionById _ _ _ _ _ _ _ _ h)
      (changeDBusShortcut_mLastId _ _ _ _ _ _ _ _ h)
  | changeShortcut id shortcut xerror =>
    cases h
    exact NullDisjoint_frame c _ hI hb hc (changeShortcut_mNullActionById _ _ _ _ _)
      (changeShortcut_mLastId _ _ _ _ _)
  | swapActions id1 id2 =>
    cases h
    exact NullDisjoint_frame c _ hI hb hc (swapActions_mNullActionById _ _ _)
      (swapActions_mLastId _ _ _)
  | removeDBusAction path sender =>
    simp only [step, Option.map_eq_some'] at h
    obtain ⟨⟨r, c2⟩, h, rfl⟩ := h
    exact NullDisjoint_sub c _ hc (nullSub_removeDBusAction _ _ _ _ _ h)
      (storeKeys_sub_of_IdStep c _ hI hb (removeDBusAction_mLastId _ _ _ _ _ h))
  | removeAction id =>
    cases h
    exact NullDisjoint_frame c _ hI hb hc (removeAction_mNullActionById _ _)
      (removeAction_mLastId _ _)
  | setMultipleActionsBehaviour behaviour =>
    cases h
    exact NullDisjoint_frame c _ hI hb hc (by simp [setMultipleActionsBehaviour])
      (by simp [setMultipleActionsBehaviour])
  | serviceAppeared service id =>
    obtain ⟨_, _, _, _, rfl⟩ := serviceAppeared_shape _ _ _ _ h
    exact NullDisjoint_frame c _ hI hb hc rfl rfl
  | serviceDisappeared service id =>
    exact NullDisjoint_sub c _ hc (nullSub_serviceDisappeared _ _ _ _ h)
      (fun i v hv => ⟨v, (Shrinks_serviceDisappeared _ _ _ _ h).1 i v hv⟩)
  | keyPress keycode state call =>
    exact NullDisjoint_frame c _ hI hb hc (keyPressNormal_mNullActionById _ _ _ _ _ h)
      (keyPressNormal_mLastId _ _ _ _ _ h)

theorem NullDisjoint_run (x : XServer) (b : MultipleActionsBehaviour) (ops : List Op)
    (c : Core) (h : run x (Core.fresh b) ops = some c) : NullDisjoint c :=
  (run_invariant x (fun c => c.mLastId < 2 ^ 64 ∧ NullDisjoint c) (fun _ => True)
    (fun c op c1 _ hc hs =>
      ⟨lastId_lt_of_IdStep c c1 (IdStep_step x c c1 op hs) hc.1,
        NullDisjoint_step x c c1 op hc.1 hc.2 hs⟩) ops _ c
    (fun _ _ => trivial)
    ⟨by simp [Core.fresh], by intro id S h; simp [Core.fresh] at h⟩ h).2
/-! ## Every indexed id is stored -/

theorem IndexSound_of_eq (c c1 : Core)
    (h1 : c1.mShortcutAndActionById = c.mShortcutAndActionById)
    (h2 : c1.mIdsByShortcut = c.mIdsByShortcut) (hc : IndexSound c) : IndexSound c1 := by
  unfold IndexSound
  rw [h1, h2]
  exact hc

theorem IndexSound_add (c c1 : Core) (id : Nat) (new : String) (action : BaseAction)
    (hstore : c1.mShortcutAndActionById = qset c.mShortcutAndActionById id (new, action))
    (hindex : ∀ S1 id1, IndexedIn c1.mIdsByShortcut S1 id1 ↔
      IndexedIn c.mIdsByShortcut S1 id1 ∨ (S1 = new ∧ id1 = id))
    (hfresh : ∀ S1, ¬ IndexedIn c.mIdsByShortcut S1 id)
    (hc : IndexSound c) : IndexSound c1 := by
  intro S1 id1 hi
  rw [hindex] at hi
  rw [hstore, qfind_qset]
  rcases hi with hi | ⟨rfl, rfl⟩
  · have hne : ¬ id = id1 := by
      rintro rfl
      exact hfresh S1 hi
    rw [if_neg hne]
    exact hc S1 id1 hi
  · rw [if_pos rfl]
    exact ⟨action, rfl⟩

theorem IndexSound_move (c c1 : Core) (id : Nat) (old new : String) (action a0 : BaseAction)
    (hf : qfind c.mShortcutAndActionById id = some (old, a0))
    (hstore : c1.mShortcutAndActionById = qset c.mShortcutAndActionById id (new, action))
    (hindex : ∀ S1 id1, IndexedIn c1.mIdsByShortcut S1 id1 ↔
      (IndexedIn c.mIdsByShortcut S1 id1 ∧ ¬ (S1 = old ∧ id1 = id)) ∨ (S1 = new ∧ id1 = id))
    (hc : IndexSound c) : IndexSound c1 := by
  intro S1 id1 hi
  rw [hindex] at hi
  rw [hstore, qfind_qset]
  rcases hi with ⟨hi, hn⟩ | ⟨rfl, rfl⟩
  · by_cases e : id = id1
    · subst e
      obtain ⟨v, hv⟩ := hc S1 id hi
      rw [hf] at hv
      cases hv
      exact absurd ⟨rfl, rfl⟩ hn
    · rw [if_neg e]
      exact hc S1 id1 hi
  · rw [if_pos rfl]
    exact ⟨action, rfl⟩

theorem IndexSound_remove (c c1 : Core) (id : Nat) (S : String) (a0 : BaseAction)
    (hf : qfind c.mShortcutAndActionById id = some (S, a0))
    (hstore : c1.mShortcutAndActionById = qerase c.mShortcutAndActionById id)
    (hindex : ∀ S1 id1, IndexedIn c1.mIdsByShortcut S1 id1 ↔
      IndexedIn c.mIdsByShortcut S1 id1 ∧ ¬ (S1 = S ∧ id1 = id))
    (hc : IndexSound c) : IndexSound c1 := by
  intro S1 id1 hi
  rw [hindex] at hi
  obtain ⟨hi, hn⟩ := hi
  rw [hstore, qfind_qerase]
  by_cases e : id = id1
  · subst e
    obtain ⟨v, hv⟩ := hc S1 id hi
    rw [hf] at hv
    cases hv
    exact absurd ⟨rfl, rfl⟩ hn
  · rw [if_neg e]
    exact hc S1 id1 hi

theorem IndexSound_release (c c1 : Core) (id : Nat) (S : String)
    (hstore : c1.mShortcutAndActionById = c.mShortcutAndActionById)
    (hindex : ∀ S1 id1, IndexedIn c1.mIdsByShortcut S1 id1 ↔
      IndexedIn c.mIdsByShortcut S1 id1 ∧ ¬ (S1 = S ∧ id1 = id))
    (hc : IndexSound c) : IndexSound c1 := by
  intro S1 id1 hi
  rw [hindex] at hi
  rw [hstore]
  exact hc S1 id1 hi.1

theorem IndexSound_replace (c c1 : Core) (id : Nat) (S : String) (a a1 : BaseAction)
    (hf : qfind c.mShortcutAndActionById id = some (S, a))
    (hstore : c1.mShortcutAndActionById = qset c.mShortcutAndActionById id (S, a1))
    (hindex : c1.mIdsByShortcut = c.mIdsByShortcut)
    (hc : IndexSound c) : IndexSound c1 := by
  intro S1 id1 hi
  rw [hindex] at hi
  rw [hstore, qfind_qset]
  obtain ⟨v, hv⟩ := hc S1 id1 hi
  by_cases e : id = id1
  · subst e
    rw [hf] at hv
    cases hv
    rw [if_pos rfl]
    exact ⟨a1, rfl⟩
  · rw [if_neg e]
    exact ⟨v, hv⟩

theorem IndexSound_addMethodAction (x : XServer) (c : Core)
    (shortcut service path interface method description : String) (xerror : Bool)
    (hfresh : ∀ S1, ¬ IndexedIn c.mIdsByShortcut S1 (nextId c)) (hc : IndexSound c) :
    IndexSound (addMethodAction x c shortcut service path interface method description xerror).2 := by
  simp only [addMethodAction]
  split
  · exact IndexSound_of_eq c _ (by simp) (by simp) hc
  · rename_i X used _
    refine IndexSound_add c _
      (nextId (grabOrReuseKey (addActionCommon x c shortcut).2 X used xerror).2)
      (grabOrReuseKey (addActionCommon x c shortcut).2 X used xerror).1
      (BaseAction.method service path interface method description true) ?_ ?_ ?_ hc
    · simp [addActionTail]
    · intro S1 id1
      simp [addActionTail]
    · simpa [nextId] using hfresh

theorem IndexSound_addCommandAction (x : XServer) (c : Core) (shortcut command : String)
    (arguments : List String) (description : String) (xerror : Bool)
    (hfresh : ∀ S1, ¬ IndexedIn c.mIdsByShortcut S1 (nextId c)) (hc : IndexSound c) :
    IndexSound (addCommandAction x c shortcut command arguments description xerror).2 := by
  simp only [addCommandAction]
  split
  · exact IndexSound_of_eq c _ (by simp) (by simp) hc
  · rename_i X used _
    refine IndexSound_add c _
      (nextId (grabOrReuseKey (addActionCommon x c shortcut).2 X used xerror).2)
      (grabOrReuseKey (addActionCommon x c shortcut).2 X used xerror).1
      (BaseAction.command command arguments description true) ?_ ?_ ?_ hc
    · simp [addActionTail]
    · intro S1 id1
      simp [addActionTail]
    · simpa [nextId] using hfresh

theorem IndexSound_addOrRegisterDBusAction (x : XServer) (c c1 : Core)
    (shortcut service path description sender : String) (xerror : Bool) (r : String × Nat)
    (hfresh : ∀ S1, ¬ IndexedIn c.mIdsByShortcut S1 (nextId c)) (hc : IndexSound c)
    (h : addOrRegisterDBusAction x c shortcut service path description sender xerror = some (r, c1)) :
    IndexSound c1 := by
  simp only [addOrRegisterDBusAction] at h
  repeat' split at h
  all_goals first | (cases h; done) | (obtain ⟨rfl, rfl⟩ := some_pair_eq h; first | exact hc | skip)
  · exact IndexSound_of_eq c _ (by simp) (by simp) hc
  · rename_i X used _
    refine IndexSound_add c _
      (nextId (grabOrReuseKey (addActionCommon x (rememberDBusPath c service path) shortcut).2 X
        used xerror).2)
      (grabOrReuseKey (addActionCommon x (rememberDBusPath c service path) shortcut).2 X
        used xerror).1
      (if sender = "" then BaseAction.dbus service path description true true
        else BaseAction.dbus service path description (decide (service ≠ sender)) true) ?_ ?_ ?_ hc
    · simp [addDBusActionTail]
    · intro S1 id1
      simp [addDBusActionTail]
    · simpa [nextId] using hfresh

theorem IndexSound_modifyDBusAction (c c1 : Core) (path description sender : String) (r : Nat)
    (hc : IndexSound c) (h : modifyDBusAction c path description sender = some (r, c1)) :
    IndexSound c1 := by
  simp only [modifyDBusAction] at h
  repeat' split at h
  all_goals first | (cases h; done) | (obtain ⟨rfl, rfl⟩ := some_pair_eq h; first | exact hc | skip)
  rename_i S a _ hf
  refine IndexSound_replace c _ r S a (a.setDescription description) hf ?_ ?_ hc <;> simp

theorem IndexSound_modifyActionDescription (c : Core) (id : Nat) (description : String)
    (hc : IndexSound c) : IndexSound (modifyActionDescription c id description).2 := by
  simp only [modifyActionDescription]
  repeat' split
  all_goals first | exact hc | skip
  rename_i S a hf _
  refine IndexSound_replace c _ id S a (a.setDescription description) hf ?_ ?_ hc <;> simp

theorem IndexSound_modifyMethodAction (c : Core) (id : Nat)
    (service path interface method description : String) (hc : IndexSound c) :
    IndexSound (modifyMethodAction c id service path interface method description).2 := by
  simp only [modifyMethodAction]
  repeat' split
  all_goals first | exact hc | skip
  rename_i S a hf _
  refine IndexSound_replace c _ id S a
    (BaseAction.method service path interface method description true) hf ?_ ?_ hc <;> simp

theorem IndexSound_modifyCommandAction (c : Core) (id : Nat) (command : String)
    (arguments : List String) (description : String) (hc : IndexSound c) :
    IndexSound (modifyCommandAction c id command arguments description).2 := by
  simp only [modifyCommandAction]
  repeat' split
  all_goals first | exact hc | skip
  rename_i S a hf _
  refine IndexSound_replace c _ id S a
    (BaseAction.command command arguments description true) hf ?_ ?_ hc <;> simp

theorem IndexSound_swapActions (c : Core) (id1 id2 : Nat) (hc : IndexSound c) :
    IndexSound (swapActions c id1 id2).2 := by
  simp only [swapActions]
  repeat' split
  all_goals first | exact hc | skip
  rename_i S1 a1 hf1 _ S2 a2 hf2 hS
  intro S id hi
  simp only [saveConfig_mShortcutAndActionById, saveConfig_mIdsByShortcut, qfind_qset] at hi ⊢
  obtain ⟨v, hv⟩ := hc S id hi
  have hS12 : S1 = S2 := by
    by_contra e
    exact hS e
  split_ifs with h2 h1
  · subst h2
    rw [hf2] at hv
    cases hv
    exact ⟨a1, rfl⟩
  · subst h1
    rw [hf1] at hv
    cases hv
    exact ⟨a2, by rw [hS12]⟩
  · exact ⟨v, hv⟩

theorem IndexSound_changeShortcut (x : XServer) (c : Core) (id : Nat) (shortcut : String)
    (xerror : Bool) (hc : IndexSound c) :
    IndexSound (changeShortcut x c id shortcut xerror).2 := by
  simp only [changeShortcut]
  repeat' split
  · exact hc
  · exact IndexSound_of_eq c _ (by simp) (by simp) hc
  · rename_i old action hf _ X used _ _ _
    refine IndexSound_move c _ id old
      (grabOrReuseKey (addActionCommon x c shortcut).2 X used xerror).1 action action hf ?_ ?_ hc
    · simp [moveToShortcut]
    · intro S1 id1
      simp [moveToShortcut]
  · rename_i old action hf _ X used _ _ _
    refine IndexSound_move c _ id old
      (grabOrReuseKey (addActionCommon x c shortcut).2 X used xerror).1 action action hf ?_ ?_ hc
    · simp [moveToShortcut]
    · intro S1 id1
      simp [moveToShortcut]
  · exact IndexSound_of_eq c _ (by simp) (by simp) hc

theorem IndexSound_changeDBusShortcut (x : XServer) (c c1 : Core) (path shortcut sender : String)
    (xerror : Bool) (r : String × Nat) (hc : IndexSound c)
    (h : changeDBusShortcut x c path shortcut sender xerror = some (r, c1)) :
    IndexSound c1 := by
  simp only [changeDBusShortcut] at h
  repeat' split at h
  all_goals first | (cases h; done) | (obtain ⟨rfl, rfl⟩ := some_pair_eq h; first | exact hc | skip)
  · exact IndexSound_of_eq c _ (by simp) (by simp) hc
  · exact IndexSound_of_eq c _ (by simp) (by simp) hc
  · rename_i id _ _ X used _ _ old action hf _ _
    refine IndexSound_move c _ id old
      (grabOrReuseKey (addActionCommon x c shortcut).2 X used xerror).1 action action
      (by simpa using hf) ?_ ?_ hc
    · simp [moveToShortcut]
    · intro S1 id1
      simp [moveToShortcut]
  · exact IndexSound_of_eq c _ (by simp) (by simp) hc

theorem IndexSound_removeAction (c : Core) (id : Nat) (hc : IndexSound c) :
    IndexSound (removeAction c id).2 := by
  simp only [removeAction]
  repeat' split
  · exact hc
  · exact hc
  · rename_i S action hf _
    refine IndexSound_remove c _ id S action hf ?_ ?_ hc
    · simp
    · intro S1 id1
      simp

theorem IndexSound_removeDBusAction (c c1 : Core) (path sender : String) (r : Nat)
    (hc : IndexSound c) (h : removeDBusAction c path sender = some (r, c1)) :
    IndexSound c1 := by
  simp only [removeDBusAction, removeNullDBusAction] at h
  repeat' split at h
  all_goals first | (cases h; done) | (obtain ⟨rfl, rfl⟩ := some_pair_eq h; first | exact hc | skip)
  · rename_i _ _ _ S _ _ _ hf _ _
    refine IndexSound_release c _ r S ?_ ?_ hc
    · simp
    · intro S1 id1
      simp
  · rename_i S a _ paths _ hf hp
    refine IndexSound_remove c _ r S a hf ?_ ?_ hc
    · simp
    · intro S1 id1
      simp

theorem IndexSound_serviceDisappearedPath (c c1 : Core) (id path : String) (n n1 : Nat)
    (hc : IndexSound c) (h : serviceDisappearedPath c id id path n = some (c1, n1)) :
    IndexSound c1 := by
  simp only [serviceDisappearedPath, serviceDisappearedNull, ne_eq, not_true_eq_false,
    if_false] at h
  repeat' split at h
  all_goals first | (cases h; done) | (obtain ⟨rfl, rfl⟩ := some_pair_eq h; first | exact hc | skip)
  · rename_i actionId _ _ hf _ S _
    refine IndexSound_release c _ actionId S ?_ ?_ hc
    · simp
    · intro S1 id1
      simp
  · rename_i actionId _ _ S action hf
    refine IndexSound_remove c _ actionId S action hf ?_ ?_ hc
    · simp
    · intro S1 id1
      simp

theorem IndexSound_serviceDisappearedLoop (id : String) (paths : List String) (c c1 : Core)
    (n n1 : Nat) (hc : IndexSound c)
    (h : serviceDisappearedLoop id id paths (c, n) = some (c1, n1)) : IndexSound c1 := by
  induction paths generalizing c n with
  | nil =>
    simp only [serviceDisappearedLoop] at h
    cases h
    exact hc
  | cons path rest ih =>
    simp only [serviceDisappearedLoop] at h
    split at h
    · cases h
    · rename_i acc h2
      obtain ⟨c2, n2⟩ := acc
      exact ih c2 n2 (IndexSound_serviceDisappearedPath _ _ _ _ _ _ hc h2) h

theorem IndexSound_serviceDisappeared (c c1 : Core) (id : String) (hc : IndexSound c)
    (h : serviceDisappeared c id id = some c1) : IndexSound c1 := by
  unfold serviceDisappeared at h
  split at h
  · split at h
    · cases h
    · rename_i hl
      cases h
      have h1 := IndexSound_serviceDisappearedLoop _ _ _ _ _ _ hc hl
      split
      · exact IndexSound_of_eq _ _ (by simp) (by simp) h1
      · exact IndexSound_of_eq _ _ (by simp) (by simp) h1
  · cases h
    exact IndexSound_of_eq _ _ (by simp) (by simp) hc

theorem IndexSound_step (x : XServer) (c c1 : Core) (op : Op)
    (hop : op.isAliasDisappeared = false) (hb : IdsBounded c) (hw : c.mLastId + 1 < 2 ^ 64)
    (hc : IndexSound c) (h : step x c op = some c1) : IndexSound c1 := by
  have hfresh : ∀ S1, ¬ IndexedIn c.mIdsByShortcut S1 (nextId c) := by
    intro S1 hi
    have h1 := hb.2 S1 _ hi
    have h2 : nextId c = c.mLastId + 1 := by
      unfold nextId
      exact Nat.mod_eq_of_lt hw
    omega
  cases op with
  | addMethodAction shortcut service path interface method description xerror =>
    cases h
    exact IndexSound_addMethodAction _ _ _ _ _ _ _ _ _ hfresh hc
  | addCommandAction shortcut command arguments description xerror =>
    cases h
    exact IndexSound_addCommandAction _ _ _ _ _ _ _ hfresh hc
  | addDBusAction shortcut path description sender xerror =>
    simp only [step, addDBusAction, Option.map_eq_some'] at h
    obtain ⟨⟨r, c2⟩, h, rfl⟩ := h
    exact IndexSound_addOrRegisterDBusAction _ _ _ _ _ _ _ _ _ _ hfresh hc h
  | registerDBusAction shortcut service path description xerror =>
    simp only [step, registerDBusAction, Option.map_eq_some'] at h
    obtain ⟨⟨r, c2⟩, h, rfl⟩ := h
    split at h
    · cases h
    · rename_i h2
      cases h
      exact IndexSound_addOrRegisterDBusAction _ _ _ _ _ _ _ _ _ _ hfresh hc h2
  | modifyDBusAction path description sender =>
    simp only [step, Option.map_eq_some'] at h
    obtain ⟨⟨r, c2⟩, h, rfl⟩ := h
    exact IndexSound_modifyDBusAction _ _ _ _ _ _ hc h
  | modifyActionDescription id description =>
    cases h
    exact IndexSound_modifyActionDescription _ _ _ hc
  | modifyMethodAction id service path interface method description =>
    cases h
    exact IndexSound_modifyMethodAction _ _ _ _ _ _ _ hc
  | modifyCommandAction id command arguments description =>
    cases h
    exact IndexSound_modifyCommandAction _ _ _ _ _ hc
  | changeDBusShortcut path shortcut sender xerror =>
    simp only [step, Option.map_eq_some'] at h
    obtain ⟨⟨r, c2⟩, h, rfl⟩ := h
    exact IndexSound_changeDBusShortcut _ _ _ _ _ _ _ _ hc h
  | changeShortcut id shortcut xerror =>
    cases h
    exact IndexSound_changeShortcut _ _ _ _ _ hc
  | swapActions id1 id2 =>
    cases h
    exact IndexSound_swapActions _ _ _ hc
  | removeDBusAction path sender =>
    simp only [step, Option.map_eq_some'] at h
    obtain ⟨⟨r, c2⟩, h, rfl⟩ := h
    exact IndexSound_removeDBusAction _ _ _ _ _ hc h
  | removeAction id =>
    cases h
    exact IndexSound_removeAction _ _ hc
  | setMultipleActionsBehaviour behaviour =>
    cases h
    exact IndexSound_of_eq c _ (by simp [setMultipleActionsBehaviour])
      (by simp [setMultipleActionsBehaviour]) hc
  | serviceAppeared service id =>
    obtain ⟨_, _, _, _, rfl⟩ := serviceAppeared_shape _ _ _ _ h
    exact IndexSound_of_eq c _ rfl rfl hc
  | serviceDisappeared service id =>
    have hs : service = id := by simpa [Op.isAliasDisappeared] using hop
    subst hs
    exact IndexSound_serviceDisappeared _ _ _ hc h
  | keyPress keycode state call =>
    exact IndexSound_of_eq c _ (keyPressNormal_mShortcutAndActionById _ _ _ _ _ h)
      (keyPressNormal_mIdsByShortcut _ _ _ _ _ h) hc

theorem IndexSound_run (x : XServer) :
    ∀ (ops : List Op) (c c1 : Core), c.mLastId + ops.length < 2 ^ 64 → IdsBounded c →
      IndexSound c → (∀ op ∈ ops, op.isAliasDisappeared = false) →
      run x c ops = some c1 → IndexSound c1 := by
  intro ops
  induction ops with
  | nil =>
    intro c c1 _ _ hc _ h
    simp only [run] at h
    cases h
    exact hc
  | cons op rest ih =>
    intro c c1 hlen hb hc hops h
    simp only [List.length_cons] at hlen
    simp only [run] at h
    split at h
    · cases h
    · rename_i c2 h2
      obtain ⟨hb2, hl2⟩ := IdsBounded_step x c c2 op (by omega) hb h2
      exact ih c2 c1 (by omega) hb2
        (IndexSound_step x c c2 op (hops op (List.mem_cons_self _ _)) hb (by omega) hc h2)
        (fun o ho => hops o (List.mem_cons_of_mem _ ho)) h

theorem IdsBounded_fresh (b : MultipleActionsBehaviour) : IdsBounded (Core.fresh b) := by
  refine ⟨?_, ?_⟩
  · intro id v h
    simp [Core.fresh] at h
  · rintro S i ⟨ids, h, _⟩
    simp [Core.fresh] at h

theorem IndexSound_fresh (b : MultipleActionsBehaviour) : IndexSound (Core.fresh b) := by
  rintro S i ⟨ids, h, _⟩
  simp [Core.fresh] at h
/-! ## Service actions and the names of their peer -/

/-- A counterexample to claim C27 as stated, in three runs. (1) The tracker has recorded the name
"com.example.foo" for the peer ":1.42" before the peer adds a service action for "Control+T".
The action is filed under ("com.example.foo", "/p") as a persistent action. After the name and
then the unique name of the peer have disappeared, the action is still in the primary store, in
the dispatch index and in the service-client index, and its key is still grabbed. (2) On the
keyboard `keyboardDoubled` a command is registered for "Multi_key" and removed, then the peer
":1.42" adds a service action for "A": the key (38, 0) is grabbed while `mX11ByShortcut["A"]`
is (66, 0). When the unique name of the peer disappears, `UNGRAB_KEY` is issued for (66, 0),
and (38, 0) stays grabbed. (3) The peer ":1.42" adds a service action for "Control+T", its name
"com.example.foo" appears and disappears, and `change_shortcut(1, "Control+T")` grabs the key
(28, 4) again without an entry in the dispatch index. When the unique name of the peer
disappears, no `UNGRAB_KEY` is issued and (28, 4) stays grabbed. -/
theorem owner_disappearance_counterexample :
    (run keyboardTF1 (Core.fresh .first)
        [Op.serviceAppeared "com.example.foo" ":1.42",
         Op.addDBusAction "Control+T" "/p" "d" ":1.42" false,
         Op.serviceDisappeared "com.example.foo" ":1.42",
         Op.serviceDisappeared ":1.42" ":1.42"]).map
      (fun c => (c.mShortcutAndActionById, c.mIdsByShortcut))
      = some ([(1, ("Control+T", BaseAction.dbus "com.example.foo" "/p" "d" true true))],
          [("Control+T", [1])]) ∧
    (run keyboardTF1 (Core.fresh .first)
        [Op.serviceAppeared "com.example.foo" ":1.42",
         Op.addDBusAction "Control+T" "/p" "d" ":1.42" false,
         Op.serviceDisappeared "com.example.foo" ":1.42",
         Op.serviceDisappeared ":1.42" ":1.42"]).map
      (fun c => (c.mIdByDBusClient, c.xGrabs))
      = some ([(("com.example.foo", "/p"), 1)], [(28, 4)]) ∧
    (run keyboardDoubled (Core.fresh .first)
        [Op.addCommandAction "Multi_key" "/usr/bin/xterm" [] "" false,
         Op.removeAction 1,
         Op.addDBusAction "A" "/p" "d" ":1.42" false]).map
      (fun c => (c.mIdsByShortcut, c.xGrabs, c.mX11ByShortcut))
      = some ([("A", [2])], [(38, 0)], [("A", (66, 0))]) ∧
    ((run keyboardDoubled (Core.fresh .first)
        [Op.addCommandAction "Multi_key" "/usr/bin/xterm" [] "" false,
         Op.removeAction 1,
         Op.addDBusAction "A" "/p" "d" ":1.42" false]).bind
      (fun c => (serviceDisappeared c ":1.42" ":1.42").map
        (fun c1 => (c1.mIdsByShortcut, c1.xGrabs, issued c c1))))
      = some ([], [(38, 0)], [Effect.xUngrabKey (66, 0)]) ∧
    ((run keyboardTF1 (Core.fresh .first)
        [Op.addDBusAction "Control+T" "/p" "d" ":1.42" false,
         Op.serviceAppeared "com.example.foo" ":1.42",
         Op.serviceDisappeared "com.example.foo" ":1.42",
         Op.changeShortcut 1 "Control+T" false]).bind
      (fun c => (serviceDisappeared c ":1.42" ":1.42").map
        (fun c1 => (c1.mIdsByShortcut, c1.xGrabs, issued c c1))))
      = some ([], [(28, 4)], []) :=
  ⟨by decide, by decide, by decide, by decide, by decide⟩

/-- Claim C27 (amended). `add_service_action` by a sender for which the tracker has recorded no
name files the action under (sender, path). In every state reached from the empty daemon by
fewer than 2^64 requests, `serviceDisappeared(owner, owner)` returns, and a service action filed
under (owner, path) is removed by it from the primary store, from the dispatch index and from
the service-client index. If moreover the keyboard is consistent, the X server has accepted
every grab and no request was a key press or the disappearance of a name other than the unique
name of its owner, then before the call the action is in the dispatch index under its shortcut
`S` and the key `X` that `S` resolves to is grabbed; when the primary store holds no other id
with the shortcut `S`, `UNGRAB_KEY` is issued for `X` and `X` is no longer grabbed; and after
the call the grabbed keys are exactly the keys of the shortcuts that still have an entry in the
dispatch index. -/
theorem owner_disappearance (x : XServer) (b : MultipleActionsBehaviour) (ops : List Op)
    (c : Core) (owner path : String) (a : Nat) (S : String) (action : BaseAction)
    (hlen : ops.length < 2 ^ 64) (hrun : run x (Core.fresh b) ops = some c)
    (hk : dBusPathKnown c owner path = true)
    (hcl : qfind c.mIdByDBusClient (owner, path) = some a)
    (hst : qfind c.mShortcutAndActionById a = some (S, action)) :
    (∃ c1, serviceDisappeared c owner owner = some c1 ∧
      qfind c1.mShortcutAndActionById a = none ∧
      qfind c1.mNullActionById a = none ∧
      qfind c1.mIdByDBusClient (owner, path) = none ∧
      ¬ IndexedIn c1.mIdsByShortcut S a ∧
      (KeyboardConsistent x →
        (∀ op ∈ ops,
          op.isAliasDisappeared = false ∧ op.isKeyPress = false ∧ op.xerror = false) →
        IndexedIn c.mIdsByShortcut S a ∧
        (∃ X, ShortcutToX11 x S = some X ∧ X ∈ c.xGrabs ∧
          ((∀ i v, qfind c.mShortcutAndActionById i = some (S, v) → i = a) →
            Effect.xUngrabKey X ∈ issued c c1 ∧ X ∉ c1.xGrabs)) ∧
        (∀ Y, Y ∈ c1.xGrabs ↔
          ∃ S1 ids X1, qfind c1.mIdsByShortcut S1 = some ids ∧ ids ≠ [] ∧
            ShortcutToX11 x S1 = some X1 ∧ Y = X1))) ∧
    (∀ (c0 c2 : Core) (shortcut description : String) (xerror : Bool) (r : String × Nat),
      qfind c0.mPreferredServiceNameByServiceId owner = none →
      addDBusAction x c0 shortcut path description owner xerror = some (r, c2) → r.2 ≠ 0 →
      dBusPathKnown c2 owner path = true ∧
      qfind c2.mIdByDBusClient (owner, path) = some r.2 ∧
      ((∃ action2, qfind c2.mShortcutAndActionById r.2 = some (r.1, action2)) ∨
        (dBusPathKnown c0 owner path = true ∧ qfind c2.mNullActionById r.2 = some r.1))) := by
  refine ⟨?_, ?_⟩
  · obtain ⟨c1, h⟩ := Option.isSome_iff_exists.mp (owner_disappeared_returns c owner)
    have hinj := (ClientInjective_run x ops (Core.fresh b) c (by simpa [Core.fresh] using hlen)
      (ClientInjective_fresh b) hrun).1
    have huniq : ∀ p, qfind c.mIdByDBusClient (owner, p) = some a → p = path := by
      intro p hp
      exact (Prod.mk.inj (hinj.2 _ _ a hp hcl)).2
    obtain ⟨r1, r2, r3, r4⟩ :=
      owner_disappeared_removes c c1 owner path a S action hk hcl hst huniq h
    have hnull : qfind c1.mNullActionById a = none := by
      cases hf : qfind c1.mNullActionById a with
      | none => rfl
      | some S0 =>
        have h0 := NullDisjoint_run x b ops c hrun a S0
          (nullSub_serviceDisappeared c c1 owner owner h a S0 hf)
        rw [hst] at h0
        cases h0
    refine ⟨c1, h, r1, hnull, r2, r3, ?_⟩
    intro hkb hops
    obtain ⟨hs, hg, hn⟩ := GrabCore_run x b ops c hkb hops hrun
    have hi : IndexedIn c.mIdsByShortcut S a := hs a S action hst
    obtain ⟨ids, hids, hmem⟩ := hi
    obtain ⟨_, X, hfwd, hX⟩ := hg.1 S ids hids
    have hne : S ≠ "" := indexed_ne_empty x c hg.1 hg.2.2 S ids hids
    have hres : ShortcutToX11 x S = some X := ((hg.2.2.1 S X hfwd).1 hne).2
    have hat : (x11ByShortcutAt c S).1 = X := by
      rw [x11ByShortcutAt_of_find c S X hfwd]
    refine ⟨⟨ids, hids, hmem⟩, ⟨X, hres, hX, ?_⟩, ?_⟩
    · intro ho
      have hsound := IndexSound_run x ops (Core.fresh b) c (by simpa [Core.fresh] using hlen)
        (IdsBounded_fresh b) (IndexSound_fresh b) (fun op hop => (hops op hop).1) hrun
      have hoi : ∀ i, IndexedIn c.mIdsByShortcut S i → i = a := by
        intro i hi
        obtain ⟨v, hv⟩ := hsound S i hi
        exact ho i v hv
      have := r4 ⟨ids, hids, hmem⟩ hoi
      rw [hat] at this
      exact this
    · obtain ⟨hb1, hg1, hm1⟩ := GrabCore_serviceDisappeared x c c1 owner hs hn hg h
      intro Y
      constructor
      · intro hY
        obtain ⟨S1, ids1, h1, h2⟩ := hg1 Y hY
        have hne1 : S1 ≠ "" := indexed_ne_empty x c1 hb1 hm1 S1 ids1 h1
        exact ⟨S1, ids1, Y, h1, (hb1 S1 ids1 h1).1, ((hm1.1 S1 Y h2).1 hne1).2, rfl⟩
      · rintro ⟨S1, ids1, X1, h1, _, h2, rfl⟩
        obtain ⟨_, X2, h3, h4⟩ := hb1 S1 ids1 h1
        have hne1 : S1 ≠ "" := indexed_ne_empty x c1 hb1 hm1 S1 ids1 h1
        have h5 := ((hm1.1 S1 X2 h3).1 hne1).2
        rw [h2] at h5
        cases h5
        exact h4
  · intro c0 c2 shortcut description xerror r hpref hadd hid
    exact addDBusAction_filed x c0 c2 shortcut path description owner xerror r hpref hadd hid

/-- Witness of `owner_disappearance`: the peer ":1.42", for which no name is recorded, has
added a service action for "Control+T" (id 1); the disappearance of ":1.42" removes it, issues
`UNGRAB_KEY` for (28, 4) and leaves nothing grabbed. -/
theorem owner_disappearance_witness :
    ∃ c1, serviceDisappeared
        ((run keyboardTF1 (Core.fresh .first)
          [Op.addDBusAction "Control+T" "/p" "d" ":1.42" false]).getD (Core.fresh .first))
        ":1.42" ":1.42" = some c1 ∧
      qfind c1.mShortcutAndActionById 1 = none ∧
      qfind c1.mNullActionById 1 = none ∧
      qfind c1.mIdByDBusClient (":1.42", "/p") = none ∧
      ¬ IndexedIn c1.mIdsByShortcut "Control+T" 1 ∧
      Effect.xUngrabKey (28, 4) ∈ issued ((run keyboardTF1 (Core.fresh .first)
          [Op.addDBusAction "Control+T" "/p" "d" ":1.42" false]).getD (Core.fresh .first)) c1 ∧
      (28, 4) ∉ c1.xGrabs := by
  obtain ⟨c1, h, r1, r2, r3, r4, r5⟩ :=
    (owner_disappearance keyboardTF1 .first [Op.addDBusAction "Control+T" "/p" "d" ":1.42" false]
      ((run keyboardTF1 (Core.fresh .first)
        [Op.addDBusAction "Control+T" "/p" "d" ":1.42" false]).getD (Core.fresh .first))
      ":1.42" "/p" 1 "Control+T" (BaseAction.dbus ":1.42" "/p" "d" false true)
      (by decide) (by decide) (by decide) (by decide) (by decide)).1
  obtain ⟨_, ⟨X, hX, _, hrel⟩, _⟩ := r5 keyboardTF1_consistent (by decide)
  have e : ShortcutToX11 keyboardTF1 "Control+T" = some (28, 4) := by decide
  rw [e] at hX
  cases hX
  have hidx : Core.mShortcutAndActionById ((run keyboardTF1 (Core.fresh .first)
      [Op.addDBusAction "Control+T" "/p" "d" ":1.42" false]).getD (Core.fresh .first))
        = [(1, ("Control+T", BaseAction.dbus ":1.42" "/p" "d" false true))] := by decide
  have honly : ∀ i v, qfind (Core.mShortcutAndActionById ((run keyboardTF1 (Core.fresh .first)
      [Op.addDBusAction "Control+T" "/p" "d" ":1.42" false]).getD (Core.fresh .first))) i
        = some ("Control+T", v) → i = 1 := by
    intro i v hf
    rw [hidx] at hf
    simp only [qfind] at hf
    split_ifs at hf with e
    · exact e.symm
  exact ⟨c1, h, r1, r2, r3, r4, hrel honly⟩

/-- Claim C28 (failing input). The peer ":1.42" adds a service action for "Control+T" (id 1,
key (28, 4) grabbed, id indexed); the name "com.example.foo" of that peer appears and then
disappears. The disappearance of the name, which is not the unique name of the owner, takes
id 1 out of the dispatch index and issues `UNGRAB_KEY` for (28, 4): the dispatch index and the
set of grabbed keys are not what they were before the call, while the primary store, the list of
all ids and the service-client index still hold the action. When the name appears again the
action is notified through `appeared()`, but the dispatch index and the set of grabbed keys stay
empty. -/
theorem alias_disappearance_unbinds :
    (run keyboardTF1 (Core.fresh .first)
        [Op.addDBusAction "Control+T" "/p" "d" ":1.42" false,
         Op.serviceAppeared "com.example.foo" ":1.42"]).map
      (fun c => (c.mIdsByShortcut, c.xGrabs))
      = some ([("Control+T", [1])], [(28, 4)]) ∧
    ((run keyboardTF1 (Core.fresh .first)
        [Op.addDBusAction "Control+T" "/p" "d" ":1.42" false,
         Op.serviceAppeared "com.example.foo" ":1.42"]).bind
      (fun c => (serviceDisappeared c "com.example.foo" ":1.42").map
        (fun c1 => (c1.mIdsByShortcut, c1.xGrabs, issued c c1))))
      = some ([], [], [Effect.xUngrabKey (28, 4), Effect.disappeared 1]) ∧
    ((run keyboardTF1 (Core.fresh .first)
        [Op.addDBusAction "Control+T" "/p" "d" ":1.42" false,
         Op.serviceAppeared "com.example.foo" ":1.42"]).bind
      (fun c => (serviceDisappeared c "com.example.foo" ":1.42").map
        (fun c1 => (c1.mShortcutAndActionById, getAllActionIds c1))))
      = some ([(1, ("Control+T", BaseAction.dbus ":1.42" "/p" "d" false true))], [1]) ∧
    ((run keyboardTF1 (Core.fresh .first)
        [Op.addDBusAction "Control+T" "/p" "d" ":1.42" false,
         Op.serviceAppeared "com.example.foo" ":1.42"]).bind
      (fun c => (serviceDisappeared c "com.example.foo" ":1.42").map
        (fun c1 => c1.mIdByDBusClient))) = some [((":1.42", "/p"), 1)] ∧
    ((run keyboardTF1 (Core.fresh .first)
        [Op.addDBusAction "Control+T" "/p" "d" ":1.42" false,
         Op.serviceAppeared "com.example.foo" ":1.42",
         Op.serviceDisappeared "com.example.foo" ":1.42"]).bind
      (fun c => (serviceAppeared c "com.example.foo" ":1.42").map
        (fun c1 => (c1.mIdsByShortcut, c1.xGrabs, getAllActionIds c1, issued c c1))))
      = some ([], [], [1], [Effect.appeared 1]) :=
  ⟨by decide, by decide, by decide, by decide, by decide⟩
/-! ## Adding a service action -/

/-- A counterexample to claim C29 as stated: on a keyboard with the key `L`, the tracker has
recorded the name "com.example.foo" for the peer ":1.42".
`add_service_action("Super+L", "/lock", "", ":1.42")` returns ("", 0) and leaves the state as it
is, because "Super" is none of the six modifier tokens: `ShortcutToX11` throws. -/
theorem add_service_action_counterexample :
    ShortcutToX11 keyboardL "Super+L" = none ∧
    ((run keyboardL (Core.fresh .first) [Op.serviceAppeared "com.example.foo" ":1.42"]).bind
      (fun c => (addDBusAction keyboardL c "Super+L" "/lock" "" ":1.42" false).map
        (fun r => (r.1, decide (r.2 = c)))))
      = some (("", 0), true) :=
  ⟨by decide, by decide⟩

theorem addActionCommon_of_resolves (x : XServer) (c : Core) (shortcut : String)
    (X : X11Shortcut) (hX : ShortcutToX11 x shortcut = some X)
    (hS : (X11ToShortcut x X).isSome = true) :
    ∃ used, (addActionCommon x c shortcut).1 = some (X, used) := by
  obtain ⟨u, hu⟩ := Option.isSome_iff_exists.mp hS
  cases hr : qfind c.mShortcutByX11 X with
  | some used => exact ⟨used, by simp [addActionCommon, hX, hr]⟩
  | none => exact ⟨u, by simp [addActionCommon, hX, hr, hu]⟩

/-- Claim C29 (amended). When the shortcut resolves on the keyboard (`ShortcutToX11` gives a
binding and `X11ToShortcut` gives that binding a name, as "Meta+L" does on a keyboard with the
key `L`), the X server accepts the grab, the counter does not wrap and the path is not yet
registered for the service, `add_service_action` succeeds: it returns the counter plus one,
which is not zero, and the registry records a binding of type "dbus" under (service, path),
both in the service-client index and in the primary store, where the service is the name that
the tracker has recorded for the sender, or the sender itself when there is none. -/
theorem add_service_action_succeeds (x : XServer) (c : Core)
    (shortcut path description sender : String) (X : X11Shortcut)
    (hX : ShortcutToX11 x shortcut = some X) (hS : (X11ToShortcut x X).isSome = true)
    (hnew : dBusPathKnown c
      ((qfind c.mPreferredServiceNameByServiceId sender).getD sender) path = false)
    (hw : c.mLastId + 1 < 2 ^ 64) :
    ∃ S c1, addDBusAction x c shortcut path description sender false
        = some ((S, c.mLastId + 1), c1) ∧
      c.mLastId + 1 ≠ 0 ∧
      qfind c1.mIdByDBusClient
        ((qfind c.mPreferredServiceNameByServiceId sender).getD sender, path)
        = some (c.mLastId + 1) ∧
      ∃ action, qfind c1.mShortcutAndActionById (c.mLastId + 1) = some (S, action) ∧
        action.type = "dbus" := by
  have hservice : addDBusAction x c shortcut path description sender false
      = addOrRegisterDBusAction x c shortcut
          ((qfind c.mPreferredServiceNameByServiceId sender).getD sender) path description sender
          false := by
    unfold addDBusAction
    cases qfind c.mPreferredServiceNameByServiceId sender <;> rfl
  obtain ⟨used, hused⟩ := addActionCommon_of_resolves x
    (rememberDBusPath c ((qfind c.mPreferredServiceNameByServiceId sender).getD sender) path)
    shortcut X hX hS
  have hnext : c.mLastId + 1 < 18446744073709551616 := by
    norm_num at hw
    exact hw
  have hadd : addDBusAction x c shortcut path description sender false
      = some (addDBusActionTail
          (addActionCommon x
            (rememberDBusPath c ((qfind c.mPreferredServiceNameByServiceId sender).getD sender)
              path) shortcut).2
          X used ((qfind c.mPreferredServiceNameByServiceId sender).getD sender) path description
          sender false) := by
    rw [hservice]
    simp only [addOrRegisterDBusAction, hnew, hused, Bool.false_eq_true, if_false]
  have h1 : (addDBusActionTail
          (addActionCommon x
            (rememberDBusPath c ((qfind c.mPreferredServiceNameByServiceId sender).getD sender)
              path) shortcut).2
          X used ((qfind c.mPreferredServiceNameByServiceId sender).getD sender) path description
          sender false).1 = (used, c.mLastId + 1) := by
    simp [addDBusActionTail, grabOrReuseKey_fst_false, nextId, hnext]
  refine ⟨used, (addDBusActionTail
          (addActionCommon x
            (rememberDBusPath c ((qfind c.mPreferredServiceNameByServiceId sender).getD sender)
              path) shortcut).2
          X used ((qfind c.mPreferredServiceNameByServiceId sender).getD sender) path description
          sender false).2, ?_, by omega, ?_, ?_⟩
  · rw [hadd, ← h1]
  · simp [addDBusActionTail, nextId, hnext]
  · by_cases hs : sender = ""
    · refine ⟨BaseAction.dbus ((qfind c.mPreferredServiceNameByServiceId sender).getD sender)
        path description true true, ?_, rfl⟩
      simp [addDBusActionTail, grabOrReuseKey_fst_false, nextId, hnext, hs]
    · refine ⟨BaseAction.dbus ((qfind c.mPreferredServiceNameByServiceId sender).getD sender)
        path description
        (decide ((qfind c.mPreferredServiceNameByServiceId sender).getD sender ≠ sender)) true,
        ?_, rfl⟩
      simp [addDBusActionTail, grabOrReuseKey_fst_false, nextId, hnext, hs]

/-- Witness of `add_service_action_succeeds`: on a keyboard with the key `L` the tracker has
recorded the name "com.example.foo" for the peer ":1.42";
`add_service_action("Meta+L", "/lock", "", ":1.42")` returns the id 1 and records the binding
under ("com.example.foo", "/lock"). -/
theorem add_service_action_succeeds_witness :
    ∃ S c1, addDBusAction keyboardL
        ((run keyboardL (Core.fresh .first)
          [Op.serviceAppeared "com.example.foo" ":1.42"]).getD (Core.fresh .first))
        "Meta+L" "/lock" "" ":1.42" false
        = some ((S, ((run keyboardL (Core.fresh .first)
          [Op.serviceAppeared "com.example.foo" ":1.42"]).getD (Core.fresh .first)).mLastId + 1),
            c1) ∧
      ((run keyboardL (Core.fresh .first)
          [Op.serviceAppeared "com.example.foo" ":1.42"]).getD (Core.fresh .first)).mLastId + 1
        ≠ 0 ∧
      qfind c1.mIdByDBusClient
        ((qfind ((run keyboardL (Core.fresh .first)
          [Op.serviceAppeared "com.example.foo" ":1.42"]).getD
            (Core.fresh .first)).mPreferredServiceNameByServiceId ":1.42").getD ":1.42", "/lock")
        = some (((run keyboardL (Core.fresh .first)
          [Op.serviceAppeared "com.example.foo" ":1.42"]).getD (Core.fresh .first)).mLastId + 1) ∧
      ∃ action, qfind c1.mShortcutAndActionById
          (((run keyboardL (Core.fresh .first)
            [Op.serviceAppeared "com.example.foo" ":1.42"]).getD (Core.fresh .first)).mLastId + 1)
          = some (S, action) ∧
        action.type = "dbus" :=
  add_service_action_succeeds keyboardL
    ((run keyboardL (Core.fresh .first)
      [Op.serviceAppeared "com.example.foo" ":1.42"]).getD (Core.fresh .first))
    "Meta+L" "/lock" "" ":1.42" (46, 64) (by decide) (by decide) (by decide) (by decide)

/-- When the path is registered for the service and the service-client index holds
an id for (service, path) that is in the primary store with shortcut `S`,
`addOrRegisterDBusAction` returns (`S`, id) and leaves the state as it is, whatever shortcut
and description are passed: no id is allocated, the registry and the grab set are unchanged.
So does `register_service_action` for that service, which returns the id, and
`add_service_action` for a sender whose actions are filed under that service. -/
theorem addOrRegisterDBusAction_of_stored (x : XServer) (c : Core)
    (shortcut service path description sender : String) (xerror : Bool) (id : Nat) (S : String)
    (action : BaseAction) (hk : dBusPathKnown c service path = true)
    (hcl : qfind c.mIdByDBusClient (service, path) = some id)
    (hst : qfind c.mShortcutAndActionById id = some (S, action)) :
    addOrRegisterDBusAction x c shortcut service path description sender xerror
      = some ((S, id), c) ∧
    registerDBusAction x c shortcut service path description xerror = some (id, c) ∧
    ((qfind c.mPreferredServiceNameByServiceId sender).getD sender = service →
      addDBusAction x c shortcut path description sender xerror = some ((S, id), c)) := by
  have h1 : ∀ sender1, addOrRegisterDBusAction x c shortcut service path description sender1
      xerror = some ((S, id), c) := by
    intro sender1
    simp only [addOrRegisterDBusAction, hk, hcl, hst, if_true]
  refine ⟨h1 sender, ?_, ?_⟩
  · simp only [registerDBusAction, h1 ""]
  · intro hs
    have hservice : addDBusAction x c shortcut path description sender xerror
        = addOrRegisterDBusAction x c shortcut
            ((qfind c.mPreferredServiceNameByServiceId sender).getD sender) path description
            sender xerror := by
      unfold addDBusAction
      cases qfind c.mPreferredServiceNameByServiceId sender <;> rfl
    rw [hservice, hs]
    exact h1 sender

/-- Claim C30 (failing input). The peer ":1.42" adds a service action for "Control+T" under
the path "/p" (id 1), a command is registered for "Control+T" (id 2), the two are swapped and
id 1, now the command, is removed: "/p" is still registered for ":1.42", the service-client
index still maps (":1.42", "/p") to 1, and the action of the peer is stored under id 2 with the
shortcut "Control+T". `add_service_action` by the peer for "/p" allocates no id, but it returns
("", 1), not the stored shortcut of the binding, and the primary store gains the entry
(1, ("", null)): the list of all ids grows from [2] to [1, 2]. `register_service_action` for
(":1.42", "/p") does the same. -/
theorem duplicate_service_action_adds_entry :
    (run keyboardTF1 (Core.fresh .first)
        [Op.addDBusAction "Control+T" "/p" "d" ":1.42" false,
         Op.addCommandAction "Control+T" "/usr/bin/xterm" [] "terminal" false,
         Op.swapActions 1 2,
         Op.removeAction 1]).map
      (fun c => (dBusPathKnown c ":1.42" "/p", qfind c.mIdByDBusClient (":1.42", "/p"),
        c.mShortcutAndActionById))
      = some (true, some 1,
          [(2, ("Control+T", BaseAction.dbus ":1.42" "/p" "d" false true))]) ∧
    (run keyboardTF1 (Core.fresh .first)
        [Op.addDBusAction "Control+T" "/p" "d" ":1.42" false,
         Op.addCommandAction "Control+T" "/usr/bin/xterm" [] "terminal" false,
         Op.swapActions 1 2,
         Op.removeAction 1]).map
      (fun c => (c.mNullActionById, getAllActionIds c, c.mLastId)) = some ([], [2], 2) ∧
    ((run keyboardTF1 (Core.fresh .first)
        [Op.addDBusAction "Control+T" "/p" "d" ":1.42" false,
         Op.addCommandAction "Control+T" "/usr/bin/xterm" [] "terminal" false,
         Op.swapActions 1 2,
         Op.removeAction 1]).bind
      (fun c => (addDBusAction keyboardTF1 c "F1" "/p" "other" ":1.42" false).map
        (fun r => (r.1, r.2.mNullActionById, getAllActionIds r.2, r.2.mLastId))))
      = some (("", 1), [(1, "")], [1, 2], 2) ∧
    ((run keyboardTF1 (Core.fresh .first)
        [Op.addDBusAction "Control+T" "/p" "d" ":1.42" false,
         Op.addCommandAction "Control+T" "/usr/bin/xterm" [] "terminal" false,
         Op.swapActions 1 2,
         Op.removeAction 1]).bind
      (fun c => (registerDBusAction keyboardTF1 c "F1" ":1.42" "/p" "other" false).map
        (fun r => (r.1, r.2.mNullActionById, getAllActionIds r.2, r.2.mLastId))))
      = some (1, [(1, "")], [1, 2], 2) :=
  ⟨by decide, by decide, by decide, by decide⟩
/-! ## The lock-bit combinations -/

set_option maxRecDepth 100000 in
theorem allModifiers_eq : allModifiers = [0x00, 0x02, 0x10, 0x12] := by
  decide

theorem workerXGrabKey_eq (X : X11Shortcut) :
    workerXGrabKey X
      = [(X.1, X.2), (X.1, X.2 ||| 0x02), (X.1, X.2 ||| 0x10), (X.1, X.2 ||| 0x12)] := by
  simp [workerXGrabKey, allModifiers_eq]

theorem workerXUngrabKey_eq (X : X11Shortcut) :
    workerXUngrabKey X
      = [(X.1, X.2), (X.1, X.2 ||| 0x02), (X.1, X.2 ||| 0x10), (X.1, X.2 ||| 0x12)] := by
  simp [workerXUngrabKey, allModifiers_eq]

/-! ## The name of a letter key -/

/-- A counterexample to claim C32 as stated: keycode 28 of the keyboard `keyboardTF1` carries
the pair (`t`, `T`); the name that `KEYCODE_TO_STRING` returns for it is "T", the name of the
uppercase variant, and the canonical shortcut for (28, Control) is "Control+T". -/
theorem letter_key_counterexample :
    keyboardTF1.XGetKeyboardMapping 28 = [0x74, XK_T] ∧
    keyboardTF1.XKeysymToString 0x74 = some "t" ∧
    remoteKeycodeToString keyboardTF1 28 = "T" ∧
    remoteKeycodeToString keyboardTF1 28 ≠ "t" ∧
    X11ToShortcut keyboardTF1 (28, ControlMask) = some "Control+T" :=
  ⟨by decide, by decide, by decide, by decide, by decide⟩

theorem grabbedKeySym_letter (x : XServer) (keycode lower upper : Nat) (rest : List Nat)
    (hmap : x.XGetKeyboardMapping (keycode % 256) = lower :: upper :: rest)
    (hl : XK_a ≤ lower ∧ lower ≤ XK_z) (hu : upper ≠ 0) :
    grabbedKeySym x keycode = upper := by
  have h0 : lower ≠ 0 := by
    have := hl.1
    unfold XK_a at this
    omega
  simp [grabbedKeySym, hmap, h0, hu, hl.1, hl.2]

/-- Claim C32 (amended). For a physical key whose keysym pair is (lowercase letter in a..z,
its uppercase letter), the key segment of the canonical shortcut string is the name of the
uppercase variant: `KEYCODE_TO_STRING` returns the name of the second keysym of the key, and
`X11ToShortcut` appends that name to the modifier names. -/
theorem letter_key_name (x : XServer) (keycode mask lower upper : Nat) (rest : List Nat)
    (name : String)
    (hmap : x.XGetKeyboardMapping (keycode % 256) = lower :: upper :: rest)
    (hl : XK_a ≤ lower ∧ lower ≤ XK_z) (hu : upper + 0x20 = lower)
    (hname : x.XKeysymToString upper = some name) (hne : name ≠ "")
    (herr : x.keycodeToStringError (keycode % 256) = false) :
    remoteKeycodeToString x keycode = name ∧
    X11ToShortcut x (keycode, mask) = some (modifierText mask ++ name) := by
  have hu0 : upper ≠ 0 := by
    have := hl.1
    unfold XK_a at this
    omega
  have hsym := grabbedKeySym_letter x keycode lower upper rest hmap hl hu0
  have hkey : remoteKeycodeToString x keycode = name := by
    unfold remoteKeycodeToString
    simp only [herr, workerKeycodeToString_grabbedKeySym, hsym, if_pos hu0, hname]
    rfl
  refine ⟨hkey, ?_⟩
  rw [X11ToShortcut_eq, hkey, if_neg hne]

/-- Witness of `letter_key_name`: keycode 28 of `keyboardTF1` carries (`t`, `T`); its name is
"T" and the shortcut for (28, Control) is "Control+T". -/
theorem letter_key_name_witness :
    remoteKeycodeToString keyboardTF1 28 = "T" ∧
    X11ToShortcut keyboardTF1 (28, ControlMask) = some (modifierText ControlMask ++ "T") :=
  letter_key_name keyboardTF1 28 ControlMask 0x74 XK_T [] "T" (by decide) (by decide)
    (by decide) (by decide) (by decide) (by decide)

/-! ## Lock bits in the state of a key press -/

/-- Claim C33 (failing input). On `keyboardTF1` the command action 1 is bound to "Control+T",
that is to (28, 0x04), and the grab fans out to the state 0x14 (Control with NumLock). The
states 0x04 and 0x14 agree on the six significant bits. A key press (28, 0x04) calls action 1;
a key press (28, 0x14) calls nothing: the lookup is made with the state as it arrives, finds
no entry, and leaves the entry ((28, 0x14), "") behind. -/
theorem lock_bits_defeat_dispatch :
    0x14 &&& allShifts = 0x04 &&& allShifts ∧
    ((28, 0x14) : X11Shortcut) ∈ workerXGrabKey (28, 0x04) ∧
    (run keyboardTF1 (Core.fresh .first)
        [Op.addCommandAction "Control+T" "xterm" [] "" false]).map
        (fun c => (qfind c.mShortcutByX11 (28, 0x04), c.effects))
      = some (some "Control+T", [Effect.xGrabKey (28, 4), Effect.saveConfig]) ∧
    (run keyboardTF1 (Core.fresh .first)
        [Op.addCommandAction "Control+T" "xterm" [] "" false,
         Op.keyPress 28 0x04 (fun _ => true)]).map (fun c => c.effects)
      = some [Effect.xGrabKey (28, 4), Effect.saveConfig, Effect.call 1 true] ∧
    (run keyboardTF1 (Core.fresh .first)
        [Op.addCommandAction "Control+T" "xterm" [] "" false,
         Op.keyPress 28 0x14 (fun _ => true)]).map
        (fun c => (c.effects, qfind c.mShortcutByX11 (28, 0x14)))
      = some ([Effect.xGrabKey (28, 4), Effect.saveConfig], some "") :=
  ⟨by decide, by rw [workerXGrabKey_eq]; decide, by decide, by decide, by decide⟩
/-! ## The allow flags -/

set_option maxRecDepth 100000 in
theorem classes_disjoint :
    (∀ k ∈ baseSpecialKeysyms, k ∉ lockKeysyms) ∧
    (∀ k ∈ miscSpecialKeysyms, k ∉ lockKeysyms ∧ k ∉ baseSpecialKeysyms) ∧
    (∀ k ∈ baseKeypadKeysyms,
      k ∉ lockKeysyms ∧ k ∉ baseSpecialKeysyms ∧ k ∉ miscSpecialKeysyms) ∧
    (∀ k ∈ miscKeypadKeysyms,
      k ∉ lockKeysyms ∧ k ∉ baseSpecialKeysyms ∧ k ∉ miscSpecialKeysyms ∧
      k ∉ baseKeypadKeysyms) ∧
    (∀ k ∈ printableKeysyms,
      k ∉ lockKeysyms ∧ k ∉ baseSpecialKeysyms ∧ k ∉ miscSpecialKeysyms ∧
      k ∉ baseKeypadKeysyms ∧ k ∉ miscKeypadKeysyms) := by
  decide

set_option maxRecDepth 100000 in
theorem printable_test_iff :
    ∀ m < 256, (m &&& (0xffffffff ^^^ (ShiftMask ||| Level3Mask ||| Level5Mask)) = 0 ↔
      m &&& (ShiftMask ||| Level3Mask ||| Level5Mask) = m) := by
  decide

theorem masked_lt (modifiers : Nat) (hm : modifiers &&& allShifts = modifiers) :
    modifiers < 256 := by
  rw [← hm]
  exact lt_of_le_of_lt Nat.and_le_right (by decide)

/-- Claim C34. For modifiers masked to the six significant bits, `isAllowed` returns false
exactly when the keysym belongs to one of the five classes Locks, Base special, Misc special,
Base keypad, Misc keypad, the modifiers are 0 and the allow flag of the class is false, or the
keysym belongs to the Printable class, the modifiers have no bit other than Shift, Level3 and
Level5, and `mAllowGrabPrintable` is false; in every other case it returns true. -/
theorem isAllowed_false_iff (g : GrabSession) (keySym modifiers : Nat)
    (hm : modifiers &&& allShifts = modifiers) :
    (isAllowed g keySym modifiers = false ↔ refusedByClass g keySym modifiers) ∧
    (¬ refusedByClass g keySym modifiers → isAllowed g keySym modifiers = true) := by
  have hp := printable_test_iff modifiers (masked_lt modifiers hm)
  obtain ⟨d1, d2, d3, d4, d5⟩ := classes_disjoint
  have key : isAllowed g keySym modifiers = false ↔ refusedByClass g keySym modifiers := by
    unfold isAllowed refusedByClass
    by_cases h1 : keySym ∈ lockKeysyms
    · have n2 : keySym ∉ baseSpecialKeysyms := fun h => d1 _ h h1
      have n3 : keySym ∉ miscSpecialKeysyms := fun h => (d2 _ h).1 h1
      have n4 : keySym ∉ baseKeypadKeysyms := fun h => (d3 _ h).1 h1
      have n5 : keySym ∉ miscKeypadKeysyms := fun h => (d4 _ h).1 h1
      have n6 : keySym ∉ printableKeysyms := fun h => (d5 _ h).1 h1
      by_cases h0 : modifiers = 0 <;> cases hb : g.mAllowGrabLocks <;>
        simp [h1, n2, n3, n4, n5, n6, h0, hb]
    by_cases h2 : keySym ∈ baseSpecialKeysyms
    · have n3 : keySym ∉ miscSpecialKeysyms := fun h => (d2 _ h).2 h2
      have n4 : keySym ∉ baseKeypadKeysyms := fun h => (d3 _ h).2.1 h2
      have n5 : keySym ∉ miscKeypadKeysyms := fun h => (d4 _ h).2.1 h2
      have n6 : keySym ∉ printableKeysyms := fun h => (d5 _ h).2.1 h2
      by_cases h0 : modifiers = 0 <;> cases hb : g.mAllowGrabBaseSpecial <;>
        simp [h1, h2, n3, n4, n5, n6, h0, hb]
    by_cases h3 : keySym ∈ miscSpecialKeysyms
    · have n4 : keySym ∉ baseKeypadKeysyms := fun h => (d3 _ h).2.2 h3
      have n5 : keySym ∉ miscKeypadKeysyms := fun h => (d4 _ h).2.2.1 h3
      have n6 : keySym ∉ printableKeysyms := fun h => (d5 _ h).2.2.1 h3
      by_cases h0 : modifiers = 0 <;> cases hb : g.mAllowGrabMiscSpecial <;>
        simp [h1, h2, h3, n4, n5, n6, h0, hb]
    by_cases h4 : keySym ∈ baseKeypadKeysyms
    · have n5 : keySym ∉ miscKeypadKeysyms := fun h => (d4 _ h).2.2.2 h4
      have n6 : keySym ∉ printableKeysyms := fun h => (d5 _ h).2.2.2.1 h4
      by_cases h0 : modifiers = 0 <;> cases hb : g.mAllowGrabBaseKeypad <;>
        simp [h1, h2, h3, h4, n5, n6, h0, hb]
    by_cases h5 : keySym ∈ miscKeypadKeysyms
    · have n6 : keySym ∉ printableKeysyms := fun h => (d5 _ h).2.2.2.2 h5
      by_cases h0 : modifiers = 0 <;> cases hb : g.mAllowGrabMiscKeypad <;>
        simp [h1, h2, h3, h4, h5, n6, h0, hb]
    by_cases h6 : keySym ∈ printableKeysyms
    · by_cases h0 : modifiers &&& (0xffffffff ^^^ (ShiftMask ||| Level3Mask ||| Level5Mask)) = 0
      · have h0b := hp.mp h0
        cases hb : g.mAllowGrabPrintable <;> simp [h1, h2, h3, h4, h5, h6, h0, h0b, hb]
      · have h0b : ¬ modifiers &&& (ShiftMask ||| Level3Mask ||| Level5Mask) = modifiers :=
          fun h => h0 (hp.mpr h)
        simp [h1, h2, h3, h4, h5, h6, h0, h0b]
    · simp [h1, h2, h3, h4, h5, h6]
  refine ⟨key, fun h => ?_⟩
  cases hv : isAllowed g keySym modifiers
  · exact absurd (key.mp hv) h
  · rfl

/-- Witness of `isAllowed_false_iff`: with the default flags the key `T` is refused with Shift
alone and allowed with Control. -/
theorem isAllowed_false_iff_witness :
    ShiftMask &&& allShifts = ShiftMask ∧
    (isAllowed GrabSession.fresh XK_T ShiftMask = false ↔
      refusedByClass GrabSession.fresh XK_T ShiftMask) ∧
    (¬ refusedByClass GrabSession.fresh XK_T ShiftMask →
      isAllowed GrabSession.fresh XK_T ShiftMask = true) ∧
    isAllowed GrabSession.fresh XK_T ShiftMask = false ∧
    isAllowed GrabSession.fresh XK_T ControlMask = true :=
  ⟨by decide, (isAllowed_false_iff GrabSession.fresh XK_T ShiftMask (by decide)).1,
    (isAllowed_false_iff GrabSession.fresh XK_T ShiftMask (by decide)).2, by decide, by decide⟩

/-! ## Ignored key presses -/

set_option maxRecDepth 100000 in
theorem class_members :
    ∀ k ∈ modifierKeysyms ++ (lockKeysyms ++ (baseSpecialKeysyms ++ (miscSpecialKeysyms ++
      (baseKeypadKeysyms ++ (miscKeypadKeysyms ++ printableKeysyms))))),
      k ≠ 0 ∧ k ≠ XK_Escape := by
  decide

theorem isAllowed_false_mem (g : GrabSession) (keySym modifiers : Nat)
    (h : isAllowed g keySym modifiers = false) :
    keySym ∈ modifierKeysyms ++ (lockKeysyms ++ (baseSpecialKeysyms ++ (miscSpecialKeysyms ++
      (baseKeypadKeysyms ++ (miscKeypadKeysyms ++ printableKeysyms))))) := by
  unfold isAllowed at h
  simp only [List.mem_append]
  by_cases h1 : keySym ∈ lockKeysyms
  · exact Or.inr (Or.inl h1)
  by_cases h2 : keySym ∈ baseSpecialKeysyms
  · exact Or.inr (Or.inr (Or.inl h2))
  by_cases h3 : keySym ∈ miscSpecialKeysyms
  · exact Or.inr (Or.inr (Or.inr (Or.inl h3)))
  by_cases h4 : keySym ∈ baseKeypadKeysyms
  · exact Or.inr (Or.inr (Or.inr (Or.inr (Or.inl h4))))
  by_cases h5 : keySym ∈ miscKeypadKeysyms
  · exact Or.inr (Or.inr (Or.inr (Or.inr (Or.inr (Or.inl h5)))))
  by_cases h6 : keySym ∈ printableKeysyms
  · exact Or.inr (Or.inr (Or.inr (Or.inr (Or.inr (Or.inr h6)))))
  · simp [h1, h2, h3, h4, h5, h6] at h

/-- Claim C35. In grabbing mode, a key press whose selected keysym is a modifier keysym or is
not allowed by `isAllowed` is ignored: the worker and the registry stay as they are, so
`mGrabbingShortcut` remains true, nothing is written to the response pipe, the keyboard grab
is not released and `onShortcutGrabbed` is not emitted. -/
theorem ignored_key_press (x : XServer) (c : Core) (g : GrabSession) (keycode state : Nat)
    (call : Nat → Bool) (hg : g.mGrabbingShortcut = true)
    (h : isModifier (grabbedKeySym x keycode) = true ∨
      isAllowed g (grabbedKeySym x keycode) (state &&& allShifts) = false) :
    (examineKeyPress x g keycode state).1 = true ∧
    keyPress x c g keycode state call = some (c, g) ∧
    (keyPressGrabbing x g keycode state).mGrabbingShortcut = true ∧
    (keyPressGrabbing x g keycode state).x11Response = g.x11Response ∧
    (keyPressGrabbing x g keycode state).keyboardGrabbed = g.keyboardGrabbed ∧
    (keyPressGrabbing x g keycode state).grabEffects = g.grabEffects := by
  have hmem : grabbedKeySym x keycode ∈ modifierKeysyms ++ (lockKeysyms ++
      (baseSpecialKeysyms ++ (miscSpecialKeysyms ++ (baseKeypadKeysyms ++
        (miscKeypadKeysyms ++ printableKeysyms))))) := by
    cases h with
    | inl hmod =>
      have : grabbedKeySym x keycode ∈ modifierKeysyms := by
        simpa [isModifier] using hmod
      exact List.mem_append_left _ this
    | inr hal => exact isAllowed_false_mem g _ _ hal
  obtain ⟨h0, hesc⟩ := class_members _ hmem
  have hne : isEscape (grabbedKeySym x keycode) (state &&& allShifts) = false := by
    simp [isEscape, hesc]
  have hor : (isModifier (grabbedKeySym x keycode) ||
      !isAllowed g (grabbedKeySym x keycode) (state &&& allShifts)) = true := by
    cases h with
    | inl hmod => simp [hmod]
    | inr hal => simp [hal]
  have hex : examineKeyPress x g keycode state = (true, false, "") := by
    unfold examineKeyPress
    simp only [h0, hne, hor, ne_eq, not_false_eq_true, if_true, Bool.false_eq_true, if_false]
  have hk : keyPressGrabbing x g keycode state = g := by
    unfold keyPressGrabbing
    simp only [hex, if_true]
  refine ⟨by rw [hex], ?_, by rw [hk, hg], by rw [hk], by rw [hk], by rw [hk]⟩
  unfold keyPress
  rw [if_pos hg, hk]

/-- Witness of `ignored_key_press`: during a grab on `keyboardEscape` the press of `Control_L`
(keycode 37) is ignored, and so is the press of `space` (keycode 65) without modifiers, which
the default flags do not allow. -/
theorem ignored_key_press_witness :
    (grabShortcut GrabSession.fresh 5000 7 0 false).2.mGrabbingShortcut = true ∧
    isModifier (grabbedKeySym keyboardEscape 37) = true ∧
    keyPress keyboardEscape (Core.fresh .first) (grabShortcut GrabSession.fresh 5000 7 0 false).2
        37 0 (fun _ => true)
      = some (Core.fresh .first, (grabShortcut GrabSession.fresh 5000 7 0 false).2) ∧
    isAllowed (grabShortcut GrabSession.fresh 5000 7 0 false).2 (grabbedKeySym keyboardEscape 65)
        (0x10 &&& allShifts) = false ∧
    keyPress keyboardEscape (Core.fresh .first) (grabShortcut GrabSession.fresh 5000 7 0 false).2
        65 0x10 (fun _ => true)
      = some (Core.fresh .first, (grabShortcut GrabSession.fresh 5000 7 0 false).2) :=
  ⟨by decide, by decide,
    (ignored_key_press keyboardEscape (Core.fresh .first)
      (grabShortcut GrabSession.fresh 5000 7 0 false).2 37 0 (fun _ => true) (by decide)
      (Or.inl (by decide))).2.1,
    by decide,
    (ignored_key_press keyboardEscape (Core.fresh .first)
      (grabShortcut GrabSession.fresh 5000 7 0 false).2 65 0x10 (fun _ => true) (by decide)
      (Or.inr (by decide))).2.1⟩

/-! ## The fan-out of a grab -/

set_option maxRecDepth 100000 in
theorem lock_bits_range :
    ∀ j < 0x100, j &&& (0xff ^^^ allShifts) ∈ [0x00, 0x02, 0x10, 0x12] := by
  decide

/-- Claim C36. The set that the worker computes at its start, the values `i & (0xff ^ allShifts)`
for `i` below 256 with `allShifts` = 0xED, is {0x00, 0x02, 0x10, 0x12}: it has 4 elements,
contains 0, its elements are the combinations of `LockMask` and `Mod2Mask`, and each of them is
disjoint from the six significant bits; a grab or an ungrab of (keycode, mask) is made for the
four modifier values mask, mask|0x02, mask|0x10 and mask|0x12 and for no other. -/
theorem lock_bit_combinations :
    allShifts = 0xED ∧
    allModifiers = [0x00, 0x02, 0x10, 0x12] ∧
    allModifiers.length = 4 ∧
    0 ∈ allModifiers ∧
    (∀ m, m ∈ allModifiers ↔ ∃ i, i < 0x100 ∧ m = i &&& (0xff ^^^ allShifts)) ∧
    (∀ m, m ∈ allModifiers ↔ m = 0 ∨ m = 0x02 ∨ m = 0x10 ∨ m = 0x02 ||| 0x10) ∧
    (∀ m ∈ allModifiers, m &&& allShifts = 0) ∧
    (∀ keycode mask : Nat,
      workerXGrabKey (keycode, mask)
        = [(keycode, mask), (keycode, mask ||| 0x02), (keycode, mask ||| 0x10),
           (keycode, mask ||| 0x12)] ∧
      workerXUngrabKey (keycode, mask)
        = [(keycode, mask), (keycode, mask ||| 0x02), (keycode, mask ||| 0x10),
           (keycode, mask ||| 0x12)]) := by
  refine ⟨by decide, allModifiers_eq, by rw [allModifiers_eq]; rfl,
    by rw [allModifiers_eq]; decide, ?_, ?_, ?_, ?_⟩
  · intro m
    rw [allModifiers_eq]
    constructor
    · intro h
      have h1 : m = 0 ∨ m = 2 ∨ m = 16 ∨ m = 18 := by simpa using h
      rcases h1 with h1 | h1 | h1 | h1
      · exact ⟨0, by decide, by rw [h1]; decide⟩
      · exact ⟨2, by decide, by rw [h1]; decide⟩
      · exact ⟨16, by decide, by rw [h1]; decide⟩
      · exact ⟨18, by decide, by rw [h1]; decide⟩
    · rintro ⟨i, hi, rfl⟩
      exact lock_bits_range i hi
  · intro m
    rw [allModifiers_eq]
    simp
  · rw [allModifiers_eq]
    decide
  · intro keycode mask
    exact ⟨workerXGrabKey_eq (keycode, mask), workerXUngrabKey_eq (keycode, mask)⟩
/-! ## Swapping a service action with another action -/

/-- Claim C37 (failing input). On `keyboardTF1` the peer ":1.42" adds a service action for
"Control+T" under the path "/p" (id 1), a command action is registered for "Control+T" (id 2)
and `swap(1, 2)` is called. In the state `c` reached, the entry ((":1.42", "/p"), 1) of the
service-client index refers to an id whose action is a command, so the invariant
`ClientsAreServices` fails. Then `modify_service("/p", "new")` by the peer rewrites the
description of the command, `change_service_shortcut("/p", "F1")` by the peer leaves defined
behaviour (the cast to a service action gives null), and `remove(1)` removes the command while
the entry of the client index stays, referring to no stored id. -/
theorem swap_breaks_client_index :
    ∃ c, run keyboardTF1 (Core.fresh .first)
        [Op.addDBusAction "Control+T" "/p" "d" ":1.42" false,
         Op.addCommandAction "Control+T" "xterm" [] "" false,
         Op.swapActions 1 2] = some c ∧
      qfind c.mIdByDBusClient (":1.42", "/p") = some 1 ∧
      qfind c.mShortcutAndActionById 1
        = some ("Control+T", BaseAction.command "xterm" [] "" true) ∧
      ¬ ClientsAreServices c ∧
      (modifyDBusAction c "/p" "new" ":1.42").map
          (fun r => qfind r.2.mShortcutAndActionById 1)
        = some (some ("Control+T", BaseAction.command "xterm" [] "new" true)) ∧
      changeDBusShortcut keyboardTF1 c "/p" "F1" ":1.42" false = none ∧
      (removeAction c 1).1 = true ∧
      qfind (removeAction c 1).2.mIdByDBusClient (":1.42", "/p") = some 1 ∧
      qfind (removeAction c 1).2.mShortcutAndActionById 1 = none := by
  refine ⟨(run keyboardTF1 (Core.fresh .first)
      [Op.addDBusAction "Control+T" "/p" "d" ":1.42" false,
       Op.addCommandAction "Control+T" "xterm" [] "" false,
       Op.swapActions 1 2]).getD (Core.fresh .first),
    by decide, by decide, by decide, ?_, by decide, by decide, by decide, by decide, by decide⟩
  intro hinv
  obtain ⟨S, action, hst, hty⟩ := hinv (":1.42", "/p") 1 (by decide)
  have h1 : qfind ((run keyboardTF1 (Core.fresh .first)
        [Op.addDBusAction "Control+T" "/p" "d" ":1.42" false,
         Op.addCommandAction "Control+T" "xterm" [] "" false,
         Op.swapActions 1 2]).getD (Core.fresh .first)).mShortcutAndActionById 1
      = some ("Control+T", BaseAction.command "xterm" [] "" true) := by
    decide
  rw [h1] at hst
  have h2 := Option.some.inj hst
  rw [← (Prod.mk.inj h2).2] at hty
  exact absurd hty (by decide)

/-! ## Modifying the parameters of a disabled action -/

/-- Claim C38 (failing input). The configuration file holds the group "Control+T.1" with
`Enabled=false` and `Exec=xterm`; the daemon loads it on `keyboardTF1`: in the state `c`
reached, the command action 1 is stored with its enabled flag false.
`modify_command(1, "xterm", ["-e"], "term")` succeeds and leaves the action with the enabled
flag true, while the shortcut of the id, the dispatch index and the grab set are as before.
`modify_description` on the same state keeps the flag. -/
theorem modify_resets_enabled :
    ∃ c g,
      loadConfig keyboardTF1 .first false
          (Settings.setValue
            (Settings.setValue [] "Control+T.1" "Enabled" (Variant.bool false))
            "Control+T.1" "Exec" (Variant.stringList ["xterm"]))
          (fun _ => false) = some (c, g) ∧
      qfind c.mShortcutAndActionById 1
        = some ("Control+T", BaseAction.command "xterm" [] "" false) ∧
      (modifyCommandAction c 1 "xterm" ["-e"] "term").1 = true ∧
      qfind (modifyCommandAction c 1 "xterm" ["-e"] "term").2.mShortcutAndActionById 1
        = some ("Control+T", BaseAction.command "xterm" ["-e"] "term" true) ∧
      (modifyCommandAction c 1 "xterm" ["-e"] "term").2.mIdsByShortcut = c.mIdsByShortcut ∧
      (modifyCommandAction c 1 "xterm" ["-e"] "term").2.xGrabs = c.xGrabs ∧
      qfind (modifyActionDescription c 1 "term").2.mShortcutAndActionById 1
        = some ("Control+T", BaseAction.command "xterm" [] "term" false) :=
  ⟨((loadConfig keyboardTF1 .first false
        (Settings.setValue
          (Settings.setValue [] "Control+T.1" "Enabled" (Variant.bool false))
          "Control+T.1" "Exec" (Variant.stringList ["xterm"]))
        (fun _ => false)).getD (Core.fresh .first, GrabSession.fresh)).1,
    ((loadConfig keyboardTF1 .first false
        (Settings.setValue
          (Settings.setValue [] "Control+T.1" "Enabled" (Variant.bool false))
          "Control+T.1" "Exec" (Variant.stringList ["xterm"]))
        (fun _ => false)).getD (Core.fresh .first, GrabSession.fresh)).2,
    by decide, by decide, by decide, by decide, by decide, by decide, by decide⟩

/-! ## A rejected grab in `change_shortcut` -/

/-- Claim C39 (failing input). On `keyboardTF1` the command action 1 is bound to "Control+T";
`c` is the state reached. `change_shortcut(1, "F1")`, for which the X server rejects the grab
of `F1`, returns the empty string; the action is then stored under the shortcut "", the
dispatch index holds the id under "" and no longer under "Control+T", `UNGRAB_KEY` has been
issued for (28, 0x04), the binding of "Control+T", and no key is grabbed any more. -/
theorem rejected_grab_moves_shortcut :
    ∃ c, run keyboardTF1 (Core.fresh .first)
        [Op.addCommandAction "Control+T" "xterm" [] "" false] = some c ∧
      qfind c.mShortcutAndActionById 1
        = some ("Control+T", BaseAction.command "xterm" [] "" true) ∧
      c.mIdsByShortcut = [("Control+T", [1])] ∧
      c.xGrabs = [(28, 4)] ∧
      (changeShortcut keyboardTF1 c 1 "F1" true).1 = "" ∧
      qfind (changeShortcut keyboardTF1 c 1 "F1" true).2.mShortcutAndActionById 1
        = some ("", BaseAction.command "xterm" [] "" true) ∧
      (changeShortcut keyboardTF1 c 1 "F1" true).2.mIdsByShortcut = [("", [1])] ∧
      (changeShortcut keyboardTF1 c 1 "F1" true).2.xGrabs = [] ∧
      (changeShortcut keyboardTF1 c 1 "F1" true).2.effects
        = c.effects ++ [Effect.xGrabKey (67, 0), Effect.xUngrabKey (67, 0),
            Effect.xUngrabKey (28, 4), Effect.saveConfig] :=
  ⟨(run keyboardTF1 (Core.fresh .first)
      [Op.addCommandAction "Control+T" "xterm" [] "" false]).getD (Core.fresh .first),
    by decide, by decide, by decide, by decide, by decide, by decide, by decide, by decide,
    by decide⟩
/-! ## A grab that fails with an X11 error -/

/-- Claim C40 (failing input). On a daemon at rest, `grab(5000)` for which an X11 error is
harvested after `GRAB_KEYBOARD` returns failed = true; the worker is then in grabbing mode
although no reply is pending, so `GrabConsistent` fails. A second `grab(5000)` is rejected as
"already grabbing" (failed = true, nothing changes). A press of Control+T (keycode 28 of
`keyboardEscape`) makes the worker leave grabbing mode and write the record "Control+T" to the
response pipe; the slot `shortcutGrabbed` returns without reading it and sends no reply. -/
theorem failed_grab_stays_grabbing :
    (grabShortcut GrabSession.fresh 5000 7 0 true).1 = (true, false, false) ∧
    (grabShortcut GrabSession.fresh 5000 7 0 true).2.mGrabbingShortcut = true ∧
    (grabShortcut GrabSession.fresh 5000 7 0 true).2.mShortcutGrabRequested = false ∧
    ¬ GrabConsistent (grabShortcut GrabSession.fresh 5000 7 0 true).2 ∧
    grabRun keyboardEscape GrabSession.fresh [GrabOp.grab 5000 7 0 true]
      = some (grabShortcut GrabSession.fresh 5000 7 0 true).2 ∧
    grabShortcut (grabShortcut GrabSession.fresh 5000 7 0 true).2 5000 8 0 false
      = ((true, false, false), (grabShortcut GrabSession.fresh 5000 7 0 true).2) ∧
    (grabRun keyboardEscape GrabSession.fresh
        [GrabOp.grab 5000 7 0 true, GrabOp.keyPress 28 4]).map
        (fun g => (g.mGrabbingShortcut, g.x11Response, g.grabEffects))
      = some (false, [GrabRecord.shortcut "Control+T"],
          [GrabEffect.xGrabKeyboard, GrabEffect.onShortcutGrabbed]) ∧
    (grabRun keyboardEscape GrabSession.fresh
        [GrabOp.grab 5000 7 0 true, GrabOp.keyPress 28 4, GrabOp.shortcutGrabbed]).map
        (fun g => (g.x11Response, g.grabEffects))
      = some ([GrabRecord.shortcut "Control+T"],
          [GrabEffect.xGrabKeyboard, GrabEffect.onShortcutGrabbed]) :=
  ⟨by decide, by decide, by decide,
    fun h => absurd (h (by decide)) (by decide),
    by decide, by decide, by decide, by decide⟩

/-! ## Saving and loading the configuration -/

/-- Claim C31 (failing input). A daemon without a configuration file on `keyboardTF1` serves
`register_command("Control+T", "xterm", ["-e"], "term")` and `remove(1)`, saving after each;
`c` and `settings` are the state and the file reached. The registry is empty, but the file
still holds the group "Control+T.1" that the first save has written, because `saveConfig`
removes nothing from the file. A fresh daemon that loads the file has the command binding for
"Control+T" again, with its key grabbed. -/
theorem removed_binding_reappears :
    ∃ c settings,
      runSaving keyboardTF1 GrabSession.fresh (Core.fresh .first, [])
        [Op.addCommandAction "Control+T" "xterm" ["-e"] "term" false, Op.removeAction 1]
        = some (c, settings) ∧
      c.mShortcutAndActionById = [] ∧
      persistedBindings c = [] ∧
      saveConfigFile c GrabSession.fresh settings = settings ∧
      Settings.value settings "Control+T.1" "Exec"
        = some (Variant.stringList ["xterm", "-e"]) ∧
      (loadConfig keyboardTF1 .first false settings (fun _ => false)).map
          (fun r => (persistedBindings r.1, r.1.mIdsByShortcut, r.1.xGrabs))
        = some ([("Control+T", BaseAction.command "xterm" ["-e"] "term" true)],
            [("Control+T", [1])], [(28, 4)]) :=
  ⟨((runSaving keyboardTF1 GrabSession.fresh (Core.fresh .first, [])
      [Op.addCommandAction "Control+T" "xterm" ["-e"] "term" false, Op.removeAction 1]).getD
      (Core.fresh .first, [])).1,
    ((runSaving keyboardTF1 GrabSession.fresh (Core.fresh .first, [])
      [Op.addCommandAction "Control+T" "xterm" ["-e"] "term" false, Op.removeAction 1]).getD
      (Core.fresh .first, [])).2,
    by decide, by decide, by decide, by decide, by decide, by decide⟩

end GlobalKeys
